import Mathlib

/-!
ModemManager kernel devices: the sysfs backend and the udev backend

A shallow embedding of `src/kerneldevice/mm-kernel-device-generic.c`: the rule engine
(`string_match`, `check_condition`, `check_rule`, `preload_rule_properties`), the loading
of a record from the sysfs tree (`preload_contents` and the walks it starts),
construction (`check_preload`, `initable_init`), the accessors and the comparison,
together with the GLib / libc helpers they call; and of the accessors, the comparison,
the construction, the bus classifier and the PCI walk of
`src/kerneldevice/mm-kernel-device-udev.c`, in the namespace `Udev`. Theorems about
them follow the definitions.

Conventions.
* A C string (`gchar *`, NUL terminated) is the list of its characters before the NUL;
  a pointer that may be `NULL` is an `Option`.
* `gboolean` values that the code only produces as 0 or 1 are `Bool`.
* Code that can fail (an index outside a buffer, a `NULL` handed to libc, a failed
  `g_assert`) returns `Except Fault _`.
* `guint8` and `guint16` fields are `Fin 256` and `Fin 65536`.
* A loop that the code does not bound runs for at most `fuel` iterations and gives
  `none` when it is still running after them.
-/

set_option autoImplicit false

namespace MMKernelDevice

/-- A C string: the characters before the terminating NUL. -/
abbrev CStr := List Char

/-- The ways in which the modelled C code can leave defined behaviour or abort. -/
inductive Fault where
  /-- An index outside the buffer: `string_match` reads `start[strlen (start) - 1]`
      with `strlen (start) = 0` and `start` at the beginning of the buffer. -/
  | index_out_of_range
  /-- A `NULL` string handed to `strstr` or `strcmp`. -/
  | null_string
  /-- The member `self->priv->rules` dereferenced while `NULL`. -/
  | null_rules
  /-- A failed `g_assert`. -/
  | assertion_failed
  /-- The branch `g_assert_not_reached ()` was taken. -/
  | not_reached
  deriving DecidableEq, Repr

deriving instance DecidableEq for Except

/-! ## libc and GLib string helpers -/

/-- The libc function `strstr (haystack, needle) != NULL`: does `needle` occur in
    `haystack` as a contiguous run of characters. -/
def strstr : CStr → CStr → Bool
  | [], needle => needle.isPrefixOf []
  | c :: cs, needle => needle.isPrefixOf (c :: cs) || strstr cs needle

/-- GLib `g_str_equal`: `strcmp (a, b) == 0`. -/
def g_str_equal (a b : CStr) : Bool := decide (a = b)

/-- GLib `g_strcmp0 (a, b) == 0`: string comparison that accepts `NULL`; two `NULL`s
    compare equal and `NULL` differs from every string. -/
def g_strcmp0_eq (a b : Option CStr) : Bool := decide (a = b)

/-- GLib `g_str_has_prefix (str, pre)`; for a `NULL` `str` the precondition check
    `g_return_val_if_fail (str != NULL, FALSE)` returns `FALSE`. -/
def g_str_has_prefix (str : Option CStr) (pre : CStr) : Bool :=
  match str with
  | none => false
  | some s => pre.isPrefixOf s

/-- GLib `g_str_has_suffix (str, suf)`; `FALSE` for a `NULL` `str` as above. -/
def g_str_has_suffix (str : Option CStr) (suf : CStr) : Bool :=
  match str with
  | none => false
  | some s => suf.isSuffixOf s

/-- GLib `g_ascii_isspace`: space, `\t`, `\n`, `\f` and `\r`. -/
def g_ascii_isspace (c : Char) : Bool :=
  c == ' ' || c == '\t' || c == '\n' || c == Char.ofNat 12 || c == '\r'

/-- GLib `g_strdelimit (string, delimiters, new_delimiter)`: every character of
    `string` that occurs in `delimiters` becomes `new_delimiter`. -/
def g_strdelimit (string delimiters : CStr) (new_delimiter : Char) : CStr :=
  string.map (fun c => if c ∈ delimiters then new_delimiter else c)

/-- GLib `g_strchug`: drop leading whitespace. -/
def g_strchug (string : CStr) : CStr := string.dropWhile g_ascii_isspace

/-- GLib `g_strchomp`: drop trailing whitespace. -/
def g_strchomp (string : CStr) : CStr := (string.reverse.dropWhile g_ascii_isspace).reverse

/-- GLib `g_strstrip (string)`, that is `g_strchomp (g_strchug (string))`. -/
def g_strstrip (string : CStr) : CStr := g_strchomp (g_strchug string)

/-- The `printf` conversion `%0<width>x` of an unsigned value: lowercase hexadecimal
    digits, padded on the left with `0` up to `width` characters. -/
def printf_0x (width n : Nat) : CStr := List.leftpad width '0' (Nat.toDigits 16 n)

/-- Value of one hexadecimal digit (`g_ascii_xdigit_value`), `none` for any other
    character. -/
def xdigit_value (c : Char) : Option Nat :=
  if '0' ≤ c ∧ c ≤ '9' then some (c.toNat - '0'.toNat)
  else if 'a' ≤ c ∧ c ≤ 'f' then some (c.toNat - 'a'.toNat + 10)
  else if 'A' ≤ c ∧ c ≤ 'F' then some (c.toNat - 'A'.toNat + 10)
  else none

/-- Value of a run of hexadecimal digits read most significant digit first, starting
    from the accumulator `acc`; `none` when a character is not a hexadecimal digit. -/
def hex_digits_value : CStr → Nat → Option Nat
  | [], acc => some acc
  | c :: cs, acc =>
    match xdigit_value c with
    | none => none
    | some d => hex_digits_value cs (16 * acc + d)

/-- Modelled from the spec: `mm_get_uint_from_hex_str` is a helper of libmm-glib
    (`mm-common-helpers.c`) and not part of the sources at hand; the spec says that the
    rule's value is "parsed as hex" and that malformed input is not a number. The model
    accepts a non-empty run of hexadecimal digits, with an optional leading `0x` as sysfs
    prints it for PCI identifiers, whose value fits the `guint` result; `some v` stands
    for `TRUE` with `*out = v`, `none` for `FALSE`. -/
def mm_get_uint_from_hex_str (str : CStr) : Option Nat :=
  let digits := if "0x".toList.isPrefixOf str then str.drop 2 else str
  if digits = [] then none
  else
    match hex_digits_value digits 0 with
    | none => none
    | some n => if n ≤ 4294967295 then some n else none

/-! ## Data model -/

/-- Modelled from the spec: the event properties object `MMKernelEventProperties` of
    libmm-glib is not part of the sources at hand; the spec's input event is
    `{subsystem, name, action, unique_id}`. Each getter returns `NULL` for an unset
    member, hence the options. -/
structure MMKernelEventProperties where
  action : Option CStr
  subsystem : Option CStr
  name : Option CStr
  uid : Option CStr
  deriving DecidableEq, Repr

/-- Modelled from the spec: the comparison type of a rule condition, declared in
    `mm-kernel-device-generic-rules.h` which is not part of the sources at hand; the
    spec's conditions have `type: EQUAL|NOT_EQUAL`. -/
inductive MMUdevRuleMatchType where
  | EQUAL
  | NOT_EQUAL
  deriving DecidableEq, Repr

/-- Modelled from the spec: one rule condition `{parameter, value_pattern, type}`,
    with the member names `check_condition` uses. -/
structure MMUdevRuleMatch where
  type : MMUdevRuleMatchType
  parameter : CStr
  value : CStr
  deriving DecidableEq, Repr

/-- Modelled from the spec: the result of a rule. The spec names `SetProperty`, `Label`
    and `GotoIndex`; the `switch` of `check_rule` also names the result types
    `GOTO_TAG` and `UNKNOWN`, which it treats as unreachable. -/
inductive MMUdevRuleResult where
  | PROPERTY (name value : CStr)
  | LABEL
  | GOTO_INDEX (index : Nat)
  | GOTO_TAG (tag : CStr)
  | UNKNOWN
  deriving DecidableEq, Repr

/-- Modelled from the spec: one rule, an ordered condition list (the `GArray` pointer
    may be `NULL`) and a result. -/
structure MMUdevRule where
  conditions : Option (List MMUdevRuleMatch)
  result : MMUdevRuleResult
  deriving DecidableEq, Repr

/-- The record of the sysfs backend: the members of `struct _MMKernelDeviceGenericPrivate`
    together with the string-keyed data attached to the GObject
    (`g_object_set_data` / `g_object_get_data`), which is the property bag. -/
structure MMKernelDeviceGeneric where
  properties : Option MMKernelEventProperties
  rules : Option (List MMUdevRule)
  driver : Option CStr
  sysfs_path : Option CStr
  interface_sysfs_path : Option CStr
  interface_class : Fin 256
  interface_subclass : Fin 256
  interface_protocol : Fin 256
  interface_number : Fin 256
  interface_description : Option CStr
  physdev_sysfs_path : Option CStr
  physdev_vid : Fin 65536
  physdev_pid : Fin 65536
  physdev_revision : Fin 65536
  physdev_subsystem : Option CStr
  physdev_manufacturer : Option CStr
  physdev_product : Option CStr
  object_data : List (CStr × CStr)
  deriving DecidableEq, Repr

/-- The keyed data list behind `g_object_set_data` with a non-`NULL` value: the value
    stored under `key` is replaced, or a new entry is added. -/
def datalist_set : List (CStr × CStr) → CStr → CStr → List (CStr × CStr)
  | [], key, data => [(key, data)]
  | (k, d) :: rest, key, data =>
    if k = key then (key, data) :: rest else (k, d) :: datalist_set rest key data

/-- GObject `g_object_get_data (object, key)`: the value stored under `key`, `NULL` when
    there is none. -/
def g_object_get_data (self : MMKernelDeviceGeneric) (key : CStr) : Option CStr :=
  self.object_data.lookup key

/-- GObject `g_object_set_data (object, key, data)` for a non-`NULL` `data`; also
    `g_object_set_data_full`, which differs only in how the value is freed. -/
def g_object_set_data (self : MMKernelDeviceGeneric) (key data : CStr) :
    MMKernelDeviceGeneric :=
  { self with object_data := datalist_set self.object_data key data }

/-! ## Accessors -/

/-- Source `kernel_device_get_name`: the name of the event properties (`NULL` when the
    properties object is missing). -/
def kernel_device_get_name (self : MMKernelDeviceGeneric) : Option CStr :=
  self.properties.bind (fun p => p.name)

/-- Source `kernel_device_get_subsystem`. -/
def kernel_device_get_subsystem (self : MMKernelDeviceGeneric) : Option CStr :=
  self.properties.bind (fun p => p.subsystem)

/-- Source `kernel_device_get_driver`. -/
def kernel_device_get_driver (self : MMKernelDeviceGeneric) : Option CStr := self.driver

/-- Source `kernel_device_get_physdev_vid`. -/
def kernel_device_get_physdev_vid (self : MMKernelDeviceGeneric) : Nat := self.physdev_vid.val

/-- Source `kernel_device_get_physdev_pid`. -/
def kernel_device_get_physdev_pid (self : MMKernelDeviceGeneric) : Nat := self.physdev_pid.val

/-- Source `kernel_device_has_property`. -/
def kernel_device_has_property (self : MMKernelDeviceGeneric) (property : CStr) : Bool :=
  (g_object_get_data self property).isSome

/-- Source `kernel_device_get_property`. -/
def kernel_device_get_property (self : MMKernelDeviceGeneric) (property : CStr) :
    Option CStr :=
  g_object_get_data self property

/-! ## Rule engine -/

/-- Source `string_match (str, original_pattern)`. The copied pattern is the buffer
    `pattern`; `start` is `pattern + offset`; the position `strlen (start) - 1` of
    `start` is the position `offset + strlen (start) - 1` of the buffer, and it does not
    exist when `start` is empty and sits at the beginning of the buffer. Writing the NUL
    at that position cuts the buffer there. `strstr` and `g_str_equal` dereference
    `str`, `g_str_has_prefix` and `g_str_has_suffix` check it. -/
def string_match (str : Option CStr) (original_pattern : CStr) : Except Fault Bool :=
  let pattern := original_pattern
  let open_prefix : Bool := pattern.head? == some '*'
  let offset : Nat := if open_prefix then 1 else 0
  let len : Nat := pattern.length - offset
  if offset + len = 0 then .error .index_out_of_range
  else
    let last : Nat := offset + len - 1
    let open_suffix : Bool := pattern[last]? == some '*'
    let pattern := if open_suffix then pattern.take last else pattern
    let start := pattern.drop offset
    if open_suffix && ! open_prefix then .ok ( g_str_has_prefix str start)
    else if ! open_suffix && open_prefix then .ok (g_str_has_suffix str start)
    else if open_suffix && open_prefix then
      match str with
      | none => .error .null_string
      | some s => .ok (strstr s start)
    else
      match str with
      | none => .error .null_string
      | some s => .ok (g_str_equal s start)

/-- Source `check_condition (self, match)`. The wrappers `mm_kernel_device_get_driver`,
    `mm_kernel_device_get_name`, `mm_kernel_device_get_physdev_vid` and
    `mm_kernel_device_get_physdev_pid` dispatch to the `kernel_device_get_*` functions
    of this backend. The warnings logged for unknown parameters are not modelled. -/
def check_condition (self : MMKernelDeviceGeneric) (m : MMUdevRuleMatch) :
    Except Fault Bool :=
  let condition_equal : Bool := decide (m.type = MMUdevRuleMatchType.EQUAL)
  if m.parameter = "ACTION".toList then
    .ok (strstr m.value "add".toList == condition_equal)
  else if m.parameter = "SUBSYSTEMS".toList ∨ m.parameter = "SUBSYSTEM".toList then
    .ok ((match self.sysfs_path with
          | none => false
          | some p => strstr p m.value) == condition_equal)
  else if m.parameter = "DRIVER".toList ∨ m.parameter = "DRIVERS".toList then
    .ok (g_strcmp0_eq (some m.value) (kernel_device_get_driver self) == condition_equal)
  else if m.parameter = "KERNEL".toList then
    match string_match (kernel_device_get_name self) m.value with
    | .error f => .error f
    | .ok r => .ok (r == condition_equal)
  else if m.parameter = "DEVPATH".toList then
    match self.sysfs_path with
    | none => .ok false
    | some p =>
      let prefix_match : Option CStr :=
        if m.value ≠ [] ∧ m.value.getLast? ≠ some '*' then some (m.value ++ "/*".toList)
        else none
      match string_match (some p) m.value with
      | .error f => .error f
      | .ok r1 =>
        if r1 == condition_equal then .ok true
        else
          match (match prefix_match with
                 | none => Except.ok false
                 | some pm =>
                   match string_match (some p) pm with
                   | .error f => .error f
                   | .ok r => .ok (r == condition_equal)) with
          | .error f => .error f
          | .ok true => .ok true
          | .ok false =>
            if g_str_has_prefix (some p) "/sys".toList then
              match string_match (some (p.drop 4)) m.value with
              | .error f => .error f
              | .ok r3 =>
                if r3 == condition_equal then .ok true
                else
                  match prefix_match with
                  | none => .ok false
                  | some pm =>
                    match string_match (some (p.drop 4)) pm with
                    | .error f => .error f
                    | .ok r4 => .ok (r4 == condition_equal)
            else .ok false
  else if g_str_has_prefix (some m.parameter) "ATTRS".toList then
    let attr := g_strstrip (g_strdelimit (m.parameter.drop 5) "{}".toList ' ')
    if attr = "idVendor".toList ∨ attr = "vendor".toList then
      .ok (match mm_get_uint_from_hex_str m.value with
           | none => false
           | some val => decide (kernel_device_get_physdev_vid self = val) == condition_equal)
    else if attr = "idProduct".toList ∨ attr = "device".toList then
      .ok (match mm_get_uint_from_hex_str m.value with
           | none => false
           | some val => decide (kernel_device_get_physdev_pid self = val) == condition_equal)
    else if attr = "manufacturer".toList then
      .ok ((match self.physdev_manufacturer with
            | none => false
            | some s => g_str_equal s m.value) == condition_equal)
    else if attr = "product".toList then
      .ok ((match self.physdev_product with
            | none => false
            | some s => g_str_equal s m.value) == condition_equal)
    else if attr = "bInterfaceClass".toList then
      .ok (g_str_equal m.value "?*".toList ||
           (match mm_get_uint_from_hex_str m.value with
            | none => false
            | some val => decide (self.interface_class.val = val) == condition_equal))
    else if attr = "bInterfaceSubClass".toList then
      .ok (g_str_equal m.value "?*".toList ||
           (match mm_get_uint_from_hex_str m.value with
            | none => false
            | some val => decide (self.interface_subclass.val = val) == condition_equal))
    else if attr = "bInterfaceProtocol".toList then
      .ok (g_str_equal m.value "?*".toList ||
           (match mm_get_uint_from_hex_str m.value with
            | none => false
            | some val => decide (self.interface_protocol.val = val) == condition_equal))
    else if attr = "bInterfaceNumber".toList then
      .ok (g_str_equal m.value "?*".toList ||
           (match mm_get_uint_from_hex_str m.value with
            | none => false
            | some val => decide (self.interface_number.val = val) == condition_equal))
    else .ok false
  else if g_str_has_prefix (some m.parameter) "ENV".toList then
    let property := g_strstrip (g_strdelimit (m.parameter.drop 3) "{}".toList ' ')
    .ok (g_strcmp0_eq (g_object_get_data self property) (some m.value) == condition_equal)
  else .ok false

/-- The condition loop of `check_rule`: the conditions are checked in order and the
    first one that does not hold ends the loop with `apply = FALSE`. -/
def check_conditions (self : MMKernelDeviceGeneric) :
    List MMUdevRuleMatch → Except Fault Bool
  | [] => .ok true
  | m :: rest =>
    match check_condition self m with
    | .error f => .error f
    | .ok false => .ok false
    | .ok true => check_conditions self rest

/-- Source `check_rule (self, rule_i)`: the index of the rule to process next, and the
    record as the call leaves it. The sum `rule_i + 1` cannot wrap, since
    `rule_i < rules->len` and the length of a `GArray` is a `guint`. -/
def check_rule (self : MMKernelDeviceGeneric) (rule_i : Nat) :
    Except Fault (Nat × MMKernelDeviceGeneric) :=
  match self.rules with
  | none => .error .null_rules
  | some rules =>
    match rules[rule_i]? with
    | none => .error .assertion_failed
    | some rule =>
      match (match rule.conditions with
             | none => Except.ok true
             | some conditions => check_conditions self conditions) with
      | .error f => .error f
      | .ok false => .ok (rule_i + 1, self)
      | .ok true =>
        match rule.result with
        | .PROPERTY name value =>
          let property_value_read : Option CStr :=
            if value = "$attr{bInterfaceClass}".toList then
              some (printf_0x 2 self.interface_class.val)
            else if value = "$attr{bInterfaceSubClass}".toList then
              some (printf_0x 2 self.interface_subclass.val)
            else if value = "$attr{bInterfaceProtocol}".toList then
              some (printf_0x 2 self.interface_protocol.val)
            else if value = "$attr{bInterfaceNumber}".toList then
              some (printf_0x 2 self.interface_number.val)
            else none
          match property_value_read with
          | none => .ok (rule_i + 1, g_object_set_data self name value)
          | some read => .ok (rule_i + 1, g_object_set_data self name read)
        | .LABEL => .ok (rule_i + 1, self)
        | .GOTO_INDEX index => .ok (index, self)
        | .GOTO_TAG _ => .error .not_reached
        | .UNKNOWN => .error .not_reached

/-- The `while` loop of `preload_rule_properties`, started at index `i`, run for at
    most `fuel` iterations: `some` record when the loop has ended, `none` when it is
    still running after `fuel` iterations. -/
def preload_rule_properties_loop (fuel : Nat) (self : MMKernelDeviceGeneric) (i : Nat) :
    Except Fault (Option MMKernelDeviceGeneric) :=
  match self.rules with
  | none => .error .null_rules
  | some rules =>
    if i < rules.length then
      match fuel with
      | 0 => .ok none
      | n + 1 =>
        match check_rule self i with
        | .error f => .error f
        | .ok (next_rule, self1) => preload_rule_properties_loop n self1 next_rule
    else .ok (some self)

/-- Source `preload_rule_properties (self)`: the two entry assertions, then the loop
    from index 0. -/
def preload_rule_properties (fuel : Nat) (self : MMKernelDeviceGeneric) :
    Except Fault (Option MMKernelDeviceGeneric) :=
  match self.rules with
  | none => .error .assertion_failed
  | some rules =>
    if 0 < rules.length then preload_rule_properties_loop fuel self 0
    else .error .assertion_failed

/-- The state of the `while` loop of `preload_rule_properties` after `k` iterations,
    started at index `i`: the index `i` of the loop and the record. Once the loop has
    ended (the index is not below the table length) the state stays as it is. -/
def preload_rule_properties_steps (k : Nat) (self : MMKernelDeviceGeneric) (i : Nat) :
    Except Fault (Nat × MMKernelDeviceGeneric) :=
  match k with
  | 0 => .ok (i, self)
  | n + 1 =>
    match self.rules with
    | none => .error .null_rules
    | some rules =>
      if i < rules.length then
        match check_rule self i with
        | .error f => .error f
        | .ok (next_rule, self1) => preload_rule_properties_steps n self1 next_rule
      else .ok (i, self)

/-! ## The sysfs file system and the attribute readers -/

/-- GLib `g_path_get_basename (file_name)`: `.` for the empty string, `/` for a string of
    slashes only, otherwise the last component with trailing slashes dropped. -/
def g_path_get_basename (file_name : CStr) : CStr :=
  if file_name = [] then ".".toList
  else
    let trimmed := file_name.reverse.dropWhile (fun c => c == '/')
    if trimmed = [] then "/".toList
    else (trimmed.takeWhile (fun c => c != '/')).reverse

/-- The backward scan of `g_path_get_dirname` on the reversed string: separators are
    dropped from the end while more than one character is left. -/
def strip_trailing_separators : CStr → CStr
  | c :: d :: rest => if c = '/' then strip_trailing_separators (d :: rest) else c :: d :: rest
  | l => l

/-- GLib `g_path_get_dirname (file_name)`: `.` when there is no slash; otherwise the
    string up to the last slash, with the separators at its end dropped
    (`/usr/bin/test` gives `/usr/bin`, `/usr` gives `/`, `/` gives `/`). -/
def g_path_get_dirname (file_name : CStr) : CStr :=
  if '/' ∈ file_name then
    (strip_trailing_separators (file_name.reverse.dropWhile (fun c => c != '/'))).reverse
  else ".".toList

/-- The conversion `%s` of glibc `printf`, which prints `(null)` for a `NULL` argument. -/
def printf_s (s : Option CStr) : CStr := s.getD "(null)".toList

/-- The file system as the code observes it, through libc and GLib:
    `realpath (path, NULL)` (`none` for `NULL`), `g_file_test (path, G_FILE_TEST_EXISTS)`
    and `g_file_get_contents (path, ...)` (`none` when it fails). -/
structure Sysfs where
  realpath : CStr → Option CStr
  file_test_exists : CStr → Bool
  file_get_contents : CStr → Option CStr

/-- A value stored into a `guint8` member. -/
def to_guint8 (v : Nat) : Fin 256 := ⟨v % 256, Nat.mod_lt v (by decide)⟩

/-- A value stored into a `guint16` member. -/
def to_guint16 (v : Nat) : Fin 65536 := ⟨v % 65536, Nat.mod_lt v (by decide)⟩

/-- Source `has_sysfs_attribute (path, attribute)`. -/
def has_sysfs_attribute (fs : Sysfs) (path : Option CStr) (attr : CStr) : Bool :=
  fs.file_test_exists (printf_s path ++ "/".toList ++ attr)

/-- Source `read_sysfs_attribute_as_string (path, attribute)`. -/
def read_sysfs_attribute_as_string (fs : Sysfs) (path : Option CStr) (attr : CStr) :
    Option CStr :=
  match fs.file_get_contents (printf_s path ++ "/".toList ++ attr) with
  | none => none
  | some contents => some (g_strstrip (g_strdelimit contents "\r\n".toList ' '))

/-- Source `read_sysfs_attribute_as_hex (path, attribute)`: the `guint` result, 0 when
    the attribute is missing or is not a hexadecimal number. -/
def read_sysfs_attribute_as_hex (fs : Sysfs) (path : Option CStr) (attr : CStr) : Nat :=
  match read_sysfs_attribute_as_string fs path attr with
  | none => 0
  | some contents => (mm_get_uint_from_hex_str contents).getD 0

/-- Source `read_sysfs_attribute_link_basename (path, attribute)`;
    `g_path_get_basename (NULL)` is `NULL`. -/
def read_sysfs_attribute_link_basename (fs : Sysfs) (path : Option CStr)
    (attr : CStr) : Option CStr :=
  let aux_filepath := printf_s path ++ "/".toList ++ attr
  if fs.file_test_exists aux_filepath then (fs.realpath aux_filepath).map g_path_get_basename
  else none

/-! ## Loading the contents of a record (sysfs backend) -/

/-- Modelled from the spec: the getters of `MMKernelEventProperties` (libmm-glib, not
    part of the sources at hand) return the member of the input event, and `NULL` when
    it is unset or when the object itself is `NULL`. -/
def mm_kernel_event_properties_get_action (properties : Option MMKernelEventProperties) :
    Option CStr :=
  properties.bind (fun p => p.action)

/-- Modelled from the spec: see `mm_kernel_event_properties_get_action`. -/
def mm_kernel_event_properties_get_subsystem (properties : Option MMKernelEventProperties) :
    Option CStr :=
  properties.bind (fun p => p.subsystem)

/-- Modelled from the spec: see `mm_kernel_event_properties_get_action`. -/
def mm_kernel_event_properties_get_name (properties : Option MMKernelEventProperties) :
    Option CStr :=
  properties.bind (fun p => p.name)

/-- Source `preload_sysfs_path (self)`. -/
def preload_sysfs_path (fs : Sysfs) (self : MMKernelDeviceGeneric) : MMKernelDeviceGeneric :=
  match self.sysfs_path with
  | some _ => self
  | none =>
    let tmp := "/sys/class/".toList
      ++ printf_s (mm_kernel_event_properties_get_subsystem self.properties)
      ++ "/".toList ++ printf_s (mm_kernel_event_properties_get_name self.properties)
    let sysfs_path : Option CStr :=
      match fs.realpath tmp with
      | none => none
      | some p => if fs.file_test_exists p then some p else none
    match sysfs_path with
    | none => { self with sysfs_path := none }
    | some p =>
      let devpath := if g_str_has_prefix (some p) "/sys".toList then p.drop 4 else p
      g_object_set_data { self with sysfs_path := some p } "DEVPATH".toList devpath

/-- Source `preload_common_properties (self)`. -/
def preload_common_properties (self : MMKernelDeviceGeneric) : MMKernelDeviceGeneric :=
  let self1 :=
    match self.interface_sysfs_path with
    | some _ =>
      g_object_set_data self "ID_USB_INTERFACE_NUM".toList (printf_0x 2 self.interface_number.val)
    | none => self
  let self2 :=
    match self1.physdev_product with
    | some product => g_object_set_data self1 "ID_MODEL".toList product
    | none => self1
  let self3 :=
    match self2.physdev_manufacturer with
    | some manufacturer => g_object_set_data self2 "ID_VENDOR".toList manufacturer
    | none => self2
  match self3.physdev_sysfs_path with
  | some _ =>
    g_object_set_data
      (g_object_set_data
        (g_object_set_data self3 "ID_VENDOR_ID".toList (printf_0x 4 self3.physdev_vid.val))
        "ID_MODEL_ID".toList (printf_0x 4 self3.physdev_pid.val))
      "ID_REVISION".toList (printf_0x 4 self3.physdev_revision.val)
  | none => self3

/-- Source `preload_contents_other (self)`. -/
def preload_contents_other (fs : Sysfs) (self : MMKernelDeviceGeneric) :
    MMKernelDeviceGeneric :=
  { self with driver := read_sysfs_attribute_link_basename fs self.sysfs_path "driver".toList }

/-- The `while` loop of `preload_contents_platform`, at the node `iter`, run for at most
    `fuel` iterations (`none` when it is still running after them). -/
def preload_contents_platform_loop (fs : Sysfs) (platform : CStr) (fuel : Nat)
    (self : MMKernelDeviceGeneric) (iter : CStr) : Option MMKernelDeviceGeneric :=
  if iter = "/".toList then some self
  else
    match fuel with
    | 0 => none
    | n + 1 =>
      let self1 : MMKernelDeviceGeneric :=
        match self.driver with
        | none =>
          { self with driver := read_sysfs_attribute_link_basename fs (some iter) "driver".toList }
        | some _ => self
      let current_subsystem :=
        read_sysfs_attribute_link_basename fs (some iter) "subsystem".toList
      if self1.physdev_sysfs_path = none ∧ current_subsystem = some platform then
        some { self1 with physdev_sysfs_path := some iter }
      else preload_contents_platform_loop fs platform n self1 (g_path_get_dirname iter)

/-- Source `preload_contents_platform (self, platform)`. -/
def preload_contents_platform (fuel : Nat) (fs : Sysfs) (self : MMKernelDeviceGeneric)
    (platform : CStr) : Option MMKernelDeviceGeneric :=
  match self.sysfs_path with
  | none => some self
  | some p => preload_contents_platform_loop fs platform fuel self p

/-- The `while` loop of `preload_contents_pcmcia`. -/
def preload_contents_pcmcia_loop (fs : Sysfs) (fuel : Nat) (self : MMKernelDeviceGeneric)
    (pcmcia_subsystem_found : Bool) (iter : CStr) : Option MMKernelDeviceGeneric :=
  if iter = "/".toList then some self
  else
    match fuel with
    | 0 => none
    | n + 1 =>
      let self1 : MMKernelDeviceGeneric :=
        match self.driver with
        | none =>
          { self with driver := read_sysfs_attribute_link_basename fs (some iter) "driver".toList }
        | some _ => self
      let subsys := read_sysfs_attribute_link_basename fs (some iter) "subsystem".toList
      let found : Bool := pcmcia_subsystem_found || decide (subsys = some "pcmcia".toList)
      let parent := g_path_get_dirname iter
      let parent_subsys := read_sysfs_attribute_link_basename fs (some parent) "subsystem".toList
      if found = true ∧ parent_subsys ≠ none ∧ parent_subsys ≠ some "pcmcia".toList then
        some { self1 with
               physdev_sysfs_path := some iter,
               physdev_vid := to_guint16 (read_sysfs_attribute_as_hex fs (some iter) "manf_id".toList),
               physdev_pid := to_guint16 (read_sysfs_attribute_as_hex fs (some iter) "card_id".toList) }
      else preload_contents_pcmcia_loop fs n self1 found parent

/-- Source `preload_contents_pcmcia (self)`. -/
def preload_contents_pcmcia (fuel : Nat) (fs : Sysfs) (self : MMKernelDeviceGeneric) :
    Option MMKernelDeviceGeneric :=
  match self.sysfs_path with
  | none => some self
  | some p => preload_contents_pcmcia_loop fs fuel self false p

/-- The `while` loop of `preload_contents_pci`. -/
def preload_contents_pci_loop (fs : Sysfs) (fuel : Nat) (self : MMKernelDeviceGeneric)
    (iter : CStr) : Option MMKernelDeviceGeneric :=
  if iter = "/".toList then some self
  else
    match fuel with
    | 0 => none
    | n + 1 =>
      let self1 : MMKernelDeviceGeneric :=
        match self.driver with
        | none =>
          { self with driver := read_sysfs_attribute_link_basename fs (some iter) "driver".toList }
        | some _ => self
      let subsys := read_sysfs_attribute_link_basename fs (some iter) "subsystem".toList
      if self1.physdev_sysfs_path = none ∧ subsys = some "pci".toList then
        some { self1 with
               physdev_sysfs_path := some iter,
               physdev_vid := to_guint16 (read_sysfs_attribute_as_hex fs (some iter) "vendor".toList),
               physdev_pid := to_guint16 (read_sysfs_attribute_as_hex fs (some iter) "device".toList),
               physdev_revision :=
                 to_guint16 (read_sysfs_attribute_as_hex fs (some iter) "revision".toList),
               physdev_subsystem := subsys }
      else preload_contents_pci_loop fs n self1 (g_path_get_dirname iter)

/-- Source `preload_contents_pci (self)`. -/
def preload_contents_pci (fuel : Nat) (fs : Sysfs) (self : MMKernelDeviceGeneric) :
    Option MMKernelDeviceGeneric :=
  match self.sysfs_path with
  | none => some self
  | some p => preload_contents_pci_loop fs fuel self p

/-- The `while` loop of `preload_contents_usb`. -/
def preload_contents_usb_loop (fs : Sysfs) (fuel : Nat) (self : MMKernelDeviceGeneric)
    (iter : CStr) : Option MMKernelDeviceGeneric :=
  if iter = "/".toList then some self
  else
    match fuel with
    | 0 => none
    | n + 1 =>
      if self.interface_sysfs_path = none
          ∧ has_sysfs_attribute fs (some iter) "bInterfaceClass".toList = true then
        preload_contents_usb_loop fs n
          { self with
            interface_sysfs_path := some iter,
            interface_class :=
              to_guint8 (read_sysfs_attribute_as_hex fs (some iter) "bInterfaceClass".toList),
            interface_subclass :=
              to_guint8 (read_sysfs_attribute_as_hex fs (some iter) "bInterfaceSubClass".toList),
            interface_protocol :=
              to_guint8 (read_sysfs_attribute_as_hex fs (some iter) "bInterfaceProtocol".toList),
            interface_number :=
              to_guint8 (read_sysfs_attribute_as_hex fs (some iter) "bInterfaceNumber".toList),
            interface_description :=
              read_sysfs_attribute_as_string fs (some iter) "interface".toList,
            driver := read_sysfs_attribute_link_basename fs (some iter) "driver".toList }
          (g_path_get_dirname iter)
      else if self.physdev_sysfs_path = none
          ∧ has_sysfs_attribute fs (some iter) "idVendor".toList = true then
        some { self with
               physdev_sysfs_path := some iter,
               physdev_vid := to_guint16 (read_sysfs_attribute_as_hex fs (some iter) "idVendor".toList),
               physdev_pid := to_guint16 (read_sysfs_attribute_as_hex fs (some iter) "idProduct".toList),
               physdev_revision :=
                 to_guint16 (read_sysfs_attribute_as_hex fs (some iter) "bcdDevice".toList),
               physdev_subsystem :=
                 read_sysfs_attribute_link_basename fs (some iter) "subsystem".toList,
               physdev_manufacturer :=
                 read_sysfs_attribute_as_string fs (some iter) "manufacturer".toList,
               physdev_product := read_sysfs_attribute_as_string fs (some iter) "product".toList }
      else preload_contents_usb_loop fs n self (g_path_get_dirname iter)

/-- Source `preload_contents_usb (self)`. -/
def preload_contents_usb (fuel : Nat) (fs : Sysfs) (self : MMKernelDeviceGeneric) :
    Option MMKernelDeviceGeneric :=
  match self.sysfs_path with
  | none => some self
  | some p => preload_contents_usb_loop fs fuel self p

/-- The `while` loop of `find_device_bus_subsystem`: `some` result when the loop has
    ended (the bus found, or `NULL`), `none` when it is still running after `fuel`
    iterations. -/
def find_device_bus_subsystem_loop (fs : Sysfs) (fuel : Nat) (iter : CStr) :
    Option (Option CStr) :=
  if iter = "/".toList then some none
  else
    match fuel with
    | 0 => none
    | n + 1 =>
      let subsys := read_sysfs_attribute_link_basename fs (some iter) "subsystem".toList
      if subsys = some "usb".toList ∨ subsys = some "pcmcia".toList ∨ subsys = some "pci".toList
          ∨ subsys = some "platform".toList ∨ subsys = some "pnp".toList
          ∨ subsys = some "sdio".toList then
        some subsys
      else find_device_bus_subsystem_loop fs n (g_path_get_dirname iter)

/-- Source `find_device_bus_subsystem (self)`. -/
def find_device_bus_subsystem (fuel : Nat) (fs : Sysfs) (self : MMKernelDeviceGeneric) :
    Option (Option CStr) :=
  match self.sysfs_path with
  | none => some none
  | some p => find_device_bus_subsystem_loop fs fuel p

/-- Source `preload_contents (self)`; each of its loops may run for `fuel` iterations,
    and the result is `none` when one of them is still running after them. The debug
    messages are not modelled. -/
def preload_contents (fuel : Nat) (fs : Sysfs) (self : MMKernelDeviceGeneric) :
    Option MMKernelDeviceGeneric :=
  match self.sysfs_path with
  | some _ => some self
  | none =>
    let self1 := preload_sysfs_path fs self
    match find_device_bus_subsystem fuel fs self1 with
    | none => none
    | some bus_subsys =>
      let loaded : Option MMKernelDeviceGeneric :=
        match bus_subsys with
        | none => some (preload_contents_other fs self1)
        | some bus =>
          if bus = "usb".toList then preload_contents_usb fuel fs self1
          else if bus = "pcmcia".toList then preload_contents_pcmcia fuel fs self1
          else if bus = "pci".toList then preload_contents_pci fuel fs self1
          else if bus = "platform".toList ∨ bus = "pnp".toList ∨ bus = "sdio".toList then
            preload_contents_platform fuel fs self1 bus
          else some (preload_contents_other fs self1)
      match loaded with
      | none => none
      | some self2 =>
        match bus_subsys with
        | none => some self2
        | some _ => some (preload_common_properties self2)

/-! ## Construction of a record (sysfs backend) -/

/-- Modelled from the spec: the error kinds of construction. The enumeration `MMCoreError`
    is declared outside the sources at hand; the spec names the kinds `InvalidArguments`
    and `DeviceNotFound`, and the code at hand names `MM_CORE_ERROR_INVALID_ARGS` only. -/
inductive MMCoreError where
  | MM_CORE_ERROR_INVALID_ARGS
  | MM_CORE_ERROR_NOT_FOUND
  deriving DecidableEq, Repr

/-- GLib `GError` in the domain `MM_CORE_ERROR`: the code and the formatted message. -/
structure GError where
  code : MMCoreError
  message : CStr
  deriving DecidableEq, Repr

/-- Source `check_preload (self)`: `some` record when the function has returned, `none`
    when one of its loops is still running after `fuel` iterations. -/
def check_preload (fuel : Nat) (fs : Sysfs) (self : MMKernelDeviceGeneric) :
    Except Fault (Option MMKernelDeviceGeneric) :=
  if self.properties = none ∨ self.rules = none then .ok (some self)
  else if g_strcmp0_eq (mm_kernel_event_properties_get_action self.properties)
      (some "remove".toList) = true then .ok (some self)
  else if g_strcmp0_eq (mm_kernel_event_properties_get_subsystem self.properties)
      (some "virtual".toList) = true then .ok (some self)
  else
    match preload_contents fuel fs self with
    | none => .ok none
    | some self1 => preload_rule_properties fuel self1

/-- Source `initable_init (initable, cancellable, error)` of the sysfs backend:
    `.ok self` for `TRUE` with the record as the call leaves it, `.error e` for `FALSE`
    with the error set; `none` when a loop is still running after `fuel` iterations. -/
def initable_init (fuel : Nat) (fs : Sysfs) (self : MMKernelDeviceGeneric) :
    Except Fault (Option (Except GError MMKernelDeviceGeneric)) :=
  match check_preload fuel fs self with
  | .error f => .error f
  | .ok none => .ok none
  | .ok (some self1) =>
    match kernel_device_get_subsystem self1 with
    | none =>
      .ok (some (.error ⟨.MM_CORE_ERROR_INVALID_ARGS,
        "subsystem is mandatory in kernel device".toList⟩))
    | some _ =>
      match kernel_device_get_name self1 with
      | none =>
        .ok (some (.error ⟨.MM_CORE_ERROR_INVALID_ARGS,
          "name is mandatory in kernel device".toList⟩))
      | some _ =>
        if self1.properties ≠ none
            ∧ g_strcmp0_eq (mm_kernel_event_properties_get_action self1.properties)
                (some "remove".toList) = false
            ∧ g_strcmp0_eq (mm_kernel_event_properties_get_subsystem self1.properties)
                (some "virtual".toList) = false
            ∧ self1.sysfs_path = none then
          .ok (some (.error ⟨.MM_CORE_ERROR_INVALID_ARGS,
            "device ".toList
              ++ printf_s (mm_kernel_event_properties_get_subsystem self1.properties)
              ++ "/".toList
              ++ printf_s (mm_kernel_event_properties_get_name self1.properties)
              ++ " not found".toList⟩))
        else .ok (some (.ok self1))

/-- The object as `g_initable_new` hands it to `initable_init`: the two construction
    properties set, every other member zero. -/
def mm_kernel_device_generic_init (props : Option MMKernelEventProperties)
    (rules : Option (List MMUdevRule)) : MMKernelDeviceGeneric :=
  { properties := props,
    rules := rules,
    driver := none,
    sysfs_path := none,
    interface_sysfs_path := none,
    interface_class := 0,
    interface_subclass := 0,
    interface_protocol := 0,
    interface_number := 0,
    interface_description := none,
    physdev_sysfs_path := none,
    physdev_vid := 0,
    physdev_pid := 0,
    physdev_revision := 0,
    physdev_subsystem := none,
    physdev_manufacturer := none,
    physdev_product := none,
    object_data := [] }

/-- Source `mm_kernel_device_generic_new_with_rules (props, rules, error)`. -/
def mm_kernel_device_generic_new_with_rules (fuel : Nat) (fs : Sysfs)
    (props : Option MMKernelEventProperties) (rules : Option (List MMUdevRule)) :
    Except Fault (Option (Except GError MMKernelDeviceGeneric)) :=
  initable_init fuel fs (mm_kernel_device_generic_init props rules)

/-- Source, `mm_kernel_device_generic_class_init`: the class entry `get_global_property`
    of the sysfs backend is `kernel_device_get_property`. -/
def kernel_device_get_global_property (self : MMKernelDeviceGeneric) (property : CStr) :
    Option CStr :=
  kernel_device_get_property self property

/-- Source, `mm_kernel_device_generic_class_init`: the class entry `has_global_property`
    of the sysfs backend is `kernel_device_has_property`. -/
def kernel_device_has_global_property (self : MMKernelDeviceGeneric) (property : CStr) :
    Bool :=
  kernel_device_has_property self property

/-- Source `kernel_device_cmp (a, b)` of the sysfs backend. -/
def kernel_device_cmp (a b : MMKernelDeviceGeneric) : Bool :=
  g_strcmp0_eq (kernel_device_get_subsystem a) (kernel_device_get_subsystem b)
  && g_strcmp0_eq (kernel_device_get_name a) (kernel_device_get_name b)

/-! ## The udev backend (`mm-kernel-device-udev.c`) -/

namespace Udev

/-- A device of libgudev without the link to its parent: what the getters
    `g_udev_device_get_subsystem`, `_get_name`, `_get_sysfs_path`, `_get_devtype`,
    `_get_driver`, `_get_property` and `_get_sysfs_attr` return for it. A udev device
    always has a name and a sysfs path. -/
structure GUdevNode where
  subsystem : Option CStr
  name : CStr
  sysfs_path : CStr
  devtype : Option CStr
  driver : Option CStr
  properties : List (CStr × CStr)
  sysfs_attrs : List (CStr × CStr)
  deriving DecidableEq, Repr

/-- A `GUdevDevice`: the device itself and the chain of its parents, nearest first
    (`g_udev_device_get_parent` steps along the chain). -/
structure GUdevDevice where
  node : GUdevNode
  ancestors : List GUdevNode
  deriving DecidableEq, Repr

/-- The udev database that a `GUdevClient` queries. -/
structure GUdevClient where
  devices : List GUdevDevice
  deriving DecidableEq, Repr

/-- libgudev `g_udev_device_has_property (device, key)`. -/
def g_udev_device_has_property (device : GUdevDevice) (key : CStr) : Bool :=
  (device.node.properties.lookup key).isSome

/-- libgudev `g_udev_device_get_property (device, key)`. -/
def g_udev_device_get_property (device : GUdevDevice) (key : CStr) : Option CStr :=
  device.node.properties.lookup key

/-- libgudev `g_udev_device_get_sysfs_path (device)`. -/
def g_udev_device_get_sysfs_path (device : GUdevDevice) : CStr := device.node.sysfs_path

/-- libgudev `g_udev_device_get_subsystem (device)`. -/
def g_udev_device_get_subsystem (device : GUdevDevice) : Option CStr := device.node.subsystem

/-- libgudev `g_udev_device_get_name (device)`. -/
def g_udev_device_get_name (device : GUdevDevice) : CStr := device.node.name

/-- libgudev `g_udev_client_query_by_subsystem_and_name (client, subsystem, name)`: the
    device of that subsystem and name, `NULL` when there is none, and `NULL` for a
    `NULL` name (`g_return_val_if_fail (name != NULL, NULL)`). -/
def g_udev_client_query_by_subsystem_and_name (client : GUdevClient)
    (subsystem : CStr) (name : Option CStr) : Option GUdevDevice :=
  match name with
  | none => none
  | some n =>
    client.devices.find? (fun d => decide (d.node.subsystem = some subsystem ∧ d.node.name = n))

/-- The members of `struct _MMKernelDeviceUdevPrivate`, the client handle apart (every
    client reads the one udev database). -/
structure MMKernelDeviceUdev where
  device : Option GUdevDevice
  interface : Option GUdevDevice
  physdev : Option GUdevDevice
  vendor : Fin 65536
  product : Fin 65536
  revision : Fin 65536
  driver : Option CStr
  properties : Option MMKernelEventProperties
  deriving DecidableEq, Repr

/-- Source `kernel_device_get_subsystem (self)` of the udev backend. -/
def kernel_device_get_subsystem (self : MMKernelDeviceUdev) : Except Fault (Option CStr) :=
  match self.device with
  | some device => .ok (g_udev_device_get_subsystem device)
  | none =>
    match self.properties with
    | none => .error .assertion_failed
    | some p => .ok p.subsystem

/-- Source `kernel_device_get_name (self)` of the udev backend. -/
def kernel_device_get_name (self : MMKernelDeviceUdev) : Except Fault (Option CStr) :=
  match self.device with
  | some device => .ok (some (g_udev_device_get_name device))
  | none =>
    match self.properties with
    | none => .error .assertion_failed
    | some p => .ok p.name

/-- Source `kernel_device_get_sysfs_path (self)` of the udev backend. -/
def kernel_device_get_sysfs_path (self : MMKernelDeviceUdev) : Option CStr :=
  self.device.map g_udev_device_get_sysfs_path

/-- Source `kernel_device_has_property (self, property)` of the udev backend. -/
def kernel_device_has_property (self : MMKernelDeviceUdev) (property : CStr) : Bool :=
  match self.device with
  | some device => g_udev_device_has_property device property
  | none => false

/-- Source `kernel_device_get_property (self, property)` of the udev backend. -/
def kernel_device_get_property (self : MMKernelDeviceUdev) (property : CStr) : Option CStr :=
  match self.device with
  | some device => g_udev_device_get_property device property
  | none => none

/-- Source `kernel_device_has_global_property (self, property)`. -/
def kernel_device_has_global_property (self : MMKernelDeviceUdev) (property : CStr) : Bool :=
  match self.physdev with
  | some physdev =>
    if g_udev_device_has_property physdev property = true then true
    else kernel_device_has_property self property
  | none => kernel_device_has_property self property

/-- Source `kernel_device_get_global_property (self, property)`. -/
def kernel_device_get_global_property (self : MMKernelDeviceUdev) (property : CStr) :
    Option CStr :=
  match self.physdev with
  | some physdev =>
    if g_udev_device_has_property physdev property = true then
      match g_udev_device_get_property physdev property with
      | some str => some str
      | none => kernel_device_get_property self property
    else kernel_device_get_property self property
  | none => kernel_device_get_property self property

/-- The object as `g_initable_new` hands it to `initable_init`: the construction
    properties set, every other member zero. -/
def mm_kernel_device_udev_init (udev_device : Option GUdevDevice)
    (props : Option MMKernelEventProperties) : MMKernelDeviceUdev :=
  { device := udev_device,
    interface := none,
    physdev := none,
    vendor := 0,
    product := 0,
    revision := 0,
    driver := none,
    properties := props }

/-- Source `initable_init (initable, cancellable, error)` of the udev backend. The
    function `preload_contents` of that file is a parameter here, and `client` is the
    database that the client made by `g_udev_client_new` queries. `.ok self` stands for
    `TRUE`, `.error e` for `FALSE` with the error set. -/
def initable_init (preload_contents : MMKernelDeviceUdev → MMKernelDeviceUdev)
    (client : GUdevClient) (self : MMKernelDeviceUdev) :
    Except Fault (Except GError MMKernelDeviceUdev) :=
  match self.device with
  | some _ => .ok (.ok (preload_contents self))
  | none =>
    match self.properties with
    | none =>
      .ok (.error ⟨.MM_CORE_ERROR_INVALID_ARGS, "missing properties in kernel device".toList⟩)
    | some _ =>
      match mm_kernel_event_properties_get_subsystem self.properties with
      | none =>
        .ok (.error ⟨.MM_CORE_ERROR_INVALID_ARGS,
          "subsystem is mandatory in kernel device".toList⟩)
      | some subsystem =>
        let name := mm_kernel_event_properties_get_name self.properties
        match kernel_device_get_name self with
        | .error f => .error f
        | .ok none =>
          .ok (.error ⟨.MM_CORE_ERROR_INVALID_ARGS, "name is mandatory in kernel device".toList⟩)
        | .ok (some _) =>
          if g_strcmp0_eq (mm_kernel_event_properties_get_action self.properties)
              (some "remove".toList) = false then
            match g_udev_client_query_by_subsystem_and_name client subsystem name with
            | none =>
              .ok (.error ⟨.MM_CORE_ERROR_INVALID_ARGS,
                "device ".toList ++ subsystem ++ "/".toList ++ printf_s name
                  ++ " not found".toList⟩)
            | some device => .ok (.ok (preload_contents { self with device := some device }))
          else .ok (.ok self)

/-- libgudev `g_udev_device_get_parent (device)`: the next device up the chain, `NULL`
    at its end. -/
def g_udev_device_get_parent (device : GUdevDevice) : Option GUdevDevice :=
  match device.ancestors with
  | [] => none
  | parent :: rest => some ⟨parent, rest⟩

/-- libgudev `g_udev_device_get_driver (device)`. -/
def g_udev_device_get_driver (device : GUdevDevice) : Option CStr := device.node.driver

/-- libgudev `g_udev_device_get_sysfs_attr (device, name)`. -/
def g_udev_device_get_sysfs_attr (device : GUdevDevice) (name : CStr) : Option CStr :=
  device.node.sysfs_attrs.lookup name

/-- Source `udev_device_get_sysfs_attr_as_hex (device, attribute)`: the `guint` result, 0
    when the attribute is missing or is not a hexadecimal number. -/
def udev_device_get_sysfs_attr_as_hex (device : GUdevDevice) (attr : CStr) : Nat :=
  match g_udev_device_get_sysfs_attr device attr with
  | none => 0
  | some a => (mm_get_uint_from_hex_str a).getD 0

/-- Source `kernel_device_cmp (a, b)` of the udev backend. `g_str_has_suffix` is only
    reached with the value of a property that the device has. -/
def kernel_device_cmp (a b : MMKernelDeviceUdev) : Except Fault Bool :=
  match a.device, b.device with
  | some da, some db =>
    if g_udev_device_has_property da "DEVPATH_OLD".toList = true
        ∧ (match g_udev_device_get_property da "DEVPATH_OLD".toList with
           | some old => g_str_has_suffix (some (g_udev_device_get_sysfs_path db)) old
           | none => false) = true then .ok true
    else if g_udev_device_has_property db "DEVPATH_OLD".toList = true
        ∧ (match g_udev_device_get_property db "DEVPATH_OLD".toList with
           | some old => g_str_has_suffix (some (g_udev_device_get_sysfs_path da)) old
           | none => false) = true then .ok true
    else
      .ok (g_strcmp0_eq (some (g_udev_device_get_sysfs_path da))
        (some (g_udev_device_get_sysfs_path db)))
  | _, _ =>
    match kernel_device_get_subsystem a with
    | .error f => .error f
    | .ok subsystem_a =>
      match kernel_device_get_subsystem b with
      | .error f => .error f
      | .ok subsystem_b =>
        if g_strcmp0_eq subsystem_a subsystem_b = true then
          match kernel_device_get_name a with
          | .error f => .error f
          | .ok name_a =>
            match kernel_device_get_name b with
            | .error f => .error f
            | .ok name_b => .ok (g_strcmp0_eq name_a name_b)
        else .ok false

/-- The `while` loop of `preload_contents_pci` of the udev backend, at the device whose
    node is `node` and whose parents are `ancestors`; the chain of parents is finite, so
    the loop ends at its top. -/
def preload_contents_pci_loop (self : MMKernelDeviceUdev) (node : GUdevNode)
    (ancestors : List GUdevNode) : MMKernelDeviceUdev :=
  let iter : GUdevDevice := ⟨node, ancestors⟩
  let self1 : MMKernelDeviceUdev :=
    match self.driver with
    | none => { self with driver := g_udev_device_get_driver iter }
    | some _ => self
  if self1.physdev = none
      ∧ g_strcmp0_eq (g_udev_device_get_subsystem iter) (some "pci".toList) = true then
    { self1 with
      vendor := to_guint16 (udev_device_get_sysfs_attr_as_hex iter "vendor".toList),
      product := to_guint16 (udev_device_get_sysfs_attr_as_hex iter "device".toList),
      revision := to_guint16 (udev_device_get_sysfs_attr_as_hex iter "revision".toList),
      physdev := some iter }
  else
    match ancestors with
    | [] => self1
    | parent :: rest => preload_contents_pci_loop self1 parent rest

/-- Source `preload_contents_pci (self)` of the udev backend; `g_object_ref (NULL)`
    gives `NULL` and the loop is not entered. -/
def preload_contents_pci (self : MMKernelDeviceUdev) : MMKernelDeviceUdev :=
  match self.device with
  | none => self
  | some device => preload_contents_pci_loop self device.node device.ancestors

/-- The `while` loop of `find_device_bus_subsystem` of the udev backend. -/
def find_device_bus_subsystem_loop (node : GUdevNode) (ancestors : List GUdevNode) :
    Option CStr :=
  let iter : GUdevDevice := ⟨node, ancestors⟩
  let subsys := g_udev_device_get_subsystem iter
  if g_strcmp0_eq subsys (some "usb".toList) = true
      ∨ g_strcmp0_eq subsys (some "pcmcia".toList) = true
      ∨ g_strcmp0_eq subsys (some "pci".toList) = true
      ∨ g_strcmp0_eq subsys (some "platform".toList) = true
      ∨ g_strcmp0_eq subsys (some "pnp".toList) = true
      ∨ g_strcmp0_eq subsys (some "sdio".toList) = true then subsys
  else
    match ancestors with
    | [] => none
    | parent :: rest => find_device_bus_subsystem_loop parent rest

/-- Source `find_device_bus_subsystem (self)` of the udev backend. -/
def find_device_bus_subsystem (self : MMKernelDeviceUdev) : Option CStr :=
  match self.device with
  | none => none
  | some device => find_device_bus_subsystem_loop device.node device.ancestors

end Udev

end MMKernelDevice

namespace MMKernelDevice

/-! ## Definitions that follow the specification -/

/-- The glob of the specification, in its words: remove one leading `*` if present, then
    one trailing `*` if present, to obtain the core; with only a trailing `*` the string
    starts with the core, with only a leading `*` it ends with the core, with both it
    contains the core, with neither it equals the core. -/
def glob_match_spec (str pattern : CStr) : Prop :=
  let leading : Bool := pattern.head? == some '*'
  let rest : CStr := if leading then pattern.tail else pattern
  let trailing : Bool := rest.getLast? == some '*'
  let core : CStr := if trailing then rest.dropLast else rest
  match leading, trailing with
  | false, true => core <+: str
  | true, false => core <:+ str
  | true, true => core <:+: str
  | false, false => str = core

/-- The hexadecimal digit of a value below 16, lowercase. -/
def lower_hex_digit (d : Nat) : Char := "0123456789abcdef".toList.getD d '0'

/-- A value below 256 written with exactly two lowercase hexadecimal digits, the more
    significant one first. -/
def two_lower_hex_digits (n : Nat) : CStr := [lower_hex_digit (n / 16), lower_hex_digit (n % 16)]

/-- The value that the specification stores for `SetProperty{name, value}`: for the four
    attribute references the interface field as two lowercase hexadecimal digits, for
    any other value the value itself. -/
def property_value_spec (self : MMKernelDeviceGeneric) (value : CStr) : CStr :=
  if value = "$attr{bInterfaceClass}".toList then two_lower_hex_digits self.interface_class.val
  else if value = "$attr{bInterfaceSubClass}".toList then
    two_lower_hex_digits self.interface_subclass.val
  else if value = "$attr{bInterfaceProtocol}".toList then
    two_lower_hex_digits self.interface_protocol.val
  else if value = "$attr{bInterfaceNumber}".toList then
    two_lower_hex_digits self.interface_number.val
  else value

/-- The bus vocabulary of the specification. -/
def bus_vocabulary : List CStr :=
  ["usb".toList, "pcmcia".toList, "pci".toList, "platform".toList, "pnp".toList,
   "sdio".toList]

/-- The walk of the specification: the nodes from `path` upward through the parent
    directories, the starting node included and the root `/` excluded, at most `n` of
    them. -/
def walk_upward : Nat → CStr → List CStr
  | 0, _ => []
  | n + 1, path =>
    if path = "/".toList then [] else path :: walk_upward n (g_path_get_dirname path)

/-- All the nodes of the walk from `path` upward: each parent of an absolute path is
    shorter than its child, so there are fewer nodes than `path` has characters. -/
def nodes_upward (path : CStr) : List CStr := walk_upward path.length path

/-- The resolved `subsystem` basename of a node of the sysfs tree. -/
def node_subsystem (fs : Sysfs) (node : CStr) : Option CStr :=
  read_sysfs_attribute_link_basename fs (some node) "subsystem".toList

/-- The resolved `driver` basename of a node of the sysfs tree. -/
def node_driver (fs : Sysfs) (node : CStr) : Option CStr :=
  read_sysfs_attribute_link_basename fs (some node) "driver".toList

/-- Is the subsystem of a node one of the bus vocabulary. -/
def on_bus (subsystem : Option CStr) : Bool :=
  match subsystem with
  | none => false
  | some s => decide (s ∈ bus_vocabulary)

/-- The bus classifier of the specification: the subsystem of the nearest node of the
    walk whose subsystem is one of the bus vocabulary, none when there is no such
    node. -/
def bus_classifier_spec (fs : Sysfs) (path : CStr) : Option CStr :=
  ((nodes_upward path).find? (fun node => on_bus (node_subsystem fs node))).bind
    (node_subsystem fs)

/-- The bus classifier of the specification over the chain of a udev device. -/
def Udev.bus_classifier_spec (device : Udev.GUdevDevice) : Option CStr :=
  ((device.node :: device.ancestors).find? (fun node => on_bus node.subsystem)).bind
    (fun node => node.subsystem)

/-- The first-driver rule of the specification: the `driver` basename of the first of
    the nodes that has a driver link. -/
def first_driver_spec (fs : Sysfs) (nodes : List CStr) : Option CStr :=
  nodes.findSome? (node_driver fs)

/-- The classification of a record as the rule engine reads it: the rule table, the
    name, the sysfs path, the driver, the interface fields and the fields of the
    physical device. -/
def same_classification (a b : MMKernelDeviceGeneric) : Prop :=
  a.rules = b.rules
  ∧ kernel_device_get_name a = kernel_device_get_name b
  ∧ a.driver = b.driver
  ∧ a.sysfs_path = b.sysfs_path
  ∧ a.interface_sysfs_path = b.interface_sysfs_path
  ∧ a.interface_class = b.interface_class
  ∧ a.interface_subclass = b.interface_subclass
  ∧ a.interface_protocol = b.interface_protocol
  ∧ a.interface_number = b.interface_number
  ∧ a.interface_description = b.interface_description
  ∧ a.physdev_sysfs_path = b.physdev_sysfs_path
  ∧ a.physdev_vid = b.physdev_vid
  ∧ a.physdev_pid = b.physdev_pid
  ∧ a.physdev_revision = b.physdev_revision
  ∧ a.physdev_subsystem = b.physdev_subsystem
  ∧ a.physdev_manufacturer = b.physdev_manufacturer
  ∧ a.physdev_product = b.physdev_product

/-- The resolved device state of the specification: the rule table and the
    classification together with the property bag. -/
def same_device_state (a b : MMKernelDeviceGeneric) : Prop :=
  same_classification a b ∧ a.object_data = b.object_data

/-- A rule table none of whose conditions reads the property bag: no parameter starts
    with `ENV`. -/
def reads_no_property (rules : List MMUdevRule) : Prop :=
  ∀ rule ∈ rules, ∀ conditions, rule.conditions = some conditions →
    ∀ m ∈ conditions, g_str_has_prefix (some m.parameter) "ENV".toList = false

/-- A value below 65536 written with exactly four lowercase hexadecimal digits, the most
    significant one first. -/
def four_lower_hex_digits (n : Nat) : CStr :=
  [lower_hex_digit (n / 4096), lower_hex_digit (n / 256 % 16), lower_hex_digit (n / 16 % 16),
   lower_hex_digit (n % 16)]

/-- The absolute canonical path with the given components below the root: `/` when
    there is none, otherwise every component preceded by a slash. -/
def path_of_components (components : List CStr) : CStr :=
  match components with
  | [] => "/".toList
  | c :: rest => (c :: rest).flatMap (fun component => '/' :: component)

/-- A component of a canonical path: not empty and without a slash. -/
def is_path_component (component : CStr) : Prop := component ≠ [] ∧ '/' ∉ component

/-- The ancestors of a path, nearest first: what taking the parent directory `k` times
    gives, for `k` from 0 (the path itself) upward. -/
def ancestor (path : CStr) (k : Nat) : CStr := g_path_get_dirname^[k] path

/-- The record that the same event with another action (or none) would have made of
    a record: only the action that its event properties carry is replaced. -/
def with_event_action (action : Option CStr) (self : MMKernelDeviceGeneric) :
    MMKernelDeviceGeneric :=
  { self with properties := self.properties.map (fun p => { p with action := action }) }

/-! ## Records and rule tables used as concrete inputs -/

/-- The port of the specification's end-to-end scenario: a tty of interface 3 (class
    `0x0a`) of the USB device `1199:68a3`, bound to the driver `option`; no rules yet and
    an empty bag. -/
def port_ttyUSB0 : MMKernelDeviceGeneric :=
  { properties := some { action := some "add".toList, subsystem := some "tty".toList,
                         name := some "ttyUSB0".toList, uid := none },
    rules := some [],
    driver := some "option".toList,
    sysfs_path := some "/sys/devices/pci0000:00/usb1/1-1/1-1:1.3/ttyUSB0/tty/ttyUSB0".toList,
    interface_sysfs_path := some "/sys/devices/pci0000:00/usb1/1-1/1-1:1.3".toList,
    interface_class := 0x0a,
    interface_subclass := 0,
    interface_protocol := 0,
    interface_number := 3,
    interface_description := none,
    physdev_sysfs_path := some "/sys/devices/pci0000:00/usb1/1-1".toList,
    physdev_vid := 0x1199,
    physdev_pid := 0x68a3,
    physdev_revision := 0x0006,
    physdev_subsystem := some "usb".toList,
    physdev_manufacturer := some "Sierra Wireless, Incorporated".toList,
    physdev_product := some "MC8705".toList,
    object_data := [] }

/-- A sibling port of the same device, on interface 8 and bound to another driver. -/
def port_cdc_wdm0 : MMKernelDeviceGeneric :=
  { port_ttyUSB0 with
    properties := some { action := some "add".toList, subsystem := some "usbmisc".toList,
                         name := some "cdc-wdm0".toList, uid := none },
    driver := some "qmi_wwan".toList,
    sysfs_path := some "/sys/devices/pci0000:00/usb1/1-1/1-1:1.8/usbmisc/cdc-wdm0".toList,
    interface_sysfs_path := some "/sys/devices/pci0000:00/usb1/1-1/1-1:1.8".toList,
    interface_class := 0xff,
    interface_subclass := 0xff,
    interface_protocol := 0xff,
    interface_number := 8 }

/-- The condition `DRIVERS=="option"`. -/
def cond_drivers_option : MMUdevRuleMatch :=
  { type := .EQUAL, parameter := "DRIVERS".toList, value := "option".toList }

/-- The rule of the end-to-end scenario:
    `DRIVERS=="option"` sets `ID_MM_PORT_TYPE_AT` to `1`. -/
def rule_port_type_at : MMUdevRule :=
  { conditions := some [cond_drivers_option],
    result := .PROPERTY "ID_MM_PORT_TYPE_AT".toList "1".toList }

/-- A rule `DRIVERS=="option"` that jumps to index 3. -/
def rule_goto_3 : MMUdevRule :=
  { conditions := some [cond_drivers_option], result := .GOTO_INDEX 3 }

/-- The seven parameters that `check_condition` compares as whole strings. -/
def whole_parameters : List CStr :=
  ["ACTION".toList, "SUBSYSTEMS".toList, "SUBSYSTEM".toList, "DRIVER".toList,
   "DRIVERS".toList, "KERNEL".toList, "DEVPATH".toList]

/-- The ten attribute names that the `ATTRS` branch of `check_condition` recognises. -/
def recognised_attributes : List CStr :=
  ["idVendor".toList, "vendor".toList, "idProduct".toList, "device".toList,
   "manufacturer".toList, "product".toList, "bInterfaceClass".toList,
   "bInterfaceSubClass".toList, "bInterfaceProtocol".toList, "bInterfaceNumber".toList]

/-- An unrecognised condition, in the words of the specification: its parameter is none
    of the whole-string parameters and starts neither with `ATTRS` nor with `ENV`; or it
    is an `ATTRS` condition whose attribute name (the text after `ATTRS` with the braces
    blanked and the blanks stripped) is none of the ten recognised names. -/
def unrecognised_condition (c : MMUdevRuleMatch) : Prop :=
  (c.parameter ∉ whole_parameters ∧ ¬ "ATTRS".toList <+: c.parameter
      ∧ ¬ "ENV".toList <+: c.parameter)
  ∨ ∃ rest, c.parameter = "ATTRS".toList ++ rest
      ∧ g_strstrip (g_strdelimit rest "{}".toList ' ') ∉ recognised_attributes

/-- The scenario port as an event with action `change` delivers it. -/
def port_ttyUSB0_change : MMKernelDeviceGeneric :=
  { port_ttyUSB0 with
    properties := some { action := some "change".toList, subsystem := some "tty".toList,
                         name := some "ttyUSB0".toList, uid := none } }

/-- The scenario port as an event without any action delivers it. -/
def port_ttyUSB0_no_action : MMKernelDeviceGeneric :=
  { port_ttyUSB0 with
    properties := some { action := none, subsystem := some "tty".toList,
                         name := some "ttyUSB0".toList, uid := none } }

/-- The scenario port as a `remove` event delivers it, with a rule table whose only rule
    jumps. -/
def port_ttyUSB0_remove : MMKernelDeviceGeneric :=
  { port_ttyUSB0 with
    properties := some { action := some "remove".toList, subsystem := some "tty".toList,
                         name := some "ttyUSB0".toList, uid := none },
    rules := some [rule_goto_3] }

/-- A file system in which no path exists. -/
def empty_sysfs : Sysfs :=
  { realpath := fun _ => none,
    file_test_exists := fun _ => false,
    file_get_contents := fun _ => none }

/-- An `add` event for the tty `ttyUSB9`. -/
def event_ttyUSB9 : MMKernelEventProperties :=
  { action := some "add".toList, subsystem := some "tty".toList,
    name := some "ttyUSB9".toList, uid := none }

/-- An `add` event of the subsystem `tty` that carries no name. -/
def event_without_name : MMKernelEventProperties :=
  { action := some "add".toList, subsystem := some "tty".toList, name := none, uid := none }

/-- A `remove` event for the tty `ttyUSB0`. -/
def event_remove_ttyUSB0 : MMKernelEventProperties :=
  { action := some "remove".toList, subsystem := some "tty".toList,
    name := some "ttyUSB0".toList, uid := none }

/-- A rule with the condition `KERNEL=="ttyUSB0"`. -/
def rule_kernel_ttyUSB0 : MMUdevRule :=
  { conditions := some [⟨.EQUAL, "KERNEL".toList, "ttyUSB0".toList⟩],
    result := .PROPERTY "ID_MM_PORT_TYPE_AT".toList "1".toList }

/-- A file system that holds the one node `/sys/devices/virtual/tty/ttyUSB9`, which
    `/sys/class/tty/ttyUSB9` links to, without any attribute. -/
def sysfs_ttyUSB9 : Sysfs :=
  { realpath := fun path =>
      if path = "/sys/class/tty/ttyUSB9".toList ∨ path = "/sys/devices/virtual/tty/ttyUSB9".toList
      then some "/sys/devices/virtual/tty/ttyUSB9".toList else none,
    file_test_exists := fun path =>
      decide (path = "/sys/class/tty/ttyUSB9".toList
        ∨ path = "/sys/devices/virtual/tty/ttyUSB9".toList),
    file_get_contents := fun _ => none }

/-- A udev device of the scenario: the USB device `1-1`, with `ID_MM_DEVICE_IGNORE` set
    to `phys`. -/
def Udev.usb_device_1_1 : Udev.GUdevDevice :=
  { node := { subsystem := some "usb".toList, name := "1-1".toList,
              sysfs_path := "/sys/devices/pci0000:00/usb1/1-1".toList,
              devtype := some "usb_device".toList, driver := some "usb".toList,
              properties := [("ID_MM_DEVICE_IGNORE".toList, "phys".toList)],
              sysfs_attrs := [] },
    ancestors := [] }

/-- The tty of the scenario as a udev device, with `ID_MM_DEVICE_IGNORE` set to `port`. -/
def Udev.tty_device_ttyUSB0 : Udev.GUdevDevice :=
  { node := { subsystem := some "tty".toList, name := "ttyUSB0".toList,
              sysfs_path :=
                "/sys/devices/pci0000:00/usb1/1-1/1-1:1.3/ttyUSB0/tty/ttyUSB0".toList,
              devtype := none, driver := none,
              properties := [("ID_MM_DEVICE_IGNORE".toList, "port".toList)],
              sysfs_attrs := [] },
    ancestors := [Udev.usb_device_1_1.node] }

/-- The record of the udev backend for that tty, its physical device resolved. -/
def Udev.port_ttyUSB0 : Udev.MMKernelDeviceUdev :=
  { device := some Udev.tty_device_ttyUSB0,
    interface := none,
    physdev := some Udev.usb_device_1_1,
    vendor := 0x1199,
    product := 0x68a3,
    revision := 0x0006,
    driver := some "option".toList,
    properties := none }

/-- A sysfs tree given by its symbolic links (path and canonical target), its attribute
    files (path and contents) and its directories: `realpath` follows a link and leaves
    any other existing path as it is. -/
def sysfs_of (links files : List (CStr × CStr)) (dirs : List CStr) : Sysfs :=
  { realpath := fun path =>
      match links.lookup path with
      | some target => some target
      | none => if (files.lookup path).isSome ∨ path ∈ dirs then some path else none,
    file_test_exists := fun path =>
      (links.lookup path).isSome || (files.lookup path).isSome || decide (path ∈ dirs),
    file_get_contents := fun path => files.lookup path }

/-- The sysfs tree of the end-to-end scenario: the tty `ttyUSB0` on interface 3 (class
    `0x0a`) of the USB device `1199:68a3`. The usb-serial port is bound to `option1`,
    the interface to `option` and the device to `usb`. -/
def sysfs_usb_modem : Sysfs :=
  sysfs_of
    [("/sys/class/tty/ttyUSB0".toList,
        "/sys/devices/pci0000:00/usb1/1-1/1-1:1.3/ttyUSB0/tty/ttyUSB0".toList),
     ("/sys/devices/pci0000:00/usb1/1-1/1-1:1.3/ttyUSB0/tty/ttyUSB0/subsystem".toList,
        "/sys/class/tty".toList),
     ("/sys/devices/pci0000:00/usb1/1-1/1-1:1.3/ttyUSB0/subsystem".toList,
        "/sys/bus/usb-serial".toList),
     ("/sys/devices/pci0000:00/usb1/1-1/1-1:1.3/ttyUSB0/driver".toList,
        "/sys/bus/usb-serial/drivers/option1".toList),
     ("/sys/devices/pci0000:00/usb1/1-1/1-1:1.3/subsystem".toList, "/sys/bus/usb".toList),
     ("/sys/devices/pci0000:00/usb1/1-1/1-1:1.3/driver".toList,
        "/sys/bus/usb/drivers/option".toList),
     ("/sys/devices/pci0000:00/usb1/1-1/subsystem".toList, "/sys/bus/usb".toList),
     ("/sys/devices/pci0000:00/usb1/1-1/driver".toList, "/sys/bus/usb/drivers/usb".toList)]
    [("/sys/devices/pci0000:00/usb1/1-1/1-1:1.3/bInterfaceClass".toList, "0a\n".toList),
     ("/sys/devices/pci0000:00/usb1/1-1/1-1:1.3/bInterfaceSubClass".toList, "00\n".toList),
     ("/sys/devices/pci0000:00/usb1/1-1/1-1:1.3/bInterfaceProtocol".toList, "00\n".toList),
     ("/sys/devices/pci0000:00/usb1/1-1/1-1:1.3/bInterfaceNumber".toList, "03\n".toList),
     ("/sys/devices/pci0000:00/usb1/1-1/idVendor".toList, "1199\n".toList),
     ("/sys/devices/pci0000:00/usb1/1-1/idProduct".toList, "68a3\n".toList),
     ("/sys/devices/pci0000:00/usb1/1-1/bcdDevice".toList, "0006\n".toList),
     ("/sys/devices/pci0000:00/usb1/1-1/manufacturer".toList,
        "Sierra Wireless, Incorporated\n".toList),
     ("/sys/devices/pci0000:00/usb1/1-1/product".toList, "MC8705\n".toList)]
    ["/sys/devices/pci0000:00/usb1/1-1/1-1:1.3/ttyUSB0/tty/ttyUSB0".toList]

/-- The `add` event of the tty `ttyUSB0`. -/
def event_ttyUSB0 : MMKernelEventProperties :=
  { action := some "add".toList, subsystem := some "tty".toList,
    name := some "ttyUSB0".toList, uid := none }

/-- The sysfs tree of a PCI modem: the port `wwan0at0` of the subsystem `wwan` below the
    PCI device `0000:02:00.0` (`8086:7360`, revision `01`), which is bound to `iosm`. -/
def sysfs_pci_modem : Sysfs :=
  sysfs_of
    [("/sys/class/wwan/wwan0at0".toList,
        "/sys/devices/pci0000:00/0000:02:00.0/wwan/wwan0/wwan0at0".toList),
     ("/sys/devices/pci0000:00/0000:02:00.0/wwan/wwan0/wwan0at0/subsystem".toList,
        "/sys/class/wwan".toList),
     ("/sys/devices/pci0000:00/0000:02:00.0/wwan/wwan0/subsystem".toList,
        "/sys/class/wwan".toList),
     ("/sys/devices/pci0000:00/0000:02:00.0/subsystem".toList, "/sys/bus/pci".toList),
     ("/sys/devices/pci0000:00/0000:02:00.0/driver".toList,
        "/sys/bus/pci/drivers/iosm".toList)]
    [("/sys/devices/pci0000:00/0000:02:00.0/vendor".toList, "0x8086\n".toList),
     ("/sys/devices/pci0000:00/0000:02:00.0/device".toList, "0x7360\n".toList),
     ("/sys/devices/pci0000:00/0000:02:00.0/revision".toList, "0x01\n".toList)]
    ["/sys/devices/pci0000:00/0000:02:00.0/wwan/wwan0/wwan0at0".toList]

/-- The `add` event of the port `wwan0at0`. -/
def event_wwan0at0 : MMKernelEventProperties :=
  { action := some "add".toList, subsystem := some "wwan".toList,
    name := some "wwan0at0".toList, uid := none }

/-- The sysfs tree of a PCMCIA serial card: the tty `ttyS1` below the PCMCIA device
    `0.0` (bound to `serial_cs`), which sits in the CardBus bridge `0000:02:00.0` of
    the subsystem `pci`. -/
def sysfs_pcmcia_modem : Sysfs :=
  sysfs_of
    [("/sys/class/tty/ttyS1".toList,
        "/sys/devices/pci0000:00/0000:02:00.0/0.0/tty/ttyS1".toList),
     ("/sys/devices/pci0000:00/0000:02:00.0/0.0/tty/ttyS1/subsystem".toList,
        "/sys/class/tty".toList),
     ("/sys/devices/pci0000:00/0000:02:00.0/0.0/subsystem".toList, "/sys/bus/pcmcia".toList),
     ("/sys/devices/pci0000:00/0000:02:00.0/0.0/driver".toList,
        "/sys/bus/pcmcia/drivers/serial_cs".toList),
     ("/sys/devices/pci0000:00/0000:02:00.0/subsystem".toList, "/sys/bus/pci".toList),
     ("/sys/devices/pci0000:00/0000:02:00.0/driver".toList,
        "/sys/bus/pci/drivers/yenta_cardbus".toList)]
    [("/sys/devices/pci0000:00/0000:02:00.0/0.0/manf_id".toList, "0x0137\n".toList),
     ("/sys/devices/pci0000:00/0000:02:00.0/0.0/card_id".toList, "0x000e\n".toList),
     ("/sys/devices/pci0000:00/0000:02:00.0/vendor".toList, "0x1180\n".toList),
     ("/sys/devices/pci0000:00/0000:02:00.0/device".toList, "0x0476\n".toList)]
    ["/sys/devices/pci0000:00/0000:02:00.0/0.0/tty/ttyS1".toList]

/-- The `add` event of the tty `ttyS1`. -/
def event_ttyS1 : MMKernelEventProperties :=
  { action := some "add".toList, subsystem := some "tty".toList,
    name := some "ttyS1".toList, uid := none }

/-- The sysfs tree of a platform UART: the tty `ttymxc0` below the platform device
    `2100000.serial`, which is bound to `imx-uart`. -/
def sysfs_platform_modem : Sysfs :=
  sysfs_of
    [("/sys/class/tty/ttymxc0".toList,
        "/sys/devices/platform/soc/2100000.serial/tty/ttymxc0".toList),
     ("/sys/devices/platform/soc/2100000.serial/tty/ttymxc0/subsystem".toList,
        "/sys/class/tty".toList),
     ("/sys/devices/platform/soc/2100000.serial/subsystem".toList,
        "/sys/bus/platform".toList),
     ("/sys/devices/platform/soc/2100000.serial/driver".toList,
        "/sys/bus/platform/drivers/imx-uart".toList),
     ("/sys/devices/platform/soc/subsystem".toList, "/sys/bus/platform".toList)]
    []
    ["/sys/devices/platform/soc/2100000.serial/tty/ttymxc0".toList]

/-- The `add` event of the tty `ttymxc0`. -/
def event_ttymxc0 : MMKernelEventProperties :=
  { action := some "add".toList, subsystem := some "tty".toList,
    name := some "ttymxc0".toList, uid := none }

/-- The tty `ttyUSB0` after a rename: its udev device carries the marker `DEVPATH_OLD`
    with the path it had as `ttyUSB3`. -/
def Udev.port_ttyUSB0_renamed : Udev.MMKernelDeviceUdev :=
  { Udev.port_ttyUSB0 with
    device := some { Udev.tty_device_ttyUSB0 with
      node := { Udev.tty_device_ttyUSB0.node with
        properties :=
          [("DEVPATH_OLD".toList,
            "/devices/pci0000:00/usb1/1-1/1-1:1.3/ttyUSB3/tty/ttyUSB3".toList)] } } }

/-- The tty `ttyUSB3` before the rename. -/
def Udev.port_ttyUSB3 : Udev.MMKernelDeviceUdev :=
  { Udev.port_ttyUSB0 with
    device := some { Udev.tty_device_ttyUSB0 with
      node := { Udev.tty_device_ttyUSB0.node with
        name := "ttyUSB3".toList,
        sysfs_path := "/sys/devices/pci0000:00/usb1/1-1/1-1:1.3/ttyUSB3/tty/ttyUSB3".toList,
        properties := [] } } }

/-- The tty `ttyUSB0` as a record of the udev backend made from the event alone,
    without a device handle. -/
def Udev.port_ttyUSB0_event_only : Udev.MMKernelDeviceUdev :=
  Udev.mm_kernel_device_udev_init none (some event_ttyUSB0)

/-- A rule table that tests a property before a later rule sets it:
    `ENV{ID_MM_CANDIDATE}=="1"` sets `ID_MM_PORT_TYPE_AT` to `1`, and the next rule sets
    `ID_MM_CANDIDATE` to `1` unconditionally. -/
def rules_test_before_set : List MMUdevRule :=
  [{ conditions := some [⟨.EQUAL, "ENV{ID_MM_CANDIDATE}".toList, "1".toList⟩],
     result := .PROPERTY "ID_MM_PORT_TYPE_AT".toList "1".toList },
   { conditions := some [], result := .PROPERTY "ID_MM_CANDIDATE".toList "1".toList }]

/-- The scenario port with the rule of the end-to-end scenario as its table. -/
def port_ttyUSB0_with_rule : MMKernelDeviceGeneric :=
  { port_ttyUSB0 with rules := some [rule_port_type_at] }

/-- The same port with the same table, delivered by a `change` event that carries a
    unique id. -/
def port_ttyUSB0_change_with_rule : MMKernelDeviceGeneric :=
  { port_ttyUSB0 with
    properties := some { action := some "change".toList, subsystem := some "usb".toList,
                         name := some "ttyUSB0".toList, uid := some "modem0".toList },
    rules := some [rule_port_type_at] }

/-- The table whose only rule is an unconditional jump to itself. -/
def rules_self_jump : List MMUdevRule :=
  [{ conditions := none, result := .GOTO_INDEX 0 }]

/-- A table with a backward jump: the first rule sets `ID_MM_CANDIDATE` to `1`, and the
    second one jumps back to it; neither has a condition. -/
def rules_backward_jump : List MMUdevRule :=
  [{ conditions := some [], result := .PROPERTY "ID_MM_CANDIDATE".toList "1".toList },
   { conditions := some [], result := .GOTO_INDEX 0 }]

/-- A table whose jumps all go forward: `DRIVERS=="option"` jumps over the second rule
    to the label at index 2, a rule sets `ID_MM_PORT_TYPE_AT`, and the last rule jumps
    out of the table. -/
def rules_forward_jumps : List MMUdevRule :=
  [{ conditions := some [cond_drivers_option], result := .GOTO_INDEX 2 },
   { conditions := some [], result := .PROPERTY "ID_MM_CANDIDATE".toList "1".toList },
   { conditions := none, result := .LABEL },
   rule_port_type_at,
   { conditions := some [], result := .GOTO_INDEX 7 }]

/-- A file system in which the only path is a `subsystem` link of the root. -/
def sysfs_root_link : Sysfs :=
  sysfs_of [("//subsystem".toList, "/sys/bus/usb".toList)] [] []

/-- A sysfs tree in which no node above the PCMCIA device has a subsystem: the tty
    `ttyS1` below the PCMCIA device `/sys/devices/pcmcia_socket0/0.0`. -/
def sysfs_pcmcia_top : Sysfs :=
  sysfs_of
    [("/sys/class/tty/ttyS1".toList, "/sys/devices/pcmcia_socket0/0.0/tty/ttyS1".toList),
     ("/sys/devices/pcmcia_socket0/0.0/subsystem".toList, "/sys/bus/pcmcia".toList)]
    []
    ["/sys/devices/pcmcia_socket0/0.0/tty/ttyS1".toList]

/-- The same tree with one entry more, a `subsystem` link of the root directory. -/
def sysfs_pcmcia_top_root_link : Sysfs :=
  sysfs_of
    [("//subsystem".toList, "/sys/bus/platform".toList),
     ("/sys/class/tty/ttyS1".toList, "/sys/devices/pcmcia_socket0/0.0/tty/ttyS1".toList),
     ("/sys/devices/pcmcia_socket0/0.0/subsystem".toList, "/sys/bus/pcmcia".toList)]
    []
    ["/sys/devices/pcmcia_socket0/0.0/tty/ttyS1".toList]

/-- A sysfs tree in which the USB interface node exposes `idVendor` as well: the tty
    `ttyUSB0` below the node `1-1:1.0`, which exposes `bInterfaceClass` and `idVendor`
    (`1199`), below the USB device `1-1`, which exposes `idVendor` (`2c7c`). -/
def sysfs_usb_both : Sysfs :=
  sysfs_of
    [("/sys/class/tty/ttyUSB0".toList, "/sys/devices/usb1/1-1/1-1:1.0/ttyUSB0".toList)]
    [("/sys/devices/usb1/1-1/1-1:1.0/bInterfaceClass".toList, "ff\n".toList),
     ("/sys/devices/usb1/1-1/1-1:1.0/idVendor".toList, "1199\n".toList),
     ("/sys/devices/usb1/1-1/idVendor".toList, "2c7c\n".toList)]
    ["/sys/devices/usb1/1-1/1-1:1.0/ttyUSB0".toList]

/-- A rule `ACTION=="add"` that sets `ID_MM_CANDIDATE` to `1`. -/
def rule_action_add : MMUdevRule :=
  { conditions := some [⟨.EQUAL, "ACTION".toList, "add".toList⟩],
    result := .PROPERTY "ID_MM_CANDIDATE".toList "1".toList }

end MMKernelDevice

namespace MMKernelDevice

/-! ## Predicates used to state what loading a record leaves unchanged -/

/-- What the loops of the preload leave untouched: the event properties, the rule table
    and the sysfs path of the record. -/
def PreloadFrame (a b : MMKernelDeviceGeneric) : Prop :=
  b.properties = a.properties ∧ b.rules = a.rules ∧ b.sysfs_path = a.sysfs_path

/-- What the preload as a whole guarantees: the event properties and the rule table are
    untouched, and a record that had no sysfs path gets none or one that `realpath`
    returned. -/
def PreloadResult (fs : Sysfs) (a b : MMKernelDeviceGeneric) : Prop :=
  b.properties = a.properties ∧ b.rules = a.rules
  ∧ (a.sysfs_path = none → ∀ p, b.sysfs_path = some p → ∃ q, fs.realpath q = some p)

/-- Two records that differ at most in their property bag. -/
def SameButBag (a b : MMKernelDeviceGeneric) : Prop :=
  { b with object_data := a.object_data } = a

/-- A condition whose evaluation cannot fault on a record with the given name: a
    `KERNEL` condition needs a name and a non-empty pattern (`string_match` reads the
    name and indexes the pattern), a `DEVPATH` condition a non-empty pattern. -/
def condition_well_formed (name : Option CStr) (c : MMUdevRuleMatch) : Prop :=
  (c.parameter = "KERNEL".toList → name ≠ none ∧ c.value ≠ [])
  ∧ (c.parameter = "DEVPATH".toList → c.value ≠ [])

/-- A rule table all of whose results are of the three kinds of the specification:
    SetProperty, Label and GotoIndex. -/
def results_of_three_kinds (rules : List MMUdevRule) : Prop :=
  ∀ rule ∈ rules, rule.result = .LABEL ∨ (∃ index, rule.result = .GOTO_INDEX index)
    ∨ ∃ name value, rule.result = .PROPERTY name value

/-- A property bag after a sequence of writes, each of a name and a value, applied in
    order. -/
def datalist_set_all (bag : List (CStr × CStr)) (writes : List (CStr × CStr)) :
    List (CStr × CStr) :=
  writes.foldl (fun b w => datalist_set b w.1 w.2) bag

/-- Where a resolver has put the interface and the physical device of the record
    `loaded` that it made of the record `s`: both are nodes of the walk upward from the
    sysfs path of `s`, which the resolver leaves as it is, and the interface comes
    before the physical device on that walk. -/
def ResolvedOnWalk (fuel : Nat) (s loaded : MMKernelDeviceGeneric) : Prop :=
  loaded.sysfs_path = s.sysfs_path
  ∧ (∀ p, loaded.physdev_sysfs_path = some p →
      ∃ path pre post, s.sysfs_path = some path ∧ walk_upward fuel path = pre ++ p :: post
        ∧ ∀ i, loaded.interface_sysfs_path = some i → i ∈ pre)
  ∧ (∀ i, loaded.interface_sysfs_path = some i →
      ∃ path pre post, s.sysfs_path = some path ∧ walk_upward fuel path = pre ++ i :: post)

/-- Two file systems that show the same attributes at a node: the same answers of
    `g_file_test`, `realpath` and `g_file_get_contents` for every path made of the node,
    a slash and an attribute name, which is a name without a slash. Nothing is asked of
    what lies deeper below the node, nor of any other directory. -/
def same_attributes (fs1 fs2 : Sysfs) (node : CStr) : Prop :=
  ∀ attr : CStr, is_path_component attr →
    fs1.file_test_exists (node ++ "/".toList ++ attr)
      = fs2.file_test_exists (node ++ "/".toList ++ attr)
    ∧ fs1.realpath (node ++ "/".toList ++ attr) = fs2.realpath (node ++ "/".toList ++ attr)
    ∧ fs1.file_get_contents (node ++ "/".toList ++ attr)
      = fs2.file_get_contents (node ++ "/".toList ++ attr)

/-! ## Helper lemmas -/

theorem strstr_iff_contains (haystack needle : CStr) :
    strstr haystack needle = true ↔ needle <:+: haystack := by
  induction haystack with
  | nil =>
    simp [strstr, List.isPrefixOf_iff_prefix]
  | cons c cs ih =>
    simp only [strstr, Bool.or_eq_true, List.isPrefixOf_iff_prefix, ih]
    rw [List.infix_cons_iff]

theorem strstr_nil (haystack : CStr) : strstr haystack [] = true := by
  rw [strstr_iff_contains]; exact List.nil_infix

theorem datalist_lookup_set_same (bag : List (CStr × CStr)) (key data : CStr) :
    (datalist_set bag key data).lookup key = some data := by
  induction bag with
  | nil => simp [datalist_set, List.lookup]
  | cons kd rest ih =>
    obtain ⟨k, d⟩ := kd
    by_cases h : k = key
    · simp [datalist_set, h, List.lookup]
    · have h2 : (key == k) = false := by simpa using fun e => h e.symm
      simp [datalist_set, h, List.lookup, h2, ih]

theorem datalist_lookup_set_other (bag : List (CStr × CStr)) (key data other : CStr)
    (hne : other ≠ key) :
    (datalist_set bag key data).lookup other = bag.lookup other := by
  induction bag with
  | nil =>
    have h2 : (other == key) = false := by simpa using hne
    simp [datalist_set, List.lookup, h2]
  | cons kd rest ih =>
    obtain ⟨k, d⟩ := kd
    by_cases h : k = key
    · subst h
      have h2 : (other == k) = false := by simpa using hne
      simp [datalist_set, List.lookup, h2]
    · by_cases h3 : other = k
      · subst h3
        simp [datalist_set, h, List.lookup]
      · have h4 : (other == k) = false := by simpa using h3
        simp [datalist_set, h, List.lookup, h4, ih]

theorem get_data_set_data_same (self : MMKernelDeviceGeneric) (key data : CStr) :
    g_object_get_data (g_object_set_data self key data) key = some data := by
  simp [g_object_get_data, g_object_set_data, datalist_lookup_set_same]

theorem get_data_set_data_other (self : MMKernelDeviceGeneric) (key data other : CStr)
    (hne : other ≠ key) :
    g_object_get_data (g_object_set_data self key data) other
      = g_object_get_data self other := by
  simp [g_object_get_data, g_object_set_data, datalist_lookup_set_other _ _ _ _ hne]

/-- What `string_match` computes on a non-`NULL` string and a non-empty pattern that
    begins with `*`. -/
theorem string_match_star (s rest : CStr) :
    string_match (some s) ('*' :: rest) =
      .ok (if rest.getLast? = some '*' then strstr s rest.dropLast
           else if rest = [] then true else rest.isSuffixOf s) := by
  cases rest with
  | nil => simp [string_match, strstr_nil]
  | cons d ds =>
    have h1 : (d :: ds)[ds.length]? = (d :: ds).getLast? := by
      rw [List.getLast?_eq_getElem?]; simp
    have h2 : List.take ds.length (d :: ds) = (d :: ds).dropLast := by
      rw [List.dropLast_eq_take]; simp
    have h3 : ((d :: ds)[ds.length] = '*') ↔ (d :: ds).getLast? = some '*' := by
      rw [← h1]; simp
    by_cases hl : (d :: ds).getLast? = some '*'
    · simp [string_match, Nat.add_comm 1, h3, h2, hl]
    · simp [string_match, Nat.add_comm 1, h3, hl, g_str_has_suffix]

/-- What `string_match` computes on a non-`NULL` string and a non-empty pattern that
    does not begin with `*`. -/
theorem string_match_plain (s : CStr) (c : Char) (rest : CStr) (hc : c ≠ '*') :
    string_match (some s) (c :: rest) =
      .ok (if (c :: rest).getLast? = some '*' then (c :: rest).dropLast.isPrefixOf s
           else decide (s = c :: rest)) := by
  have h1 : (c :: rest)[rest.length]? = (c :: rest).getLast? := by
    rw [List.getLast?_eq_getElem?]; simp
  have h2 : List.take rest.length (c :: rest) = (c :: rest).dropLast := by
    rw [List.dropLast_eq_take]; simp
  have h3 : ((c :: rest)[rest.length] = '*') ↔ (c :: rest).getLast? = some '*' := by
    rw [← h1]; simp
  by_cases hl : (c :: rest).getLast? = some '*'
  · simp [string_match, hc, h3, h2, hl, g_str_has_prefix]
  · simp [string_match, hc, h3, hl, g_str_equal]

theorem check_conditions_all_hold (self : MMKernelDeviceGeneric) (cs : List MMUdevRuleMatch)
    (hall : ∀ c ∈ cs, check_condition self c = .ok true) :
    check_conditions self cs = .ok true := by
  induction cs with
  | nil => rfl
  | cons c rest ih =>
    have hc := hall c (List.mem_cons_self c rest)
    simp only [check_conditions, hc]
    exact ih (fun c1 h1 => hall c1 (List.mem_cons_of_mem c h1))

theorem check_conditions_first_fails (self : MMKernelDeviceGeneric)
    (pre : List MMUdevRuleMatch) (c : MMUdevRuleMatch) (post : List MMUdevRuleMatch)
    (hpre : ∀ c1 ∈ pre, check_condition self c1 = .ok true)
    (hc : check_condition self c = .ok false) :
    check_conditions self (pre ++ c :: post) = .ok false := by
  induction pre with
  | nil => simp [check_conditions, hc]
  | cons p rest ih =>
    have hp := hpre p (List.mem_cons_self p rest)
    simp only [List.cons_append, check_conditions, hp]
    exact ih (fun c1 h1 => hpre c1 (List.mem_cons_of_mem p h1))

/-- The `apply` flag of `check_rule` when every condition of the rule holds. -/
theorem rule_conditions_all_hold (self : MMKernelDeviceGeneric) (rule : MMUdevRule)
    (hall : ∀ c ∈ rule.conditions.getD [], check_condition self c = .ok true) :
    (match rule.conditions with
     | none => Except.ok true
     | some conditions => check_conditions self conditions) = .ok true := by
  cases hcs : rule.conditions with
  | none => rfl
  | some cs =>
    rw [hcs] at hall
    exact check_conditions_all_hold self cs hall

set_option maxRecDepth 100000 in
theorem printf_02x_eq_two_digits (n : Fin 256) :
    printf_0x 2 n.val = two_lower_hex_digits n.val := by
  revert n
  decide

/-- The DRIVER and DRIVERS branch of `check_condition`. -/
theorem check_condition_driver (self : MMKernelDeviceGeneric) (t : MMUdevRuleMatchType)
    (d : CStr) :
    check_condition self ⟨t, "DRIVER".toList, d⟩
      = .ok (decide (some d = self.driver) == decide (t = .EQUAL))
    ∧ check_condition self ⟨t, "DRIVERS".toList, d⟩
      = .ok (decide (some d = self.driver) == decide (t = .EQUAL)) := by
  constructor <;> rfl

/-- A call of `check_rule` changes at most the data attached to the object. -/
theorem check_rule_result_cases (self : MMKernelDeviceGeneric) (i next : Nat)
    (self1 : MMKernelDeviceGeneric) (h : check_rule self i = .ok (next, self1)) :
    self1 = self ∨ ∃ name data, self1 = g_object_set_data self name data := by
  unfold check_rule at h
  split at h
  · cases h
  · split at h
    · cases h
    · split at h
      · cases h
      · simp only [Except.ok.injEq, Prod.mk.injEq] at h
        exact Or.inl h.2.symm
      · split at h
        · dsimp only at h
          split at h <;> simp only [Except.ok.injEq, Prod.mk.injEq] at h <;>
            exact Or.inr ⟨_, _, h.2.symm⟩
        · simp only [Except.ok.injEq, Prod.mk.injEq] at h
          exact Or.inl h.2.symm
        · simp only [Except.ok.injEq, Prod.mk.injEq] at h
          exact Or.inl h.2.symm
        · cases h
        · cases h

theorem check_rule_keeps_rules (self : MMKernelDeviceGeneric) (i next : Nat)
    (self1 : MMKernelDeviceGeneric) (h : check_rule self i = .ok (next, self1)) :
    self1.rules = self.rules := by
  rcases check_rule_result_cases self i next self1 h with h1 | ⟨name, data, h1⟩
  · rw [h1]
  · rw [h1]; rfl

/-- One step of `check_rule` on a SetProperty rule whose conditions all hold. -/
theorem check_rule_property_step (self : MMKernelDeviceGeneric) (rules : List MMUdevRule)
    (i : Nat) (rule : MMUdevRule) (name value : CStr)
    (hrules : self.rules = some rules) (hrule : rules[i]? = some rule)
    (hres : rule.result = .PROPERTY name value)
    (hall : ∀ c ∈ rule.conditions.getD [], check_condition self c = .ok true) :
    check_rule self i
      = .ok (i + 1, g_object_set_data self name (property_value_spec self value)) := by
  simp only [check_rule, hrules, hrule, rule_conditions_all_hold self rule hall, hres]
  unfold property_value_spec
  split_ifs <;> simp only [printf_02x_eq_two_digits]

/-- One step of `check_rule` on a rule with a failing condition. -/
theorem check_rule_failing_step (self : MMKernelDeviceGeneric) (rules : List MMUdevRule)
    (i : Nat) (rule : MMUdevRule) (pre : List MMUdevRuleMatch) (c : MMUdevRuleMatch)
    (post : List MMUdevRuleMatch)
    (hrules : self.rules = some rules) (hrule : rules[i]? = some rule)
    (hcs : rule.conditions = some (pre ++ c :: post))
    (hpre : ∀ c1 ∈ pre, check_condition self c1 = .ok true)
    (hc : check_condition self c = .ok false) :
    check_rule self i = .ok (i + 1, self) := by
  simp only [check_rule, hrules, hrule, hcs,
    check_conditions_first_fails self pre c post hpre hc]

/-- The loop of `preload_rule_properties` ends at once at an index that is not below
    the table length. -/
theorem preload_rule_properties_loop_done (fuel : Nat) (self : MMKernelDeviceGeneric)
    (rules : List MMUdevRule) (i : Nat)
    (hrules : self.rules = some rules) (hi : rules.length ≤ i) :
    preload_rule_properties_loop fuel self i = .ok (some self) := by
  have hlt : ¬ i < rules.length := Nat.not_lt.mpr hi
  cases fuel <;> simp [preload_rule_properties_loop, hrules, hlt]

/-- One iteration of the loop of `preload_rule_properties`. -/
theorem preload_rule_properties_loop_step (fuel : Nat) (self : MMKernelDeviceGeneric)
    (rules : List MMUdevRule) (i next : Nat) (self1 : MMKernelDeviceGeneric)
    (hrules : self.rules = some rules) (hi : i < rules.length)
    (hstep : check_rule self i = .ok (next, self1)) :
    preload_rule_properties_loop (fuel + 1) self i
      = preload_rule_properties_loop fuel self1 next := by
  simp [preload_rule_properties_loop, hrules, hi, hstep]

theorem check_condition_subsystem (self : MMKernelDeviceGeneric) (t : MMUdevRuleMatchType)
    (value : CStr) :
    check_condition self ⟨t, "SUBSYSTEM".toList, value⟩
      = .ok ((match self.sysfs_path with
              | none => false
              | some p => strstr p value) == decide (t = .EQUAL))
    ∧ check_condition self ⟨t, "SUBSYSTEMS".toList, value⟩
      = .ok ((match self.sysfs_path with
              | none => false
              | some p => strstr p value) == decide (t = .EQUAL)) :=
  ⟨rfl, rfl⟩

theorem check_condition_attrs_vendor (self : MMKernelDeviceGeneric) (t : MMUdevRuleMatchType)
    (value : CStr) :
    check_condition self ⟨t, "ATTRS{idVendor}".toList, value⟩
      = .ok (match mm_get_uint_from_hex_str value with
             | none => false
             | some val => decide (self.physdev_vid.val = val) == decide (t = .EQUAL))
    ∧ check_condition self ⟨t, "ATTRS{vendor}".toList, value⟩
      = .ok (match mm_get_uint_from_hex_str value with
             | none => false
             | some val => decide (self.physdev_vid.val = val) == decide (t = .EQUAL)) :=
  ⟨rfl, rfl⟩

theorem check_condition_attrs_product (self : MMKernelDeviceGeneric) (t : MMUdevRuleMatchType)
    (value : CStr) :
    check_condition self ⟨t, "ATTRS{idProduct}".toList, value⟩
      = .ok (match mm_get_uint_from_hex_str value with
             | none => false
             | some val => decide (self.physdev_pid.val = val) == decide (t = .EQUAL))
    ∧ check_condition self ⟨t, "ATTRS{device}".toList, value⟩
      = .ok (match mm_get_uint_from_hex_str value with
             | none => false
             | some val => decide (self.physdev_pid.val = val) == decide (t = .EQUAL)) :=
  ⟨rfl, rfl⟩

theorem check_condition_attrs_interface (self : MMKernelDeviceGeneric)
    (t : MMUdevRuleMatchType) (value : CStr) :
    check_condition self ⟨t, "ATTRS{bInterfaceClass}".toList, value⟩
      = .ok (g_str_equal value "?*".toList ||
             (match mm_get_uint_from_hex_str value with
              | none => false
              | some val => decide (self.interface_class.val = val) == decide (t = .EQUAL)))
    ∧ check_condition self ⟨t, "ATTRS{bInterfaceSubClass}".toList, value⟩
      = .ok (g_str_equal value "?*".toList ||
             (match mm_get_uint_from_hex_str value with
              | none => false
              | some val => decide (self.interface_subclass.val = val) == decide (t = .EQUAL)))
    ∧ check_condition self ⟨t, "ATTRS{bInterfaceProtocol}".toList, value⟩
      = .ok (g_str_equal value "?*".toList ||
             (match mm_get_uint_from_hex_str value with
              | none => false
              | some val => decide (self.interface_protocol.val = val) == decide (t = .EQUAL)))
    ∧ check_condition self ⟨t, "ATTRS{bInterfaceNumber}".toList, value⟩
      = .ok (g_str_equal value "?*".toList ||
             (match mm_get_uint_from_hex_str value with
              | none => false
              | some val => decide (self.interface_number.val = val) == decide (t = .EQUAL))) :=
  ⟨rfl, rfl, rfl, rfl⟩

theorem check_condition_env (self : MMKernelDeviceGeneric) (t : MMUdevRuleMatchType)
    (rest value : CStr) :
    check_condition self ⟨t, 'E' :: 'N' :: 'V' :: rest, value⟩
      = .ok (g_strcmp0_eq
              (g_object_get_data self (g_strstrip (g_strdelimit rest "{}".toList ' ')))
              (some value) == decide (t = .EQUAL)) := by
  simp [check_condition, g_str_has_prefix]

/-- The DEVPATH branch of `check_condition` on a present sysfs path and a non-empty
    value, in terms of the results of the four `string_match` calls. -/
theorem check_condition_devpath (self : MMKernelDeviceGeneric) (t : MMUdevRuleMatchType)
    (p value : CStr) (b1 b2 b3 b4 : Bool)
    (hp : self.sysfs_path = some p) (hv : value ≠ [])
    (h1 : string_match (some p) value = .ok b1)
    (h2 : string_match (some p) (value ++ "/*".toList) = .ok b2)
    (h3 : string_match (some (p.drop 4)) value = .ok b3)
    (h4 : string_match (some (p.drop 4)) (value ++ "/*".toList) = .ok b4) :
    check_condition self ⟨t, "DEVPATH".toList, value⟩
      = .ok ((b1 == decide (t = .EQUAL))
             || (decide (value.getLast? ≠ some '*') && (b2 == decide (t = .EQUAL)))
             || ("/sys".toList.isPrefixOf p
                 && ((b3 == decide (t = .EQUAL))
                     || (decide (value.getLast? ≠ some '*')
                         && (b4 == decide (t = .EQUAL)))))) := by
  have h : check_condition self ⟨t, "DEVPATH".toList, value⟩
      = (match self.sysfs_path with
         | none => (Except.ok false : Except Fault Bool)
         | some p =>
           match string_match (some p) value with
           | Except.error f => Except.error f
           | Except.ok r1 =>
             if r1 == decide (t = MMUdevRuleMatchType.EQUAL) then Except.ok true
             else
               match (match (if value ≠ [] ∧ value.getLast? ≠ some '*'
                             then some (value ++ "/*".toList) else none) with
                      | none => (Except.ok false : Except Fault Bool)
                      | some pm =>
                        match string_match (some p) pm with
                        | Except.error f => Except.error f
                        | Except.ok r => Except.ok (r == decide (t = MMUdevRuleMatchType.EQUAL))) with
               | Except.error f => Except.error f
               | Except.ok true => Except.ok true
               | Except.ok false =>
                 if g_str_has_prefix (some p) "/sys".toList then
                   match string_match (some (p.drop 4)) value with
                   | Except.error f => Except.error f
                   | Except.ok r3 =>
                     if r3 == decide (t = MMUdevRuleMatchType.EQUAL) then Except.ok true
                     else
                       match (if value ≠ [] ∧ value.getLast? ≠ some '*'
                              then some (value ++ "/*".toList) else none) with
                       | none => Except.ok false
                       | some pm =>
                         match string_match (some (p.drop 4)) pm with
                         | Except.error f => Except.error f
                         | Except.ok r4 => Except.ok (r4 == decide (t = MMUdevRuleMatchType.EQUAL))
                 else Except.ok false) := rfl
  rw [h, hp]
  simp only [h1, h3, g_str_has_prefix]
  by_cases hl : value.getLast? = some '*'
  · have hc : ¬ (value ≠ [] ∧ value.getLast? ≠ some '*') := fun hh => hh.2 hl
    simp only [if_neg hc]
    cases b1 <;> cases b3 <;> cases t <;> cases hs : "/sys".toList.isPrefixOf p <;> simp [hl]
  · have hc : value ≠ [] ∧ value.getLast? ≠ some '*' := ⟨hv, hl⟩
    simp only [if_pos hc, h2, h4]
    cases b1 <;> cases b2 <;> cases b3 <;> cases b4 <;> cases t <;>
      cases hs : "/sys".toList.isPrefixOf p <;> simp [hl]

theorem hex_str_wildcard : mm_get_uint_from_hex_str "?*".toList = none := by decide

/-- On a non-`NULL` string and a non-empty pattern `string_match` returns a result. -/
theorem string_match_total (s pattern : CStr) (hne : pattern ≠ []) :
    ∃ b, string_match (some s) pattern = .ok b := by
  cases pattern with
  | nil => exact absurd rfl hne
  | cons c rest =>
    by_cases hc : c = '*'
    · subst hc
      exact ⟨_, string_match_star s rest⟩
    · exact ⟨_, string_match_plain s c rest hc⟩

/-- A pattern without any `*` matches exactly itself. -/
theorem string_match_literal (s v : CStr) (hv : v ≠ []) (hstar : '*' ∉ v) :
    string_match (some s) v = .ok (decide (s = v)) := by
  cases v with
  | nil => exact absurd rfl hv
  | cons c rest =>
    have hc : c ≠ '*' := fun h => hstar (h ▸ List.mem_cons_self c rest)
    have hl : (c :: rest).getLast? ≠ some '*' := by
      intro h
      exact hstar (List.mem_of_getLast?_eq_some h)
    rw [string_match_plain s c rest hc, if_neg hl]

/-- A pattern without any `*`, followed by `/*`, matches the strings that start with the
    pattern and a slash. -/
theorem string_match_implicit_prefix (s v : CStr) (hv : v ≠ []) (hstar : '*' ∉ v) :
    string_match (some s) (v ++ "/*".toList) = .ok ((v ++ "/".toList).isPrefixOf s) := by
  cases v with
  | nil => exact absurd rfl hv
  | cons c rest =>
    have hc : c ≠ '*' := fun h => hstar (h ▸ List.mem_cons_self c rest)
    have hl : (c :: (rest ++ "/*".toList)).getLast? = some '*' := by
      have : c :: (rest ++ "/*".toList) = (c :: rest ++ ['/']) ++ ['*'] := by simp
      rw [this, List.getLast?_concat]
    have hd : (c :: (rest ++ "/*".toList)).dropLast = c :: rest ++ "/".toList := by
      have : c :: (rest ++ "/*".toList) = (c :: rest ++ ['/']) ++ ['*'] := by simp
      rw [this, List.dropLast_concat]
      rfl
    rw [List.cons_append, string_match_plain s c _ hc, if_pos hl, hd]

/-- The name that `check_condition` extracts from `{name}`: the braces become blanks and
    are stripped, and the name is left as it is when it has no brace and neither begins
    nor ends with whitespace. -/
theorem braced_name_extracted (name : CStr) (hopen : '{' ∉ name) (hclose : '}' ∉ name)
    (hfirst : ∀ c, name.head? = some c → g_ascii_isspace c = false)
    (hlast : ∀ c, name.getLast? = some c → g_ascii_isspace c = false) :
    g_strstrip (g_strdelimit ("\x7b".toList ++ name ++ "\x7d".toList) "{}".toList ' ') = name := by
  have hmap : name.map (fun c => if c ∈ "{}".toList then ' ' else c) = name := by
    rw [List.map_congr_left (g := id)]
    · simp
    · intro c hc
      have h1 : c ≠ '{' := fun h => hopen (h ▸ hc)
      have h2 : c ≠ '}' := fun h => hclose (h ▸ hc)
      simp [h1, h2]
  have hdel : g_strdelimit ("\x7b".toList ++ name ++ "\x7d".toList) "{}".toList ' '
      = ' ' :: (name ++ [' ']) := by
    unfold g_strdelimit
    rw [List.map_append, List.map_append, hmap]
    rfl
  rw [hdel]
  cases name with
  | nil => rfl
  | cons c cs =>
    have hc : g_ascii_isspace c = false := hfirst c rfl
    have hchug : g_strchug (' ' :: (c :: cs ++ [' '])) = c :: cs ++ [' '] := by
      have hsp : g_ascii_isspace ' ' = true := by decide
      simp [g_strchug, List.dropWhile, hc, hsp]
    unfold g_strstrip
    rw [hchug]
    unfold g_strchomp
    rw [List.reverse_append]
    cases hr : (c :: cs).reverse with
    | nil => simp at hr
    | cons l t =>
      have hl : (c :: cs).getLast? = some l := by
        rw [← List.head?_reverse, hr]; rfl
      have hls : g_ascii_isspace l = false := hlast l hl
      have h2 : List.dropWhile g_ascii_isspace ([' '].reverse ++ l :: t) = l :: t := by
        have hsp : g_ascii_isspace ' ' = true := by decide
        simp [List.dropWhile, hls, hsp]
      rw [h2, ← hr, List.reverse_reverse]

theorem check_condition_action (self : MMKernelDeviceGeneric) (t : MMUdevRuleMatchType)
    (value : CStr) :
    check_condition self ⟨t, "ACTION".toList, value⟩
      = .ok (strstr value "add".toList == decide (t = .EQUAL)) :=
  rfl

theorem check_condition_kernel (self : MMKernelDeviceGeneric) (t : MMUdevRuleMatchType)
    (value : CStr) :
    check_condition self ⟨t, "KERNEL".toList, value⟩
      = (match string_match (kernel_device_get_name self) value with
         | Except.error f => (Except.error f : Except Fault Bool)
         | Except.ok r => Except.ok (r == decide (t = MMUdevRuleMatchType.EQUAL))) :=
  rfl

theorem check_condition_attrs_strings (self : MMKernelDeviceGeneric)
    (t : MMUdevRuleMatchType) (value : CStr) :
    check_condition self ⟨t, "ATTRS{manufacturer}".toList, value⟩
      = .ok ((match self.physdev_manufacturer with
              | none => false
              | some s => g_str_equal s value) == decide (t = .EQUAL))
    ∧ check_condition self ⟨t, "ATTRS{product}".toList, value⟩
      = .ok ((match self.physdev_product with
              | none => false
              | some s => g_str_equal s value) == decide (t = .EQUAL)) :=
  ⟨rfl, rfl⟩

/-- A parameter that is none of the whole-string parameters and starts neither with
    `ATTRS` nor with `ENV` reaches the last line of `check_condition`. -/
theorem check_condition_unknown_parameter (self : MMKernelDeviceGeneric)
    (c : MMUdevRuleMatch) (hwhole : c.parameter ∉ whole_parameters)
    (hattrs : ¬ "ATTRS".toList <+: c.parameter) (henv : ¬ "ENV".toList <+: c.parameter) :
    check_condition self c = .ok false := by
  have h1 : ¬ c.parameter = "ACTION".toList := fun h => hwhole (by rw [h]; decide)
  have h2 : ¬ c.parameter = "SUBSYSTEMS".toList := fun h => hwhole (by rw [h]; decide)
  have h3 : ¬ c.parameter = "SUBSYSTEM".toList := fun h => hwhole (by rw [h]; decide)
  have h4 : ¬ c.parameter = "DRIVER".toList := fun h => hwhole (by rw [h]; decide)
  have h5 : ¬ c.parameter = "DRIVERS".toList := fun h => hwhole (by rw [h]; decide)
  have h6 : ¬ c.parameter = "KERNEL".toList := fun h => hwhole (by rw [h]; decide)
  have h7 : ¬ c.parameter = "DEVPATH".toList := fun h => hwhole (by rw [h]; decide)
  have h8 : g_str_has_prefix (some c.parameter) "ATTRS".toList = false := by
    unfold g_str_has_prefix
    rw [Bool.eq_false_iff]
    intro h
    exact hattrs (List.isPrefixOf_iff_prefix.mp h)
  have h9 : g_str_has_prefix (some c.parameter) "ENV".toList = false := by
    unfold g_str_has_prefix
    rw [Bool.eq_false_iff]
    intro h
    exact henv (List.isPrefixOf_iff_prefix.mp h)
  unfold check_condition
  rw [if_neg h1, if_neg (not_or.mpr ⟨h2, h3⟩), if_neg (not_or.mpr ⟨h4, h5⟩), if_neg h6,
    if_neg h7, h8, h9]
  rfl

/-- An `ATTRS` parameter whose attribute name is none of the ten recognised ones reaches
    the last branch of the attribute checks. -/
theorem check_condition_unknown_attribute (self : MMKernelDeviceGeneric)
    (t : MMUdevRuleMatchType) (rest value : CStr)
    (hname : g_strstrip (g_strdelimit rest "{}".toList ' ') ∉ recognised_attributes) :
    check_condition self ⟨t, "ATTRS".toList ++ rest, value⟩ = .ok false := by
  have hmem : ∀ a ∈ recognised_attributes,
      ¬ g_strstrip (g_strdelimit rest "{}".toList ' ') = a := fun a ha h => hname (h ▸ ha)
  have a1 := hmem "idVendor".toList (by decide)
  have a2 := hmem "vendor".toList (by decide)
  have a3 := hmem "idProduct".toList (by decide)
  have a4 := hmem "device".toList (by decide)
  have a5 := hmem "manufacturer".toList (by decide)
  have a6 := hmem "product".toList (by decide)
  have a7 := hmem "bInterfaceClass".toList (by decide)
  have a8 := hmem "bInterfaceSubClass".toList (by decide)
  have a9 := hmem "bInterfaceProtocol".toList (by decide)
  have a10 := hmem "bInterfaceNumber".toList (by decide)
  have hform : check_condition self ⟨t, 'A' :: 'T' :: 'T' :: 'R' :: 'S' :: rest, value⟩
      = .ok false := by
    unfold check_condition
    simp only [ g_str_has_prefix]
    rw [if_neg (by simp), if_neg (by simp), if_neg (by simp), if_neg (by simp),
      if_neg (by simp), if_pos (by simp [List.isPrefixOf])]
    simp only [List.drop_succ_cons, List.drop_zero]
    rw [if_neg (not_or.mpr ⟨a1, a2⟩), if_neg (not_or.mpr ⟨a3, a4⟩), if_neg a5, if_neg a6,
      if_neg a7, if_neg a8, if_neg a9, if_neg a10]
  exact hform

/-- The condition loop ends with `apply = FALSE` at a condition that does not hold when
    every condition before it returns a result. -/
theorem check_conditions_defined_then_fails (self : MMKernelDeviceGeneric)
    (pre : List MMUdevRuleMatch) (c : MMUdevRuleMatch) (post : List MMUdevRuleMatch)
    (hpre : ∀ c1 ∈ pre, ∃ b, check_condition self c1 = .ok b)
    (hc : check_condition self c = .ok false) :
    check_conditions self (pre ++ c :: post) = .ok false := by
  induction pre with
  | nil => simp [check_conditions, hc]
  | cons p rest ih =>
    obtain ⟨b, hb⟩ := hpre p (List.mem_cons_self p rest)
    cases b with
    | false => simp only [List.cons_append, check_conditions, hb]
    | true =>
      simp only [List.cons_append, check_conditions, hb]
      exact ih (fun c1 h1 => hpre c1 (List.mem_cons_of_mem p h1))

/-- A branch of `check_condition` that compares a boolean with `condition_equal` returns
    for both comparison types, with opposite results. -/
theorem flips_of_compare (f : MMUdevRuleMatchType → Except Fault Bool) (x : Bool)
    (hf : ∀ t, f t = .ok (x == decide (t = .EQUAL))) :
    ∃ b, f .EQUAL = .ok b ∧ f .NOT_EQUAL = .ok (!b) := by
  refine ⟨x, ?_, ?_⟩
  · rw [hf]; cases x <;> rfl
  · rw [hf]; cases x <;> rfl

theorem PreloadFrame.refl (a : MMKernelDeviceGeneric) : PreloadFrame a a := ⟨rfl, rfl, rfl⟩

theorem PreloadFrame.trans {a b c : MMKernelDeviceGeneric} (h1 : PreloadFrame a b)
    (h2 : PreloadFrame b c) : PreloadFrame a c :=
  ⟨h2.1.trans h1.1, h2.2.1.trans h1.2.1, h2.2.2.trans h1.2.2⟩

theorem set_data_frame (self : MMKernelDeviceGeneric) (key data : CStr) :
    PreloadFrame self (g_object_set_data self key data) := ⟨rfl, rfl, rfl⟩

theorem preload_common_properties_frame (self : MMKernelDeviceGeneric) :
    PreloadFrame self (preload_common_properties self) := by
  rcases self with ⟨p, r, d, sp, isp, ic, isc, ip, inn, idesc, psp, pv, pp, pr, psub, pman,
    pprod, od⟩
  cases isp <;> cases pprod <;> cases pman <;> cases psp <;> exact ⟨rfl, rfl, rfl⟩

theorem preload_contents_platform_loop_frame (fs : Sysfs) (platform : CStr) (fuel : Nat) :
    ∀ (self : MMKernelDeviceGeneric) (iter : CStr) (r : MMKernelDeviceGeneric),
      preload_contents_platform_loop fs platform fuel self iter = some r →
      PreloadFrame self r := by
  induction fuel with
  | zero =>
    intro self iter r h
    unfold preload_contents_platform_loop at h
    split_ifs at h
    cases h
    exact PreloadFrame.refl _
  | succ n ih =>
    intro self iter r h
    unfold preload_contents_platform_loop at h
    split_ifs at h with h1
    · cases h
      exact PreloadFrame.refl _
    · dsimp only at h
      split_ifs at h with h2
      · cases h
        cases self.driver <;> exact ⟨rfl, rfl, rfl⟩
      · have hf := ih _ _ _ h
        refine PreloadFrame.trans ?_ hf
        cases self.driver <;> exact ⟨rfl, rfl, rfl⟩

theorem preload_contents_pcmcia_loop_frame (fs : Sysfs) (fuel : Nat) :
    ∀ (self : MMKernelDeviceGeneric) (found : Bool) (iter : CStr) (r : MMKernelDeviceGeneric),
      preload_contents_pcmcia_loop fs fuel self found iter = some r →
      PreloadFrame self r := by
  induction fuel with
  | zero =>
    intro self found iter r h
    unfold preload_contents_pcmcia_loop at h
    split_ifs at h
    cases h
    exact PreloadFrame.refl _
  | succ n ih =>
    intro self found iter r h
    unfold preload_contents_pcmcia_loop at h
    split_ifs at h with h1
    · cases h
      exact PreloadFrame.refl _
    · dsimp only at h
      split_ifs at h with h2
      · cases h
        cases self.driver <;> exact ⟨rfl, rfl, rfl⟩
      · have hf := ih _ _ _ _ h
        refine PreloadFrame.trans ?_ hf
        cases self.driver <;> exact ⟨rfl, rfl, rfl⟩

theorem preload_contents_pci_loop_frame (fs : Sysfs) (fuel : Nat) :
    ∀ (self : MMKernelDeviceGeneric) (iter : CStr) (r : MMKernelDeviceGeneric),
      preload_contents_pci_loop fs fuel self iter = some r →
      PreloadFrame self r := by
  induction fuel with
  | zero =>
    intro self iter r h
    unfold preload_contents_pci_loop at h
    split_ifs at h
    cases h
    exact PreloadFrame.refl _
  | succ n ih =>
    intro self iter r h
    unfold preload_contents_pci_loop at h
    split_ifs at h with h1
    · cases h
      exact PreloadFrame.refl _
    · dsimp only at h
      split_ifs at h with h2
      · cases h
        cases self.driver <;> exact ⟨rfl, rfl, rfl⟩
      · have hf := ih _ _ _ h
        refine PreloadFrame.trans ?_ hf
        cases self.driver <;> exact ⟨rfl, rfl, rfl⟩

theorem preload_contents_usb_loop_frame (fs : Sysfs) (fuel : Nat) :
    ∀ (self : MMKernelDeviceGeneric) (iter : CStr) (r : MMKernelDeviceGeneric),
      preload_contents_usb_loop fs fuel self iter = some r →
      PreloadFrame self r := by
  induction fuel with
  | zero =>
    intro self iter r h
    unfold preload_contents_usb_loop at h
    split_ifs at h
    cases h
    exact PreloadFrame.refl _
  | succ n ih =>
    intro self iter r h
    unfold preload_contents_usb_loop at h
    split_ifs at h with h1 h2 h3
    · cases h
      exact PreloadFrame.refl _
    · have hf := ih _ _ _ h
      exact PreloadFrame.trans ⟨rfl, rfl, rfl⟩ hf
    · cases h
      exact ⟨rfl, rfl, rfl⟩
    · exact ih _ _ _ h

theorem check_rule_frame (self : MMKernelDeviceGeneric) (i next : Nat)
    (self1 : MMKernelDeviceGeneric) (h : check_rule self i = .ok (next, self1)) :
    PreloadFrame self self1 := by
  rcases check_rule_result_cases self i next self1 h with h1 | ⟨name, data, h1⟩
  · rw [h1]; exact PreloadFrame.refl _
  · rw [h1]; exact set_data_frame _ _ _

theorem preload_rule_properties_loop_null (fuel : Nat) (self : MMKernelDeviceGeneric)
    (i : Nat) (hrules : self.rules = none) :
    preload_rule_properties_loop fuel self i = .error .null_rules := by
  cases fuel <;> simp [preload_rule_properties_loop, hrules]

theorem preload_rule_properties_loop_out_of_fuel (self : MMKernelDeviceGeneric)
    (rules : List MMUdevRule) (i : Nat) (hrules : self.rules = some rules)
    (hi : i < rules.length) :
    preload_rule_properties_loop 0 self i = .ok none := by
  simp [preload_rule_properties_loop, hrules, hi]

theorem preload_rule_properties_loop_fault (fuel : Nat) (self : MMKernelDeviceGeneric)
    (rules : List MMUdevRule) (i : Nat) (f : Fault)
    (hrules : self.rules = some rules) (hi : i < rules.length)
    (hstep : check_rule self i = .error f) :
    preload_rule_properties_loop (fuel + 1) self i = .error f := by
  simp [preload_rule_properties_loop, hrules, hi, hstep]

theorem preload_rule_properties_loop_frame (fuel : Nat) :
    ∀ (self : MMKernelDeviceGeneric) (i : Nat) (r : MMKernelDeviceGeneric),
      preload_rule_properties_loop fuel self i = .ok (some r) → PreloadFrame self r := by
  induction fuel with
  | zero =>
    intro self i r h
    cases hr : self.rules with
    | none =>
      rw [preload_rule_properties_loop_null 0 self i hr] at h
      cases h
    | some rules =>
      by_cases hi : i < rules.length
      · rw [preload_rule_properties_loop_out_of_fuel self rules i hr hi] at h
        cases h
      · rw [preload_rule_properties_loop_done 0 self rules i hr (Nat.not_lt.mp hi)] at h
        simp only [Except.ok.injEq, Option.some.injEq] at h
        rw [← h]
        exact PreloadFrame.refl _
  | succ n ih =>
    intro self i r h
    cases hr : self.rules with
    | none =>
      rw [preload_rule_properties_loop_null _ self i hr] at h
      cases h
    | some rules =>
      by_cases hi : i < rules.length
      · cases hstep : check_rule self i with
        | error f =>
          rw [preload_rule_properties_loop_fault n self rules i f hr hi hstep] at h
          cases h
        | ok res =>
          obtain ⟨next, self1⟩ := res
          rw [preload_rule_properties_loop_step n self rules i next self1 hr hi hstep] at h
          exact PreloadFrame.trans (check_rule_frame _ _ _ _ hstep) (ih _ _ _ h)
      · rw [preload_rule_properties_loop_done _ self rules i hr (Nat.not_lt.mp hi)] at h
        simp only [Except.ok.injEq, Option.some.injEq] at h
        rw [← h]
        exact PreloadFrame.refl _

theorem PreloadResult.of_unchanged (fs : Sysfs) (a : MMKernelDeviceGeneric) :
    PreloadResult fs a a :=
  ⟨rfl, rfl, fun h p hp => by rw [h] at hp; cases hp⟩

theorem PreloadResult.then_frame {fs : Sysfs} {a b c : MMKernelDeviceGeneric}
    (h1 : PreloadResult fs a b) (h2 : PreloadFrame b c) : PreloadResult fs a c :=
  ⟨h2.1.trans h1.1, h2.2.1.trans h1.2.1, fun ha p hp => h1.2.2 ha p (h2.2.2 ▸ hp)⟩

theorem preload_sysfs_path_result (fs : Sysfs) (self : MMKernelDeviceGeneric) :
    PreloadResult fs self (preload_sysfs_path fs self) := by
  unfold preload_sysfs_path
  cases hs : self.sysfs_path with
  | some p0 => exact ⟨rfl, rfl, fun h => by rw [hs] at h; cases h⟩
  | none =>
    dsimp only
    cases hr : fs.realpath ("/sys/class/".toList
        ++ printf_s (mm_kernel_event_properties_get_subsystem self.properties)
        ++ "/".toList ++ printf_s (mm_kernel_event_properties_get_name self.properties)) with
    | none => exact ⟨rfl, rfl, fun _ p hp => by cases hp⟩
    | some p =>
      dsimp only
      by_cases he : fs.file_test_exists p = true
      · rw [if_pos he]
        refine ⟨rfl, rfl, fun _ p1 hp1 => ?_⟩
        have : p1 = p := by
          simp only [g_object_set_data, Option.some.injEq] at hp1
          exact hp1.symm
        exact ⟨_, this ▸ hr⟩
      · rw [if_neg he]
        exact ⟨rfl, rfl, fun _ p hp => by cases hp⟩

theorem preload_contents_result (fuel : Nat) (fs : Sysfs) (self r : MMKernelDeviceGeneric)
    (h : preload_contents fuel fs self = some r) : PreloadResult fs self r := by
  unfold preload_contents at h
  cases hs : self.sysfs_path with
  | some p0 =>
    rw [hs] at h
    simp only [Option.some.injEq] at h
    rw [← h]
    exact PreloadResult.of_unchanged fs self
  | none =>
    rw [hs] at h
    dsimp only at h
    have h0 := preload_sysfs_path_result fs self
    cases hb : find_device_bus_subsystem fuel fs (preload_sysfs_path fs self) with
    | none => rw [hb] at h; cases h
    | some bus_subsys =>
      rw [hb] at h
      dsimp only at h
      cases bus_subsys with
      | none =>
        simp only [Option.some.injEq] at h
        rw [← h]
        exact h0.then_frame ⟨rfl, rfl, rfl⟩
      | some bus =>
        dsimp only at h
        have hload : ∀ loaded : MMKernelDeviceGeneric,
            (if bus = "usb".toList then preload_contents_usb fuel fs (preload_sysfs_path fs self)
             else if bus = "pcmcia".toList then
               preload_contents_pcmcia fuel fs (preload_sysfs_path fs self)
             else if bus = "pci".toList then
               preload_contents_pci fuel fs (preload_sysfs_path fs self)
             else if bus = "platform".toList ∨ bus = "pnp".toList ∨ bus = "sdio".toList then
               preload_contents_platform fuel fs (preload_sysfs_path fs self) bus
             else some (preload_contents_other fs (preload_sysfs_path fs self))) = some loaded →
            PreloadFrame (preload_sysfs_path fs self) loaded := by
          intro loaded hl
          split_ifs at hl
          · unfold preload_contents_usb at hl
            split at hl
            · cases hl; exact PreloadFrame.refl _
            · exact preload_contents_usb_loop_frame fs fuel _ _ _ hl
          · unfold preload_contents_pcmcia at hl
            split at hl
            · cases hl; exact PreloadFrame.refl _
            · exact preload_contents_pcmcia_loop_frame fs fuel _ _ _ _ hl
          · unfold preload_contents_pci at hl
            split at hl
            · cases hl; exact PreloadFrame.refl _
            · exact preload_contents_pci_loop_frame fs fuel _ _ _ hl
          · unfold preload_contents_platform at hl
            split at hl
            · cases hl; exact PreloadFrame.refl _
            · exact preload_contents_platform_loop_frame fs bus fuel _ _ _ hl
          · cases hl; exact ⟨rfl, rfl, rfl⟩
        split at h
        · cases h
        · rename_i self2 hl2
          simp only [Option.some.injEq] at h
          rw [← h]
          exact (h0.then_frame (hload self2 hl2)).then_frame
            (preload_common_properties_frame self2)

theorem check_preload_result (fuel : Nat) (fs : Sysfs) (self r : MMKernelDeviceGeneric)
    (h : check_preload fuel fs self = .ok (some r)) : PreloadResult fs self r := by
  unfold check_preload at h
  split_ifs at h
  · cases h; exact PreloadResult.of_unchanged fs self
  · cases h; exact PreloadResult.of_unchanged fs self
  · cases h; exact PreloadResult.of_unchanged fs self
  · cases hc : preload_contents fuel fs self with
    | none => rw [hc] at h; cases h
    | some self1 =>
      rw [hc] at h
      dsimp only at h
      have h1 := preload_contents_result fuel fs self self1 hc
      unfold preload_rule_properties at h
      split at h
      · cases h
      · split_ifs at h
        exact h1.then_frame (preload_rule_properties_loop_frame fuel _ _ _ h)

theorem strip_trailing_separators_spec (l : CStr) (hl : l ≠ []) :
    strip_trailing_separators l ≠ []
    ∧ (strip_trailing_separators l).getLast? = l.getLast?
    ∧ (strip_trailing_separators l).length ≤ l.length
    ∧ (l.head? = some '/' → 2 ≤ l.length → (strip_trailing_separators l).length < l.length) := by
  induction l with
  | nil => exact absurd rfl hl
  | cons c rest ih =>
    cases rest with
    | nil =>
      refine ⟨by simp [strip_trailing_separators], rfl, le_refl _, ?_⟩
      intro _ h2
      simp at h2
    | cons d rest =>
      unfold strip_trailing_separators
      by_cases hc : c = '/'
      · rw [if_pos hc]
        obtain ⟨h1, h2, h3, _⟩ := ih (by simp)
        refine ⟨h1, ?_, ?_, ?_⟩
        · rw [h2]; simp [List.getLast?_cons_cons]
        · simp only [List.length_cons] at h3 ⊢; omega
        · intro _ _
          simp only [List.length_cons] at h3 ⊢; omega
      · rw [if_neg hc]
        refine ⟨by simp, rfl, le_refl _, ?_⟩
        intro h
        simp at h
        exact absurd h hc

theorem g_path_get_dirname_absolute (p : CStr) (h : p.head? = some '/')
    (hne : p ≠ "/".toList) :
    (g_path_get_dirname p).head? = some '/'
    ∧ (g_path_get_dirname p).length < p.length := by
  obtain ⟨c, rest, rfl⟩ : ∃ c rest, p = c :: rest := by
    cases p with
    | nil => simp at h
    | cons c rest => exact ⟨c, rest, rfl⟩
  simp only [List.head?_cons, Option.some.injEq] at h
  subst h
  have hrest : rest ≠ [] := by
    intro h0; subst h0; exact hne rfl
  have hmem : '/' ∈ ('/' :: rest) := List.mem_cons_self _ _
  unfold g_path_get_dirname
  rw [if_pos hmem]
  generalize hs : ('/' :: rest).reverse.dropWhile (fun c => c != '/') = s
  have hsuf : s <:+ ('/' :: rest).reverse := by
    rw [← hs]; exact List.dropWhile_suffix _
  have hsne : s ≠ [] := by
    rw [← hs]
    intro h0
    rw [List.dropWhile_eq_nil_iff] at h0
    have := h0 '/' (by simp)
    simp at this
  have hshead : s.head? = some '/' := by
    cases hsc : s with
    | nil => exact absurd hsc hsne
    | cons a t =>
      have := List.head_dropWhile_not (fun c => c != '/') ('/' :: rest).reverse
        (by rw [hs]; exact hsne)
      simp only [hs, hsc, List.head_cons] at this
      simp at this
      simp [this]
  have hslast : s.getLast? = some '/' := by
    obtain ⟨u, hu⟩ := hsuf
    have : (u ++ s).getLast? = some '/' := by rw [hu]; simp
    rw [List.getLast?_append_of_ne_nil _ hsne] at this
    exact this
  have hslen : s.length ≤ ('/' :: rest).length := by
    have := hsuf.length_le
    simpa using this
  obtain ⟨h1, h2, h3, h4⟩ := strip_trailing_separators_spec s hsne
  constructor
  · rw [List.head?_reverse, h2, hslast]
  · rw [List.length_reverse]
    by_cases h2s : 2 ≤ s.length
    · have := h4 hshead h2s
      omega
    · have : 2 ≤ ('/' :: rest).length := by
        cases rest with
        | nil => exact absurd rfl hrest
        | cons a t => simp
      omega

theorem absolute_short_is_root (iter : CStr) (h : iter.head? = some '/')
    (hl : iter.length ≤ 1) : iter = "/".toList := by
  cases iter with
  | nil => simp at h
  | cons c rest =>
    cases rest with
    | nil =>
      simp only [List.head?_cons, Option.some.injEq] at h
      rw [h]; rfl
    | cons d t => simp at hl

theorem find_device_bus_subsystem_loop_returns (fs : Sysfs) (fuel : Nat) :
    ∀ (iter : CStr), iter.head? = some '/' → iter.length ≤ fuel + 1 →
      ∃ r, find_device_bus_subsystem_loop fs fuel iter = some r := by
  induction fuel with
  | zero =>
    intro iter h hl
    unfold find_device_bus_subsystem_loop
    rw [if_pos (absolute_short_is_root iter h hl)]
    exact ⟨_, rfl⟩
  | succ n ih =>
    intro iter h hl
    unfold find_device_bus_subsystem_loop
    by_cases h1 : iter = "/".toList
    · rw [if_pos h1]
      exact ⟨_, rfl⟩
    · rw [if_neg h1]
      dsimp only
      obtain ⟨ha, hlt⟩ := g_path_get_dirname_absolute iter h h1
      split_ifs
      · exact ⟨_, rfl⟩
      · exact ih _ ha (by omega)

theorem preload_contents_usb_loop_returns (fs : Sysfs) (fuel : Nat) :
    ∀ (self : MMKernelDeviceGeneric) (iter : CStr),
      iter.head? = some '/' → iter.length ≤ fuel + 1 →
      ∃ r, preload_contents_usb_loop fs fuel self iter = some r := by
  induction fuel with
  | zero =>
    intro self iter h hl
    unfold preload_contents_usb_loop
    rw [if_pos (absolute_short_is_root iter h hl)]
    exact ⟨_, rfl⟩
  | succ n ih =>
    intro self iter h hl
    unfold preload_contents_usb_loop
    by_cases h1 : iter = "/".toList
    · rw [if_pos h1]
      exact ⟨_, rfl⟩
    · rw [if_neg h1]
      dsimp only
      obtain ⟨ha, hlt⟩ := g_path_get_dirname_absolute iter h h1
      split_ifs
      · exact ih _ _ ha (by omega)
      · exact ⟨_, rfl⟩
      · exact ih _ _ ha (by omega)

theorem preload_contents_pci_loop_returns (fs : Sysfs) (fuel : Nat) :
    ∀ (self : MMKernelDeviceGeneric) (iter : CStr),
      iter.head? = some '/' → iter.length ≤ fuel + 1 →
      ∃ r, preload_contents_pci_loop fs fuel self iter = some r := by
  induction fuel with
  | zero =>
    intro self iter h hl
    unfold preload_contents_pci_loop
    rw [if_pos (absolute_short_is_root iter h hl)]
    exact ⟨_, rfl⟩
  | succ n ih =>
    intro self iter h hl
    unfold preload_contents_pci_loop
    by_cases h1 : iter = "/".toList
    · rw [if_pos h1]
      exact ⟨_, rfl⟩
    · rw [if_neg h1]
      dsimp only
      obtain ⟨ha, hlt⟩ := g_path_get_dirname_absolute iter h h1
      split_ifs
      · exact ⟨_, rfl⟩
      · exact ih _ _ ha (by omega)

theorem preload_contents_pcmcia_loop_returns (fs : Sysfs) (fuel : Nat) :
    ∀ (self : MMKernelDeviceGeneric) (found : Bool) (iter : CStr),
      iter.head? = some '/' → iter.length ≤ fuel + 1 →
      ∃ r, preload_contents_pcmcia_loop fs fuel self found iter = some r := by
  induction fuel with
  | zero =>
    intro self found iter h hl
    unfold preload_contents_pcmcia_loop
    rw [if_pos (absolute_short_is_root iter h hl)]
    exact ⟨_, rfl⟩
  | succ n ih =>
    intro self found iter h hl
    unfold preload_contents_pcmcia_loop
    by_cases h1 : iter = "/".toList
    · rw [if_pos h1]
      exact ⟨_, rfl⟩
    · rw [if_neg h1]
      dsimp only
      obtain ⟨ha, hlt⟩ := g_path_get_dirname_absolute iter h h1
      split_ifs
      · exact ⟨_, rfl⟩
      · exact ih _ _ _ ha (by omega)

theorem preload_contents_platform_loop_returns (fs : Sysfs) (platform : CStr) (fuel : Nat) :
    ∀ (self : MMKernelDeviceGeneric) (iter : CStr),
      iter.head? = some '/' → iter.length ≤ fuel + 1 →
      ∃ r, preload_contents_platform_loop fs platform fuel self iter = some r := by
  induction fuel with
  | zero =>
    intro self iter h hl
    unfold preload_contents_platform_loop
    rw [if_pos (absolute_short_is_root iter h hl)]
    exact ⟨_, rfl⟩
  | succ n ih =>
    intro self iter h hl
    unfold preload_contents_platform_loop
    by_cases h1 : iter = "/".toList
    · rw [if_pos h1]
      exact ⟨_, rfl⟩
    · rw [if_neg h1]
      dsimp only
      obtain ⟨ha, hlt⟩ := g_path_get_dirname_absolute iter h h1
      split_ifs
      · exact ⟨_, rfl⟩
      · exact ih _ _ ha (by omega)

/-- The sysfs part of the preload returns: on a file system whose `realpath` gives
    absolute paths, every walk up the tree ends at `/`, after at most as many iterations
    as the path of the device is long. -/
theorem preload_contents_returns (fs : Sysfs)
    (habs : ∀ q p, fs.realpath q = some p → p.head? = some '/')
    (self : MMKernelDeviceGeneric) (hs : self.sysfs_path = none) :
    ∃ fuel0, ∀ fuel, fuel0 ≤ fuel → ∃ r, preload_contents fuel fs self = some r := by
  have h0 := preload_sysfs_path_result fs self
  cases hp : (preload_sysfs_path fs self).sysfs_path with
  | none =>
    refine ⟨0, fun fuel _ => ?_⟩
    unfold preload_contents
    rw [hs]
    simp only [find_device_bus_subsystem, hp]
    exact ⟨_, rfl⟩
  | some p =>
    obtain ⟨q, hq⟩ := h0.2.2 hs p hp
    have ha := habs q p hq
    refine ⟨p.length, fun fuel hf => ?_⟩
    unfold preload_contents
    rw [hs]
    dsimp only
    obtain ⟨b, hb⟩ := find_device_bus_subsystem_loop_returns fs fuel p ha (by omega)
    have hb1 : find_device_bus_subsystem fuel fs (preload_sysfs_path fs self) = some b := by
      simp only [find_device_bus_subsystem, hp, hb]
    rw [hb1]
    dsimp only
    cases b with
    | none => exact ⟨_, rfl⟩
    | some bus =>
      dsimp only
      have hload : ∃ loaded,
          (if bus = "usb".toList then preload_contents_usb fuel fs (preload_sysfs_path fs self)
           else if bus = "pcmcia".toList then
             preload_contents_pcmcia fuel fs (preload_sysfs_path fs self)
           else if bus = "pci".toList then
             preload_contents_pci fuel fs (preload_sysfs_path fs self)
           else if bus = "platform".toList ∨ bus = "pnp".toList ∨ bus = "sdio".toList then
             preload_contents_platform fuel fs (preload_sysfs_path fs self) bus
           else some (preload_contents_other fs (preload_sysfs_path fs self))) = some loaded := by
        split_ifs
        · simp only [preload_contents_usb, hp]
          exact preload_contents_usb_loop_returns fs fuel _ p ha (by omega)
        · simp only [preload_contents_pcmcia, hp]
          exact preload_contents_pcmcia_loop_returns fs fuel _ _ p ha (by omega)
        · simp only [preload_contents_pci, hp]
          exact preload_contents_pci_loop_returns fs fuel _ p ha (by omega)
        · simp only [preload_contents_platform, hp]
          exact preload_contents_platform_loop_returns fs bus fuel _ p ha (by omega)
        · exact ⟨_, rfl⟩
      obtain ⟨loaded, hl⟩ := hload
      rw [hl]
      exact ⟨_, rfl⟩

/-- What `initable_init` makes of a preload that has returned, for an event that is
    neither a `remove` nor of the subsystem `virtual`. -/
theorem initable_init_after_preload (fuel : Nat) (fs : Sysfs)
    (props : MMKernelEventProperties) (rules : Option (List MMUdevRule))
    (self1 : MMKernelDeviceGeneric)
    (hact : props.action ≠ some "remove".toList)
    (hsub : props.subsystem ≠ some "virtual".toList)
    (hreal : ∀ q p, fs.realpath q = some p → p ≠ [])
    (hpre : check_preload fuel fs (mm_kernel_device_generic_init (some props) rules)
        = .ok (some self1)) :
    ((∃ p, self1.sysfs_path = some p ∧ p ≠ []
          ∧ mm_kernel_device_generic_new_with_rules fuel fs (some props) rules
              = .ok (some (.ok self1)))
      ∨ ∃ message, mm_kernel_device_generic_new_with_rules fuel fs (some props) rules
          = .ok (some (.error ⟨.MM_CORE_ERROR_INVALID_ARGS, message⟩)))
    ∧ (∀ subsystem name, props.subsystem = some subsystem → props.name = some name →
        self1.sysfs_path = none →
        mm_kernel_device_generic_new_with_rules fuel fs (some props) rules
          = .ok (some (.error ⟨.MM_CORE_ERROR_INVALID_ARGS,
              "device ".toList ++ subsystem ++ "/".toList ++ name ++ " not found".toList⟩))) := by
  obtain ⟨hprops, _, hpath⟩ := check_preload_result fuel fs _ _ hpre
  have hprops1 : self1.properties = some props := hprops
  have ha : g_strcmp0_eq (mm_kernel_event_properties_get_action self1.properties)
      (some "remove".toList) = false := by
    rw [hprops1]
    exact decide_eq_false hact
  have hv : g_strcmp0_eq (mm_kernel_event_properties_get_subsystem self1.properties)
      (some "virtual".toList) = false := by
    rw [hprops1]
    exact decide_eq_false hsub
  have hne : self1.properties ≠ none := by rw [hprops1]; simp
  constructor
  · unfold mm_kernel_device_generic_new_with_rules initable_init
    rw [hpre]
    dsimp only
    cases hs : kernel_device_get_subsystem self1 with
    | none => exact Or.inr ⟨_, rfl⟩
    | some s =>
      dsimp only
      cases hn : kernel_device_get_name self1 with
      | none => exact Or.inr ⟨_, rfl⟩
      | some n =>
        dsimp only
        cases hp : self1.sysfs_path with
        | none =>
          rw [if_pos ⟨hne, ha, hv, rfl⟩]
          exact Or.inr ⟨_, rfl⟩
        | some p =>
          rw [if_neg (fun h => by cases h.2.2.2)]
          obtain ⟨q, hq⟩ := hpath rfl p hp
          exact Or.inl ⟨p, rfl, hreal q p hq, rfl⟩
  · intro subsystem name hs hn hp
    unfold mm_kernel_device_generic_new_with_rules initable_init
    rw [hpre]
    have h1 : kernel_device_get_subsystem self1 = some subsystem := by
      simp [kernel_device_get_subsystem, hprops1, hs]
    have h2 : kernel_device_get_name self1 = some name := by
      simp [kernel_device_get_name, hprops1, hn]
    simp only [h1, h2]
    rw [if_pos ⟨hne, ha, hv, hp⟩]
    simp [hprops1, mm_kernel_event_properties_get_subsystem,
      mm_kernel_event_properties_get_name, hs, hn, printf_s]

/-- A walk with fewer iterations is the beginning of a walk with more. -/
theorem walk_upward_take (n m : Nat) (h : n ≤ m) :
    ∀ (path : CStr), walk_upward n path = (walk_upward m path).take n := by
  induction n generalizing m with
  | zero => intro path; simp [walk_upward]
  | succ k ih =>
    intro path
    obtain ⟨m1, rfl⟩ : ∃ m1, m = m1 + 1 := ⟨m - 1, by omega⟩
    unfold walk_upward
    by_cases hroot : path = "/".toList
    · simp [hroot]
    · rw [if_neg hroot, if_neg hroot, List.take_succ_cons, ← ih m1 (by omega)]

/-- The walk from an absolute path is complete once it has run for as many iterations
    as the path has characters, less one. -/
theorem walk_upward_complete (n : Nat) :
    ∀ (m : Nat) (path : CStr), path.head? = some '/' → path.length ≤ n + 1 →
      path.length ≤ m + 1 → walk_upward n path = walk_upward m path := by
  induction n with
  | zero =>
    intro m path habs hn _
    have hroot := absolute_short_is_root path habs hn
    cases m <;> simp [walk_upward, hroot]
  | succ k ih =>
    intro m path habs hn hm
    by_cases hroot : path = "/".toList
    · cases m <;> simp [walk_upward, hroot]
    · obtain ⟨ha, hlt⟩ := g_path_get_dirname_absolute path habs hroot
      have h2 : 2 ≤ path.length := by
        by_contra hc
        exact hroot (absolute_short_is_root path habs (by omega))
      obtain ⟨m1, rfl⟩ : ∃ m1, m = m1 + 1 := ⟨m - 1, by omega⟩
      unfold walk_upward
      rw [if_neg hroot, if_neg hroot, ih m1 _ ha (by omega) (by omega)]

theorem walk_upward_eq_nodes (fuel : Nat) (path : CStr) (habs : path.head? = some '/')
    (hfuel : path.length ≤ fuel + 1) : walk_upward fuel path = nodes_upward path :=
  walk_upward_complete fuel path.length path habs hfuel (by omega)

/-- A walk that has not yet passed a node of the complete walk still finds the nodes
    before it and the node itself. -/
theorem walk_upward_of_nodes (fuel : Nat) (path : CStr) (pre : List CStr) (n : CStr)
    (post : List CStr) (hwalk : nodes_upward path = pre ++ n :: post)
    (hfuel : pre.length < fuel) :
    ∃ post1, walk_upward fuel path = pre ++ n :: post1 := by
  by_cases hle : fuel ≤ path.length
  · refine ⟨post.take (fuel - (pre.length + 1)), ?_⟩
    rw [walk_upward_take fuel path.length hle path]
    show List.take fuel (nodes_upward path) = _
    rw [hwalk, List.take_append_eq_append_take, List.take_of_length_le (by omega)]
    have : fuel - pre.length = (fuel - (pre.length + 1)) + 1 := by omega
    rw [this, List.take_succ_cons]
  · refine ⟨post ++ (walk_upward fuel path).drop path.length, ?_⟩
    have h1 : nodes_upward path = (walk_upward fuel path).take path.length :=
      walk_upward_take path.length fuel (by omega) path
    calc walk_upward fuel path
        = (walk_upward fuel path).take path.length ++ (walk_upward fuel path).drop path.length :=
          (List.take_append_drop _ _).symm
      _ = pre ++ n :: (post ++ (walk_upward fuel path).drop path.length) := by
          rw [← h1, hwalk]; simp

theorem on_bus_iff (subsys : Option CStr) :
    (subsys = some "usb".toList ∨ subsys = some "pcmcia".toList ∨ subsys = some "pci".toList
      ∨ subsys = some "platform".toList ∨ subsys = some "pnp".toList
      ∨ subsys = some "sdio".toList) ↔ on_bus subsys = true := by
  cases subsys with
  | none => simp [on_bus]
  | some s => simp [on_bus, bus_vocabulary]

/-- The loop of `find_device_bus_subsystem`, once it has fuel for the whole walk, gives
    the subsystem of the first node of the walk that is on one of the buses. -/
theorem find_device_bus_subsystem_loop_eq (fs : Sysfs) (fuel : Nat) :
    ∀ (path : CStr), path.head? = some '/' → path.length ≤ fuel + 1 →
      find_device_bus_subsystem_loop fs fuel path
        = some (((walk_upward fuel path).find?
            (fun node => on_bus (node_subsystem fs node))).bind (node_subsystem fs)) := by
  induction fuel with
  | zero =>
    intro path habs hlen
    unfold find_device_bus_subsystem_loop
    rw [if_pos (absolute_short_is_root path habs hlen)]
    rfl
  | succ k ih =>
    intro path habs hlen
    unfold find_device_bus_subsystem_loop walk_upward
    by_cases hroot : path = "/".toList
    · rw [if_pos hroot, if_pos hroot]
      rfl
    · rw [if_neg hroot, if_neg hroot]
      dsimp only
      obtain ⟨ha, hlt⟩ := g_path_get_dirname_absolute path habs hroot
      rw [List.find?_cons]
      unfold node_subsystem
      by_cases hbus : on_bus (read_sysfs_attribute_link_basename fs (some path)
          "subsystem".toList) = true
      · rw [if_pos ((on_bus_iff _).mpr hbus), hbus]
        rfl
      · rw [if_neg (fun h => hbus ((on_bus_iff _).mp h)), ih _ ha (by omega)]
        simp only [Bool.not_eq_true] at hbus
        rw [hbus]
        rfl

theorem first_driver_spec_cons (fs : Sysfs) (driver : Option CStr) (node : CStr)
    (nodes : List CStr) :
    driver.or (first_driver_spec fs (node :: nodes))
      = (driver.or (node_driver fs node)).or (first_driver_spec fs nodes) := by
  unfold first_driver_spec
  rw [List.findSome?_cons]
  cases driver <;> cases node_driver fs node <;> simp

theorem first_driver_spec_single (fs : Sysfs) (driver : Option CStr) (node : CStr) :
    driver.or (first_driver_spec fs [node]) = driver.or (node_driver fs node) := by
  rw [first_driver_spec_cons]
  simp [first_driver_spec]

/-- The driver after the first statement of a loop body: the one already stored, or
    else the driver link of the node. -/
theorem store_first_driver (fs : Sysfs) (self : MMKernelDeviceGeneric) (iter : CStr) :
    (match self.driver with
     | none =>
       { self with driver := read_sysfs_attribute_link_basename fs (some iter) "driver".toList }
     | some _ => self)
      = { self with driver := self.driver.or (node_driver fs iter) } := by
  cases h : self.driver with
  | none => simp [node_driver]
  | some d =>
    rcases self with ⟨p, r, d0, sp, isp, ic, isc, ip, inn, idesc, psp, pv, pp, pr, psub, pman,
      pprod, od⟩
    simp only at h
    subst h
    rfl

/-- The loop of `preload_contents_pci` stops at the first node of the walk whose
    subsystem is `pci`. -/
theorem preload_contents_pci_loop_found (fs : Sysfs) (n : CStr) (post : List CStr)
    (hn : node_subsystem fs n = some "pci".toList) :
    ∀ (pre : List CStr) (fuel : Nat) (self : MMKernelDeviceGeneric) (iter : CStr),
      walk_upward fuel iter = pre ++ n :: post →
      self.physdev_sysfs_path = none →
      (∀ m ∈ pre, node_subsystem fs m ≠ some "pci".toList) →
      preload_contents_pci_loop fs fuel self iter
        = some { self with
                 driver := self.driver.or (first_driver_spec fs (pre ++ [n])),
                 physdev_sysfs_path := some n,
                 physdev_vid :=
                   to_guint16 (read_sysfs_attribute_as_hex fs (some n) "vendor".toList),
                 physdev_pid :=
                   to_guint16 (read_sysfs_attribute_as_hex fs (some n) "device".toList),
                 physdev_revision :=
                   to_guint16 (read_sysfs_attribute_as_hex fs (some n) "revision".toList),
                 physdev_subsystem := some "pci".toList } := by
  intro pre
  induction pre with
  | nil =>
    intro fuel self iter hwalk hphys _
    cases fuel with
    | zero => simp [walk_upward] at hwalk
    | succ k =>
      unfold walk_upward at hwalk
      by_cases hroot : iter = "/".toList
      · rw [if_pos hroot] at hwalk
        simp at hwalk
      · rw [if_neg hroot] at hwalk
        simp only [List.nil_append, List.cons.injEq] at hwalk
        obtain ⟨rfl, _⟩ := hwalk
        unfold preload_contents_pci_loop
        rw [if_neg hroot]
        dsimp only
        rw [store_first_driver]
        unfold node_subsystem at hn
        rw [if_pos ⟨hphys, hn⟩, hn, List.nil_append, first_driver_spec_single]
  | cons m pre1 ih =>
    intro fuel self iter hwalk hphys hpre
    cases fuel with
    | zero => simp [walk_upward] at hwalk
    | succ k =>
      unfold walk_upward at hwalk
      by_cases hroot : iter = "/".toList
      · rw [if_pos hroot] at hwalk
        simp at hwalk
      · rw [if_neg hroot] at hwalk
        simp only [List.cons_append, List.cons.injEq] at hwalk
        obtain ⟨rfl, hrest⟩ := hwalk
        unfold preload_contents_pci_loop
        rw [if_neg hroot]
        dsimp only
        rw [store_first_driver]
        have hm : node_subsystem fs iter ≠ some "pci".toList := hpre iter (List.mem_cons_self _ _)
        unfold node_subsystem at hm
        rw [if_neg (fun h => hm h.2),
          ih k { self with driver := self.driver.or (node_driver fs iter) } _ hrest hphys
            (fun x hx => hpre x (List.mem_cons_of_mem _ hx))]
        simp only [List.cons_append, first_driver_spec_cons]

/-- A walk that has come to its end finds no node on it: the loop of
    `preload_contents_pci` returns with the first driver of the whole walk. -/
theorem preload_contents_pci_loop_not_found (fs : Sysfs) (fuel : Nat) :
    ∀ (self : MMKernelDeviceGeneric) (iter : CStr),
      iter.head? = some '/' → iter.length ≤ fuel + 1 →
      (∀ m ∈ walk_upward fuel iter, node_subsystem fs m ≠ some "pci".toList) →
      preload_contents_pci_loop fs fuel self iter
        = some { self with
                 driver := self.driver.or (first_driver_spec fs (walk_upward fuel iter)) } := by
  induction fuel with
  | zero =>
    intro self iter habs hlen _
    unfold preload_contents_pci_loop
    rw [if_pos (absolute_short_is_root iter habs hlen)]
    simp [walk_upward, first_driver_spec]
  | succ k ih =>
    intro self iter habs hlen hall
    unfold preload_contents_pci_loop
    by_cases hroot : iter = "/".toList
    · rw [if_pos hroot]
      simp [walk_upward, hroot, first_driver_spec]
    · rw [if_neg hroot]
      dsimp only
      have hw : walk_upward (k + 1) iter = iter :: walk_upward k (g_path_get_dirname iter) := by
        rw [walk_upward, if_neg hroot]
      rw [hw] at hall ⊢
      obtain ⟨ha, hlt⟩ := g_path_get_dirname_absolute iter habs hroot
      rw [store_first_driver]
      have hm : node_subsystem fs iter ≠ some "pci".toList := hall iter (List.mem_cons_self _ _)
      unfold node_subsystem at hm
      rw [if_neg (fun h => hm h.2),
        ih { self with driver := self.driver.or (node_driver fs iter) } _ ha (by omega)
          (fun x hx => hall x (List.mem_cons_of_mem _ hx))]
      simp only [first_driver_spec_cons]

/-- The loop of `preload_contents_platform` stops at the first node of the walk whose
    subsystem is the bus handed in, and changes the driver and the path of the physical
    device only. -/
theorem preload_contents_platform_loop_found (fs : Sysfs) (platform n : CStr)
    (post : List CStr) (hn : node_subsystem fs n = some platform) :
    ∀ (pre : List CStr) (fuel : Nat) (self : MMKernelDeviceGeneric) (iter : CStr),
      walk_upward fuel iter = pre ++ n :: post →
      self.physdev_sysfs_path = none →
      (∀ m ∈ pre, node_subsystem fs m ≠ some platform) →
      preload_contents_platform_loop fs platform fuel self iter
        = some { self with
                 driver := self.driver.or (first_driver_spec fs (pre ++ [n])),
                 physdev_sysfs_path := some n } := by
  intro pre
  induction pre with
  | nil =>
    intro fuel self iter hwalk hphys _
    cases fuel with
    | zero => simp [walk_upward] at hwalk
    | succ k =>
      unfold walk_upward at hwalk
      by_cases hroot : iter = "/".toList
      · rw [if_pos hroot] at hwalk
        simp at hwalk
      · rw [if_neg hroot] at hwalk
        simp only [List.nil_append, List.cons.injEq] at hwalk
        obtain ⟨rfl, _⟩ := hwalk
        unfold preload_contents_platform_loop
        rw [if_neg hroot]
        dsimp only
        rw [store_first_driver]
        unfold node_subsystem at hn
        rw [if_pos ⟨hphys, hn⟩, List.nil_append, first_driver_spec_single]
  | cons m pre1 ih =>
    intro fuel self iter hwalk hphys hpre
    cases fuel with
    | zero => simp [walk_upward] at hwalk
    | succ k =>
      unfold walk_upward at hwalk
      by_cases hroot : iter = "/".toList
      · rw [if_pos hroot] at hwalk
        simp at hwalk
      · rw [if_neg hroot] at hwalk
        simp only [List.cons_append, List.cons.injEq] at hwalk
        obtain ⟨rfl, hrest⟩ := hwalk
        unfold preload_contents_platform_loop
        rw [if_neg hroot]
        dsimp only
        rw [store_first_driver]
        have hm : node_subsystem fs iter ≠ some platform := hpre iter (List.mem_cons_self _ _)
        unfold node_subsystem at hm
        rw [if_neg (fun h => hm h.2),
          ih k { self with driver := self.driver.or (node_driver fs iter) } _ hrest hphys
            (fun x hx => hpre x (List.mem_cons_of_mem _ hx))]
        simp only [List.cons_append, first_driver_spec_cons]

/-- The loop of `preload_contents_platform` on a walk without a node of the bus. -/
theorem preload_contents_platform_loop_not_found (fs : Sysfs) (platform : CStr) (fuel : Nat) :
    ∀ (self : MMKernelDeviceGeneric) (iter : CStr),
      iter.head? = some '/' → iter.length ≤ fuel + 1 →
      (∀ m ∈ walk_upward fuel iter, node_subsystem fs m ≠ some platform) →
      preload_contents_platform_loop fs platform fuel self iter
        = some { self with
                 driver := self.driver.or (first_driver_spec fs (walk_upward fuel iter)) } := by
  induction fuel with
  | zero =>
    intro self iter habs hlen _
    unfold preload_contents_platform_loop
    rw [if_pos (absolute_short_is_root iter habs hlen)]
    simp [walk_upward, first_driver_spec]
  | succ k ih =>
    intro self iter habs hlen hall
    unfold preload_contents_platform_loop
    by_cases hroot : iter = "/".toList
    · rw [if_pos hroot]
      simp [walk_upward, hroot, first_driver_spec]
    · rw [if_neg hroot]
      dsimp only
      have hw : walk_upward (k + 1) iter = iter :: walk_upward k (g_path_get_dirname iter) := by
        rw [walk_upward, if_neg hroot]
      rw [hw] at hall ⊢
      obtain ⟨ha, hlt⟩ := g_path_get_dirname_absolute iter habs hroot
      rw [store_first_driver]
      have hm : node_subsystem fs iter ≠ some platform := hall iter (List.mem_cons_self _ _)
      unfold node_subsystem at hm
      rw [if_neg (fun h => hm h.2),
        ih { self with driver := self.driver.or (node_driver fs iter) } _ ha (by omega)
          (fun x hx => hall x (List.mem_cons_of_mem _ hx))]
      simp only [first_driver_spec_cons]

/-- The loop of `preload_contents_pcmcia` after a `pcmcia` node has been seen: it stops
    at the first node whose parent directory has a subsystem other than `pcmcia`. -/
theorem preload_contents_pcmcia_loop_seen (fs : Sysfs) (n : CStr) (post : List CStr)
    (s : CStr) (hn : node_subsystem fs (g_path_get_dirname n) = some s)
    (hs : s ≠ "pcmcia".toList) :
    ∀ (mid : List CStr) (fuel : Nat) (self : MMKernelDeviceGeneric) (iter : CStr),
      walk_upward fuel iter = mid ++ n :: post →
      (∀ m ∈ mid, node_subsystem fs (g_path_get_dirname m) = none
        ∨ node_subsystem fs (g_path_get_dirname m) = some "pcmcia".toList) →
      preload_contents_pcmcia_loop fs fuel self true iter
        = some { self with
                 driver := self.driver.or (first_driver_spec fs (mid ++ [n])),
                 physdev_sysfs_path := some n,
                 physdev_vid :=
                   to_guint16 (read_sysfs_attribute_as_hex fs (some n) "manf_id".toList),
                 physdev_pid :=
                   to_guint16 (read_sysfs_attribute_as_hex fs (some n) "card_id".toList) } := by
  have hs1 : node_subsystem fs (g_path_get_dirname n) ≠ some "pcmcia".toList := by
    rw [hn]
    intro h
    exact hs (Option.some.inj h)
  have hs2 : node_subsystem fs (g_path_get_dirname n) ≠ none := by
    rw [hn]
    intro h
    cases h
  intro mid
  induction mid with
  | nil =>
    intro fuel self iter hwalk _
    cases fuel with
    | zero => simp [walk_upward] at hwalk
    | succ k =>
      unfold walk_upward at hwalk
      by_cases hroot : iter = "/".toList
      · rw [if_pos hroot] at hwalk
        simp at hwalk
      · rw [if_neg hroot] at hwalk
        simp only [List.nil_append, List.cons.injEq] at hwalk
        obtain ⟨rfl, _⟩ := hwalk
        unfold preload_contents_pcmcia_loop
        rw [if_neg hroot]
        dsimp only
        rw [store_first_driver]
        unfold node_subsystem at hs1 hs2
        rw [if_pos ⟨by simp, hs2, hs1⟩, List.nil_append, first_driver_spec_single]
  | cons m mid1 ih =>
    intro fuel self iter hwalk hmid
    cases fuel with
    | zero => simp [walk_upward] at hwalk
    | succ k =>
      unfold walk_upward at hwalk
      by_cases hroot : iter = "/".toList
      · rw [if_pos hroot] at hwalk
        simp at hwalk
      · rw [if_neg hroot] at hwalk
        simp only [List.cons_append, List.cons.injEq] at hwalk
        obtain ⟨rfl, hrest⟩ := hwalk
        unfold preload_contents_pcmcia_loop
        rw [if_neg hroot]
        dsimp only
        rw [store_first_driver]
        have hm := hmid iter (List.mem_cons_self _ _)
        unfold node_subsystem at hm
        rw [if_neg (fun h => by
          rcases hm with hm | hm
          · exact h.2.1 hm
          · exact h.2.2 hm)]
        simp only [Bool.true_or]
        rw [ih k { self with driver := self.driver.or (node_driver fs iter) } _ hrest
            (fun x hx => hmid x (List.mem_cons_of_mem _ hx))]
        simp only [List.cons_append, first_driver_spec_cons]

/-- At a node of the subsystem `pcmcia` the loop of `preload_contents_pcmcia` goes on as
    if such a node had been seen before. -/
theorem preload_contents_pcmcia_loop_at_pcmcia (fs : Sysfs) (fuel : Nat)
    (self : MMKernelDeviceGeneric) (iter : CStr)
    (hc : node_subsystem fs iter = some "pcmcia".toList) :
    preload_contents_pcmcia_loop fs fuel self false iter
      = preload_contents_pcmcia_loop fs fuel self true iter := by
  unfold node_subsystem at hc
  cases fuel with
  | zero => unfold preload_contents_pcmcia_loop; rfl
  | succ k =>
    unfold preload_contents_pcmcia_loop
    simp only [hc, decide_True, Bool.or_true, Bool.true_or]

/-- The loop of `preload_contents_pcmcia` from the start: nodes below the first `pcmcia`
    node are passed, and from that node on the loop stops at the first node whose parent
    directory has a subsystem other than `pcmcia`. -/
theorem preload_contents_pcmcia_loop_found (fs : Sysfs) (c n : CStr) (rest mid post : List CStr)
    (s : CStr) (hc : node_subsystem fs c = some "pcmcia".toList)
    (hsplit : c :: rest = mid ++ n :: post)
    (hmid : ∀ m ∈ mid, node_subsystem fs (g_path_get_dirname m) = none
        ∨ node_subsystem fs (g_path_get_dirname m) = some "pcmcia".toList)
    (hn : node_subsystem fs (g_path_get_dirname n) = some s) (hs : s ≠ "pcmcia".toList) :
    ∀ (pre : List CStr) (fuel : Nat) (self : MMKernelDeviceGeneric) (iter : CStr),
      walk_upward fuel iter = pre ++ c :: rest →
      (∀ m ∈ pre, node_subsystem fs m ≠ some "pcmcia".toList) →
      preload_contents_pcmcia_loop fs fuel self false iter
        = some { self with
                 driver := self.driver.or (first_driver_spec fs (pre ++ (mid ++ [n]))),
                 physdev_sysfs_path := some n,
                 physdev_vid :=
                   to_guint16 (read_sysfs_attribute_as_hex fs (some n) "manf_id".toList),
                 physdev_pid :=
                   to_guint16 (read_sysfs_attribute_as_hex fs (some n) "card_id".toList) } := by
  intro pre
  induction pre with
  | nil =>
    intro fuel self iter hwalk _
    have hiter : iter = c := by
      cases fuel with
      | zero => simp [walk_upward] at hwalk
      | succ k =>
        unfold walk_upward at hwalk
        split_ifs at hwalk
        · simp at hwalk
        · simp only [List.nil_append, List.cons.injEq] at hwalk
          exact hwalk.1
    subst hiter
    rw [preload_contents_pcmcia_loop_at_pcmcia fs fuel self iter hc,
      preload_contents_pcmcia_loop_seen fs n post s hn hs mid fuel self iter
        (by rw [hwalk, List.nil_append, hsplit]) hmid]
    rfl
  | cons m pre1 ih =>
    intro fuel self iter hwalk hpre
    cases fuel with
    | zero => simp [walk_upward] at hwalk
    | succ k =>
      unfold walk_upward at hwalk
      by_cases hroot : iter = "/".toList
      · rw [if_pos hroot] at hwalk
        simp at hwalk
      · rw [if_neg hroot] at hwalk
        simp only [List.cons_append, List.cons.injEq] at hwalk
        obtain ⟨rfl, hrest⟩ := hwalk
        unfold preload_contents_pcmcia_loop
        rw [if_neg hroot]
        dsimp only
        rw [store_first_driver]
        have hm : node_subsystem fs iter ≠ some "pcmcia".toList :=
          hpre iter (List.mem_cons_self _ _)
        unfold node_subsystem at hm
        simp only [Bool.false_or, decide_eq_true_eq]
        rw [if_neg (fun h => hm h.1), decide_eq_false hm,
          ih k { self with driver := self.driver.or (node_driver fs iter) } _ hrest
            (fun x hx => hpre x (List.mem_cons_of_mem _ hx))]
        simp only [List.cons_append, first_driver_spec_cons]

/-- The loop of `preload_contents_usb` once the interface is known: it stops at the
    first node of the walk that exposes `idVendor`. -/
theorem preload_contents_usb_loop_physdev (fs : Sysfs) (n : CStr) (post : List CStr)
    (hn : has_sysfs_attribute fs (some n) "idVendor".toList = true) :
    ∀ (pre : List CStr) (fuel : Nat) (self : MMKernelDeviceGeneric) (iter : CStr),
      walk_upward fuel iter = pre ++ n :: post →
      self.interface_sysfs_path ≠ none →
      self.physdev_sysfs_path = none →
      (∀ m ∈ pre, has_sysfs_attribute fs (some m) "idVendor".toList = false) →
      preload_contents_usb_loop fs fuel self iter
        = some { self with
                 physdev_sysfs_path := some n,
                 physdev_vid :=
                   to_guint16 (read_sysfs_attribute_as_hex fs (some n) "idVendor".toList),
                 physdev_pid :=
                   to_guint16 (read_sysfs_attribute_as_hex fs (some n) "idProduct".toList),
                 physdev_revision :=
                   to_guint16 (read_sysfs_attribute_as_hex fs (some n) "bcdDevice".toList),
                 physdev_subsystem := node_subsystem fs n,
                 physdev_manufacturer :=
                   read_sysfs_attribute_as_string fs (some n) "manufacturer".toList,
                 physdev_product :=
                   read_sysfs_attribute_as_string fs (some n) "product".toList } := by
  intro pre
  induction pre with
  | nil =>
    intro fuel self iter hwalk hif hphys _
    cases fuel with
    | zero => simp [walk_upward] at hwalk
    | succ k =>
      unfold walk_upward at hwalk
      by_cases hroot : iter = "/".toList
      · rw [if_pos hroot] at hwalk
        simp at hwalk
      · rw [if_neg hroot] at hwalk
        simp only [List.nil_append, List.cons.injEq] at hwalk
        obtain ⟨rfl, _⟩ := hwalk
        unfold preload_contents_usb_loop
        rw [if_neg hroot]
        dsimp only
        rw [if_neg (fun h => hif h.1), if_pos ⟨hphys, hn⟩]
        rfl
  | cons m pre1 ih =>
    intro fuel self iter hwalk hif hphys hpre
    cases fuel with
    | zero => simp [walk_upward] at hwalk
    | succ k =>
      unfold walk_upward at hwalk
      by_cases hroot : iter = "/".toList
      · rw [if_pos hroot] at hwalk
        simp at hwalk
      · rw [if_neg hroot] at hwalk
        simp only [List.cons_append, List.cons.injEq] at hwalk
        obtain ⟨rfl, hrest⟩ := hwalk
        unfold preload_contents_usb_loop
        rw [if_neg hroot]
        dsimp only
        have hm := hpre iter (List.mem_cons_self _ _)
        rw [if_neg (fun h => hif h.1), if_neg (fun h => by rw [hm] at h; cases h.2),
          ih k self _ hrest hif hphys (fun x hx => hpre x (List.mem_cons_of_mem _ hx))]

/-- The loop of `preload_contents_usb` on a fresh record when no node below the first
    one that exposes `idVendor` exposes `bInterfaceClass`, and that node does not
    either: no interface is recorded. -/
theorem preload_contents_usb_loop_no_interface (fs : Sysfs) (n : CStr) (post : List CStr)
    (hn : has_sysfs_attribute fs (some n) "idVendor".toList = true)
    (hni : has_sysfs_attribute fs (some n) "bInterfaceClass".toList = false) :
    ∀ (pre : List CStr) (fuel : Nat) (self : MMKernelDeviceGeneric) (iter : CStr),
      walk_upward fuel iter = pre ++ n :: post →
      self.physdev_sysfs_path = none →
      (∀ m ∈ pre, has_sysfs_attribute fs (some m) "idVendor".toList = false) →
      (∀ m ∈ pre, has_sysfs_attribute fs (some m) "bInterfaceClass".toList = false) →
      preload_contents_usb_loop fs fuel self iter
        = some { self with
                 physdev_sysfs_path := some n,
                 physdev_vid :=
                   to_guint16 (read_sysfs_attribute_as_hex fs (some n) "idVendor".toList),
                 physdev_pid :=
                   to_guint16 (read_sysfs_attribute_as_hex fs (some n) "idProduct".toList),
                 physdev_revision :=
                   to_guint16 (read_sysfs_attribute_as_hex fs (some n) "bcdDevice".toList),
                 physdev_subsystem := node_subsystem fs n,
                 physdev_manufacturer :=
                   read_sysfs_attribute_as_string fs (some n) "manufacturer".toList,
                 physdev_product :=
                   read_sysfs_attribute_as_string fs (some n) "product".toList } := by
  intro pre
  induction pre with
  | nil =>
    intro fuel self iter hwalk hphys _ _
    cases fuel with
    | zero => simp [walk_upward] at hwalk
    | succ k =>
      unfold walk_upward at hwalk
      by_cases hroot : iter = "/".toList
      · rw [if_pos hroot] at hwalk
        simp at hwalk
      · rw [if_neg hroot] at hwalk
        simp only [List.nil_append, List.cons.injEq] at hwalk
        obtain ⟨rfl, _⟩ := hwalk
        unfold preload_contents_usb_loop
        rw [if_neg hroot]
        dsimp only
        rw [if_neg (fun h => by rw [hni] at h; cases h.2), if_pos ⟨hphys, hn⟩]
        rfl
  | cons m pre1 ih =>
    intro fuel self iter hwalk hphys hpre hpre2
    cases fuel with
    | zero => simp [walk_upward] at hwalk
    | succ k =>
      unfold walk_upward at hwalk
      by_cases hroot : iter = "/".toList
      · rw [if_pos hroot] at hwalk
        simp at hwalk
      · rw [if_neg hroot] at hwalk
        simp only [List.cons_append, List.cons.injEq] at hwalk
        obtain ⟨rfl, hrest⟩ := hwalk
        unfold preload_contents_usb_loop
        rw [if_neg hroot]
        dsimp only
        have hm := hpre iter (List.mem_cons_self _ _)
        have hm2 := hpre2 iter (List.mem_cons_self _ _)
        rw [if_neg (fun h => by rw [hm2] at h; cases h.2),
          if_neg (fun h => by rw [hm] at h; cases h.2),
          ih k self _ hrest hphys (fun x hx => hpre x (List.mem_cons_of_mem _ hx))
            (fun x hx => hpre2 x (List.mem_cons_of_mem _ hx))]

/-- The loop of `preload_contents_usb` on a fresh record: the first node that exposes
    `bInterfaceClass` becomes the interface, and the first node above it that exposes
    `idVendor` the physical device, where the loop stops. -/
theorem preload_contents_usb_loop_found (fs : Sysfs) (i n : CStr) (pre2 post : List CStr)
    (hi : has_sysfs_attribute fs (some i) "bInterfaceClass".toList = true)
    (hn : has_sysfs_attribute fs (some n) "idVendor".toList = true)
    (hpre2 : ∀ m ∈ pre2, has_sysfs_attribute fs (some m) "idVendor".toList = false) :
    ∀ (pre1 : List CStr) (fuel : Nat) (self : MMKernelDeviceGeneric) (iter : CStr),
      walk_upward fuel iter = pre1 ++ i :: (pre2 ++ n :: post) →
      self.interface_sysfs_path = none →
      self.physdev_sysfs_path = none →
      (∀ m ∈ pre1, has_sysfs_attribute fs (some m) "idVendor".toList = false) →
      (∀ m ∈ pre1, has_sysfs_attribute fs (some m) "bInterfaceClass".toList = false) →
      preload_contents_usb_loop fs fuel self iter
        = some { self with
                 interface_sysfs_path := some i,
                 interface_class :=
                   to_guint8 (read_sysfs_attribute_as_hex fs (some i) "bInterfaceClass".toList),
                 interface_subclass :=
                   to_guint8 (read_sysfs_attribute_as_hex fs (some i) "bInterfaceSubClass".toList),
                 interface_protocol :=
                   to_guint8 (read_sysfs_attribute_as_hex fs (some i) "bInterfaceProtocol".toList),
                 interface_number :=
                   to_guint8 (read_sysfs_attribute_as_hex fs (some i) "bInterfaceNumber".toList),
                 interface_description :=
                   read_sysfs_attribute_as_string fs (some i) "interface".toList,
                 driver := node_driver fs i,
                 physdev_sysfs_path := some n,
                 physdev_vid :=
                   to_guint16 (read_sysfs_attribute_as_hex fs (some n) "idVendor".toList),
                 physdev_pid :=
                   to_guint16 (read_sysfs_attribute_as_hex fs (some n) "idProduct".toList),
                 physdev_revision :=
                   to_guint16 (read_sysfs_attribute_as_hex fs (some n) "bcdDevice".toList),
                 physdev_subsystem := node_subsystem fs n,
                 physdev_manufacturer :=
                   read_sysfs_attribute_as_string fs (some n) "manufacturer".toList,
                 physdev_product :=
                   read_sysfs_attribute_as_string fs (some n) "product".toList } := by
  intro pre1
  induction pre1 with
  | nil =>
    intro fuel self iter hwalk hif hphys _ _
    cases fuel with
    | zero => simp [walk_upward] at hwalk
    | succ k =>
      unfold walk_upward at hwalk
      by_cases hroot : iter = "/".toList
      · rw [if_pos hroot] at hwalk
        simp at hwalk
      · rw [if_neg hroot] at hwalk
        simp only [List.nil_append, List.cons.injEq] at hwalk
        obtain ⟨rfl, hrest⟩ := hwalk
        unfold preload_contents_usb_loop
        rw [if_neg hroot]
        dsimp only
        rw [if_pos ⟨hif, hi⟩]
        refine (preload_contents_usb_loop_physdev fs n post hn pre2 k _ _ hrest ?_ ?_
          hpre2).trans ?_
        · simp
        · exact hphys
        · rfl
  | cons m pre1 ih =>
    intro fuel self iter hwalk hif hphys hpre hpre1
    cases fuel with
    | zero => simp [walk_upward] at hwalk
    | succ k =>
      unfold walk_upward at hwalk
      by_cases hroot : iter = "/".toList
      · rw [if_pos hroot] at hwalk
        simp at hwalk
      · rw [if_neg hroot] at hwalk
        simp only [List.cons_append, List.cons.injEq] at hwalk
        obtain ⟨rfl, hrest⟩ := hwalk
        unfold preload_contents_usb_loop
        rw [if_neg hroot]
        dsimp only
        have hm := hpre iter (List.mem_cons_self _ _)
        have hm2 := hpre1 iter (List.mem_cons_self _ _)
        rw [if_neg (fun h => by rw [hm2] at h; cases h.2),
          if_neg (fun h => by rw [hm] at h; cases h.2),
          ih k self _ hrest hif hphys (fun x hx => hpre x (List.mem_cons_of_mem _ hx))
            (fun x hx => hpre1 x (List.mem_cons_of_mem _ hx))]

/-- First-driver rule of the loop of `preload_contents_pci`: the driver is the one
    already stored, or else the first driver link among the nodes walked, which are all
    the nodes when no physical device was found and the nodes up to the physical device
    otherwise. -/
theorem preload_contents_pci_loop_driver (fs : Sysfs) (fuel : Nat) :
    ∀ (self : MMKernelDeviceGeneric) (iter : CStr) (r : MMKernelDeviceGeneric),
      preload_contents_pci_loop fs fuel self iter = some r →
      self.physdev_sysfs_path = none →
      (r.physdev_sysfs_path = none
        ∧ r.driver = self.driver.or (first_driver_spec fs (walk_upward fuel iter)))
      ∨ ∃ pre n post, walk_upward fuel iter = pre ++ n :: post
          ∧ r.physdev_sysfs_path = some n
          ∧ r.driver = self.driver.or (first_driver_spec fs (pre ++ [n])) := by
  induction fuel with
  | zero =>
    intro self iter r h hphys
    unfold preload_contents_pci_loop at h
    split_ifs at h
    cases h
    exact Or.inl ⟨hphys, by simp [walk_upward, first_driver_spec]⟩
  | succ k ih =>
    intro self iter r h hphys
    unfold preload_contents_pci_loop at h
    by_cases hroot : iter = "/".toList
    · rw [if_pos hroot] at h
      cases h
      exact Or.inl ⟨hphys, by simp [walk_upward, hroot, first_driver_spec]⟩
    · rw [if_neg hroot] at h
      dsimp only at h
      rw [store_first_driver] at h
      have hw : walk_upward (k + 1) iter = iter :: walk_upward k (g_path_get_dirname iter) := by
        rw [walk_upward, if_neg hroot]
      rw [hw]
      split_ifs at h with hstop
      · cases h
        exact Or.inr ⟨[], iter, _, rfl, rfl, by rw [List.nil_append, first_driver_spec_single]⟩
      · rcases ih _ _ _ h hphys with ⟨h1, h2⟩ | ⟨pre, n, post, h1, h2, h3⟩
        · exact Or.inl ⟨h1, by rw [h2, first_driver_spec_cons]⟩
        · exact Or.inr ⟨iter :: pre, n, post, by rw [h1]; rfl, h2,
            by rw [h3, List.cons_append, first_driver_spec_cons]⟩

/-- First-driver rule of the loop of `preload_contents_platform`. -/
theorem preload_contents_platform_loop_driver (fs : Sysfs) (platform : CStr) (fuel : Nat) :
    ∀ (self : MMKernelDeviceGeneric) (iter : CStr) (r : MMKernelDeviceGeneric),
      preload_contents_platform_loop fs platform fuel self iter = some r →
      self.physdev_sysfs_path = none →
      (r.physdev_sysfs_path = none
        ∧ r.driver = self.driver.or (first_driver_spec fs (walk_upward fuel iter)))
      ∨ ∃ pre n post, walk_upward fuel iter = pre ++ n :: post
          ∧ r.physdev_sysfs_path = some n
          ∧ r.driver = self.driver.or (first_driver_spec fs (pre ++ [n])) := by
  induction fuel with
  | zero =>
    intro self iter r h hphys
    unfold preload_contents_platform_loop at h
    split_ifs at h
    cases h
    exact Or.inl ⟨hphys, by simp [walk_upward, first_driver_spec]⟩
  | succ k ih =>
    intro self iter r h hphys
    unfold preload_contents_platform_loop at h
    by_cases hroot : iter = "/".toList
    · rw [if_pos hroot] at h
      cases h
      exact Or.inl ⟨hphys, by simp [walk_upward, hroot, first_driver_spec]⟩
    · rw [if_neg hroot] at h
      dsimp only at h
      rw [store_first_driver] at h
      have hw : walk_upward (k + 1) iter = iter :: walk_upward k (g_path_get_dirname iter) := by
        rw [walk_upward, if_neg hroot]
      rw [hw]
      split_ifs at h with hstop
      · cases h
        exact Or.inr ⟨[], iter, _, rfl, rfl, by rw [List.nil_append, first_driver_spec_single]⟩
      · rcases ih _ _ _ h hphys with ⟨h1, h2⟩ | ⟨pre, n, post, h1, h2, h3⟩
        · exact Or.inl ⟨h1, by rw [h2, first_driver_spec_cons]⟩
        · exact Or.inr ⟨iter :: pre, n, post, by rw [h1]; rfl, h2,
            by rw [h3, List.cons_append, first_driver_spec_cons]⟩

/-- First-driver rule of the loop of `preload_contents_pcmcia`. -/
theorem preload_contents_pcmcia_loop_driver (fs : Sysfs) (fuel : Nat) :
    ∀ (self : MMKernelDeviceGeneric) (found : Bool) (iter : CStr) (r : MMKernelDeviceGeneric),
      preload_contents_pcmcia_loop fs fuel self found iter = some r →
      self.physdev_sysfs_path = none →
      (r.physdev_sysfs_path = none
        ∧ r.driver = self.driver.or (first_driver_spec fs (walk_upward fuel iter)))
      ∨ ∃ pre n post, walk_upward fuel iter = pre ++ n :: post
          ∧ r.physdev_sysfs_path = some n
          ∧ r.driver = self.driver.or (first_driver_spec fs (pre ++ [n])) := by
  induction fuel with
  | zero =>
    intro self found iter r h hphys
    unfold preload_contents_pcmcia_loop at h
    split_ifs at h
    cases h
    exact Or.inl ⟨hphys, by simp [walk_upward, first_driver_spec]⟩
  | succ k ih =>
    intro self found iter r h hphys
    unfold preload_contents_pcmcia_loop at h
    by_cases hroot : iter = "/".toList
    · rw [if_pos hroot] at h
      cases h
      exact Or.inl ⟨hphys, by simp [walk_upward, hroot, first_driver_spec]⟩
    · rw [if_neg hroot] at h
      dsimp only at h
      rw [store_first_driver] at h
      have hw : walk_upward (k + 1) iter = iter :: walk_upward k (g_path_get_dirname iter) := by
        rw [walk_upward, if_neg hroot]
      rw [hw]
      split_ifs at h with hstop
      · cases h
        exact Or.inr ⟨[], iter, _, rfl, rfl, by rw [List.nil_append, first_driver_spec_single]⟩
      · rcases ih _ _ _ _ h hphys with ⟨h1, h2⟩ | ⟨pre, n, post, h1, h2, h3⟩
        · exact Or.inl ⟨h1, by rw [h2, first_driver_spec_cons]⟩
        · exact Or.inr ⟨iter :: pre, n, post, by rw [h1]; rfl, h2,
            by rw [h3, List.cons_append, first_driver_spec_cons]⟩

/-- The loop of `preload_contents_usb` leaves the driver and the interface of a record
    whose interface is known as they are. -/
theorem preload_contents_usb_loop_keeps_interface (fs : Sysfs) (fuel : Nat) :
    ∀ (self : MMKernelDeviceGeneric) (iter : CStr) (r : MMKernelDeviceGeneric),
      preload_contents_usb_loop fs fuel self iter = some r →
      self.interface_sysfs_path ≠ none →
      r.driver = self.driver ∧ r.interface_sysfs_path = self.interface_sysfs_path := by
  induction fuel with
  | zero =>
    intro self iter r h _
    unfold preload_contents_usb_loop at h
    split_ifs at h
    cases h
    exact ⟨rfl, rfl⟩
  | succ k ih =>
    intro self iter r h hif
    unfold preload_contents_usb_loop at h
    by_cases hroot : iter = "/".toList
    · rw [if_pos hroot] at h
      cases h
      exact ⟨rfl, rfl⟩
    · rw [if_neg hroot] at h
      dsimp only at h
      rw [if_neg (fun hc => hif hc.1)] at h
      split_ifs at h
      · cases h
        exact ⟨rfl, rfl⟩
      · exact ih _ _ _ h hif

/-- The driver that the loop of `preload_contents_usb` records on a fresh record: the
    driver link of the interface node, which is the first node walked that exposes
    `bInterfaceClass`; without such a node the driver stays as it was. -/
theorem preload_contents_usb_loop_driver (fs : Sysfs) (fuel : Nat) :
    ∀ (self : MMKernelDeviceGeneric) (iter : CStr) (r : MMKernelDeviceGeneric),
      preload_contents_usb_loop fs fuel self iter = some r →
      self.interface_sysfs_path = none →
      (r.interface_sysfs_path = none ∧ r.driver = self.driver)
      ∨ ∃ pre i post, walk_upward fuel iter = pre ++ i :: post
          ∧ (∀ m ∈ pre, has_sysfs_attribute fs (some m) "bInterfaceClass".toList = false)
          ∧ has_sysfs_attribute fs (some i) "bInterfaceClass".toList = true
          ∧ r.interface_sysfs_path = some i
          ∧ r.driver = node_driver fs i := by
  induction fuel with
  | zero =>
    intro self iter r h hif
    unfold preload_contents_usb_loop at h
    split_ifs at h
    cases h
    exact Or.inl ⟨hif, rfl⟩
  | succ k ih =>
    intro self iter r h hif
    unfold preload_contents_usb_loop at h
    by_cases hroot : iter = "/".toList
    · rw [if_pos hroot] at h
      cases h
      exact Or.inl ⟨hif, rfl⟩
    · rw [if_neg hroot] at h
      dsimp only at h
      have hw : walk_upward (k + 1) iter = iter :: walk_upward k (g_path_get_dirname iter) := by
        rw [walk_upward, if_neg hroot]
      rw [hw]
      by_cases hic : has_sysfs_attribute fs (some iter) "bInterfaceClass".toList = true
      · rw [if_pos ⟨hif, hic⟩] at h
        obtain ⟨h1, h2⟩ := preload_contents_usb_loop_keeps_interface fs k _ _ _ h (by simp)
        exact Or.inr ⟨[], iter, _, rfl, by simp, hic, h2, h1⟩
      · rw [if_neg (fun hc => hic hc.2)] at h
        split_ifs at h
        · cases h
          exact Or.inl ⟨hif, rfl⟩
        · rcases ih _ _ _ h hif with h1 | ⟨pre, i, post, h1, h2, h3, h4, h5⟩
          · exact Or.inl h1
          · refine Or.inr ⟨iter :: pre, i, post, by rw [h1]; rfl, ?_, h3, h4, h5⟩
            intro m hm
            rcases List.mem_cons.mp hm with rfl | hm
            · simpa using hic
            · exact h2 m hm

theorem Udev.udev_find_device_bus_subsystem_loop_eq :
    ∀ (ancestors : List Udev.GUdevNode) (node : Udev.GUdevNode),
      Udev.find_device_bus_subsystem_loop node ancestors
        = ((node :: ancestors).find? (fun n => on_bus n.subsystem)).bind
            (fun n => n.subsystem) := by
  intro ancestors
  induction ancestors with
  | nil =>
    intro node
    unfold Udev.find_device_bus_subsystem_loop
    simp only [g_strcmp0_eq, decide_eq_true_eq, Udev.g_udev_device_get_subsystem]
    rw [List.find?_cons]
    by_cases hbus : on_bus node.subsystem = true
    · rw [if_pos ((on_bus_iff _).mpr hbus), hbus]
      rfl
    · rw [if_neg (fun h => hbus ((on_bus_iff _).mp h))]
      simp only [Bool.not_eq_true] at hbus
      rw [hbus]
      rfl
  | cons parent rest ih =>
    intro node
    unfold Udev.find_device_bus_subsystem_loop
    simp only [g_strcmp0_eq, decide_eq_true_eq, Udev.g_udev_device_get_subsystem]
    rw [List.find?_cons]
    by_cases hbus : on_bus node.subsystem = true
    · rw [if_pos ((on_bus_iff _).mpr hbus), hbus]
      rfl
    · rw [if_neg (fun h => hbus ((on_bus_iff _).mp h)), ih parent]
      simp only [Bool.not_eq_true] at hbus
      rw [hbus]

/-- One iteration of the loop of `preload_contents_pci` of the udev backend. -/
theorem Udev.udev_preload_contents_pci_loop_eq (self : Udev.MMKernelDeviceUdev)
    (node : Udev.GUdevNode) (ancestors : List Udev.GUdevNode) :
    Udev.preload_contents_pci_loop self node ancestors
      = if ({ self with driver := self.driver.or node.driver } :
              Udev.MMKernelDeviceUdev).physdev = none
            ∧ node.subsystem = some "pci".toList then
          { self with
            driver := self.driver.or node.driver,
            vendor := to_guint16
              (Udev.udev_device_get_sysfs_attr_as_hex ⟨node, ancestors⟩ "vendor".toList),
            product := to_guint16
              (Udev.udev_device_get_sysfs_attr_as_hex ⟨node, ancestors⟩ "device".toList),
            revision := to_guint16
              (Udev.udev_device_get_sysfs_attr_as_hex ⟨node, ancestors⟩ "revision".toList),
            physdev := some ⟨node, ancestors⟩ }
        else
          match ancestors with
          | [] => { self with driver := self.driver.or node.driver }
          | parent :: rest =>
            Udev.preload_contents_pci_loop { self with driver := self.driver.or node.driver }
              parent rest := by
  rcases self with ⟨dev, ifc, phys, v, p, r, d0, props⟩
  cases ancestors <;> cases d0 <;>
    simp [Udev.preload_contents_pci_loop, g_strcmp0_eq, Udev.g_udev_device_get_subsystem,
      Udev.g_udev_device_get_driver]

/-- The loop of `preload_contents_pci` of the udev backend on a chain without a device
    of the subsystem `pci`. -/
theorem Udev.udev_preload_contents_pci_loop_not_found :
    ∀ (ancestors : List Udev.GUdevNode) (self : Udev.MMKernelDeviceUdev)
      (node : Udev.GUdevNode),
      (∀ m ∈ node :: ancestors, m.subsystem ≠ some "pci".toList) →
      Udev.preload_contents_pci_loop self node ancestors
        = { self with
            driver := self.driver.or ((node :: ancestors).findSome? (fun m => m.driver)) } := by
  intro ancestors
  induction ancestors with
  | nil =>
    intro self node hall
    have hm : node.subsystem ≠ some "pci".toList := hall node (List.mem_cons_self _ _)
    rw [Udev.udev_preload_contents_pci_loop_eq, if_neg (fun h => hm h.2)]
    simp only [List.findSome?_cons, List.findSome?_nil]
    cases node.driver <;> rfl
  | cons parent rest ih =>
    intro self node hall
    have hm : node.subsystem ≠ some "pci".toList := hall node (List.mem_cons_self _ _)
    rw [Udev.udev_preload_contents_pci_loop_eq, if_neg (fun h => hm h.2)]
    dsimp only
    refine (ih { self with driver := self.driver.or node.driver } parent
      (fun x hx => hall x (List.mem_cons_of_mem _ hx))).trans ?_
    rw [List.findSome?_cons (a := node)]
    cases self.driver <;> cases node.driver <;> rfl

theorem g_strcmp0_eq_comm (a b : Option CStr) : g_strcmp0_eq a b = g_strcmp0_eq b a := by
  unfold g_strcmp0_eq
  exact decide_eq_decide.mpr eq_comm

theorem SameButBag.same_refl (a : MMKernelDeviceGeneric) : SameButBag a a := rfl

theorem SameButBag.same_trans {a b c : MMKernelDeviceGeneric} (h1 : SameButBag a b)
    (h2 : SameButBag b c) : SameButBag a c := by
  rcases a with ⟨p, r, d, sp, isp, ic, isc, ip, inn, idesc, psp, pv, pp, pr, psub, pman,
    pprod, od⟩
  rcases b with ⟨p1, r1, d1, sp1, isp1, ic1, isc1, ip1, inn1, idesc1, psp1, pv1, pp1, pr1,
    psub1, pman1, pprod1, od1⟩
  rcases c with ⟨p2, r2, d2, sp2, isp2, ic2, isc2, ip2, inn2, idesc2, psp2, pv2, pp2, pr2,
    psub2, pman2, pprod2, od2⟩
  simp only [SameButBag, MMKernelDeviceGeneric.mk.injEq, and_true] at h1 h2 ⊢
  obtain ⟨rfl, rfl, rfl, rfl, rfl, rfl, rfl, rfl, rfl, rfl, rfl, rfl, rfl, rfl, rfl, rfl,
    rfl⟩ := h1
  exact h2

theorem SameButBag.same_symm {a b : MMKernelDeviceGeneric} (h : SameButBag a b) :
    SameButBag b a := by
  rcases a with ⟨p, r, d, sp, isp, ic, isc, ip, inn, idesc, psp, pv, pp, pr, psub, pman,
    pprod, od⟩
  rcases b with ⟨p1, r1, d1, sp1, isp1, ic1, isc1, ip1, inn1, idesc1, psp1, pv1, pp1, pr1,
    psub1, pman1, pprod1, od1⟩
  simp only [SameButBag, MMKernelDeviceGeneric.mk.injEq, and_true] at h ⊢
  obtain ⟨rfl, rfl, rfl, rfl, rfl, rfl, rfl, rfl, rfl, rfl, rfl, rfl, rfl, rfl, rfl, rfl,
    rfl⟩ := h
  exact ⟨rfl, rfl, rfl, rfl, rfl, rfl, rfl, rfl, rfl, rfl, rfl, rfl, rfl, rfl, rfl, rfl, rfl⟩

theorem SameButBag.to_classification {a b : MMKernelDeviceGeneric} (h : SameButBag a b) :
    same_classification a b := by
  rcases a with ⟨p, r, d, sp, isp, ic, isc, ip, inn, idesc, psp, pv, pp, pr, psub, pman,
    pprod, od⟩
  rcases b with ⟨p1, r1, d1, sp1, isp1, ic1, isc1, ip1, inn1, idesc1, psp1, pv1, pp1, pr1,
    psub1, pman1, pprod1, od1⟩
  simp only [SameButBag, MMKernelDeviceGeneric.mk.injEq, and_true] at h
  obtain ⟨rfl, rfl, rfl, rfl, rfl, rfl, rfl, rfl, rfl, rfl, rfl, rfl, rfl, rfl, rfl, rfl,
    rfl⟩ := h
  exact ⟨rfl, rfl, rfl, rfl, rfl, rfl, rfl, rfl, rfl, rfl, rfl, rfl, rfl, rfl, rfl, rfl, rfl⟩

theorem set_data_same_but_bag (self : MMKernelDeviceGeneric) (key data : CStr) :
    SameButBag self (g_object_set_data self key data) := rfl

/-- A condition evaluates alike on two records of the same classification, provided
    that the bags are equal or that the condition is not an `ENV` condition. -/
theorem check_condition_congr (a b : MMKernelDeviceGeneric) (m : MMUdevRuleMatch)
    (h : same_classification a b)
    (hbag : g_str_has_prefix (some m.parameter) "ENV".toList = false
      ∨ a.object_data = b.object_data) :
    check_condition a m = check_condition b m := by
  obtain ⟨_, hname, hd, hsp, _, hic, hisc, hip, hin, _, _, hpv, hpp, _, _, hpman, hpprod⟩ := h
  unfold check_condition
  simp only [kernel_device_get_driver, kernel_device_get_physdev_vid,
    kernel_device_get_physdev_pid, hname, hd, hsp, hic, hisc, hip, hin, hpv, hpp, hpman,
    hpprod]
  rcases hbag with hbag | hbag
  · simp only [hbag, Bool.false_eq_true, if_false]
  · simp only [g_object_get_data, hbag]

theorem check_conditions_congr (a b : MMKernelDeviceGeneric) (h : same_classification a b) :
    ∀ (conds : List MMUdevRuleMatch),
      ((∀ m ∈ conds, g_str_has_prefix (some m.parameter) "ENV".toList = false)
        ∨ a.object_data = b.object_data) →
      check_conditions a conds = check_conditions b conds := by
  intro conds
  induction conds with
  | nil => intro _; rfl
  | cons m rest ih =>
    intro hbag
    simp only [check_conditions]
    rw [check_condition_congr a b m h (hbag.imp (fun h1 => h1 m (List.mem_cons_self _ _)) id),
      ih (hbag.imp (fun h1 x hx => h1 x (List.mem_cons_of_mem _ hx)) id)]

/-- One step of `check_rule` on two records of the same classification, whose bags are
    equal or whose table has no `ENV` condition: the same next index, and either both
    records are left as they are or the same property is set on both. -/
theorem check_rule_congr (a b : MMKernelDeviceGeneric) (i next : Nat)
    (a1 : MMKernelDeviceGeneric) (h : same_classification a b)
    (hbag : (∀ rules, a.rules = some rules → reads_no_property rules)
      ∨ a.object_data = b.object_data)
    (hstep : check_rule a i = .ok (next, a1)) :
    (a1 = a ∧ check_rule b i = .ok (next, b))
    ∨ ∃ name data, a1 = g_object_set_data a name data
        ∧ check_rule b i = .ok (next, g_object_set_data b name data) := by
  have h' := h
  obtain ⟨hr, _, _, _, _, hic, hisc, hip, hin, _⟩ := h
  unfold check_rule at hstep ⊢
  rw [← hr]
  cases hrules : a.rules with
  | none => rw [hrules] at hstep; cases hstep
  | some rules =>
    rw [hrules] at hstep
    dsimp only at hstep ⊢
    cases hrule : rules[i]? with
    | none => rw [hrule] at hstep; cases hstep
    | some rule =>
      rw [hrule] at hstep
      dsimp only at hstep ⊢
      have hconds : (match rule.conditions with
          | none => Except.ok true
          | some conditions => check_conditions a conditions)
          = (match rule.conditions with
          | none => Except.ok true
          | some conditions => check_conditions b conditions) := by
        cases hc : rule.conditions with
        | none => rfl
        | some conds =>
          exact check_conditions_congr a b h' conds
            (hbag.imp (fun h1 => h1 rules hrules rule (List.getElem?_mem hrule) conds hc) id)
      rw [hconds] at hstep
      generalize (match rule.conditions with
          | none => Except.ok true
          | some conditions => check_conditions b conditions) = cres at hstep ⊢
      rcases cres with f | (_ | _)
      · cases hstep
      · simp only [Except.ok.injEq, Prod.mk.injEq] at hstep
        obtain ⟨rfl, rfl⟩ := hstep
        exact Or.inl ⟨rfl, rfl⟩
      · dsimp only at hstep ⊢
        cases hres : rule.result with
        | PROPERTY name value =>
          rw [hres] at hstep
          dsimp only at hstep ⊢
          rw [hic, hisc, hip, hin] at hstep
          generalize (if value = "$attr{bInterfaceClass}".toList then
              some (printf_0x 2 b.interface_class.val)
            else if value = "$attr{bInterfaceSubClass}".toList then
              some (printf_0x 2 b.interface_subclass.val)
            else if value = "$attr{bInterfaceProtocol}".toList then
              some (printf_0x 2 b.interface_protocol.val)
            else if value = "$attr{bInterfaceNumber}".toList then
              some (printf_0x 2 b.interface_number.val)
            else none) = pv at hstep ⊢
          cases pv with
          | none =>
            simp only [Except.ok.injEq, Prod.mk.injEq] at hstep
            obtain ⟨rfl, rfl⟩ := hstep
            exact Or.inr ⟨name, value, rfl, rfl⟩
          | some read =>
            simp only [Except.ok.injEq, Prod.mk.injEq] at hstep
            obtain ⟨rfl, rfl⟩ := hstep
            exact Or.inr ⟨name, read, rfl, rfl⟩
        | LABEL =>
          rw [hres] at hstep
          simp only [Except.ok.injEq, Prod.mk.injEq] at hstep
          obtain ⟨rfl, rfl⟩ := hstep
          exact Or.inl ⟨rfl, rfl⟩
        | GOTO_INDEX index =>
          rw [hres] at hstep
          simp only [Except.ok.injEq, Prod.mk.injEq] at hstep
          obtain ⟨rfl, rfl⟩ := hstep
          exact Or.inl ⟨rfl, rfl⟩
        | GOTO_TAG tag => rw [hres] at hstep; cases hstep
        | UNKNOWN => rw [hres] at hstep; cases hstep

theorem set_data_same_classification (a b : MMKernelDeviceGeneric) (name data : CStr)
    (h : same_classification a b) :
    same_classification (g_object_set_data a name data) (g_object_set_data b name data) := h

/-- Rule-engine determinism on the loop: two runs from the same device state that both
    come to an end leave the same device state, whatever fuel each was given. -/
theorem preload_rule_properties_loop_deterministic (fuel_a : Nat) :
    ∀ (fuel_b : Nat) (a b : MMKernelDeviceGeneric) (i : Nat) (ra rb : MMKernelDeviceGeneric),
      same_device_state a b →
      preload_rule_properties_loop fuel_a a i = .ok (some ra) →
      preload_rule_properties_loop fuel_b b i = .ok (some rb) →
      same_device_state ra rb := by
  induction fuel_a with
  | zero =>
    intro fuel_b a b i ra rb hstate ha hb
    cases hr : a.rules with
    | none => rw [preload_rule_properties_loop_null 0 a i hr] at ha; cases ha
    | some rules =>
      have hrb : b.rules = some rules := by rw [← hstate.1.1, hr]
      by_cases hi : i < rules.length
      · rw [preload_rule_properties_loop_out_of_fuel a rules i hr hi] at ha
        cases ha
      · rw [preload_rule_properties_loop_done 0 a rules i hr (Nat.not_lt.mp hi)] at ha
        rw [preload_rule_properties_loop_done fuel_b b rules i hrb (Nat.not_lt.mp hi)] at hb
        simp only [Except.ok.injEq, Option.some.injEq] at ha hb
        rw [← ha, ← hb]
        exact hstate
  | succ n ih =>
    intro fuel_b a b i ra rb hstate ha hb
    cases hr : a.rules with
    | none => rw [preload_rule_properties_loop_null _ a i hr] at ha; cases ha
    | some rules =>
      have hrb : b.rules = some rules := by rw [← hstate.1.1, hr]
      by_cases hi : i < rules.length
      · cases hstep : check_rule a i with
        | error f =>
          rw [preload_rule_properties_loop_fault n a rules i f hr hi hstep] at ha
          cases ha
        | ok res =>
          obtain ⟨next, a1⟩ := res
          rw [preload_rule_properties_loop_step n a rules i next a1 hr hi hstep] at ha
          cases fuel_b with
          | zero =>
            rw [preload_rule_properties_loop_out_of_fuel b rules i hrb hi] at hb
            cases hb
          | succ m =>
            rcases check_rule_congr a b i next a1 hstate.1 (Or.inr hstate.2) hstep with
              ⟨h1, h2⟩ | ⟨name, data, h1, h2⟩
            · rw [preload_rule_properties_loop_step m b rules i next b hrb hi h2] at hb
              rw [h1] at ha
              exact ih m a b next ra rb hstate ha hb
            · rw [preload_rule_properties_loop_step m b rules i next _ hrb hi h2] at hb
              rw [h1] at ha
              have hstate1 : same_device_state (g_object_set_data a name data)
                  (g_object_set_data b name data) := by
                refine ⟨hstate.1, ?_⟩
                show datalist_set a.object_data name data = datalist_set b.object_data name data
                rw [hstate.2]
              exact ih m _ _ next ra rb hstate1 ha hb
      · rw [preload_rule_properties_loop_done _ a rules i hr (Nat.not_lt.mp hi)] at ha
        rw [preload_rule_properties_loop_done fuel_b b rules i hrb (Nat.not_lt.mp hi)] at hb
        simp only [Except.ok.injEq, Option.some.injEq] at ha hb
        rw [← ha, ← hb]
        exact hstate

theorem check_rule_same_but_bag (self : MMKernelDeviceGeneric) (i next : Nat)
    (self1 : MMKernelDeviceGeneric) (h : check_rule self i = .ok (next, self1)) :
    SameButBag self self1 := by
  rcases check_rule_result_cases self i next self1 h with h1 | ⟨name, data, h1⟩
  · rw [h1]; exact SameButBag.same_refl _
  · rw [h1]; exact set_data_same_but_bag _ _ _

/-- The loop of `preload_rule_properties` changes nothing but the property bag. -/
theorem preload_rule_properties_loop_same_but_bag (fuel : Nat) :
    ∀ (self : MMKernelDeviceGeneric) (i : Nat) (r : MMKernelDeviceGeneric),
      preload_rule_properties_loop fuel self i = .ok (some r) → SameButBag self r := by
  induction fuel with
  | zero =>
    intro self i r h
    cases hr : self.rules with
    | none =>
      rw [preload_rule_properties_loop_null 0 self i hr] at h
      cases h
    | some rules =>
      by_cases hi : i < rules.length
      · rw [preload_rule_properties_loop_out_of_fuel self rules i hr hi] at h
        cases h
      · rw [preload_rule_properties_loop_done 0 self rules i hr (Nat.not_lt.mp hi)] at h
        simp only [Except.ok.injEq, Option.some.injEq] at h
        rw [← h]
        exact SameButBag.same_refl _
  | succ n ih =>
    intro self i r h
    cases hr : self.rules with
    | none =>
      rw [preload_rule_properties_loop_null _ self i hr] at h
      cases h
    | some rules =>
      by_cases hi : i < rules.length
      · cases hstep : check_rule self i with
        | error f =>
          rw [preload_rule_properties_loop_fault n self rules i f hr hi hstep] at h
          cases h
        | ok res =>
          obtain ⟨next, self1⟩ := res
          rw [preload_rule_properties_loop_step n self rules i next self1 hr hi hstep] at h
          exact SameButBag.same_trans (check_rule_same_but_bag _ _ _ _ hstep) (ih _ _ _ h)
      · rw [preload_rule_properties_loop_done _ self rules i hr (Nat.not_lt.mp hi)] at h
        simp only [Except.ok.injEq, Option.some.injEq] at h
        rw [← h]
        exact SameButBag.same_refl _

theorem preload_rule_properties_same_but_bag (fuel : Nat) (self r : MMKernelDeviceGeneric)
    (h : preload_rule_properties fuel self = .ok (some r)) : SameButBag self r := by
  unfold preload_rule_properties at h
  split at h
  · cases h
  · split_ifs at h
    exact preload_rule_properties_loop_same_but_bag fuel _ _ _ h

/-- A run of the rule loop over a table without `ENV` conditions can be replayed on a
    record of the same classification with another bag: it takes the same steps with
    the same fuel, and every key either gets the same value in both runs or is left
    alone in both. -/
theorem preload_rule_properties_loop_replay (fuel : Nat) :
    ∀ (a b : MMKernelDeviceGeneric) (i : Nat) (ra : MMKernelDeviceGeneric),
      same_classification a b →
      (∀ rules, a.rules = some rules → reads_no_property rules) →
      preload_rule_properties_loop fuel a i = .ok (some ra) →
      ∃ rb, preload_rule_properties_loop fuel b i = .ok (some rb)
        ∧ ∀ key, g_object_get_data rb key = g_object_get_data ra key
            ∨ (g_object_get_data rb key = g_object_get_data b key
                ∧ g_object_get_data ra key = g_object_get_data a key) := by
  induction fuel with
  | zero =>
    intro a b i ra hcl henv ha
    cases hr : a.rules with
    | none => rw [preload_rule_properties_loop_null 0 a i hr] at ha; cases ha
    | some rules =>
      have hrb : b.rules = some rules := by rw [← hcl.1, hr]
      by_cases hi : i < rules.length
      · rw [preload_rule_properties_loop_out_of_fuel a rules i hr hi] at ha
        cases ha
      · rw [preload_rule_properties_loop_done 0 a rules i hr (Nat.not_lt.mp hi)] at ha
        simp only [Except.ok.injEq, Option.some.injEq] at ha
        rw [← ha]
        exact ⟨b, preload_rule_properties_loop_done 0 b rules i hrb (Nat.not_lt.mp hi),
          fun key => Or.inr ⟨rfl, rfl⟩⟩
  | succ n ih =>
    intro a b i ra hcl henv ha
    cases hr : a.rules with
    | none => rw [preload_rule_properties_loop_null _ a i hr] at ha; cases ha
    | some rules =>
      have hrb : b.rules = some rules := by rw [← hcl.1, hr]
      by_cases hi : i < rules.length
      · cases hstep : check_rule a i with
        | error f =>
          rw [preload_rule_properties_loop_fault n a rules i f hr hi hstep] at ha
          cases ha
        | ok res =>
          obtain ⟨next, a1⟩ := res
          rw [preload_rule_properties_loop_step n a rules i next a1 hr hi hstep] at ha
          rcases check_rule_congr a b i next a1 hcl (Or.inl henv) hstep with
            ⟨h1, h2⟩ | ⟨name, data, h1, h2⟩
          · rw [h1] at ha
            obtain ⟨rb, hrb1, hkeys⟩ := ih a b next ra hcl henv ha
            exact ⟨rb, by
              rw [preload_rule_properties_loop_step n b rules i next b hrb hi h2]
              exact hrb1, hkeys⟩
          · rw [h1] at ha
            obtain ⟨rb, hrb1, hkeys⟩ := ih (g_object_set_data a name data)
              (g_object_set_data b name data) next ra hcl henv ha
            refine ⟨rb, by
              rw [preload_rule_properties_loop_step n b rules i next _ hrb hi h2]
              exact hrb1, fun key => ?_⟩
            rcases hkeys key with h3 | ⟨h3, h4⟩
            · exact Or.inl h3
            · by_cases hk : key = name
              · subst hk
                rw [get_data_set_data_same] at h3 h4
                exact Or.inl (by rw [h3, h4])
              · rw [get_data_set_data_other _ _ _ _ hk] at h3 h4
                exact Or.inr ⟨h3, h4⟩
      · rw [preload_rule_properties_loop_done _ a rules i hr (Nat.not_lt.mp hi)] at ha
        simp only [Except.ok.injEq, Option.some.injEq] at ha
        rw [← ha]
        exact ⟨b, preload_rule_properties_loop_done _ b rules i hrb (Nat.not_lt.mp hi),
          fun key => Or.inr ⟨rfl, rfl⟩⟩

/-- After the sysfs path has been looked up, the rest of `preload_contents` leaves the
    event properties, the rule table and the sysfs path as they are. -/
theorem preload_contents_frame (fuel : Nat) (fs : Sysfs) (self r : MMKernelDeviceGeneric)
    (hs : self.sysfs_path = none) (h : preload_contents fuel fs self = some r) :
    PreloadFrame (preload_sysfs_path fs self) r := by
  unfold preload_contents at h
  rw [hs] at h
  dsimp only at h
  cases hb : find_device_bus_subsystem fuel fs (preload_sysfs_path fs self) with
  | none => rw [hb] at h; cases h
  | some bus_subsys =>
    rw [hb] at h
    dsimp only at h
    cases bus_subsys with
    | none =>
      simp only [Option.some.injEq] at h
      rw [← h]
      exact ⟨rfl, rfl, rfl⟩
    | some bus =>
      dsimp only at h
      have hload : ∀ loaded : MMKernelDeviceGeneric,
          (if bus = "usb".toList then preload_contents_usb fuel fs (preload_sysfs_path fs self)
           else if bus = "pcmcia".toList then
             preload_contents_pcmcia fuel fs (preload_sysfs_path fs self)
           else if bus = "pci".toList then
             preload_contents_pci fuel fs (preload_sysfs_path fs self)
           else if bus = "platform".toList ∨ bus = "pnp".toList ∨ bus = "sdio".toList then
             preload_contents_platform fuel fs (preload_sysfs_path fs self) bus
           else some (preload_contents_other fs (preload_sysfs_path fs self))) = some loaded →
          PreloadFrame (preload_sysfs_path fs self) loaded := by
        intro loaded hl
        split_ifs at hl
        · unfold preload_contents_usb at hl
          split at hl
          · cases hl; exact PreloadFrame.refl _
          · exact preload_contents_usb_loop_frame fs fuel _ _ _ hl
        · unfold preload_contents_pcmcia at hl
          split at hl
          · cases hl; exact PreloadFrame.refl _
          · exact preload_contents_pcmcia_loop_frame fs fuel _ _ _ _ hl
        · unfold preload_contents_pci at hl
          split at hl
          · cases hl; exact PreloadFrame.refl _
          · exact preload_contents_pci_loop_frame fs fuel _ _ _ hl
        · unfold preload_contents_platform at hl
          split at hl
          · cases hl; exact PreloadFrame.refl _
          · exact preload_contents_platform_loop_frame fs bus fuel _ _ _ hl
        · cases hl; exact ⟨rfl, rfl, rfl⟩
      split at h
      · cases h
      · rename_i self2 hl2
        simp only [Option.some.injEq] at h
        rw [← h]
        exact (hload self2 hl2).trans (preload_common_properties_frame self2)

/-- When the lookup of the sysfs path finds nothing for a record, it finds nothing for
    any record with the same event properties, and leaves such a record as it is. -/
theorem preload_sysfs_path_none_again (fs : Sysfs) (a b : MMKernelDeviceGeneric)
    (ha : a.sysfs_path = none) (hb : b.sysfs_path = none)
    (hp : b.properties = a.properties)
    (h : (preload_sysfs_path fs a).sysfs_path = none) :
    preload_sysfs_path fs b = b := by
  rcases b with ⟨p, r, d, sp, isp, ic, isc, ip, inn, idesc, psp, pv, pp, pr, psub, pman,
    pprod, od⟩
  simp only at hb hp
  subst hb
  subst hp
  unfold preload_sysfs_path at h ⊢
  rw [ha] at h
  dsimp only at h ⊢
  generalize (match fs.realpath ("/sys/class/".toList
      ++ printf_s (mm_kernel_event_properties_get_subsystem a.properties)
      ++ "/".toList ++ printf_s (mm_kernel_event_properties_get_name a.properties)) with
    | none => (none : Option CStr)
    | some p => if fs.file_test_exists p = true then some p else none) = found at h ⊢
  cases found with
  | none => rfl
  | some p =>
    simp [g_object_set_data] at h

/-- Loading the contents again, on the record that a first load and any change of the
    bag have left, changes nothing. -/
theorem preload_contents_again (fuel fuel2 : Nat) (fs : Sysfs)
    (self s1 r1 : MMKernelDeviceGeneric)
    (hc : preload_contents fuel fs self = some s1) (hbag : SameButBag s1 r1) :
    preload_contents fuel2 fs r1 = some r1 := by
  have hcl := hbag.to_classification
  have hprops : r1.properties = s1.properties := by
    have := congrArg MMKernelDeviceGeneric.properties hbag
    exact this
  cases hp : r1.sysfs_path with
  | some p =>
    unfold preload_contents
    rw [hp]
  | none =>
    have hs1 : s1.sysfs_path = none := by rw [hcl.2.2.2.1, hp]
    have hself : self.sysfs_path = none := by
      cases hs : self.sysfs_path with
      | none => rfl
      | some p0 =>
        unfold preload_contents at hc
        rw [hs] at hc
        simp only [Option.some.injEq] at hc
        rw [← hc, hs] at hs1
        cases hs1
    have hframe := preload_contents_frame fuel fs self s1 hself hc
    have hnone : (preload_sysfs_path fs self).sysfs_path = none := by
      rw [← hframe.2.2, hs1]
    have hsame : preload_sysfs_path fs self = self :=
      preload_sysfs_path_none_again fs self self hself hself rfl hnone
    have hs1eq : s1 = preload_contents_other fs self := by
      unfold preload_contents at hc
      rw [hself] at hc
      dsimp only at hc
      rw [hsame] at hc
      have hbus : find_device_bus_subsystem fuel fs self = some none := by
        unfold find_device_bus_subsystem
        rw [hself]
      rw [hbus] at hc
      simp only [Option.some.injEq] at hc
      exact hc.symm
    have hr1 : preload_sysfs_path fs r1 = r1 :=
      preload_sysfs_path_none_again fs self r1 hself hp
        (by rw [hprops, hframe.1, hsame]) hnone
    have hdriver : r1.driver = read_sysfs_attribute_link_basename fs none "driver".toList := by
      rw [← hcl.2.2.1, hs1eq]
      unfold preload_contents_other
      rw [hself]
    unfold preload_contents
    rw [hp]
    dsimp only
    rw [hr1]
    have hbus : find_device_bus_subsystem fuel2 fs r1 = some none := by
      unfold find_device_bus_subsystem
      rw [hp]
    rw [hbus]
    dsimp only
    have hother : preload_contents_other fs r1 = r1 := by
      unfold preload_contents_other
      clear hbag hcl hprops hr1 hbus
      rcases r1 with ⟨p, r, d, sp, isp, ic, isc, ip, inn, idesc, psp, pv, pp, pr, psub, pman,
        pprod, od⟩
      simp only at hp hdriver
      subst hp
      subst hdriver
      rfl
    rw [hother]

/-- A condition list with a condition that fails cannot hold. -/
theorem check_conditions_false_of_mem (self : MMKernelDeviceGeneric) (c : MMUdevRuleMatch)
    (hc : check_condition self c = .ok false) :
    ∀ (conds : List MMUdevRuleMatch) (b : Bool), c ∈ conds →
      check_conditions self conds = .ok b → b = false := by
  intro conds
  induction conds with
  | nil => intro b hmem; cases hmem
  | cons m rest ih =>
    intro b hmem h
    simp only [check_conditions] at h
    rcases List.mem_cons.mp hmem with rfl | hmem'
    · rw [hc] at h
      simp only [Except.ok.injEq] at h
      exact h.symm
    · cases hm : check_condition self m with
      | error f => rw [hm] at h; cases h
      | ok v =>
        rw [hm] at h
        cases v with
        | false =>
          simp only [Except.ok.injEq] at h
          exact h.symm
        | true => exact ih b hmem' h

/-- A condition list all of whose conditions return a result returns a result. -/
theorem check_conditions_returns (self : MMKernelDeviceGeneric) :
    ∀ (conds : List MMUdevRuleMatch), (∀ c ∈ conds, ∃ b, check_condition self c = .ok b) →
      ∃ b, check_conditions self conds = .ok b := by
  intro conds
  induction conds with
  | nil => intro _; exact ⟨true, rfl⟩
  | cons m rest ih =>
    intro h
    obtain ⟨b, hb⟩ := h m (List.mem_cons_self _ _)
    simp only [check_conditions, hb]
    cases b with
    | false => exact ⟨false, rfl⟩
    | true => exact ih (fun c hc => h c (List.mem_cons_of_mem _ hc))

/-- The state after no iteration. -/
theorem preload_rule_properties_steps_zero (self : MMKernelDeviceGeneric) (i : Nat) :
    preload_rule_properties_steps 0 self i = .ok (i, self) := rfl

/-- The state after one more iteration, in a loop that has not ended. -/
theorem preload_rule_properties_steps_succ (k : Nat) (self : MMKernelDeviceGeneric)
    (rules : List MMUdevRule) (i : Nat) (hrules : self.rules = some rules)
    (hi : i < rules.length) :
    preload_rule_properties_steps (k + 1) self i
      = (match check_rule self i with
         | .error f => .error f
         | .ok (next_rule, self1) => preload_rule_properties_steps k self1 next_rule) := by
  rw [preload_rule_properties_steps]
  simp only [hrules]
  exact if_pos hi

/-- The state of a loop that has ended stays as it is. -/
theorem preload_rule_properties_steps_ended (k : Nat) (self : MMKernelDeviceGeneric)
    (rules : List MMUdevRule) (i : Nat) (hrules : self.rules = some rules)
    (hi : rules.length ≤ i) :
    preload_rule_properties_steps k self i = .ok (i, self) := by
  cases k with
  | zero => rfl
  | succ n =>
    rw [preload_rule_properties_steps]
    simp only [hrules, Nat.not_lt.mpr hi, if_false]

/-- The iterations of the loop leave the rule table as it is. -/
theorem preload_rule_properties_steps_keeps_rules (k : Nat) :
    ∀ (self : MMKernelDeviceGeneric) (i pc : Nat) (s : MMKernelDeviceGeneric),
      preload_rule_properties_steps k self i = .ok (pc, s) → s.rules = self.rules := by
  induction k with
  | zero =>
    intro self i pc s h
    simp only [preload_rule_properties_steps_zero, Except.ok.injEq, Prod.mk.injEq] at h
    rw [← h.2]
  | succ n ih =>
    intro self i pc s h
    cases hr : self.rules with
    | none =>
      rw [preload_rule_properties_steps] at h
      simp only [hr] at h
      cases h
    | some rules =>
      by_cases hi : i < rules.length
      · rw [preload_rule_properties_steps_succ n self rules i hr hi] at h
        cases hstep : check_rule self i with
        | error f => rw [hstep] at h; cases h
        | ok res =>
          obtain ⟨next, self1⟩ := res
          rw [hstep] at h
          rw [ih self1 next pc s h, check_rule_keeps_rules self i next self1 hstep, hr]
      · rw [preload_rule_properties_steps_ended _ self rules i hr (Nat.not_lt.mp hi)] at h
        simp only [Except.ok.injEq, Prod.mk.injEq] at h
        rw [← h.2, hr]

/-- The loop with `fuel` iterations at hand, read off the state after `fuel`
    iterations: it is still running when the index is below the table length, and has
    returned the record otherwise. -/
theorem preload_rule_properties_loop_eq_steps (fuel : Nat) :
    ∀ (self : MMKernelDeviceGeneric) (i : Nat) (rules : List MMUdevRule),
      self.rules = some rules →
      preload_rule_properties_loop fuel self i
        = (match preload_rule_properties_steps fuel self i with
           | .error f => .error f
           | .ok (pc, s) => if pc < rules.length then .ok none else .ok (some s)) := by
  induction fuel with
  | zero =>
    intro self i rules hr
    rw [preload_rule_properties_steps_zero]
    dsimp only
    by_cases hi : i < rules.length
    · rw [preload_rule_properties_loop_out_of_fuel self rules i hr hi, if_pos hi]
    · rw [preload_rule_properties_loop_done 0 self rules i hr (Nat.not_lt.mp hi), if_neg hi]
  | succ n ih =>
    intro self i rules hr
    by_cases hi : i < rules.length
    · rw [preload_rule_properties_steps_succ n self rules i hr hi]
      cases hstep : check_rule self i with
      | error f =>
        rw [preload_rule_properties_loop_fault n self rules i f hr hi hstep]
      | ok res =>
        obtain ⟨next, self1⟩ := res
        rw [preload_rule_properties_loop_step n self rules i next self1 hr hi hstep]
        exact ih self1 next rules
          (by rw [check_rule_keeps_rules self i next self1 hstep, hr])
    · rw [preload_rule_properties_steps_ended _ self rules i hr (Nat.not_lt.mp hi),
        preload_rule_properties_loop_done _ self rules i hr (Nat.not_lt.mp hi)]
      dsimp only
      rw [if_neg hi]

/-- The state after `a + b` iterations is the state `b` iterations after the state after
    `a` iterations. -/
theorem preload_rule_properties_steps_add (a : Nat) :
    ∀ (b : Nat) (self : MMKernelDeviceGeneric) (i : Nat),
      preload_rule_properties_steps (a + b) self i
        = (match preload_rule_properties_steps a self i with
           | .error f => .error f
           | .ok (pc, s) => preload_rule_properties_steps b s pc) := by
  induction a with
  | zero =>
    intro b self i
    rw [Nat.zero_add, preload_rule_properties_steps_zero]
  | succ n ih =>
    intro b self i
    cases hr : self.rules with
    | none =>
      rw [Nat.succ_add, preload_rule_properties_steps, preload_rule_properties_steps]
      simp only [hr]
    | some rules =>
      by_cases hi : i < rules.length
      · rw [Nat.succ_add, preload_rule_properties_steps_succ (n + b) self rules i hr hi,
          preload_rule_properties_steps_succ n self rules i hr hi]
        cases hstep : check_rule self i with
        | error f => rfl
        | ok res =>
          obtain ⟨next, self1⟩ := res
          exact ih b self1 next
      · rw [preload_rule_properties_steps_ended _ self rules i hr (Nat.not_lt.mp hi),
          preload_rule_properties_steps_ended _ self rules i hr (Nat.not_lt.mp hi)]
        dsimp only
        rw [preload_rule_properties_steps_ended _ self rules i hr (Nat.not_lt.mp hi)]

/-- A loop that is running after `k + m` iterations was running after `k` iterations. -/
theorem preload_rule_properties_steps_running_before (k m : Nat)
    (self : MMKernelDeviceGeneric) (rules : List MMUdevRule) (i pc : Nat)
    (s : MMKernelDeviceGeneric) (hrules : self.rules = some rules)
    (h : preload_rule_properties_steps (k + m) self i = .ok (pc, s))
    (hpc : pc < rules.length) :
    ∃ pc1 s1, preload_rule_properties_steps k self i = .ok (pc1, s1) ∧ pc1 < rules.length := by
  rw [preload_rule_properties_steps_add] at h
  cases hk : preload_rule_properties_steps k self i with
  | error f => rw [hk] at h; cases h
  | ok res =>
    obtain ⟨pc1, s1⟩ := res
    rw [hk] at h
    dsimp only at h
    refine ⟨pc1, s1, rfl, ?_⟩
    by_contra hge
    have hs1 : s1.rules = some rules := by
      rw [preload_rule_properties_steps_keeps_rules k self i pc1 s1 hk, hrules]
    rw [preload_rule_properties_steps_ended m s1 rules pc1 hs1 (Nat.not_lt.mp hge)] at h
    simp only [Except.ok.injEq, Prod.mk.injEq] at h
    exact hge (h.1 ▸ hpc)

/-- The iterations of the loop on two records of the same classification, whose table
    has no `ENV` condition or whose bags are equal: the same indices, and records of the
    same classification again, with equal bags if the bags were equal. -/
theorem preload_rule_properties_steps_congr (k : Nat) :
    ∀ (a b : MMKernelDeviceGeneric) (i pc : Nat) (a1 : MMKernelDeviceGeneric),
      same_classification a b →
      ((∀ rules, a.rules = some rules → reads_no_property rules)
        ∨ a.object_data = b.object_data) →
      preload_rule_properties_steps k a i = .ok (pc, a1) →
      ∃ b1, preload_rule_properties_steps k b i = .ok (pc, b1)
        ∧ same_classification a1 b1
        ∧ (a.object_data = b.object_data → a1.object_data = b1.object_data) := by
  induction k with
  | zero =>
    intro a b i pc a1 hcl _ h
    simp only [preload_rule_properties_steps_zero, Except.ok.injEq, Prod.mk.injEq] at h
    obtain ⟨h1, h2⟩ := h
    subst h1; subst h2
    exact ⟨b, rfl, hcl, id⟩
  | succ n ih =>
    intro a b i pc a1 hcl hbag h
    cases hr : a.rules with
    | none =>
      rw [preload_rule_properties_steps] at h
      simp only [hr] at h
      cases h
    | some rules =>
      have hrb : b.rules = some rules := by rw [← hcl.1, hr]
      by_cases hi : i < rules.length
      · rw [preload_rule_properties_steps_succ n a rules i hr hi] at h
        rw [preload_rule_properties_steps_succ n b rules i hrb hi]
        cases hstep : check_rule a i with
        | error f => rw [hstep] at h; cases h
        | ok res =>
          obtain ⟨next, a2⟩ := res
          rw [hstep] at h
          dsimp only at h
          rcases check_rule_congr a b i next a2 hcl hbag hstep with
            ⟨h1, h2⟩ | ⟨name, data, h1, h2⟩
          · rw [h2]
            subst h1
            exact ih a2 b next pc a1 hcl hbag h
          · rw [h2]
            subst h1
            dsimp only
            obtain ⟨b1, hb1, hcl1, hbag1⟩ := ih (g_object_set_data a name data)
              (g_object_set_data b name data) next pc a1
              (set_data_same_classification a b name data hcl)
              (hbag.imp id (fun hb => by
                show datalist_set a.object_data name data = datalist_set b.object_data name data
                rw [hb])) h
            exact ⟨b1, hb1, hcl1, fun hb => hbag1 (by
              show datalist_set a.object_data name data = datalist_set b.object_data name data
              rw [hb])⟩
      · rw [preload_rule_properties_steps_ended _ a rules i hr (Nat.not_lt.mp hi)] at h
        simp only [Except.ok.injEq, Prod.mk.injEq] at h
        obtain ⟨h1, h2⟩ := h
        subst h1; subst h2
        exact ⟨b, preload_rule_properties_steps_ended _ b rules i hrb (Nat.not_lt.mp hi),
          hcl, id⟩

/-- The iterations of the loop change at most the property bag. -/
theorem preload_rule_properties_steps_same_but_bag (k : Nat) :
    ∀ (self : MMKernelDeviceGeneric) (i pc : Nat) (s : MMKernelDeviceGeneric),
      preload_rule_properties_steps k self i = .ok (pc, s) → SameButBag self s := by
  induction k with
  | zero =>
    intro self i pc s h
    simp only [preload_rule_properties_steps_zero, Except.ok.injEq, Prod.mk.injEq] at h
    rw [← h.2]
    exact SameButBag.same_refl _
  | succ n ih =>
    intro self i pc s h
    cases hr : self.rules with
    | none =>
      rw [preload_rule_properties_steps] at h
      simp only [hr] at h
      cases h
    | some rules =>
      by_cases hi : i < rules.length
      · rw [preload_rule_properties_steps_succ n self rules i hr hi] at h
        cases hstep : check_rule self i with
        | error f => rw [hstep] at h; cases h
        | ok res =>
          obtain ⟨next, self1⟩ := res
          rw [hstep] at h
          exact SameButBag.same_trans (check_rule_same_but_bag self i next self1 hstep)
            (ih self1 next pc s h)
      · rw [preload_rule_properties_steps_ended _ self rules i hr (Nat.not_lt.mp hi)] at h
        simp only [Except.ok.injEq, Prod.mk.injEq] at h
        rw [← h.2]
        exact SameButBag.same_refl _

/-- A loop that is at the same index after `k1` and after `k2 > k1` iterations, the
    index below the table length, with a table without `ENV` conditions or with the same
    bag both times, is running after every number of iterations. -/
theorem preload_rule_properties_steps_revisit (self : MMKernelDeviceGeneric)
    (rules : List MMUdevRule) (hrules : self.rules = some rules) (i0 k1 k2 i : Nat)
    (s1 s2 : MMKernelDeviceGeneric) (hk : k1 < k2) (hi : i < rules.length)
    (h1 : preload_rule_properties_steps k1 self i0 = .ok (i, s1))
    (h2 : preload_rule_properties_steps k2 self i0 = .ok (i, s2))
    (hbag : reads_no_property rules ∨ s1.object_data = s2.object_data) :
    ∀ k, ∃ pc s, preload_rule_properties_steps k self i0 = .ok (pc, s)
      ∧ pc < rules.length := by
  intro k
  induction k using Nat.strong_induction_on with
  | _ k ih =>
    by_cases hle : k ≤ k2
    · obtain ⟨m, hm⟩ := Nat.exists_eq_add_of_le hle
      rw [hm] at h2
      exact preload_rule_properties_steps_running_before k m self rules i0 i s2 hrules h2 hi
    · have hlt : k1 + (k - k2) < k := by omega
      obtain ⟨pc, s, hs, hpc⟩ := ih (k1 + (k - k2)) hlt
      rw [preload_rule_properties_steps_add, h1] at hs
      dsimp only at hs
      have hb1 := preload_rule_properties_steps_same_but_bag k1 self i0 i s1 h1
      have hb2 := preload_rule_properties_steps_same_but_bag k2 self i0 i s2 h2
      have hs1 : s1.rules = some rules := by
        rw [preload_rule_properties_steps_keeps_rules k1 self i0 i s1 h1, hrules]
      obtain ⟨b1, hb, _, _⟩ := preload_rule_properties_steps_congr (k - k2) s1 s2 i pc s
        (SameButBag.same_trans (SameButBag.same_symm hb1) hb2).to_classification
        (hbag.imp (fun h rules1 hr1 => by
          rw [hs1] at hr1
          rw [← Option.some.inj hr1]
          exact h) id) hs
      have hk2 : k = k2 + (k - k2) := by omega
      refine ⟨pc, b1, ?_, hpc⟩
      rw [hk2, preload_rule_properties_steps_add, h2]
      exact hb

/-- The index that `check_rule` returns: the next one, or the target of the GotoIndex
    rule at the index. -/
theorem check_rule_next_cases (self : MMKernelDeviceGeneric) (rules : List MMUdevRule)
    (i next : Nat) (self1 : MMKernelDeviceGeneric) (hrules : self.rules = some rules)
    (h : check_rule self i = .ok (next, self1)) :
    next = i + 1
    ∨ ∃ rule, rules[i]? = some rule ∧ rule.result = .GOTO_INDEX next := by
  unfold check_rule at h
  rw [hrules] at h
  dsimp only at h
  split at h
  · cases h
  · rename_i rule hrule
    split at h
    · cases h
    · simp only [Except.ok.injEq, Prod.mk.injEq] at h
      exact Or.inl h.1.symm
    · split at h
      · split at h <;> simp only [Except.ok.injEq, Prod.mk.injEq] at h <;>
          exact Or.inl h.1.symm
      · simp only [Except.ok.injEq, Prod.mk.injEq] at h
        exact Or.inl h.1.symm
      · rename_i index hres
        simp only [Except.ok.injEq, Prod.mk.injEq] at h
        exact Or.inr ⟨rule, hrule, by rw [hres, h.1]⟩
      · cases h
      · cases h

/-- One step of `check_rule` on a GotoIndex rule whose conditions all hold. -/
theorem check_rule_goto_step (self : MMKernelDeviceGeneric) (rules : List MMUdevRule)
    (i : Nat) (rule : MMUdevRule) (index : Nat)
    (hrules : self.rules = some rules) (hrule : rules[i]? = some rule)
    (hres : rule.result = .GOTO_INDEX index)
    (hall : ∀ c ∈ rule.conditions.getD [], check_condition self c = .ok true) :
    check_rule self i = .ok (index, self) := by
  simp only [check_rule, hrules, hrule, rule_conditions_all_hold self rule hall, hres]

/-- In a table whose GotoIndex rules all jump forward, the index of the loop never
    decreases. -/
theorem preload_rule_properties_steps_forward (rules : List MMUdevRule)
    (hfwd : ∀ (j : Nat) (rule : MMUdevRule) (index : Nat), rules[j]? = some rule →
      rule.result = .GOTO_INDEX index → j < index) (k : Nat) :
    ∀ (self : MMKernelDeviceGeneric) (i pc : Nat) (s : MMKernelDeviceGeneric),
      self.rules = some rules →
      preload_rule_properties_steps k self i = .ok (pc, s) →
      i ≤ pc ∧ (pc < rules.length → i + k ≤ pc) := by
  induction k with
  | zero =>
    intro self i pc s _ h
    simp only [preload_rule_properties_steps_zero, Except.ok.injEq, Prod.mk.injEq] at h
    omega
  | succ n ih =>
    intro self i pc s hr h
    by_cases hi : i < rules.length
    · rw [preload_rule_properties_steps_succ n self rules i hr hi] at h
      cases hstep : check_rule self i with
      | error f => rw [hstep] at h; cases h
      | ok res =>
        obtain ⟨next, self1⟩ := res
        rw [hstep] at h
        dsimp only at h
        have hnext : i < next := by
          rcases check_rule_next_cases self rules i next self1 hr hstep with
            h1 | ⟨rule, h1, h2⟩
          · omega
          · exact hfwd i rule next h1 h2
        obtain ⟨h3, h4⟩ := ih self1 next pc s
          (by rw [check_rule_keeps_rules self i next self1 hstep, hr]) h
        exact ⟨by omega, fun hpc => by have := h4 hpc; omega⟩
    · rw [preload_rule_properties_steps_ended _ self rules i hr (Nat.not_lt.mp hi)] at h
      simp only [Except.ok.injEq, Prod.mk.injEq] at h
      omega

/-- The faults of `string_match`: the index outside the pattern and the `NULL` string. -/
theorem string_match_fault (str : Option CStr) (pattern : CStr) (f : Fault)
    (h : string_match str pattern = .error f) :
    f = .index_out_of_range ∨ f = .null_string := by
  unfold string_match at h
  dsimp only at h
  split_ifs at h <;> cases str <;> cases h <;> first | exact Or.inl rfl | exact Or.inr rfl

/-- A condition other than KERNEL and DEVPATH never faults. -/
theorem check_condition_other_no_fault (self : MMKernelDeviceGeneric) (c : MMUdevRuleMatch)
    (f : Fault) (hk : c.parameter ≠ "KERNEL".toList) (hd : c.parameter ≠ "DEVPATH".toList) :
    check_condition self c ≠ .error f := by
  intro h
  unfold check_condition at h
  dsimp only at h
  by_cases h1 : c.parameter = "ACTION".toList
  · rw [if_pos h1] at h
    cases h
  rw [if_neg h1] at h
  by_cases h2 : c.parameter = "SUBSYSTEMS".toList ∨ c.parameter = "SUBSYSTEM".toList
  · rw [if_pos h2] at h
    cases h
  rw [if_neg h2] at h
  by_cases h3 : c.parameter = "DRIVER".toList ∨ c.parameter = "DRIVERS".toList
  · rw [if_pos h3] at h
    cases h
  rw [if_neg h3, if_neg hk, if_neg hd] at h
  by_cases h6 : g_str_has_prefix (some c.parameter) "ATTRS".toList = true
  · rw [if_pos h6] at h
    split_ifs at h
  rw [if_neg h6] at h
  split_ifs at h

/-- The DEVPATH branch of `check_condition` on a record without a sysfs path. -/
theorem check_condition_devpath_none (self : MMKernelDeviceGeneric)
    (t : MMUdevRuleMatchType) (value : CStr) (hp : self.sysfs_path = none) :
    check_condition self ⟨t, "DEVPATH".toList, value⟩ = .ok false := by
  rcases self with ⟨_, _, _, sysfs_path, _, _, _, _, _, _, _, _, _, _, _, _, _, _⟩
  simp only at hp
  subst hp
  rfl

/-- The DEVPATH branch of `check_condition` on an empty value: the first call of
    `string_match` indexes the empty pattern. -/
theorem check_condition_devpath_empty (self : MMKernelDeviceGeneric)
    (t : MMUdevRuleMatchType) (p : CStr) (hp : self.sysfs_path = some p) :
    check_condition self ⟨t, "DEVPATH".toList, []⟩ = .error .index_out_of_range := by
  rcases self with ⟨_, _, _, sysfs_path, _, _, _, _, _, _, _, _, _, _, _, _, _, _⟩
  simp only at hp
  subst hp
  rfl

/-- The faults of `check_condition` are those of `string_match`. -/
theorem check_condition_fault (self : MMKernelDeviceGeneric) (c : MMUdevRuleMatch)
    (f : Fault) (h : check_condition self c = .error f) :
    f = .index_out_of_range ∨ f = .null_string := by
  obtain ⟨t, param, value⟩ := c
  by_cases hk : param = "KERNEL".toList
  · subst hk
    rw [check_condition_kernel] at h
    cases hsm : string_match (kernel_device_get_name self) value with
    | error f1 =>
      rw [hsm] at h
      cases h
      exact string_match_fault _ _ _ hsm
    | ok b => rw [hsm] at h; cases h
  · by_cases hd : param = "DEVPATH".toList
    · subst hd
      cases hp : self.sysfs_path with
      | none => rw [check_condition_devpath_none self t value hp] at h; cases h
      | some p =>
        by_cases hv : value = []
        · subst hv
          rw [check_condition_devpath_empty self t p hp] at h
          cases h
          exact Or.inl rfl
        · obtain ⟨b1, h1⟩ := string_match_total p value hv
          obtain ⟨b2, h2⟩ := string_match_total p (value ++ "/*".toList) (by simp)
          obtain ⟨b3, h3⟩ := string_match_total (p.drop 4) value hv
          obtain ⟨b4, h4⟩ := string_match_total (p.drop 4) (value ++ "/*".toList) (by simp)
          rw [check_condition_devpath self t p value b1 b2 b3 b4 hp hv h1 h2 h3 h4] at h
          cases h
    · exact absurd h (check_condition_other_no_fault self _ f hk hd)

/-- A well-formed condition returns a result. -/
theorem check_condition_of_well_formed (self : MMKernelDeviceGeneric) (c : MMUdevRuleMatch)
    (h : condition_well_formed (kernel_device_get_name self) c) :
    ∃ b, check_condition self c = .ok b := by
  obtain ⟨t, param, value⟩ := c
  obtain ⟨hkernel, hdevpath⟩ := h
  by_cases hk : param = "KERNEL".toList
  · subst hk
    obtain ⟨hname, hv⟩ := hkernel rfl
    obtain ⟨name, hn⟩ := Option.ne_none_iff_exists'.mp hname
    obtain ⟨b, hb⟩ := string_match_total name value hv
    rw [check_condition_kernel, hn, hb]
    exact ⟨_, rfl⟩
  · by_cases hd : param = "DEVPATH".toList
    · subst hd
      have hv : value ≠ [] := hdevpath rfl
      cases hp : self.sysfs_path with
      | none => exact ⟨_, check_condition_devpath_none self t value hp⟩
      | some p =>
        obtain ⟨b1, h1⟩ := string_match_total p value hv
        obtain ⟨b2, h2⟩ := string_match_total p (value ++ "/*".toList) (by simp)
        obtain ⟨b3, h3⟩ := string_match_total (p.drop 4) value hv
        obtain ⟨b4, h4⟩ := string_match_total (p.drop 4) (value ++ "/*".toList) (by simp)
        exact ⟨_, check_condition_devpath self t p value b1 b2 b3 b4 hp hv h1 h2 h3 h4⟩
    · cases hc : check_condition self ⟨t, param, value⟩ with
      | ok b => exact ⟨b, rfl⟩
      | error f => exact absurd hc (check_condition_other_no_fault self _ f hk hd)

/-- The faults of the condition loop are those of `string_match`. -/
theorem check_conditions_fault (self : MMKernelDeviceGeneric) (f : Fault) :
    ∀ (conds : List MMUdevRuleMatch), check_conditions self conds = .error f →
      f = .index_out_of_range ∨ f = .null_string := by
  intro conds
  induction conds with
  | nil => intro h; cases h
  | cons c rest ih =>
    intro h
    simp only [check_conditions] at h
    cases hc : check_condition self c with
    | error f1 =>
      rw [hc] at h
      cases h
      exact check_condition_fault self c _ hc
    | ok b =>
      rw [hc] at h
      cases b with
      | false => cases h
      | true => exact ih h

/-- The ways in which `check_rule` faults: the index is not below the table length
    (the assertion), the condition loop faults, or the result of the rule is none of the
    three kinds (the branch that is not to be reached). -/
theorem check_rule_error_cases (self : MMKernelDeviceGeneric) (rules : List MMUdevRule)
    (i : Nat) (f : Fault) (hrules : self.rules = some rules)
    (h : check_rule self i = .error f) :
    (rules.length ≤ i ∧ f = .assertion_failed)
    ∨ (∃ rule conds, rules[i]? = some rule ∧ rule.conditions = some conds
        ∧ check_conditions self conds = .error f)
    ∨ (∃ rule, rules[i]? = some rule ∧ f = .not_reached
        ∧ (rule.result = .UNKNOWN ∨ ∃ tag, rule.result = .GOTO_TAG tag)) := by
  unfold check_rule at h
  rw [hrules] at h
  dsimp only at h
  split at h
  · rename_i hnone
    cases h
    exact Or.inl ⟨List.getElem?_eq_none_iff.mp hnone, rfl⟩
  · rename_i rule hrule
    split at h
    · rename_i f1 hcs
      cases h
      cases hc : rule.conditions with
      | none => rw [hc] at hcs; cases hcs
      | some conds =>
        rw [hc] at hcs
        exact Or.inr (Or.inl ⟨rule, conds, hrule, hc, hcs⟩)
    · cases h
    · split at h
      · split at h <;> cases h
      · cases h
      · cases h
      · rename_i tag hres
        cases h
        exact Or.inr (Or.inr ⟨rule, hrule, rfl, Or.inr ⟨tag, hres⟩⟩)
      · rename_i hres
        cases h
        exact Or.inr (Or.inr ⟨rule, hrule, rfl, Or.inl hres⟩)

/-- The faults of `check_rule` at an index below the length of a table whose results
    are of the three kinds are those of `string_match`: neither of its assertions
    fails. -/
theorem check_rule_fault (self : MMKernelDeviceGeneric) (rules : List MMUdevRule)
    (i : Nat) (f : Fault) (hrules : self.rules = some rules) (hi : i < rules.length)
    (hres : results_of_three_kinds rules) (h : check_rule self i = .error f) :
    f = .index_out_of_range ∨ f = .null_string := by
  rcases check_rule_error_cases self rules i f hrules h with
    ⟨h1, _⟩ | ⟨rule, conds, _, _, h1⟩ | ⟨rule, hrule, _, h1⟩
  · omega
  · exact check_conditions_fault self f conds h1
  · have hkind := hres rule (List.mem_iff_getElem?.mpr ⟨i, hrule⟩)
    rcases h1 with h1 | ⟨tag, h1⟩ <;> rw [h1] at hkind <;>
      rcases hkind with hk | ⟨index, hk⟩ | ⟨name, value, hk⟩ <;> cases hk

/-- On a record all of whose conditions are well formed, with a table whose results are
    of the three kinds, `check_rule` returns at every index below the table length. -/
theorem check_rule_of_well_formed (self : MMKernelDeviceGeneric) (rules : List MMUdevRule)
    (i : Nat) (hrules : self.rules = some rules) (hi : i < rules.length)
    (hres : results_of_three_kinds rules)
    (hwf : ∀ rule ∈ rules, ∀ c ∈ rule.conditions.getD [],
      condition_well_formed (kernel_device_get_name self) c) :
    ∃ next self1, check_rule self i = .ok (next, self1) := by
  cases hstep : check_rule self i with
  | ok res => exact ⟨res.1, res.2, rfl⟩
  | error f =>
    exfalso
    rcases check_rule_error_cases self rules i f hrules hstep with
      ⟨h1, _⟩ | ⟨rule, conds, hrule, hc, h1⟩ | ⟨rule, hrule, _, h1⟩
    · omega
    · have hmem : rule ∈ rules := List.mem_iff_getElem?.mpr ⟨i, hrule⟩
      obtain ⟨b, hb⟩ := check_conditions_returns self conds (fun c hcm =>
        check_condition_of_well_formed self c (hwf rule hmem c (by rw [hc]; exact hcm)))
      rw [hb] at h1
      cases h1
    · have hkind := hres rule (List.mem_iff_getElem?.mpr ⟨i, hrule⟩)
      rcases h1 with h1 | ⟨tag, h1⟩ <;> rw [h1] at hkind <;>
        rcases hkind with hk | ⟨index, hk⟩ | ⟨name, value, hk⟩ <;> cases hk

/-- The faults of the iterations of the loop over a table whose results are of the
    three kinds are those of `string_match`. -/
theorem preload_rule_properties_steps_fault (rules : List MMUdevRule)
    (hres : results_of_three_kinds rules) (f : Fault) (k : Nat) :
    ∀ (self : MMKernelDeviceGeneric) (i : Nat), self.rules = some rules →
      preload_rule_properties_steps k self i = .error f →
      f = .index_out_of_range ∨ f = .null_string := by
  induction k with
  | zero => intro self i _ h; cases h
  | succ n ih =>
    intro self i hr h
    by_cases hi : i < rules.length
    · rw [preload_rule_properties_steps_succ n self rules i hr hi] at h
      cases hstep : check_rule self i with
      | error f1 =>
        rw [hstep] at h
        cases h
        exact check_rule_fault self rules i _ hr hi hres hstep
      | ok res =>
        obtain ⟨next, self1⟩ := res
        rw [hstep] at h
        exact ih self1 next (by rw [check_rule_keeps_rules self i next self1 hstep, hr]) h
    · rw [preload_rule_properties_steps_ended _ self rules i hr (Nat.not_lt.mp hi)] at h
      cases h

/-- On a record all of whose conditions are well formed, with a table whose results are
    of the three kinds, the iterations of the loop never fault. -/
theorem preload_rule_properties_steps_of_well_formed (rules : List MMUdevRule)
    (hres : results_of_three_kinds rules) (name : Option CStr)
    (hwf : ∀ rule ∈ rules, ∀ c ∈ rule.conditions.getD [], condition_well_formed name c)
    (k : Nat) :
    ∀ (self : MMKernelDeviceGeneric) (i : Nat), self.rules = some rules →
      kernel_device_get_name self = name →
      ∃ pc s, preload_rule_properties_steps k self i = .ok (pc, s) := by
  induction k with
  | zero => intro self i _ _; exact ⟨_, _, rfl⟩
  | succ n ih =>
    intro self i hr hname
    by_cases hi : i < rules.length
    · rw [preload_rule_properties_steps_succ n self rules i hr hi]
      obtain ⟨next, self1, hstep⟩ := check_rule_of_well_formed self rules i hr hi hres
        (by rw [hname]; exact hwf)
      rw [hstep]
      have hframe := check_rule_frame self i next self1 hstep
      exact ih self1 next (by rw [hframe.2.1, hr])
        (by unfold kernel_device_get_name at hname ⊢; rw [hframe.1]; exact hname)
    · rw [preload_rule_properties_steps_ended _ self rules i hr (Nat.not_lt.mp hi)]
      exact ⟨_, _, rfl⟩

/-- The run of `preload_rule_properties` on a non-empty table, read off a state after
    `fuel` iterations: still running when the index is below the table length, returned
    otherwise. -/
theorem preload_rule_properties_of_steps (fuel : Nat) (self : MMKernelDeviceGeneric)
    (rules : List MMUdevRule) (pc : Nat) (s : MMKernelDeviceGeneric)
    (hrules : self.rules = some rules) (hne : rules ≠ [])
    (h : preload_rule_properties_steps fuel self 0 = .ok (pc, s)) :
    preload_rule_properties fuel self
      = if pc < rules.length then .ok none else .ok (some s) := by
  unfold preload_rule_properties
  rw [hrules]
  dsimp only
  rw [if_pos (List.length_pos.mpr hne),
    preload_rule_properties_loop_eq_steps fuel self 0 rules hrules, h]

/-- The run of `preload_rule_properties` on a non-empty table faults when one of its
    iterations does. -/
theorem preload_rule_properties_of_steps_fault (fuel : Nat) (self : MMKernelDeviceGeneric)
    (rules : List MMUdevRule) (f : Fault)
    (hrules : self.rules = some rules) (hne : rules ≠ [])
    (h : preload_rule_properties_steps fuel self 0 = .error f) :
    preload_rule_properties fuel self = .error f := by
  unfold preload_rule_properties
  rw [hrules]
  dsimp only
  rw [if_pos (List.length_pos.mpr hne),
    preload_rule_properties_loop_eq_steps fuel self 0 rules hrules, h]

/-- Writing a key twice leaves what the second write alone leaves. -/
theorem datalist_set_set_same (bag : List (CStr × CStr)) (key data data1 : CStr) :
    datalist_set (datalist_set bag key data) key data1 = datalist_set bag key data1 := by
  induction bag with
  | nil => simp [datalist_set]
  | cons e rest ih =>
    obtain ⟨k, d⟩ := e
    by_cases hk : k = key
    · simp [datalist_set, hk]
    · simp [datalist_set, hk, ih]

/-- Writes of two different keys, one of which is in the bag already, can be
    swapped. -/
theorem datalist_set_comm (bag : List (CStr × CStr)) (key data key1 data1 : CStr)
    (hne : key ≠ key1) (hmem : (bag.lookup key1).isSome = true) :
    datalist_set (datalist_set bag key data) key1 data1
      = datalist_set (datalist_set bag key1 data1) key data := by
  induction bag with
  | nil => simp at hmem
  | cons e rest ih =>
    obtain ⟨k, d⟩ := e
    by_cases hk : k = key
    · subst hk
      have hk1 : ¬ k = key1 := hne
      have hk2 : ¬ key1 = k := fun h => hne h.symm
      simp [datalist_set, hk1, hk2]
    · by_cases hk1 : k = key1
      · subst hk1
        simp [datalist_set, hk, hne]
      · have hrest : (rest.lookup key1).isSome = true := by
          rw [List.lookup_cons] at hmem
          have : (key1 == k) = false := by
            simp only [beq_eq_false_iff_ne, ne_eq]
            exact fun h => hk1 h.symm
          rw [this] at hmem
          exact hmem
        simp [datalist_set, hk, hk1, ih hrest]

/-- A write keeps the keys of the bag. -/
theorem datalist_set_keeps_keys (bag : List (CStr × CStr)) (key data other : CStr)
    (h : (bag.lookup other).isSome = true) :
    ((datalist_set bag key data).lookup other).isSome = true := by
  by_cases hk : other = key
  · subst hk
    rw [datalist_lookup_set_same]
    rfl
  · rw [datalist_lookup_set_other bag key data other hk]
    exact h

theorem datalist_set_all_nil (bag : List (CStr × CStr)) : datalist_set_all bag [] = bag := rfl

theorem datalist_set_all_cons (bag : List (CStr × CStr)) (w : CStr × CStr)
    (writes : List (CStr × CStr)) :
    datalist_set_all bag (w :: writes) = datalist_set_all (datalist_set bag w.1 w.2) writes :=
  rfl

theorem datalist_set_all_append (bag : List (CStr × CStr)) (w1 w2 : List (CStr × CStr)) :
    datalist_set_all bag (w1 ++ w2) = datalist_set_all (datalist_set_all bag w1) w2 := by
  unfold datalist_set_all
  rw [List.foldl_append]

/-- A sequence of writes keeps the keys of the bag. -/
theorem datalist_set_all_keeps_keys (writes : List (CStr × CStr)) :
    ∀ (bag : List (CStr × CStr)) (other : CStr), (bag.lookup other).isSome = true →
      ((datalist_set_all bag writes).lookup other).isSome = true := by
  induction writes with
  | nil => intro bag other h; exact h
  | cons w rest ih =>
    intro bag other h
    rw [datalist_set_all_cons]
    exact ih _ other (datalist_set_keeps_keys bag w.1 w.2 other h)

/-- After a sequence of writes every key written is in the bag. -/
theorem datalist_set_all_has_keys (writes : List (CStr × CStr)) :
    ∀ (bag : List (CStr × CStr)), ∀ w ∈ writes,
      ((datalist_set_all bag writes).lookup w.1).isSome = true := by
  induction writes with
  | nil => intro bag w hw; cases hw
  | cons w0 rest ih =>
    intro bag w hw
    rw [datalist_set_all_cons]
    rcases List.mem_cons.mp hw with h | h
    · subst h
      refine datalist_set_all_keeps_keys rest _ w.1 ?_
      rw [datalist_lookup_set_same]
      rfl
    · exact ih _ w h

/-- In a bag that holds every key of a sequence of writes, a write before the sequence
    that is repeated after it can be left out. -/
theorem datalist_set_all_absorbs (writes : List (CStr × CStr)) :
    ∀ (bag : List (CStr × CStr)) (key data : CStr),
      (∀ w ∈ writes, (bag.lookup w.1).isSome = true) →
      datalist_set (datalist_set_all (datalist_set bag key data) writes) key data
        = datalist_set (datalist_set_all bag writes) key data := by
  induction writes with
  | nil =>
    intro bag key data _
    rw [datalist_set_all_nil, datalist_set_all_nil, datalist_set_set_same]
  | cons w rest ih =>
    intro bag key data hkeys
    rw [datalist_set_all_cons, datalist_set_all_cons]
    have hrest : ∀ w1 ∈ rest, ((datalist_set bag w.1 w.2).lookup w1.1).isSome = true :=
      fun w1 hw1 => datalist_set_keeps_keys bag w.1 w.2 w1.1
        (hkeys w1 (List.mem_cons_of_mem _ hw1))
    by_cases hk : key = w.1
    · rw [hk, datalist_set_set_same]
    · rw [datalist_set_comm bag key data w.1 w.2 hk (hkeys w (List.mem_cons_self _ _))]
      exact ih (datalist_set bag w.1 w.2) key data hrest

/-- Applying a sequence of writes a second time changes nothing. -/
theorem datalist_set_all_twice (writes : List (CStr × CStr)) :
    ∀ (bag : List (CStr × CStr)),
      datalist_set_all (datalist_set_all bag writes) writes = datalist_set_all bag writes := by
  induction writes using List.reverseRecOn with
  | nil => intro bag; rfl
  | append_singleton rest w ih =>
    intro bag
    rw [datalist_set_all_append bag rest [w], datalist_set_all_append _ rest [w]]
    simp only [datalist_set_all_cons, datalist_set_all_nil]
    rw [datalist_set_all_absorbs rest (datalist_set_all bag rest) w.1 w.2
        (fun w1 hw1 => datalist_set_all_has_keys rest bag w1 hw1),
      ih bag]

/-- A run of the rule loop over a table without `ENV` conditions, replayed on a record
    of the same classification with another bag: both runs return, with the same fuel,
    and make the same sequence of writes to the bag. -/
theorem preload_rule_properties_loop_writes (fuel : Nat) :
    ∀ (a b : MMKernelDeviceGeneric) (i : Nat) (ra : MMKernelDeviceGeneric),
      same_classification a b →
      (∀ rules, a.rules = some rules → reads_no_property rules) →
      preload_rule_properties_loop fuel a i = .ok (some ra) →
      ∃ writes rb, preload_rule_properties_loop fuel b i = .ok (some rb)
        ∧ ra.object_data = datalist_set_all a.object_data writes
        ∧ rb.object_data = datalist_set_all b.object_data writes := by
  induction fuel with
  | zero =>
    intro a b i ra hcl henv ha
    cases hr : a.rules with
    | none => rw [preload_rule_properties_loop_null 0 a i hr] at ha; cases ha
    | some rules =>
      have hrb : b.rules = some rules := by rw [← hcl.1, hr]
      by_cases hi : i < rules.length
      · rw [preload_rule_properties_loop_out_of_fuel a rules i hr hi] at ha
        cases ha
      · rw [preload_rule_properties_loop_done 0 a rules i hr (Nat.not_lt.mp hi)] at ha
        simp only [Except.ok.injEq, Option.some.injEq] at ha
        rw [← ha]
        exact ⟨[], b, preload_rule_properties_loop_done 0 b rules i hrb (Nat.not_lt.mp hi),
          rfl, rfl⟩
  | succ n ih =>
    intro a b i ra hcl henv ha
    cases hr : a.rules with
    | none => rw [preload_rule_properties_loop_null _ a i hr] at ha; cases ha
    | some rules =>
      have hrb : b.rules = some rules := by rw [← hcl.1, hr]
      by_cases hi : i < rules.length
      · cases hstep : check_rule a i with
        | error f =>
          rw [preload_rule_properties_loop_fault n a rules i f hr hi hstep] at ha
          cases ha
        | ok res =>
          obtain ⟨next, a1⟩ := res
          rw [preload_rule_properties_loop_step n a rules i next a1 hr hi hstep] at ha
          rcases check_rule_congr a b i next a1 hcl (Or.inl henv) hstep with
            ⟨h1, h2⟩ | ⟨name, data, h1, h2⟩
          · rw [h1] at ha
            obtain ⟨writes, rb, hrb1, hwa, hwb⟩ := ih a b next ra hcl henv ha
            exact ⟨writes, rb, by
              rw [preload_rule_properties_loop_step n b rules i next b hrb hi h2]
              exact hrb1, hwa, hwb⟩
          · rw [h1] at ha
            obtain ⟨writes, rb, hrb1, hwa, hwb⟩ := ih (g_object_set_data a name data)
              (g_object_set_data b name data) next ra hcl henv ha
            exact ⟨(name, data) :: writes, rb, by
              rw [preload_rule_properties_loop_step n b rules i next _ hrb hi h2]
              exact hrb1, hwa, hwb⟩
      · rw [preload_rule_properties_loop_done _ a rules i hr (Nat.not_lt.mp hi)] at ha
        simp only [Except.ok.injEq, Option.some.injEq] at ha
        rw [← ha]
        exact ⟨[], b, preload_rule_properties_loop_done _ b rules i hrb (Nat.not_lt.mp hi),
          rfl, rfl⟩

/-- Two records that differ at most in their bags, and whose bags are equal, are
    equal. -/
theorem SameButBag.eq_of_bag {a b : MMKernelDeviceGeneric} (h : SameButBag a b)
    (hbag : b.object_data = a.object_data) : b = a := by
  unfold SameButBag at h
  rw [← hbag] at h
  exact h

/-- One round of `Nat.toDigitsCore` in base 16. -/
theorem toDigitsCore_16_step (fuel n : Nat) (ds : List Char) :
    Nat.toDigitsCore 16 (fuel + 1) n ds
      = if n / 16 = 0 then Nat.digitChar (n % 16) :: ds
        else Nat.toDigitsCore 16 fuel (n / 16) (Nat.digitChar (n % 16) :: ds) := rfl

/-- The digit characters of `printf` below 16 are the lowercase hexadecimal digits. -/
theorem digitChar_eq_lower_hex_digit (d : Nat) (h : d < 16) :
    Nat.digitChar d = lower_hex_digit d := by
  interval_cases d <;> rfl

/-- The conversion `%04x` of a `guint16` value gives exactly four lowercase hexadecimal
    digits. -/
theorem printf_04x_eq_four_digits (n : Fin 65536) :
    printf_0x 4 n.val = four_lower_hex_digits n.val := by
  obtain ⟨n, hn⟩ := n
  show List.leftpad 4 '0' (Nat.toDigitsCore 16 (n + 1) n []) = four_lower_hex_digits n
  unfold four_lower_hex_digits
  have hd0 := digitChar_eq_lower_hex_digit (n % 16) (Nat.mod_lt _ (by decide))
  have hd1 := digitChar_eq_lower_hex_digit (n / 16 % 16) (Nat.mod_lt _ (by decide))
  have hd2 := digitChar_eq_lower_hex_digit (n / 256 % 16) (Nat.mod_lt _ (by decide))
  have hd3 := digitChar_eq_lower_hex_digit (n / 4096) (by omega)
  have e2 : n / 16 / 16 = n / 256 := by rw [Nat.div_div_eq_div_mul]
  have e3 : n / 256 / 16 = n / 4096 := by rw [Nat.div_div_eq_div_mul]
  by_cases h1 : n < 16
  · have z1 : n / 16 = 0 := by omega
    have z2 : n / 256 = 0 := by omega
    have z3 : n / 4096 = 0 := by omega
    rw [toDigitsCore_16_step, if_pos z1, hd0, z1, z2, z3]
    rfl
  · obtain ⟨m, hm⟩ : ∃ m, n + 1 = m + 1 + 1 := ⟨n - 1, by omega⟩
    have n1 : ¬ n / 16 = 0 := by omega
    by_cases h2 : n < 256
    · have z2 : n / 256 = 0 := by omega
      have z3 : n / 4096 = 0 := by omega
      rw [hm, toDigitsCore_16_step, if_neg n1, toDigitsCore_16_step, e2, if_pos z2, hd0, hd1,
        z2, z3]
      rfl
    · obtain ⟨m2, hm2⟩ : ∃ m2, m = m2 + 1 := ⟨m - 1, by omega⟩
      have n2 : ¬ n / 256 = 0 := by omega
      by_cases h3 : n < 4096
      · have z3 : n / 4096 = 0 := by omega
        rw [hm, hm2, toDigitsCore_16_step, if_neg n1, toDigitsCore_16_step, e2, if_neg n2,
          toDigitsCore_16_step, e3, if_pos z3, hd0, hd1, hd2, z3]
        rfl
      · obtain ⟨m3, hm3⟩ : ∃ m3, m2 = m3 + 1 := ⟨m2 - 1, by omega⟩
        have n3 : ¬ n / 4096 = 0 := by omega
        have z4 : n / 4096 / 16 = 0 := by omega
        have e4 : n / 4096 % 16 = n / 4096 := by omega
        rw [hm, hm2, hm3, toDigitsCore_16_step, if_neg n1, toDigitsCore_16_step, e2, if_neg n2,
          toDigitsCore_16_step, e3, if_neg n3, toDigitsCore_16_step, if_pos z4, e4, hd0, hd1,
          hd2, hd3]
        rfl

/-- The value that four hexadecimal digits denote. -/
theorem hex_digits_value_four_digits (n : Fin 65536) :
    hex_digits_value (four_lower_hex_digits n.val) 0 = some n.val := by
  obtain ⟨n, hn⟩ := n
  have hx : ∀ d, d < 16 → xdigit_value (lower_hex_digit d) = some d := by
    intro d hd
    interval_cases d <;> rfl
  have h3 := hx (n / 4096) (by omega)
  have h2 := hx (n / 256 % 16) (Nat.mod_lt _ (by decide))
  have h1 := hx (n / 16 % 16) (Nat.mod_lt _ (by decide))
  have h0 := hx (n % 16) (Nat.mod_lt _ (by decide))
  simp only [four_lower_hex_digits, hex_digits_value, h3, h2, h1, h0, Option.some.injEq]
  omega

/-- The lookup of the sysfs path leaves the interface and the physical device of the
    record as they are. -/
theorem preload_sysfs_path_keeps (fs : Sysfs) (self : MMKernelDeviceGeneric) :
    (preload_sysfs_path fs self).physdev_sysfs_path = self.physdev_sysfs_path
    ∧ (preload_sysfs_path fs self).interface_sysfs_path = self.interface_sysfs_path
    ∧ (preload_sysfs_path fs self).driver = self.driver := by
  unfold preload_sysfs_path
  split
  · exact ⟨rfl, rfl, rfl⟩
  · dsimp only
    split <;> exact ⟨rfl, rfl, rfl⟩

/-- The sysfs path that the lookup gives to a record without one. -/
theorem preload_sysfs_path_bag (fs : Sysfs) (self : MMKernelDeviceGeneric)
    (key : CStr) (hkey : key ≠ "DEVPATH".toList) :
    g_object_get_data (preload_sysfs_path fs self) key = g_object_get_data self key := by
  unfold preload_sysfs_path
  split
  · rfl
  · dsimp only
    split
    · rfl
    · exact get_data_set_data_other _ _ _ key hkey

/-- A bus that the classifier returns is one of the bus vocabulary. -/
theorem find_device_bus_subsystem_loop_on_bus (fs : Sysfs) (fuel : Nat) :
    ∀ (iter : CStr) (bus : CStr),
      find_device_bus_subsystem_loop fs fuel iter = some (some bus) → bus ∈ bus_vocabulary := by
  induction fuel with
  | zero =>
    intro iter bus h
    unfold find_device_bus_subsystem_loop at h
    split_ifs at h
    cases h
  | succ n ih =>
    intro iter bus h
    unfold find_device_bus_subsystem_loop at h
    by_cases hroot : iter = "/".toList
    · rw [if_pos hroot] at h
      cases h
    · rw [if_neg hroot] at h
      dsimp only at h
      split_ifs at h with hbus
      · simp only [Option.some.injEq] at h
        have := (on_bus_iff _).mp hbus
        rw [h] at this
        simpa [on_bus] using this
      · exact ih _ bus h

/-- What `preload_common_properties` changes is the bag. -/
theorem preload_common_properties_same_but_bag (self : MMKernelDeviceGeneric) :
    SameButBag self (preload_common_properties self) := by
  rcases self with ⟨p, r, d, sp, isp, ic, isc, ip, inn, idesc, psp, pv, pp, pr, psub, pman,
    pprod, od⟩
  cases isp <;> cases pprod <;> cases pman <;> cases psp <;> rfl

/-- The identifiers that `preload_common_properties` stores for a record with a physical
    device. -/
theorem preload_common_properties_ids (self : MMKernelDeviceGeneric) (p : CStr)
    (hp : self.physdev_sysfs_path = some p) :
    g_object_get_data (preload_common_properties self) "ID_VENDOR_ID".toList
      = some (printf_0x 4 self.physdev_vid.val)
    ∧ g_object_get_data (preload_common_properties self) "ID_MODEL_ID".toList
      = some (printf_0x 4 self.physdev_pid.val)
    ∧ g_object_get_data (preload_common_properties self) "ID_REVISION".toList
      = some (printf_0x 4 self.physdev_revision.val) := by
  rcases self with ⟨pr0, r, d, sp, isp, ic, isc, ip, inn, idesc, psp, pv, pp, pr, psub, pman,
    pprod, od⟩
  simp only at hp
  subst hp
  have h1 : "ID_VENDOR_ID".toList ≠ "ID_MODEL_ID".toList := by decide
  have h2 : "ID_VENDOR_ID".toList ≠ "ID_REVISION".toList := by decide
  have h3 : "ID_MODEL_ID".toList ≠ "ID_REVISION".toList := by decide
  cases isp <;> cases pprod <;> cases pman <;>
    dsimp only [preload_common_properties, g_object_set_data, g_object_get_data] <;>
    exact ⟨by rw [datalist_lookup_set_other _ _ _ _ h2, datalist_lookup_set_other _ _ _ _ h1,
                datalist_lookup_set_same],
           by rw [datalist_lookup_set_other _ _ _ _ h3, datalist_lookup_set_same],
           by rw [datalist_lookup_set_same]⟩

/-- The interface number that `preload_common_properties` stores for a record with an
    interface. -/
theorem preload_common_properties_interface_num (self : MMKernelDeviceGeneric) (i : CStr)
    (hi : self.interface_sysfs_path = some i) :
    g_object_get_data (preload_common_properties self) "ID_USB_INTERFACE_NUM".toList
      = some (printf_0x 2 self.interface_number.val) := by
  rcases self with ⟨pr0, r, d, sp, isp, ic, isc, ip, inn, idesc, psp, pv, pp, pr, psub, pman,
    pprod, od⟩
  simp only at hi
  subst hi
  have h1 : "ID_USB_INTERFACE_NUM".toList ≠ "ID_MODEL".toList := by decide
  have h2 : "ID_USB_INTERFACE_NUM".toList ≠ "ID_VENDOR".toList := by decide
  have h3 : "ID_USB_INTERFACE_NUM".toList ≠ "ID_VENDOR_ID".toList := by decide
  have h4 : "ID_USB_INTERFACE_NUM".toList ≠ "ID_MODEL_ID".toList := by decide
  have h5 : "ID_USB_INTERFACE_NUM".toList ≠ "ID_REVISION".toList := by decide
  cases pprod <;> cases pman <;> cases psp <;>
    dsimp only [preload_common_properties, g_object_set_data, g_object_get_data] <;>
    simp only [datalist_lookup_set_other _ _ _ _ h1, datalist_lookup_set_other _ _ _ _ h2,
      datalist_lookup_set_other _ _ _ _ h3, datalist_lookup_set_other _ _ _ _ h4,
      datalist_lookup_set_other _ _ _ _ h5, datalist_lookup_set_same]

/-- The shape of `preload_contents` on a record without a sysfs path: after the lookup
    of the path, either the classifier finds no bus and the fallback resolver runs, or
    it finds a bus and the resolver of that bus runs, followed by
    `preload_common_properties`. -/
theorem preload_contents_cases (fuel : Nat) (fs : Sysfs) (self r : MMKernelDeviceGeneric)
    (hs : self.sysfs_path = none) (h : preload_contents fuel fs self = some r) :
    (find_device_bus_subsystem fuel fs (preload_sysfs_path fs self) = some none
      ∧ r = preload_contents_other fs (preload_sysfs_path fs self))
    ∨ ∃ bus loaded,
        find_device_bus_subsystem fuel fs (preload_sysfs_path fs self) = some (some bus)
        ∧ r = preload_common_properties loaded
        ∧ ((bus = "usb".toList
              ∧ preload_contents_usb fuel fs (preload_sysfs_path fs self) = some loaded)
          ∨ (bus = "pcmcia".toList
              ∧ preload_contents_pcmcia fuel fs (preload_sysfs_path fs self) = some loaded)
          ∨ (bus = "pci".toList
              ∧ preload_contents_pci fuel fs (preload_sysfs_path fs self) = some loaded)
          ∨ ((bus = "platform".toList ∨ bus = "pnp".toList ∨ bus = "sdio".toList)
              ∧ preload_contents_platform fuel fs (preload_sysfs_path fs self) bus
                  = some loaded)) := by
  unfold preload_contents at h
  rw [hs] at h
  dsimp only at h
  cases hb : find_device_bus_subsystem fuel fs (preload_sysfs_path fs self) with
  | none => rw [hb] at h; cases h
  | some bus_subsys =>
    rw [hb] at h
    dsimp only at h
    cases bus_subsys with
    | none =>
      simp only [Option.some.injEq] at h
      exact Or.inl ⟨rfl, h.symm⟩
    | some bus =>
      dsimp only at h
      have hvoc : bus ∈ bus_vocabulary := by
        unfold find_device_bus_subsystem at hb
        split at hb
        · cases hb
        · exact find_device_bus_subsystem_loop_on_bus fs fuel _ bus hb
      split at h
      · cases h
      · rename_i loaded hl
        simp only [Option.some.injEq] at h
        refine Or.inr ⟨bus, loaded, rfl, h.symm, ?_⟩
        split_ifs at hl with h1 h2 h3 h4
        · exact Or.inl ⟨h1, hl⟩
        · exact Or.inr (Or.inl ⟨h2, hl⟩)
        · exact Or.inr (Or.inr (Or.inl ⟨h3, hl⟩))
        · exact Or.inr (Or.inr (Or.inr ⟨h4, hl⟩))
        · exfalso
          simp only [bus_vocabulary, List.mem_cons, List.mem_singleton, List.not_mem_nil,
            or_false] at hvoc
          rcases hvoc with hv | hv | hv | hv | hv | hv
          · exact h1 hv
          · exact h2 hv
          · exact h3 hv
          · exact h4 (Or.inl hv)
          · exact h4 (Or.inr (Or.inl hv))
          · exact h4 (Or.inr (Or.inr hv))

/-- The root is not a node of the walk. -/
theorem walk_upward_no_root (n : Nat) : ∀ (p : CStr), "/".toList ∉ walk_upward n p := by
  induction n with
  | zero => intro p; simp [walk_upward]
  | succ k ih =>
    intro p
    unfold walk_upward
    split_ifs with hroot
    · simp
    · intro hmem
      rcases List.mem_cons.mp hmem with h | h
      · exact hroot h.symm
      · exact ih _ h

/-- The walk from a node that is not the root starts with the node. -/
theorem walk_upward_succ (n : Nat) (p : CStr) (hroot : p ≠ "/".toList) :
    walk_upward (n + 1) p = p :: walk_upward n (g_path_get_dirname p) := by
  rw [walk_upward, if_neg hroot]

/-- The node that `k` nodes of the walk come before is the `k`-th ancestor of the
    starting node. -/
theorem walk_upward_nth (pre : List CStr) :
    ∀ (n : Nat) (path x : CStr) (post : List CStr),
      walk_upward n path = pre ++ x :: post → x = ancestor path pre.length := by
  induction pre with
  | nil =>
    intro n path x post h
    cases n with
    | zero => simp [walk_upward] at h
    | succ k =>
      unfold walk_upward at h
      split_ifs at h
      · cases h
      · simp only [List.nil_append, List.cons.injEq] at h
        exact h.1.symm
  | cons a rest ih =>
    intro n path x post h
    cases n with
    | zero => simp [walk_upward] at h
    | succ k =>
      unfold walk_upward at h
      split_ifs at h
      · cases h
      · simp only [List.cons_append, List.cons.injEq] at h
        have := ih k (g_path_get_dirname path) x post h.2
        rw [this]
        unfold ancestor
        rw [List.length_cons, Function.iterate_succ_apply]

/-- The ancestors of an absolute path are absolute and not longer than the path. -/
theorem ancestor_absolute (k : Nat) :
    ∀ (q : CStr), q.head? = some '/' →
      (ancestor q k).head? = some '/' ∧ (ancestor q k).length ≤ q.length := by
  induction k with
  | zero => intro q h; exact ⟨h, Nat.le_refl _⟩
  | succ n ih =>
    intro q h
    unfold ancestor
    rw [Function.iterate_succ_apply]
    by_cases hroot : q = "/".toList
    · subst hroot
      have hd : g_path_get_dirname "/".toList = "/".toList := by decide
      rw [hd]
      exact ih _ h
    · obtain ⟨h1, h2⟩ := g_path_get_dirname_absolute q h hroot
      obtain ⟨h3, h4⟩ := ih _ h1
      exact ⟨h3, by unfold ancestor at h4; omega⟩

/-- A node of the walk from an absolute path, and the walk above it: the nodes above
    are shorter. -/
theorem ancestor_shorter (k : Nat) (q : CStr) (h : q.head? = some '/')
    (hroot : q ≠ "/".toList) (hk : 0 < k) : (ancestor q k).length < q.length := by
  obtain ⟨m, hm⟩ : ∃ m, k = m + 1 := ⟨k - 1, by omega⟩
  subst hm
  obtain ⟨h1, h2⟩ := g_path_get_dirname_absolute q h hroot
  have h3 := (ancestor_absolute m _ h1).2
  unfold ancestor at h3 ⊢
  rw [Function.iterate_succ_apply]
  omega

/-- The walk with some fuel is the beginning of the walk to the root. -/
theorem nodes_upward_of_walk (fuel : Nat) (path : CStr) (habs : path.head? = some '/')
    (pre : List CStr) (n : CStr) (post1 : List CStr)
    (h : walk_upward fuel path = pre ++ n :: post1) :
    ∃ post, nodes_upward path = pre ++ n :: post := by
  have h1 : walk_upward (max fuel path.length) path = nodes_upward path :=
    walk_upward_eq_nodes _ path habs (by omega)
  have h2 := walk_upward_take fuel (max fuel path.length) (Nat.le_max_left _ _) path
  rw [h1, h] at h2
  refine ⟨post1 ++ (nodes_upward path).drop fuel, ?_⟩
  have h3 := List.take_append_drop fuel (nodes_upward path)
  rw [← h2] at h3
  exact h3.symm.trans (by simp)

/-- The node at which the classifier stops: the first node of the walk whose subsystem
    is one of the bus vocabulary. -/
theorem find_device_bus_subsystem_loop_found (fs : Sysfs) (fuel : Nat) :
    ∀ (iter bus : CStr), find_device_bus_subsystem_loop fs fuel iter = some (some bus) →
      ∃ pre n post, walk_upward fuel iter = pre ++ n :: post
        ∧ (∀ m ∈ pre, on_bus (node_subsystem fs m) = false)
        ∧ node_subsystem fs n = some bus := by
  induction fuel with
  | zero =>
    intro iter bus h
    unfold find_device_bus_subsystem_loop at h
    split_ifs at h
    cases h
  | succ k ih =>
    intro iter bus h
    unfold find_device_bus_subsystem_loop at h
    by_cases hroot : iter = "/".toList
    · rw [if_pos hroot] at h
      cases h
    · rw [if_neg hroot] at h
      dsimp only at h
      rw [walk_upward_succ k iter hroot]
      split_ifs at h with hbus
      · simp only [Option.some.injEq] at h
        exact ⟨[], iter, _, rfl, by simp, h⟩
      · obtain ⟨pre, n, post, h1, h2, h3⟩ := ih _ bus h
        refine ⟨iter :: pre, n, post, by rw [h1]; rfl, ?_, h3⟩
        intro m hm
        rcases List.mem_cons.mp hm with rfl | hm
        · cases hb : on_bus (node_subsystem fs m) with
          | false => rfl
          | true => exact absurd ((on_bus_iff _).mpr hb) hbus
        · exact h2 m hm

/-- The dispatch of `preload_contents` on the bus `pci`. -/
theorem preload_contents_of_pci (fuel : Nat) (fs : Sysfs)
    (self loaded : MMKernelDeviceGeneric) (hs : self.sysfs_path = none)
    (hfind : find_device_bus_subsystem fuel fs (preload_sysfs_path fs self)
      = some (some "pci".toList))
    (hload : preload_contents_pci fuel fs (preload_sysfs_path fs self) = some loaded) :
    preload_contents fuel fs self = some (preload_common_properties loaded) := by
  unfold preload_contents
  rw [hs]
  dsimp only
  rw [hfind]
  dsimp only
  rw [if_neg (by decide), if_neg (by decide), if_pos rfl, hload]

/-- The dispatch of `preload_contents` on the buses `platform`, `pnp` and `sdio`. -/
theorem preload_contents_of_platform (fuel : Nat) (fs : Sysfs)
    (self loaded : MMKernelDeviceGeneric) (bus : CStr) (hs : self.sysfs_path = none)
    (hbus : bus = "platform".toList ∨ bus = "pnp".toList ∨ bus = "sdio".toList)
    (hfind : find_device_bus_subsystem fuel fs (preload_sysfs_path fs self)
      = some (some bus))
    (hload : preload_contents_platform fuel fs (preload_sysfs_path fs self) bus
      = some loaded) :
    preload_contents fuel fs self = some (preload_common_properties loaded) := by
  have h1 : ¬ bus = "usb".toList := by
    rcases hbus with h | h | h <;> rw [h] <;> decide
  have h2 : ¬ bus = "pcmcia".toList := by
    rcases hbus with h | h | h <;> rw [h] <;> decide
  have h3 : ¬ bus = "pci".toList := by
    rcases hbus with h | h | h <;> rw [h] <;> decide
  unfold preload_contents
  rw [hs]
  dsimp only
  rw [hfind]
  dsimp only
  rw [if_neg h1, if_neg h2, if_neg h3, if_pos hbus, hload]

/-- The fields that `preload_common_properties` leaves as they are, among them the
    sysfs path, the interface and the physical device. -/
theorem preload_common_properties_keeps (self : MMKernelDeviceGeneric) :
    (preload_common_properties self).sysfs_path = self.sysfs_path
    ∧ (preload_common_properties self).interface_sysfs_path = self.interface_sysfs_path
    ∧ (preload_common_properties self).physdev_sysfs_path = self.physdev_sysfs_path := by
  have h := (preload_common_properties_same_but_bag self).to_classification
  exact ⟨h.2.2.2.1.symm, h.2.2.2.2.1.symm, h.2.2.2.2.2.2.2.2.2.2.1.symm⟩

/-- The PCI walk leaves the interface of the record as it is. -/
theorem preload_contents_pci_loop_interface (fs : Sysfs) (fuel : Nat) :
    ∀ (self : MMKernelDeviceGeneric) (iter : CStr) (r : MMKernelDeviceGeneric),
      preload_contents_pci_loop fs fuel self iter = some r →
      r.interface_sysfs_path = self.interface_sysfs_path := by
  induction fuel with
  | zero =>
    intro self iter r h
    unfold preload_contents_pci_loop at h
    split_ifs at h
    cases h
    rfl
  | succ n ih =>
    intro self iter r h
    unfold preload_contents_pci_loop at h
    split_ifs at h with h1
    · cases h
      rfl
    · dsimp only at h
      split_ifs at h with h2
      · cases h
        cases self.driver <;> rfl
      · rw [ih _ _ _ h]
        cases self.driver <;> rfl

/-- The platform walk leaves the interface of the record as it is. -/
theorem preload_contents_platform_loop_interface (fs : Sysfs) (platform : CStr)
    (fuel : Nat) :
    ∀ (self : MMKernelDeviceGeneric) (iter : CStr) (r : MMKernelDeviceGeneric),
      preload_contents_platform_loop fs platform fuel self iter = some r →
      r.interface_sysfs_path = self.interface_sysfs_path := by
  induction fuel with
  | zero =>
    intro self iter r h
    unfold preload_contents_platform_loop at h
    split_ifs at h
    cases h
    rfl
  | succ n ih =>
    intro self iter r h
    unfold preload_contents_platform_loop at h
    split_ifs at h with h1
    · cases h
      rfl
    · dsimp only at h
      split_ifs at h with h2
      · cases h
        cases self.driver <;> rfl
      · rw [ih _ _ _ h]
        cases self.driver <;> rfl

/-- The PCMCIA walk leaves the interface of the record as it is. -/
theorem preload_contents_pcmcia_loop_interface (fs : Sysfs) (fuel : Nat) :
    ∀ (self : MMKernelDeviceGeneric) (found : Bool) (iter : CStr) (r : MMKernelDeviceGeneric),
      preload_contents_pcmcia_loop fs fuel self found iter = some r →
      r.interface_sysfs_path = self.interface_sysfs_path := by
  induction fuel with
  | zero =>
    intro self found iter r h
    unfold preload_contents_pcmcia_loop at h
    split_ifs at h
    cases h
    rfl
  | succ n ih =>
    intro self found iter r h
    unfold preload_contents_pcmcia_loop at h
    split_ifs at h with h1
    · cases h
      rfl
    · dsimp only at h
      split_ifs at h with h2
      · cases h
        cases self.driver <;> rfl
      · rw [ih _ _ _ _ h]
        cases self.driver <;> rfl

/-- The physical device that the USB walk finds is a node of the walk, and the
    interface that the walk has found is a node before it. -/
theorem preload_contents_usb_loop_topology (fs : Sysfs) (fuel : Nat) :
    ∀ (self : MMKernelDeviceGeneric) (iter : CStr) (r : MMKernelDeviceGeneric),
      preload_contents_usb_loop fs fuel self iter = some r →
      self.physdev_sysfs_path = none →
      r.physdev_sysfs_path = none
      ∨ ∃ pre n post, walk_upward fuel iter = pre ++ n :: post
          ∧ r.physdev_sysfs_path = some n
          ∧ (self.interface_sysfs_path = none →
              ∀ i, r.interface_sysfs_path = some i → i ∈ pre) := by
  induction fuel with
  | zero =>
    intro self iter r h hphys
    unfold preload_contents_usb_loop at h
    split_ifs at h
    cases h
    exact Or.inl hphys
  | succ k ih =>
    intro self iter r h hphys
    unfold preload_contents_usb_loop at h
    by_cases hroot : iter = "/".toList
    · rw [if_pos hroot] at h
      cases h
      exact Or.inl hphys
    · rw [if_neg hroot] at h
      dsimp only at h
      rw [walk_upward_succ k iter hroot]
      by_cases hic : self.interface_sysfs_path = none
          ∧ has_sysfs_attribute fs (some iter) "bInterfaceClass".toList = true
      · rw [if_pos hic] at h
        obtain ⟨_, h2⟩ := preload_contents_usb_loop_keeps_interface fs k _ _ _ h (by simp)
        rcases ih _ _ _ h hphys with h1 | ⟨pre, n, post, h1, h3, _⟩
        · exact Or.inl h1
        · refine Or.inr ⟨iter :: pre, n, post, by rw [h1]; rfl, h3, fun _ i hi => ?_⟩
          rw [h2] at hi
          simp only [Option.some.injEq] at hi
          rw [← hi]
          exact List.mem_cons_self _ _
      · rw [if_neg hic] at h
        split_ifs at h with hv
        · cases h
          refine Or.inr ⟨[], iter, _, rfl, rfl, fun hif i hi => ?_⟩
          simp only at hi
          rw [hif] at hi
          cases hi
        · rcases ih _ _ _ h hphys with h1 | ⟨pre, n, post, h1, h3, h4⟩
          · exact Or.inl h1
          · exact Or.inr ⟨iter :: pre, n, post, by rw [h1]; rfl, h3,
              fun hif i hi => List.mem_cons_of_mem _ (h4 hif i hi)⟩

/-- The PCI resolver puts the physical device on the walk. -/
theorem preload_contents_pci_on_walk (fuel : Nat) (fs : Sysfs)
    (s loaded : MMKernelDeviceGeneric) (hphys : s.physdev_sysfs_path = none)
    (hif : s.interface_sysfs_path = none)
    (h : preload_contents_pci fuel fs s = some loaded) : ResolvedOnWalk fuel s loaded := by
  unfold preload_contents_pci at h
  cases hp : s.sysfs_path with
  | none =>
    rw [hp] at h
    cases h
    exact ⟨rfl, fun p hc => (by rw [hphys] at hc; cases hc),
      fun i hc => (by rw [hif] at hc; cases hc)⟩
  | some path =>
    rw [hp] at h
    dsimp only at h
    have hi := (preload_contents_pci_loop_interface fs fuel s path loaded h).trans hif
    refine ⟨((preload_contents_pci_loop_frame fs fuel s path loaded h).2.2), ?_,
      fun i hc => (by rw [hi] at hc; cases hc)⟩
    intro p hpd
    rcases preload_contents_pci_loop_driver fs fuel s path loaded h hphys with
      ⟨h1, _⟩ | ⟨pre, n, post, h1, h2, _⟩
    · rw [h1] at hpd; cases hpd
    · rw [h2] at hpd
      simp only [Option.some.injEq] at hpd
      subst hpd
      exact ⟨path, pre, post, hp, h1, fun i hc => (by rw [hi] at hc; cases hc)⟩

/-- The platform resolver puts the physical device on the walk. -/
theorem preload_contents_platform_on_walk (fuel : Nat) (fs : Sysfs) (platform : CStr)
    (s loaded : MMKernelDeviceGeneric) (hphys : s.physdev_sysfs_path = none)
    (hif : s.interface_sysfs_path = none)
    (h : preload_contents_platform fuel fs s platform = some loaded) :
    ResolvedOnWalk fuel s loaded := by
  unfold preload_contents_platform at h
  cases hp : s.sysfs_path with
  | none =>
    rw [hp] at h
    cases h
    exact ⟨rfl, fun p hc => (by rw [hphys] at hc; cases hc),
      fun i hc => (by rw [hif] at hc; cases hc)⟩
  | some path =>
    rw [hp] at h
    dsimp only at h
    have hi := (preload_contents_platform_loop_interface fs platform fuel s path loaded h).trans
      hif
    refine ⟨((preload_contents_platform_loop_frame fs platform fuel s path loaded h).2.2), ?_, fun i hc => (by rw [hi] at hc; cases hc)⟩
    intro p hpd
    rcases preload_contents_platform_loop_driver fs platform fuel s path loaded h hphys with
      ⟨h1, _⟩ | ⟨pre, n, post, h1, h2, _⟩
    · rw [h1] at hpd; cases hpd
    · rw [h2] at hpd
      simp only [Option.some.injEq] at hpd
      subst hpd
      exact ⟨path, pre, post, hp, h1, fun i hc => (by rw [hi] at hc; cases hc)⟩

/-- The PCMCIA resolver puts the physical device on the walk. -/
theorem preload_contents_pcmcia_on_walk (fuel : Nat) (fs : Sysfs)
    (s loaded : MMKernelDeviceGeneric) (hphys : s.physdev_sysfs_path = none)
    (hif : s.interface_sysfs_path = none)
    (h : preload_contents_pcmcia fuel fs s = some loaded) : ResolvedOnWalk fuel s loaded := by
  unfold preload_contents_pcmcia at h
  cases hp : s.sysfs_path with
  | none =>
    rw [hp] at h
    cases h
    exact ⟨rfl, fun p hc => (by rw [hphys] at hc; cases hc),
      fun i hc => (by rw [hif] at hc; cases hc)⟩
  | some path =>
    rw [hp] at h
    dsimp only at h
    have hi := (preload_contents_pcmcia_loop_interface fs fuel s false path loaded h).trans hif
    refine ⟨((preload_contents_pcmcia_loop_frame fs fuel s false path loaded h).2.2),
      ?_, fun i hc => (by rw [hi] at hc; cases hc)⟩
    intro p hpd
    rcases preload_contents_pcmcia_loop_driver fs fuel s false path loaded h hphys with
      ⟨h1, _⟩ | ⟨pre, n, post, h1, h2, _⟩
    · rw [h1] at hpd; cases hpd
    · rw [h2] at hpd
      simp only [Option.some.injEq] at hpd
      subst hpd
      exact ⟨path, pre, post, hp, h1, fun i hc => (by rw [hi] at hc; cases hc)⟩

/-- The USB resolver puts the interface and the physical device on the walk, the
    interface first. -/
theorem preload_contents_usb_on_walk (fuel : Nat) (fs : Sysfs)
    (s loaded : MMKernelDeviceGeneric) (hphys : s.physdev_sysfs_path = none)
    (hif : s.interface_sysfs_path = none)
    (h : preload_contents_usb fuel fs s = some loaded) : ResolvedOnWalk fuel s loaded := by
  unfold preload_contents_usb at h
  cases hp : s.sysfs_path with
  | none =>
    rw [hp] at h
    cases h
    exact ⟨rfl, fun p hc => (by rw [hphys] at hc; cases hc),
      fun i hc => (by rw [hif] at hc; cases hc)⟩
  | some path =>
    rw [hp] at h
    dsimp only at h
    refine ⟨((preload_contents_usb_loop_frame fs fuel s path loaded h).2.2), ?_, ?_⟩
    · intro p hpd
      rcases preload_contents_usb_loop_topology fs fuel s path loaded h hphys with
        h1 | ⟨pre, n, post, h1, h2, h3⟩
      · rw [h1] at hpd; cases hpd
      · rw [h2] at hpd
        simp only [Option.some.injEq] at hpd
        subst hpd
        exact ⟨path, pre, post, hp, h1, h3 hif⟩
    · intro i hi
      rcases preload_contents_usb_loop_driver fs fuel s path loaded h hif with
        ⟨h1, _⟩ | ⟨pre, i1, post, h1, _, _, h2, _⟩
      · rw [h1] at hi; cases hi
      · rw [h2] at hi
        simp only [Option.some.injEq] at hi
        subst hi
        exact ⟨path, pre, post, hp, h1⟩

/-- The characters of a canonical path with at least one component: the path ends with
    a character that is not a slash, and has more than one character. -/
theorem path_of_components_last (components : List CStr) (hne : components ≠ [])
    (hcomp : ∀ c ∈ components, is_path_component c) :
    ∃ init last, components.flatMap (fun component => '/' :: component) = init ++ [last]
      ∧ last ≠ '/' ∧ init ≠ [] := by
  obtain ⟨rest, c, hrc⟩ : ∃ rest c, components = rest ++ [c] :=
    ⟨components.dropLast, components.getLast hne, (List.dropLast_append_getLast hne).symm⟩
  subst hrc
  obtain ⟨hc1, hc2⟩ := hcomp c (by simp)
  obtain ⟨cinit, clast, hcl⟩ : ∃ cinit clast, c = cinit ++ [clast] :=
    ⟨c.dropLast, c.getLast hc1, (List.dropLast_append_getLast hc1).symm⟩
  refine ⟨rest.flatMap (fun component => '/' :: component) ++ '/' :: cinit, clast, ?_, ?_, ?_⟩
  · rw [hcl]
    simp [List.flatMap_append]
  · intro h
    apply hc2
    rw [hcl, h]
    simp
  · simp

/-- A canonical path with at least one component is not the root. -/
theorem path_of_components_ne_root (components : List CStr) (hne : components ≠ [])
    (hcomp : ∀ c ∈ components, is_path_component c) :
    path_of_components components ≠ "/".toList := by
  cases components with
  | nil => exact absurd rfl hne
  | cons c rest =>
    obtain ⟨hc1, _⟩ := hcomp c (List.mem_cons_self _ _)
    cases c with
    | nil => exact absurd rfl hc1
    | cons x xs =>
      intro h
      have := congrArg List.length h
      simp [path_of_components, List.flatMap_cons] at this

/-- A canonical path is absolute. -/
theorem path_of_components_absolute (components : List CStr) :
    (path_of_components components).head? = some '/' := by
  cases components with
  | nil => rfl
  | cons c rest => simp [path_of_components, List.flatMap_cons]

/-- The parent directory of a canonical path is the canonical path without its last
    component. -/
theorem g_path_get_dirname_components (components : List CStr) (c : CStr)
    (hcomp : ∀ c1 ∈ components ++ [c], is_path_component c1) :
    g_path_get_dirname (path_of_components (components ++ [c]))
      = path_of_components components := by
  obtain ⟨hc1, hc2⟩ := hcomp c (by simp)
  have hpath : path_of_components (components ++ [c])
      = components.flatMap (fun component => '/' :: component) ++ '/' :: c := by
    cases components with
    | nil => simp [path_of_components, List.flatMap_cons]
    | cons c0 rest => simp [path_of_components, List.flatMap_append, List.flatMap_cons]
  have hdrop : ∀ (l tail : CStr), '/' ∉ l →
      (l ++ '/' :: tail).dropWhile (fun x => x != '/') = '/' :: tail := by
    intro l
    induction l with
    | nil => intro tail _; simp [List.dropWhile]
    | cons x xs ih =>
      intro tail hx
      have hx1 : x ≠ '/' := fun h => hx (by rw [h]; exact List.mem_cons_self _ _)
      have hx2 : '/' ∉ xs := fun h => hx (List.mem_cons_of_mem _ h)
      simp only [List.cons_append, List.dropWhile_cons, bne_iff_ne, ne_eq, hx1,
        not_false_eq_true, decide_True, if_true]
      exact ih tail hx2
  have hrev : '/' ∉ c.reverse := by simpa using hc2
  unfold g_path_get_dirname
  rw [hpath, if_pos (by simp)]
  simp only [List.reverse_append, List.reverse_cons, List.append_assoc, List.singleton_append]
  rw [hdrop c.reverse _ hrev]
  cases hx : components with
  | nil => rfl
  | cons c0 rest =>
    obtain ⟨init, last, h1, h2, h3⟩ := path_of_components_last components (by rw [hx]; simp)
      (fun c1 hc => hcomp c1 (List.mem_append_left _ hc))
    rw [hx] at h1
    rw [h1]
    obtain ⟨e, rest1, he⟩ : ∃ e rest1, init.reverse = e :: rest1 := by
      cases hr : init.reverse with
      | nil => exact absurd (List.reverse_eq_nil_iff.mp hr) h3
      | cons e rest1 => exact ⟨e, rest1, rfl⟩
    simp only [List.reverse_append, List.reverse_cons, List.reverse_nil, List.nil_append,
      List.singleton_append, he]
    rw [strip_trailing_separators, if_pos rfl, strip_trailing_separators, if_neg h2]
    simp only [path_of_components, h1, List.reverse_cons]
    have hinit : init = rest1.reverse ++ [e] := by
      rw [← List.reverse_reverse init, he]
      simp
    rw [hinit]

/-- The ancestors of a canonical path: the canonical paths of the initial segments of
    its components. -/
theorem ancestor_components (k : Nat) :
    ∀ (components : List CStr), (∀ c ∈ components, is_path_component c) →
      k ≤ components.length →
      ancestor (path_of_components components) k
        = path_of_components (components.take (components.length - k)) := by
  induction k with
  | zero =>
    intro components _ _
    simp [ancestor]
  | succ n ih =>
    intro components hcomp hk
    have hne : components ≠ [] := by
      intro h
      rw [h] at hk
      simp at hk
    obtain ⟨rest, c, hrc⟩ : ∃ rest c, components = rest ++ [c] :=
      ⟨components.dropLast, components.getLast hne, (List.dropLast_append_getLast hne).symm⟩
    subst hrc
    unfold ancestor
    rw [Function.iterate_succ_apply, g_path_get_dirname_components rest c hcomp]
    have := ih rest (fun c1 hc => hcomp c1 (List.mem_append_left _ hc))
      (by simp at hk; omega)
    unfold ancestor at this
    rw [this]
    congr 1
    simp only [List.length_append, List.length_singleton]
    rw [List.take_append_of_le_length (by omega)]
    congr 1
    omega

/-- A walk that reaches the root after `d` parent directories, and not before, has the
    `d` ancestors before the root as its nodes. -/
theorem walk_upward_eq_ancestors (d : Nat) :
    ∀ (n : Nat) (p : CStr), d ≤ n → (∀ k, k < d → ancestor p k ≠ "/".toList) →
      ancestor p d = "/".toList →
      walk_upward n p = (List.range d).map (ancestor p) := by
  induction d with
  | zero =>
    intro n p _ _ hroot
    have hp : p = "/".toList := hroot
    subst hp
    cases n <;> simp [walk_upward]
  | succ m ih =>
    intro n p hn hk hroot
    obtain ⟨n1, hn1⟩ : ∃ n1, n = n1 + 1 := ⟨n - 1, by omega⟩
    subst hn1
    have hp : p ≠ "/".toList := hk 0 (by omega)
    rw [walk_upward_succ n1 p hp, List.range_succ_eq_map, List.map_cons, List.map_map]
    have hshift : ∀ k, ancestor (g_path_get_dirname p) k = ancestor p (k + 1) := by
      intro k
      unfold ancestor
      rw [Function.iterate_succ_apply]
    rw [ih n1 (g_path_get_dirname p) (by omega)
      (fun k hk1 => by rw [hshift]; exact hk (k + 1) (by omega))
      (by rw [hshift]; exact hroot)]
    rfl

/-- The classifier returns on a walk that reaches the root within the fuel. -/
theorem find_device_bus_subsystem_loop_reaches_root (fs : Sysfs) (fuel : Nat) :
    ∀ (iter : CStr), (∃ k, k ≤ fuel ∧ ancestor iter k = "/".toList) →
      ∃ r, find_device_bus_subsystem_loop fs fuel iter = some r := by
  induction fuel with
  | zero =>
    intro iter ⟨k, hk, hroot⟩
    have hk0 : k = 0 := by omega
    subst hk0
    have hi : iter = "/".toList := hroot
    unfold find_device_bus_subsystem_loop
    rw [if_pos hi]
    exact ⟨_, rfl⟩
  | succ n ih =>
    intro iter ⟨k, hk, hroot⟩
    unfold find_device_bus_subsystem_loop
    by_cases hi : iter = "/".toList
    · rw [if_pos hi]
      exact ⟨_, rfl⟩
    · rw [if_neg hi]
      dsimp only
      split_ifs
      · exact ⟨_, rfl⟩
      · obtain ⟨k1, hk1⟩ : ∃ k1, k = k1 + 1 := by
          cases k with
          | zero => exact absurd hroot hi
          | succ k1 => exact ⟨k1, rfl⟩
        subst hk1
        exact ih _ ⟨k1, by omega, by
          unfold ancestor at hroot ⊢
          rw [Function.iterate_succ_apply] at hroot
          exact hroot⟩

/-- The USB walk returns when it reaches the root within the fuel. -/
theorem preload_contents_usb_loop_reaches_root (fs : Sysfs) (fuel : Nat) :
    ∀ (self : MMKernelDeviceGeneric) (iter : CStr),
      (∃ k, k ≤ fuel ∧ ancestor iter k = "/".toList) →
      ∃ r, preload_contents_usb_loop fs fuel self iter = some r := by
  induction fuel with
  | zero =>
    intro self iter ⟨k, hk, hroot⟩
    have hk0 : k = 0 := by omega
    subst hk0
    have hi : iter = "/".toList := hroot
    unfold preload_contents_usb_loop
    rw [if_pos hi]
    exact ⟨_, rfl⟩
  | succ n ih =>
    intro self iter ⟨k, hk, hroot⟩
    unfold preload_contents_usb_loop
    by_cases hi : iter = "/".toList
    · rw [if_pos hi]
      exact ⟨_, rfl⟩
    · rw [if_neg hi]
      dsimp only
      obtain ⟨k1, hk1⟩ : ∃ k1, k = k1 + 1 := by
        cases k with
        | zero => exact absurd hroot hi
        | succ k1 => exact ⟨k1, rfl⟩
      subst hk1
      have hnext : ∃ k, k ≤ n ∧ ancestor (g_path_get_dirname iter) k = "/".toList :=
        ⟨k1, by omega, by
          unfold ancestor at hroot ⊢
          rw [Function.iterate_succ_apply] at hroot
          exact hroot⟩
      split_ifs
      · exact ih _ _ hnext
      · exact ⟨_, rfl⟩
      · exact ih _ _ hnext

/-- The PCI walk returns when it reaches the root within the fuel. -/
theorem preload_contents_pci_loop_reaches_root (fs : Sysfs) (fuel : Nat) :
    ∀ (self : MMKernelDeviceGeneric) (iter : CStr),
      (∃ k, k ≤ fuel ∧ ancestor iter k = "/".toList) →
      ∃ r, preload_contents_pci_loop fs fuel self iter = some r := by
  induction fuel with
  | zero =>
    intro self iter ⟨k, hk, hroot⟩
    have hk0 : k = 0 := by omega
    subst hk0
    have hi : iter = "/".toList := hroot
    unfold preload_contents_pci_loop
    rw [if_pos hi]
    exact ⟨_, rfl⟩
  | succ n ih =>
    intro self iter ⟨k, hk, hroot⟩
    unfold preload_contents_pci_loop
    by_cases hi : iter = "/".toList
    · rw [if_pos hi]
      exact ⟨_, rfl⟩
    · rw [if_neg hi]
      dsimp only
      obtain ⟨k1, hk1⟩ : ∃ k1, k = k1 + 1 := by
        cases k with
        | zero => exact absurd hroot hi
        | succ k1 => exact ⟨k1, rfl⟩
      subst hk1
      have hnext : ∃ k, k ≤ n ∧ ancestor (g_path_get_dirname iter) k = "/".toList :=
        ⟨k1, by omega, by
          unfold ancestor at hroot ⊢
          rw [Function.iterate_succ_apply] at hroot
          exact hroot⟩
      split_ifs
      · exact ⟨_, rfl⟩
      · exact ih _ _ hnext

/-- The PCMCIA walk returns when it reaches the root within the fuel. -/
theorem preload_contents_pcmcia_loop_reaches_root (fs : Sysfs) (fuel : Nat) :
    ∀ (self : MMKernelDeviceGeneric) (found : Bool) (iter : CStr),
      (∃ k, k ≤ fuel ∧ ancestor iter k = "/".toList) →
      ∃ r, preload_contents_pcmcia_loop fs fuel self found iter = some r := by
  induction fuel with
  | zero =>
    intro self found iter ⟨k, hk, hroot⟩
    have hk0 : k = 0 := by omega
    subst hk0
    have hi : iter = "/".toList := hroot
    unfold preload_contents_pcmcia_loop
    rw [if_pos hi]
    exact ⟨_, rfl⟩
  | succ n ih =>
    intro self found iter ⟨k, hk, hroot⟩
    unfold preload_contents_pcmcia_loop
    by_cases hi : iter = "/".toList
    · rw [if_pos hi]
      exact ⟨_, rfl⟩
    · rw [if_neg hi]
      dsimp only
      obtain ⟨k1, hk1⟩ : ∃ k1, k = k1 + 1 := by
        cases k with
        | zero => exact absurd hroot hi
        | succ k1 => exact ⟨k1, rfl⟩
      subst hk1
      have hnext : ∃ k, k ≤ n ∧ ancestor (g_path_get_dirname iter) k = "/".toList :=
        ⟨k1, by omega, by
          unfold ancestor at hroot ⊢
          rw [Function.iterate_succ_apply] at hroot
          exact hroot⟩
      split_ifs
      · exact ⟨_, rfl⟩
      · exact ih _ _ _ hnext

/-- The platform walk returns when it reaches the root within the fuel. -/
theorem preload_contents_platform_loop_reaches_root (fs : Sysfs) (platform : CStr)
    (fuel : Nat) :
    ∀ (self : MMKernelDeviceGeneric) (iter : CStr),
      (∃ k, k ≤ fuel ∧ ancestor iter k = "/".toList) →
      ∃ r, preload_contents_platform_loop fs platform fuel self iter = some r := by
  induction fuel with
  | zero =>
    intro self iter ⟨k, hk, hroot⟩
    have hk0 : k = 0 := by omega
    subst hk0
    have hi : iter = "/".toList := hroot
    unfold preload_contents_platform_loop
    rw [if_pos hi]
    exact ⟨_, rfl⟩
  | succ n ih =>
    intro self iter ⟨k, hk, hroot⟩
    unfold preload_contents_platform_loop
    by_cases hi : iter = "/".toList
    · rw [if_pos hi]
      exact ⟨_, rfl⟩
    · rw [if_neg hi]
      dsimp only
      obtain ⟨k1, hk1⟩ : ∃ k1, k = k1 + 1 := by
        cases k with
        | zero => exact absurd hroot hi
        | succ k1 => exact ⟨k1, rfl⟩
      subst hk1
      have hnext : ∃ k, k ≤ n ∧ ancestor (g_path_get_dirname iter) k = "/".toList :=
        ⟨k1, by omega, by
          unfold ancestor at hroot ⊢
          rw [Function.iterate_succ_apply] at hroot
          exact hroot⟩
      split_ifs
      · exact ⟨_, rfl⟩
      · exact ih _ _ hnext

/-- A canonical path has at least as many characters as components. -/
theorem path_of_components_length (components : List CStr) :
    components.length ≤ (path_of_components components).length := by
  have h : ∀ (l : List CStr),
      l.length ≤ (l.flatMap (fun component => '/' :: component)).length := by
    intro l
    induction l with
    | nil => simp
    | cons c rest ih =>
      simp only [List.flatMap_cons, List.length_cons, List.length_append]
      omega
  cases components with
  | nil => simp
  | cons c rest => exact h (c :: rest)

/-- The link reader sees the same at a node of two file systems with the same
    attributes there. -/
theorem read_sysfs_attribute_link_basename_congr (fs1 fs2 : Sysfs) (node : CStr)
    (h : same_attributes fs1 fs2 node) (attr : CStr) (hattr : is_path_component attr) :
    read_sysfs_attribute_link_basename fs1 (some node) attr
      = read_sysfs_attribute_link_basename fs2 (some node) attr := by
  obtain ⟨h1, h2, _⟩ := h attr hattr
  unfold read_sysfs_attribute_link_basename
  simp only [printf_s, Option.getD_some, h1, h2]

/-- The existence test sees the same at such a node. -/
theorem has_sysfs_attribute_congr (fs1 fs2 : Sysfs) (node : CStr)
    (h : same_attributes fs1 fs2 node) (attr : CStr) (hattr : is_path_component attr) :
    has_sysfs_attribute fs1 (some node) attr = has_sysfs_attribute fs2 (some node) attr := by
  obtain ⟨h1, _, _⟩ := h attr hattr
  unfold has_sysfs_attribute
  simp only [printf_s, Option.getD_some, h1]

/-- The string reader sees the same at such a node. -/
theorem read_sysfs_attribute_as_string_congr (fs1 fs2 : Sysfs) (node : CStr)
    (h : same_attributes fs1 fs2 node) (attr : CStr) (hattr : is_path_component attr) :
    read_sysfs_attribute_as_string fs1 (some node) attr
      = read_sysfs_attribute_as_string fs2 (some node) attr := by
  obtain ⟨_, _, h3⟩ := h attr hattr
  unfold read_sysfs_attribute_as_string
  simp only [printf_s, Option.getD_some, h3]

/-- The hexadecimal reader sees the same at such a node. -/
theorem read_sysfs_attribute_as_hex_congr (fs1 fs2 : Sysfs) (node : CStr)
    (h : same_attributes fs1 fs2 node) (attr : CStr) (hattr : is_path_component attr) :
    read_sysfs_attribute_as_hex fs1 (some node) attr
      = read_sysfs_attribute_as_hex fs2 (some node) attr := by
  unfold read_sysfs_attribute_as_hex
  rw [read_sysfs_attribute_as_string_congr fs1 fs2 node h attr hattr]

/-- The classifier reads the attributes of the nodes of its walk only. -/
theorem find_device_bus_subsystem_loop_congr (fs1 fs2 : Sysfs) (fuel : Nat) :
    ∀ (iter : CStr), (∀ m ∈ walk_upward fuel iter, same_attributes fs1 fs2 m) →
      find_device_bus_subsystem_loop fs1 fuel iter
        = find_device_bus_subsystem_loop fs2 fuel iter := by
  induction fuel with
  | zero =>
    intro iter _
    unfold find_device_bus_subsystem_loop
    rfl
  | succ n ih =>
    intro iter h
    unfold find_device_bus_subsystem_loop
    by_cases hroot : iter = "/".toList
    · rw [if_pos hroot, if_pos hroot]
    · rw [if_neg hroot, if_neg hroot]
      rw [walk_upward_succ n iter hroot] at h
      dsimp only
      rw [read_sysfs_attribute_link_basename_congr fs1 fs2 iter
          (h iter (List.mem_cons_self _ _)) "subsystem".toList ⟨by decide, by decide⟩,
        ih _ (fun m hm => h m (List.mem_cons_of_mem _ hm))]

/-- The USB walk reads the attributes of the nodes of its walk only. -/
theorem preload_contents_usb_loop_congr (fs1 fs2 : Sysfs) (fuel : Nat) :
    ∀ (self : MMKernelDeviceGeneric) (iter : CStr),
      (∀ m ∈ walk_upward fuel iter, same_attributes fs1 fs2 m) →
      preload_contents_usb_loop fs1 fuel self iter
        = preload_contents_usb_loop fs2 fuel self iter := by
  induction fuel with
  | zero =>
    intro self iter _
    unfold preload_contents_usb_loop
    rfl
  | succ n ih =>
    intro self iter h
    unfold preload_contents_usb_loop
    by_cases hroot : iter = "/".toList
    · rw [if_pos hroot, if_pos hroot]
    · rw [if_neg hroot, if_neg hroot]
      rw [walk_upward_succ n iter hroot] at h
      have hi := h iter (List.mem_cons_self _ _)
      have hrest : ∀ m ∈ walk_upward n (g_path_get_dirname iter), same_attributes fs1 fs2 m :=
        fun m hm => h m (List.mem_cons_of_mem _ hm)
      dsimp only
      rw [has_sysfs_attribute_congr fs1 fs2 iter hi "bInterfaceClass".toList
          ⟨by decide, by decide⟩,
        has_sysfs_attribute_congr fs1 fs2 iter hi "idVendor".toList ⟨by decide, by decide⟩,
        read_sysfs_attribute_as_hex_congr fs1 fs2 iter hi "bInterfaceClass".toList
          ⟨by decide, by decide⟩,
        read_sysfs_attribute_as_hex_congr fs1 fs2 iter hi "bInterfaceSubClass".toList
          ⟨by decide, by decide⟩,
        read_sysfs_attribute_as_hex_congr fs1 fs2 iter hi "bInterfaceProtocol".toList
          ⟨by decide, by decide⟩,
        read_sysfs_attribute_as_hex_congr fs1 fs2 iter hi "bInterfaceNumber".toList
          ⟨by decide, by decide⟩,
        read_sysfs_attribute_as_string_congr fs1 fs2 iter hi "interface".toList
          ⟨by decide, by decide⟩,
        read_sysfs_attribute_link_basename_congr fs1 fs2 iter hi "driver".toList
          ⟨by decide, by decide⟩,
        read_sysfs_attribute_as_hex_congr fs1 fs2 iter hi "idVendor".toList
          ⟨by decide, by decide⟩,
        read_sysfs_attribute_as_hex_congr fs1 fs2 iter hi "idProduct".toList
          ⟨by decide, by decide⟩,
        read_sysfs_attribute_as_hex_congr fs1 fs2 iter hi "bcdDevice".toList
          ⟨by decide, by decide⟩,
        read_sysfs_attribute_link_basename_congr fs1 fs2 iter hi "subsystem".toList
          ⟨by decide, by decide⟩,
        read_sysfs_attribute_as_string_congr fs1 fs2 iter hi "manufacturer".toList
          ⟨by decide, by decide⟩,
        read_sysfs_attribute_as_string_congr fs1 fs2 iter hi "product".toList
          ⟨by decide, by decide⟩]
      simp only [ih _ _ hrest]

/-- The PCI walk reads the attributes of the nodes of its walk only. -/
theorem preload_contents_pci_loop_congr (fs1 fs2 : Sysfs) (fuel : Nat) :
    ∀ (self : MMKernelDeviceGeneric) (iter : CStr),
      (∀ m ∈ walk_upward fuel iter, same_attributes fs1 fs2 m) →
      preload_contents_pci_loop fs1 fuel self iter
        = preload_contents_pci_loop fs2 fuel self iter := by
  induction fuel with
  | zero =>
    intro self iter _
    unfold preload_contents_pci_loop
    rfl
  | succ n ih =>
    intro self iter h
    unfold preload_contents_pci_loop
    by_cases hroot : iter = "/".toList
    · rw [if_pos hroot, if_pos hroot]
    · rw [if_neg hroot, if_neg hroot]
      rw [walk_upward_succ n iter hroot] at h
      have hi := h iter (List.mem_cons_self _ _)
      have hrest : ∀ m ∈ walk_upward n (g_path_get_dirname iter), same_attributes fs1 fs2 m :=
        fun m hm => h m (List.mem_cons_of_mem _ hm)
      dsimp only
      rw [read_sysfs_attribute_link_basename_congr fs1 fs2 iter hi "driver".toList
          ⟨by decide, by decide⟩,
        read_sysfs_attribute_link_basename_congr fs1 fs2 iter hi "subsystem".toList
          ⟨by decide, by decide⟩,
        read_sysfs_attribute_as_hex_congr fs1 fs2 iter hi "vendor".toList
          ⟨by decide, by decide⟩,
        read_sysfs_attribute_as_hex_congr fs1 fs2 iter hi "device".toList
          ⟨by decide, by decide⟩,
        read_sysfs_attribute_as_hex_congr fs1 fs2 iter hi "revision".toList
          ⟨by decide, by decide⟩]
      simp only [ih _ _ hrest]

/-- The platform walk reads the attributes of the nodes of its walk only. -/
theorem preload_contents_platform_loop_congr (fs1 fs2 : Sysfs) (platform : CStr)
    (fuel : Nat) :
    ∀ (self : MMKernelDeviceGeneric) (iter : CStr),
      (∀ m ∈ walk_upward fuel iter, same_attributes fs1 fs2 m) →
      preload_contents_platform_loop fs1 platform fuel self iter
        = preload_contents_platform_loop fs2 platform fuel self iter := by
  induction fuel with
  | zero =>
    intro self iter _
    unfold preload_contents_platform_loop
    rfl
  | succ n ih =>
    intro self iter h
    unfold preload_contents_platform_loop
    by_cases hroot : iter = "/".toList
    · rw [if_pos hroot, if_pos hroot]
    · rw [if_neg hroot, if_neg hroot]
      rw [walk_upward_succ n iter hroot] at h
      have hi := h iter (List.mem_cons_self _ _)
      have hrest : ∀ m ∈ walk_upward n (g_path_get_dirname iter), same_attributes fs1 fs2 m :=
        fun m hm => h m (List.mem_cons_of_mem _ hm)
      dsimp only
      rw [read_sysfs_attribute_link_basename_congr fs1 fs2 iter hi "driver".toList
          ⟨by decide, by decide⟩,
        read_sysfs_attribute_link_basename_congr fs1 fs2 iter hi "subsystem".toList
          ⟨by decide, by decide⟩]
      simp only [ih _ _ hrest]

/-- The PCMCIA walk reads the attributes of the nodes of its walk and the `subsystem`
    link of the parent directory of each of them. -/
theorem preload_contents_pcmcia_loop_congr (fs1 fs2 : Sysfs) (fuel : Nat) :
    ∀ (self : MMKernelDeviceGeneric) (found : Bool) (iter : CStr),
      (∀ m ∈ walk_upward fuel iter, same_attributes fs1 fs2 m) →
      (∀ m ∈ walk_upward fuel iter,
        node_subsystem fs1 (g_path_get_dirname m) = node_subsystem fs2 (g_path_get_dirname m)) →
      preload_contents_pcmcia_loop fs1 fuel self found iter
        = preload_contents_pcmcia_loop fs2 fuel self found iter := by
  induction fuel with
  | zero =>
    intro self found iter _ _
    unfold preload_contents_pcmcia_loop
    rfl
  | succ n ih =>
    intro self found iter h hparent
    unfold preload_contents_pcmcia_loop
    by_cases hroot : iter = "/".toList
    · rw [if_pos hroot, if_pos hroot]
    · rw [if_neg hroot, if_neg hroot]
      rw [walk_upward_succ n iter hroot] at h hparent
      have hi := h iter (List.mem_cons_self _ _)
      have hp : read_sysfs_attribute_link_basename fs1 (some (g_path_get_dirname iter))
            "subsystem".toList
          = read_sysfs_attribute_link_basename fs2 (some (g_path_get_dirname iter))
            "subsystem".toList := hparent iter (List.mem_cons_self _ _)
      have hrest : ∀ m ∈ walk_upward n (g_path_get_dirname iter), same_attributes fs1 fs2 m :=
        fun m hm => h m (List.mem_cons_of_mem _ hm)
      have hprest : ∀ m ∈ walk_upward n (g_path_get_dirname iter),
          node_subsystem fs1 (g_path_get_dirname m) = node_subsystem fs2 (g_path_get_dirname m) :=
        fun m hm => hparent m (List.mem_cons_of_mem _ hm)
      dsimp only
      rw [read_sysfs_attribute_link_basename_congr fs1 fs2 iter hi "driver".toList
          ⟨by decide, by decide⟩,
        read_sysfs_attribute_link_basename_congr fs1 fs2 iter hi "subsystem".toList
          ⟨by decide, by decide⟩,
        read_sysfs_attribute_as_hex_congr fs1 fs2 iter hi "manf_id".toList
          ⟨by decide, by decide⟩,
        read_sysfs_attribute_as_hex_congr fs1 fs2 iter hi "card_id".toList
          ⟨by decide, by decide⟩, hp]
      simp only [ih _ _ _ hrest hprest]

/-- The nodes of a walk with some fuel from an absolute path are nodes of the walk to
    the root. -/
theorem walk_upward_subset_nodes (fuel : Nat) (path : CStr) (habs : path.head? = some '/')
    (m : CStr) (hm : m ∈ walk_upward fuel path) : m ∈ nodes_upward path := by
  obtain ⟨pre, post1, hw⟩ := List.append_of_mem hm
  obtain ⟨post, hn⟩ := nodes_upward_of_walk fuel path habs pre m post1 hw
  rw [hn]
  simp

/-- The file system with a `subsystem` link of the root only shows what the empty file
    system shows at every node below `/sys`. -/
theorem sysfs_root_link_same (rest : CStr) :
    same_attributes empty_sysfs sysfs_root_link ('/' :: 's' :: rest) := by
  intro attr _
  have hne : ('/' :: 's' :: rest ++ "/".toList ++ attr == "//subsystem".toList) = false := by
    apply beq_false_of_ne
    intro hc
    have h1 := congrArg (fun l => l[1]?) hc
    simp at h1
  simp only [empty_sysfs, sysfs_root_link, sysfs_of, List.lookup, hne]
  simp

/-- The two trees of the top-level PCMCIA device show the same at every node below
    `/sys`, and at `/sys` itself. -/
theorem sysfs_pcmcia_top_same (rest : CStr) :
    same_attributes sysfs_pcmcia_top sysfs_pcmcia_top_root_link ('/' :: 's' :: rest) := by
  intro attr _
  have hne : ('/' :: 's' :: rest ++ "/".toList ++ attr == "//subsystem".toList) = false := by
    apply beq_false_of_ne
    intro hc
    have h1 := congrArg (fun l => l[1]?) hc
    simp at h1
  simp only [sysfs_pcmcia_top, sysfs_pcmcia_top_root_link, sysfs_of, List.lookup, hne]
  exact ⟨trivial, trivial, trivial⟩

/-- The loop of `preload_contents_pcmcia` records no physical device when no node of
    its walk has a parent directory with a subsystem other than `pcmcia`. -/
theorem preload_contents_pcmcia_loop_no_physdev (fs : Sysfs) (fuel : Nat) :
    ∀ (self : MMKernelDeviceGeneric) (found : Bool) (iter : CStr) (r : MMKernelDeviceGeneric),
      (∀ m ∈ walk_upward fuel iter,
        node_subsystem fs (g_path_get_dirname m) = none
        ∨ node_subsystem fs (g_path_get_dirname m) = some "pcmcia".toList) →
      preload_contents_pcmcia_loop fs fuel self found iter = some r →
      r.physdev_sysfs_path = self.physdev_sysfs_path := by
  induction fuel with
  | zero =>
    intro self found iter r _ h
    unfold preload_contents_pcmcia_loop at h
    split_ifs at h
    cases h
    rfl
  | succ n ih =>
    intro self found iter r hall h
    unfold preload_contents_pcmcia_loop at h
    by_cases hroot : iter = "/".toList
    · rw [if_pos hroot] at h
      cases h
      rfl
    · rw [if_neg hroot] at h
      rw [walk_upward_succ n iter hroot] at hall
      have hp := hall iter (List.mem_cons_self _ _)
      unfold node_subsystem at hp
      dsimp only at h
      rw [if_neg (fun hc => by
        rcases hp with hp | hp
        · exact hc.2.1 hp
        · exact hc.2.2 hp)] at h
      rw [ih _ _ _ r (fun m hm => hall m (List.mem_cons_of_mem _ hm)) h]
      cases self.driver <;> rfl

/-- The loop of `preload_contents_usb` once the interface is known, on a walk none of
    whose nodes exposes `idVendor`: it leaves the record as it is. -/
theorem preload_contents_usb_loop_unchanged (fs : Sysfs) (fuel : Nat) :
    ∀ (self : MMKernelDeviceGeneric) (iter : CStr) (r : MMKernelDeviceGeneric),
      self.interface_sysfs_path ≠ none →
      (∀ m ∈ walk_upward fuel iter,
        has_sysfs_attribute fs (some m) "idVendor".toList = false) →
      preload_contents_usb_loop fs fuel self iter = some r → r = self := by
  induction fuel with
  | zero =>
    intro self iter r _ _ h
    unfold preload_contents_usb_loop at h
    split_ifs at h
    cases h
    rfl
  | succ n ih =>
    intro self iter r hif hall h
    unfold preload_contents_usb_loop at h
    by_cases hroot : iter = "/".toList
    · rw [if_pos hroot] at h
      cases h
      rfl
    · rw [if_neg hroot] at h
      rw [walk_upward_succ n iter hroot] at hall
      have hv := hall iter (List.mem_cons_self _ _)
      dsimp only at h
      rw [if_neg (fun hc => hif hc.1), if_neg (fun hc => by rw [hv] at hc; cases hc.2)] at h
      exact ih self _ r hif (fun m hm => hall m (List.mem_cons_of_mem _ hm)) h

/-- The loop of `preload_contents_usb` on a fresh record when the first node that
    exposes `bInterfaceClass` has no node before it that exposes `idVendor`, and no node
    after it does: the interface is recorded and nothing else, whether or not the
    interface node itself exposes `idVendor`. -/
theorem preload_contents_usb_loop_interface_only (fs : Sysfs) (i : CStr) (post : List CStr)
    (hi : has_sysfs_attribute fs (some i) "bInterfaceClass".toList = true)
    (hpost : ∀ m ∈ post, has_sysfs_attribute fs (some m) "idVendor".toList = false) :
    ∀ (pre1 : List CStr) (fuel : Nat) (self : MMKernelDeviceGeneric) (iter : CStr)
      (r : MMKernelDeviceGeneric),
      walk_upward fuel iter = pre1 ++ i :: post →
      self.interface_sysfs_path = none →
      (∀ m ∈ pre1, has_sysfs_attribute fs (some m) "idVendor".toList = false) →
      (∀ m ∈ pre1, has_sysfs_attribute fs (some m) "bInterfaceClass".toList = false) →
      preload_contents_usb_loop fs fuel self iter = some r →
      r = { self with
            interface_sysfs_path := some i,
            interface_class :=
              to_guint8 (read_sysfs_attribute_as_hex fs (some i) "bInterfaceClass".toList),
            interface_subclass :=
              to_guint8 (read_sysfs_attribute_as_hex fs (some i) "bInterfaceSubClass".toList),
            interface_protocol :=
              to_guint8 (read_sysfs_attribute_as_hex fs (some i) "bInterfaceProtocol".toList),
            interface_number :=
              to_guint8 (read_sysfs_attribute_as_hex fs (some i) "bInterfaceNumber".toList),
            interface_description :=
              read_sysfs_attribute_as_string fs (some i) "interface".toList,
            driver := read_sysfs_attribute_link_basename fs (some i) "driver".toList } := by
  intro pre1
  induction pre1 with
  | nil =>
    intro fuel self iter r hwalk hif _ _ h
    cases fuel with
    | zero => simp [walk_upward] at hwalk
    | succ k =>
      unfold walk_upward at hwalk
      by_cases hroot : iter = "/".toList
      · rw [if_pos hroot] at hwalk
        simp at hwalk
      · rw [if_neg hroot] at hwalk
        simp only [List.nil_append, List.cons.injEq] at hwalk
        obtain ⟨rfl, hrest⟩ := hwalk
        unfold preload_contents_usb_loop at h
        rw [if_neg hroot] at h
        dsimp only at h
        rw [if_pos ⟨hif, hi⟩] at h
        refine preload_contents_usb_loop_unchanged fs k _ _ r ?_ ?_ h
        · simp
        · rw [hrest]
          exact hpost
  | cons m pre1 ih =>
    intro fuel self iter r hwalk hif hpre hpre1 h
    cases fuel with
    | zero => simp [walk_upward] at hwalk
    | succ k =>
      unfold walk_upward at hwalk
      by_cases hroot : iter = "/".toList
      · rw [if_pos hroot] at hwalk
        simp at hwalk
      · rw [if_neg hroot] at hwalk
        simp only [List.cons_append, List.cons.injEq] at hwalk
        obtain ⟨rfl, hrest⟩ := hwalk
        unfold preload_contents_usb_loop at h
        rw [if_neg hroot] at h
        dsimp only at h
        have hm := hpre iter (List.mem_cons_self _ _)
        have hm2 := hpre1 iter (List.mem_cons_self _ _)
        rw [if_neg (fun h => by rw [hm2] at h; cases h.2),
          if_neg (fun h => by rw [hm] at h; cases h.2)] at h
        exact ih k self _ r hrest hif (fun x hx => hpre x (List.mem_cons_of_mem _ hx))
          (fun x hx => hpre1 x (List.mem_cons_of_mem _ hx)) h

theorem with_event_action_driver (a : Option CStr) (self : MMKernelDeviceGeneric) :
    (with_event_action a self).driver = self.driver := rfl

theorem with_event_action_physdev (a : Option CStr) (self : MMKernelDeviceGeneric) :
    (with_event_action a self).physdev_sysfs_path = self.physdev_sysfs_path := rfl

theorem with_event_action_interface (a : Option CStr) (self : MMKernelDeviceGeneric) :
    (with_event_action a self).interface_sysfs_path = self.interface_sysfs_path := rfl

/-- The loop of `preload_contents_platform` does not read the event action. -/
theorem preload_contents_platform_loop_action (fs : Sysfs) (platform : CStr)
    (a : Option CStr) (fuel : Nat) :
    ∀ (self : MMKernelDeviceGeneric) (iter : CStr),
      preload_contents_platform_loop fs platform fuel (with_event_action a self) iter
        = (preload_contents_platform_loop fs platform fuel self iter).map
            (with_event_action a) := by
  induction fuel with
  | zero =>
    intro self iter
    unfold preload_contents_platform_loop
    split_ifs <;> rfl
  | succ n ih =>
    intro self iter
    unfold preload_contents_platform_loop
    by_cases hroot : iter = "/".toList
    · rw [if_pos hroot, if_pos hroot]
      rfl
    · rw [if_neg hroot, if_neg hroot]
      cases hd : self.driver with
      | none =>
        simp only [with_event_action_driver, hd, with_event_action_physdev]
        split_ifs
        · rfl
        · exact ih { self with
            driver := read_sysfs_attribute_link_basename fs (some iter) "driver".toList } _
      | some d =>
        simp only [with_event_action_driver, hd, with_event_action_physdev]
        split_ifs
        · rfl
        · exact ih self _

/-- The loop of `preload_contents_pci` does not read the event action. -/
theorem preload_contents_pci_loop_action (fs : Sysfs) (a : Option CStr) (fuel : Nat) :
    ∀ (self : MMKernelDeviceGeneric) (iter : CStr),
      preload_contents_pci_loop fs fuel (with_event_action a self) iter
        = (preload_contents_pci_loop fs fuel self iter).map (with_event_action a) := by
  induction fuel with
  | zero =>
    intro self iter
    unfold preload_contents_pci_loop
    split_ifs <;> rfl
  | succ n ih =>
    intro self iter
    unfold preload_contents_pci_loop
    by_cases hroot : iter = "/".toList
    · rw [if_pos hroot, if_pos hroot]
      rfl
    · rw [if_neg hroot, if_neg hroot]
      cases hd : self.driver with
      | none =>
        simp only [with_event_action_driver, hd, with_event_action_physdev]
        split_ifs
        · rfl
        · exact ih { self with
            driver := read_sysfs_attribute_link_basename fs (some iter) "driver".toList } _
      | some d =>
        simp only [with_event_action_driver, hd, with_event_action_physdev]
        split_ifs
        · rfl
        · exact ih self _

/-- The loop of `preload_contents_pcmcia` does not read the event action. -/
theorem preload_contents_pcmcia_loop_action (fs : Sysfs) (a : Option CStr) (fuel : Nat) :
    ∀ (self : MMKernelDeviceGeneric) (found : Bool) (iter : CStr),
      preload_contents_pcmcia_loop fs fuel (with_event_action a self) found iter
        = (preload_contents_pcmcia_loop fs fuel self found iter).map
            (with_event_action a) := by
  induction fuel with
  | zero =>
    intro self found iter
    unfold preload_contents_pcmcia_loop
    split_ifs <;> rfl
  | succ n ih =>
    intro self found iter
    unfold preload_contents_pcmcia_loop
    by_cases hroot : iter = "/".toList
    · rw [if_pos hroot, if_pos hroot]
      rfl
    · rw [if_neg hroot, if_neg hroot]
      cases hd : self.driver with
      | none =>
        simp only [with_event_action_driver, hd]
        split_ifs
        · rfl
        · exact ih { self with
            driver := read_sysfs_attribute_link_basename fs (some iter) "driver".toList } _ _
      | some d =>
        simp only [with_event_action_driver, hd]
        split_ifs
        · rfl
        · exact ih self _ _

/-- The loop of `preload_contents_usb` does not read the event action. -/
theorem preload_contents_usb_loop_action (fs : Sysfs) (a : Option CStr) (fuel : Nat) :
    ∀ (self : MMKernelDeviceGeneric) (iter : CStr),
      preload_contents_usb_loop fs fuel (with_event_action a self) iter
        = (preload_contents_usb_loop fs fuel self iter).map (with_event_action a) := by
  induction fuel with
  | zero =>
    intro self iter
    unfold preload_contents_usb_loop
    split_ifs <;> rfl
  | succ n ih =>
    intro self iter
    unfold preload_contents_usb_loop
    by_cases hroot : iter = "/".toList
    · rw [if_pos hroot, if_pos hroot]
      rfl
    · rw [if_neg hroot, if_neg hroot]
      simp only [with_event_action_interface, with_event_action_physdev]
      split_ifs
      · exact ih { self with
            interface_sysfs_path := some iter,
            interface_class :=
              to_guint8 (read_sysfs_attribute_as_hex fs (some iter) "bInterfaceClass".toList),
            interface_subclass :=
              to_guint8 (read_sysfs_attribute_as_hex fs (some iter) "bInterfaceSubClass".toList),
            interface_protocol :=
              to_guint8 (read_sysfs_attribute_as_hex fs (some iter) "bInterfaceProtocol".toList),
            interface_number :=
              to_guint8 (read_sysfs_attribute_as_hex fs (some iter) "bInterfaceNumber".toList),
            interface_description :=
              read_sysfs_attribute_as_string fs (some iter) "interface".toList,
            driver := read_sysfs_attribute_link_basename fs (some iter) "driver".toList } _
      · rfl
      · exact ih self _

/-- The event action does not change the name and the subsystem of the event. -/
theorem with_event_action_name (a : Option CStr) (self : MMKernelDeviceGeneric) :
    mm_kernel_event_properties_get_name (with_event_action a self).properties
      = mm_kernel_event_properties_get_name self.properties
    ∧ mm_kernel_event_properties_get_subsystem (with_event_action a self).properties
      = mm_kernel_event_properties_get_subsystem self.properties
    ∧ kernel_device_get_name (with_event_action a self) = kernel_device_get_name self := by
  unfold with_event_action kernel_device_get_name mm_kernel_event_properties_get_name
    mm_kernel_event_properties_get_subsystem
  cases self.properties <;> exact ⟨rfl, rfl, rfl⟩

/-- Source `preload_sysfs_path` does not read the event action. -/
theorem preload_sysfs_path_action (fs : Sysfs) (a : Option CStr)
    (self : MMKernelDeviceGeneric) :
    preload_sysfs_path fs (with_event_action a self)
      = with_event_action a (preload_sysfs_path fs self) := by
  unfold preload_sysfs_path
  rw [(with_event_action_name a self).1, (with_event_action_name a self).2.1]
  have hp : (with_event_action a self).sysfs_path = self.sysfs_path := rfl
  rw [hp]
  cases self.sysfs_path with
  | some p => rfl
  | none =>
    dsimp only
    cases fs.realpath ("/sys/class/".toList
        ++ printf_s (mm_kernel_event_properties_get_subsystem self.properties)
        ++ "/".toList ++ printf_s (mm_kernel_event_properties_get_name self.properties)) with
    | none => rfl
    | some p =>
      dsimp only
      split_ifs <;> rfl

/-- Source `preload_common_properties` does not read the event action. -/
theorem preload_common_properties_action (a : Option CStr) (self : MMKernelDeviceGeneric) :
    preload_common_properties (with_event_action a self)
      = with_event_action a (preload_common_properties self) := by
  obtain ⟨p, r, d, sp, isp, ic, isc, ip, inum, idesc, psp, pv, pp, pr, ps, pm, ppr, od⟩ := self
  cases isp <;> cases ppr <;> cases pm <;> cases psp <;> rfl

/-- Source `preload_contents` does not read the event action. -/
theorem preload_contents_action (fuel : Nat) (fs : Sysfs) (a : Option CStr)
    (self : MMKernelDeviceGeneric) :
    preload_contents fuel fs (with_event_action a self)
      = (preload_contents fuel fs self).map (with_event_action a) := by
  unfold preload_contents
  have hp : (with_event_action a self).sysfs_path = self.sysfs_path := rfl
  rw [hp]
  cases hsp : self.sysfs_path with
  | some p => rfl
  | none =>
    dsimp only
    rw [preload_sysfs_path_action]
    have hfind : find_device_bus_subsystem fuel fs
        (with_event_action a (preload_sysfs_path fs self))
        = find_device_bus_subsystem fuel fs (preload_sysfs_path fs self) := rfl
    rw [hfind]
    cases find_device_bus_subsystem fuel fs (preload_sysfs_path fs self) with
    | none => rfl
    | some bus_subsys =>
      dsimp only
      have husb : preload_contents_usb fuel fs
          (with_event_action a (preload_sysfs_path fs self))
          = (preload_contents_usb fuel fs (preload_sysfs_path fs self)).map
              (with_event_action a) := by
        unfold preload_contents_usb
        have hq : (with_event_action a (preload_sysfs_path fs self)).sysfs_path
            = (preload_sysfs_path fs self).sysfs_path := rfl
        rw [hq]
        cases (preload_sysfs_path fs self).sysfs_path with
        | none => rfl
        | some q => exact preload_contents_usb_loop_action fs a fuel _ q
      have hpcmcia : preload_contents_pcmcia fuel fs
          (with_event_action a (preload_sysfs_path fs self))
          = (preload_contents_pcmcia fuel fs (preload_sysfs_path fs self)).map
              (with_event_action a) := by
        unfold preload_contents_pcmcia
        have hq : (with_event_action a (preload_sysfs_path fs self)).sysfs_path
            = (preload_sysfs_path fs self).sysfs_path := rfl
        rw [hq]
        cases (preload_sysfs_path fs self).sysfs_path with
        | none => rfl
        | some q => exact preload_contents_pcmcia_loop_action fs a fuel _ false q
      have hpci : preload_contents_pci fuel fs
          (with_event_action a (preload_sysfs_path fs self))
          = (preload_contents_pci fuel fs (preload_sysfs_path fs self)).map
              (with_event_action a) := by
        unfold preload_contents_pci
        have hq : (with_event_action a (preload_sysfs_path fs self)).sysfs_path
            = (preload_sysfs_path fs self).sysfs_path := rfl
        rw [hq]
        cases (preload_sysfs_path fs self).sysfs_path with
        | none => rfl
        | some q => exact preload_contents_pci_loop_action fs a fuel _ q
      have hplatform : ∀ bus, preload_contents_platform fuel fs
          (with_event_action a (preload_sysfs_path fs self)) bus
          = (preload_contents_platform fuel fs (preload_sysfs_path fs self) bus).map
              (with_event_action a) := by
        intro bus
        unfold preload_contents_platform
        have hq : (with_event_action a (preload_sysfs_path fs self)).sysfs_path
            = (preload_sysfs_path fs self).sysfs_path := rfl
        rw [hq]
        cases (preload_sysfs_path fs self).sysfs_path with
        | none => rfl
        | some q => exact preload_contents_platform_loop_action fs bus a fuel _ q
      have hother : preload_contents_other fs (with_event_action a (preload_sysfs_path fs self))
          = with_event_action a (preload_contents_other fs (preload_sysfs_path fs self)) := rfl
      cases bus_subsys with
      | none =>
        dsimp only
        rw [hother]
        rfl
      | some bus =>
        dsimp only
        rw [husb, hpcmcia, hpci, hplatform, hother]
        split_ifs
        · cases preload_contents_usb fuel fs (preload_sysfs_path fs self) with
          | none => rfl
          | some r => simp only [Option.map_some', preload_common_properties_action]
        · cases preload_contents_pcmcia fuel fs (preload_sysfs_path fs self) with
          | none => rfl
          | some r => simp only [Option.map_some', preload_common_properties_action]
        · cases preload_contents_pci fuel fs (preload_sysfs_path fs self) with
          | none => rfl
          | some r => simp only [Option.map_some', preload_common_properties_action]
        · cases preload_contents_platform fuel fs (preload_sysfs_path fs self) bus with
          | none => rfl
          | some r => simp only [Option.map_some', preload_common_properties_action]
        · simp only [Option.map_some', preload_common_properties_action]

/-- A condition evaluates alike whatever the event action of the record is. -/
theorem check_condition_action_free (a : Option CStr) (self : MMKernelDeviceGeneric)
    (m : MMUdevRuleMatch) :
    check_condition (with_event_action a self) m = check_condition self m :=
  check_condition_congr _ _ m
    ⟨rfl, (with_event_action_name a self).2.2, rfl, rfl, rfl, rfl, rfl, rfl, rfl, rfl, rfl, rfl,
      rfl, rfl, rfl, rfl, rfl⟩ (Or.inr rfl)

theorem check_conditions_action_free (a : Option CStr) (self : MMKernelDeviceGeneric) :
    ∀ (conds : List MMUdevRuleMatch),
      check_conditions (with_event_action a self) conds = check_conditions self conds := by
  intro conds
  induction conds with
  | nil => rfl
  | cons m rest ih =>
    simp only [check_conditions]
    rw [check_condition_action_free, ih]

/-- One step of the rule engine does not read the event action. -/
theorem check_rule_action (a : Option CStr) (self : MMKernelDeviceGeneric) (i : Nat) :
    check_rule (with_event_action a self) i
      = Except.map (fun res => (res.1, with_event_action a res.2)) (check_rule self i) := by
  have h1 : (with_event_action a self).interface_class = self.interface_class := rfl
  have h2 : (with_event_action a self).interface_subclass = self.interface_subclass := rfl
  have h3 : (with_event_action a self).interface_protocol = self.interface_protocol := rfl
  have h4 : (with_event_action a self).interface_number = self.interface_number := rfl
  unfold check_rule
  have hr : (with_event_action a self).rules = self.rules := rfl
  rw [hr]
  cases self.rules with
  | none => rfl
  | some rules =>
    dsimp only
    cases rules[i]? with
    | none => rfl
    | some rule =>
      dsimp only
      cases rule.conditions with
      | none =>
        dsimp only
        cases rule.result with
        | PROPERTY name value =>
          dsimp only
          rw [h1, h2, h3, h4]
          split_ifs <;> rfl
        | LABEL => rfl
        | GOTO_INDEX index => rfl
        | GOTO_TAG tag => rfl
        | UNKNOWN => rfl
      | some conditions =>
        dsimp only
        rw [check_conditions_action_free]
        cases check_conditions self conditions with
        | error f => rfl
        | ok b =>
          cases b with
          | false => rfl
          | true =>
            dsimp only
            cases rule.result with
            | PROPERTY name value =>
              dsimp only
              rw [h1, h2, h3, h4]
              split_ifs <;> rfl
            | LABEL => rfl
            | GOTO_INDEX index => rfl
            | GOTO_TAG tag => rfl
            | UNKNOWN => rfl

/-- The loop of the rule engine does not read the event action. -/
theorem preload_rule_properties_loop_action (a : Option CStr) (fuel : Nat) :
    ∀ (self : MMKernelDeviceGeneric) (i : Nat),
      preload_rule_properties_loop fuel (with_event_action a self) i
        = Except.map (Option.map (with_event_action a))
            (preload_rule_properties_loop fuel self i) := by
  induction fuel with
  | zero =>
    intro self i
    cases hr : self.rules with
    | none =>
      rw [preload_rule_properties_loop_null 0 self i hr,
        preload_rule_properties_loop_null 0 _ i (show (with_event_action a self).rules = none
          from hr)]
      rfl
    | some rules =>
      by_cases hi : i < rules.length
      · rw [preload_rule_properties_loop_out_of_fuel self rules i hr hi,
          preload_rule_properties_loop_out_of_fuel _ rules i
            (show (with_event_action a self).rules = some rules from hr) hi]
        rfl
      · rw [preload_rule_properties_loop_done 0 self rules i hr (Nat.not_lt.mp hi),
          preload_rule_properties_loop_done 0 _ rules i
            (show (with_event_action a self).rules = some rules from hr) (Nat.not_lt.mp hi)]
        rfl
  | succ n ih =>
    intro self i
    cases hr : self.rules with
    | none =>
      rw [preload_rule_properties_loop_null _ self i hr,
        preload_rule_properties_loop_null _ _ i (show (with_event_action a self).rules = none
          from hr)]
      rfl
    | some rules =>
      have hr2 : (with_event_action a self).rules = some rules := hr
      by_cases hi : i < rules.length
      · cases hstep : check_rule self i with
        | error f =>
          have hstep2 : check_rule (with_event_action a self) i = .error f := by
            rw [check_rule_action, hstep]
            rfl
          rw [preload_rule_properties_loop_fault n self rules i f hr hi hstep,
            preload_rule_properties_loop_fault n _ rules i f hr2 hi hstep2]
          rfl
        | ok res =>
          obtain ⟨next, self1⟩ := res
          have hstep2 : check_rule (with_event_action a self) i
              = .ok (next, with_event_action a self1) := by
            rw [check_rule_action, hstep]
            rfl
          rw [preload_rule_properties_loop_step n self rules i next self1 hr hi hstep,
            preload_rule_properties_loop_step n _ rules i next _ hr2 hi hstep2]
          exact ih self1 next
      · rw [preload_rule_properties_loop_done _ self rules i hr (Nat.not_lt.mp hi),
          preload_rule_properties_loop_done _ _ rules i hr2 (Nat.not_lt.mp hi)]
        rfl

/-- The rule engine does not read the event action. -/
theorem preload_rule_properties_action (a : Option CStr) (fuel : Nat)
    (self : MMKernelDeviceGeneric) :
    preload_rule_properties fuel (with_event_action a self)
      = Except.map (Option.map (with_event_action a)) (preload_rule_properties fuel self) := by
  unfold preload_rule_properties
  have hr : (with_event_action a self).rules = self.rules := rfl
  rw [hr]
  cases self.rules with
  | none => rfl
  | some rules =>
    dsimp only
    split_ifs
    · exact preload_rule_properties_loop_action a fuel self 0
    · rfl

/-- Source `check_preload` reads the event action in its test for `remove` only: on a
    record whose event action is not `remove`, replacing that action by another one
    that is not `remove` changes nothing but the action that the record carries. -/
theorem check_preload_action (fuel : Nat) (fs : Sysfs) (a : Option CStr)
    (self : MMKernelDeviceGeneric) (ha : a ≠ some "remove".toList)
    (hself : mm_kernel_event_properties_get_action self.properties ≠ some "remove".toList) :
    check_preload fuel fs (with_event_action a self)
      = Except.map (Option.map (with_event_action a)) (check_preload fuel fs self) := by
  unfold check_preload
  have hr : (with_event_action a self).rules = self.rules := rfl
  cases hp : self.properties with
  | none =>
    have hp2 : (with_event_action a self).properties = none := by
      simp only [with_event_action, hp, Option.map_none']
    rw [if_pos (Or.inl hp2), if_pos (Or.inl rfl)]
    rfl
  | some p =>
    have hp2 : (with_event_action a self).properties = some { p with action := a } := by
      simp only [with_event_action, hp, Option.map_some']
    cases hrules : self.rules with
    | none =>
      rw [if_pos (Or.inr (hr.trans hrules)), if_pos (Or.inr rfl)]
      rfl
    | some rules =>
      have hne1 : ¬ ((with_event_action a self).properties = none
          ∨ (with_event_action a self).rules = none) := by
        rw [hp2, hr, hrules]
        rintro (h | h) <;> cases h
      have hne2 : ¬ (some p = none ∨ some rules = (none : Option (List MMUdevRule))) := by
        rintro (h | h) <;> cases h
      rw [if_neg hne1, if_neg hne2]
      have hact1 : g_strcmp0_eq
          (mm_kernel_event_properties_get_action (with_event_action a self).properties)
          (some "remove".toList) = false := by
        rw [hp2]
        exact decide_eq_false ha
      have hact2 : g_strcmp0_eq (mm_kernel_event_properties_get_action (some p))
          (some "remove".toList) = false := by
        rw [hp] at hself
        exact decide_eq_false hself
      rw [hact1, hact2]
      simp only [Bool.false_eq_true, if_false]
      have hsub : mm_kernel_event_properties_get_subsystem
          (with_event_action a self).properties
          = mm_kernel_event_properties_get_subsystem (some p) := by
        rw [(with_event_action_name a self).2.1, hp]
      rw [hsub]
      split_ifs
      · rfl
      · rw [preload_contents_action]
        cases preload_contents fuel fs self with
        | none => rfl
        | some self1 => exact preload_rule_properties_action a fuel self1

/-! ## Claims -/

/-- The next index of `check_rule` once the conditions of the rule are evaluated: for
    every table and every index `i` below its length, `check_rule` returns the
    target index when rule `i` is a GotoIndex rule and every one of its conditions holds
    (an absent or empty condition list counts as holding); it returns `i + 1` for a
    SetProperty or Label rule whose conditions all hold, and for any rule, GotoIndex ones
    included, with a failing condition (the conditions before it holding). -/
theorem check_rule_next_index (self : MMKernelDeviceGeneric) (rules : List MMUdevRule)
    (i : Nat) (rule : MMUdevRule)
    (hrules : self.rules = some rules) (hrule : rules[i]? = some rule) :
    ((∀ c ∈ rule.conditions.getD [], check_condition self c = .ok true) →
        (∀ index, rule.result = .GOTO_INDEX index → check_rule self i = .ok (index, self))
        ∧ (rule.result = .LABEL → check_rule self i = .ok (i + 1, self))
        ∧ (∀ name value, rule.result = .PROPERTY name value →
            ∃ self1, check_rule self i = .ok (i + 1, self1)))
    ∧ (∀ pre c post, rule.conditions = some (pre ++ c :: post) →
        (∀ c1 ∈ pre, check_condition self c1 = .ok true) →
        check_condition self c = .ok false →
        check_rule self i = .ok (i + 1, self)) := by
  refine ⟨fun hall => ⟨?_, ?_, ?_⟩, ?_⟩
  · intro index hres
    simp only [check_rule, hrules, hrule, rule_conditions_all_hold self rule hall, hres]
  · intro hres
    simp only [check_rule, hrules, hrule, rule_conditions_all_hold self rule hall, hres]
  · intro name value hres
    simp only [check_rule, hrules, hrule, rule_conditions_all_hold self rule hall, hres]
    split <;> exact ⟨_, rfl⟩
  · intro pre c post hcs hpre hc
    simp only [check_rule, hrules, hrule, hcs,
      check_conditions_first_fails self pre c post hpre hc]

/-- The next index on the scenario port: with the table `[goto 3, label]` the rule at index 0
    (`DRIVERS=="option"`, jump to 3) sends the port bound to `option` to index 3. -/
theorem check_rule_next_index_witness :
    ({ port_ttyUSB0 with rules := some [rule_goto_3, ⟨none, .LABEL⟩] } :
        MMKernelDeviceGeneric).rules = some [rule_goto_3, ⟨none, .LABEL⟩]
    ∧ [rule_goto_3, ⟨none, .LABEL⟩][0]? = some rule_goto_3
    ∧ check_rule { port_ttyUSB0 with rules := some [rule_goto_3, ⟨none, .LABEL⟩] } 0
        = .ok (3, { port_ttyUSB0 with rules := some [rule_goto_3, ⟨none, .LABEL⟩] }) :=
  ⟨rfl, rfl,
    ((check_rule_next_index { port_ttyUSB0 with rules := some [rule_goto_3, ⟨none, .LABEL⟩] }
        [rule_goto_3, ⟨none, .LABEL⟩] 0 rule_goto_3 rfl rfl).1 (by decide)).1 3 rfl⟩

/-- C1, the code at a failing input: the `add` event of the subsystem `tty` without a
    name reaches the rule engine, because construction checks the name after the
    preload; on the record it makes, the rule `KERNEL=="ttyUSB0"` with a SetProperty
    result hands the `NULL` name to `strcmp`, and `check_rule` at index 0 ends in that
    fault instead of returning index 1. On every record whose conditions can be
    evaluated (a `KERNEL` condition needs a name and a non-empty pattern, a `DEVPATH`
    condition a non-empty pattern) the claim holds: every condition of the rule holds
    or one of them fails; `check_rule` returns the target index for a GotoIndex rule
    whose conditions all hold, and `i + 1` for a SetProperty or Label rule whose
    conditions all hold and for any rule with a failing condition. -/
theorem check_rule_next_index_failing_input :
    kernel_device_get_name
        (mm_kernel_device_generic_init (some event_without_name) (some [rule_kernel_ttyUSB0]))
      = none
    ∧ rule_kernel_ttyUSB0.result = .PROPERTY "ID_MM_PORT_TYPE_AT".toList "1".toList
    ∧ check_rule
        (mm_kernel_device_generic_init (some event_without_name) (some [rule_kernel_ttyUSB0]))
        0 = .error .null_string
    ∧ (∀ fuel, check_preload (fuel + 1) empty_sysfs
        (mm_kernel_device_generic_init (some event_without_name) (some [rule_kernel_ttyUSB0]))
        = .error .null_string)
    ∧ (∀ (self : MMKernelDeviceGeneric) (rules : List MMUdevRule) (i : Nat) (rule : MMUdevRule),
        self.rules = some rules → rules[i]? = some rule →
        (∀ c ∈ rule.conditions.getD [],
          condition_well_formed (kernel_device_get_name self) c) →
        ((∀ c ∈ rule.conditions.getD [], check_condition self c = .ok true)
          ∨ ∃ c ∈ rule.conditions.getD [], check_condition self c = .ok false)
        ∧ ((∀ c ∈ rule.conditions.getD [], check_condition self c = .ok true) →
            (∀ index, rule.result = .GOTO_INDEX index →
              check_rule self i = .ok (index, self))
            ∧ (rule.result = .LABEL → check_rule self i = .ok (i + 1, self))
            ∧ (∀ name value, rule.result = .PROPERTY name value →
                ∃ self1, check_rule self i = .ok (i + 1, self1)))
        ∧ ((∃ c ∈ rule.conditions.getD [], check_condition self c = .ok false) →
            check_rule self i = .ok (i + 1, self))) := by
  refine ⟨rfl, rfl, rfl, fun fuel => rfl, ?_⟩
  intro self rules i rule hrules hrule hwf
  have hret : ∀ c ∈ rule.conditions.getD [], ∃ b, check_condition self c = .ok b :=
    fun c hc => check_condition_of_well_formed self c (hwf c hc)
  refine ⟨?_, (check_rule_next_index self rules i rule hrules hrule).1, ?_⟩
  · by_cases hall : ∀ c ∈ rule.conditions.getD [], check_condition self c = .ok true
    · exact Or.inl hall
    · right
      push_neg at hall
      obtain ⟨c, hc, hne⟩ := hall
      obtain ⟨b, hb⟩ := hret c hc
      cases b with
      | true => exact absurd hb hne
      | false => exact ⟨c, hc, hb⟩
  · rintro ⟨c, hc, hfalse⟩
    cases hcs : rule.conditions with
    | none =>
      rw [hcs] at hc
      cases hc
    | some conds =>
      rw [hcs] at hc hret
      obtain ⟨b, hb⟩ := check_conditions_returns self conds hret
      have hbf : b = false := check_conditions_false_of_mem self c hfalse conds b hc hb
      subst hbf
      simp only [check_rule, hrules, hrule, hcs, hb]

/-- C2: for every SetProperty{name, value} rule whose conditions all hold, `check_rule`
    returns and afterwards `get_property (name)` is the interface class, subclass,
    protocol or number as exactly two lowercase hexadecimal digits when `value` is the
    matching `$attr{...}` reference, and `value` itself otherwise, whatever was stored
    under `name` before. -/
theorem check_rule_set_property (self : MMKernelDeviceGeneric) (rules : List MMUdevRule)
    (i : Nat) (rule : MMUdevRule) (name value : CStr)
    (hrules : self.rules = some rules) (hrule : rules[i]? = some rule)
    (hres : rule.result = .PROPERTY name value)
    (hall : ∀ c ∈ rule.conditions.getD [], check_condition self c = .ok true) :
    ∃ self1, check_rule self i = .ok (i + 1, self1)
      ∧ kernel_device_get_property self1 name = some (property_value_spec self value) := by
  simp only [check_rule, hrules, hrule, rule_conditions_all_hold self rule hall, hres]
  unfold property_value_spec kernel_device_get_property
  split_ifs <;>
    exact ⟨_, rfl, by simp only [get_data_set_data_same, printf_02x_eq_two_digits]⟩

/-- C2, on the scenario port with `old` already stored under `ID_MM_PORT_TYPE_AT`: the
    rule of the scenario replaces it by `1`. -/
theorem check_rule_set_property_witness :
    ∃ self1,
      check_rule { port_ttyUSB0 with
                   rules := some [rule_port_type_at],
                   object_data := [("ID_MM_PORT_TYPE_AT".toList, "old".toList)] } 0
        = .ok (1, self1)
      ∧ kernel_device_get_property self1 "ID_MM_PORT_TYPE_AT".toList = some "1".toList :=
  check_rule_set_property
    { port_ttyUSB0 with
      rules := some [rule_port_type_at],
      object_data := [("ID_MM_PORT_TYPE_AT".toList, "old".toList)] }
    [rule_port_type_at] 0 rule_port_type_at "ID_MM_PORT_TYPE_AT".toList "1".toList
    rfl rfl rfl (by decide)

/-- C3, as stated, fails: on the scenario port (driver `option`, interface number 3,
    `ID_MM_PORT_TYPE_AT` not in the bag) the one-rule table
    `DRIVERS=="option"` / SetProperty (`ID_MM_PORT_TYPE_AT`, `$attr{bInterfaceNumber}`)
    leaves `get_property` at `03`, which is not the rule's value. -/
theorem drivers_rule_attr_value_counterexample :
    kernel_device_get_property port_ttyUSB0 "ID_MM_PORT_TYPE_AT".toList = none
    ∧ port_ttyUSB0.driver = some "option".toList
    ∧ ∃ self1,
        preload_rule_properties 1
            { port_ttyUSB0 with
              rules := some [⟨some [⟨.EQUAL, "DRIVERS".toList, "option".toList⟩],
                              .PROPERTY "ID_MM_PORT_TYPE_AT".toList
                                "$attr{bInterfaceNumber}".toList⟩] }
          = .ok (some self1)
        ∧ kernel_device_get_property self1 "ID_MM_PORT_TYPE_AT".toList = some "03".toList
        ∧ kernel_device_get_property self1 "ID_MM_PORT_TYPE_AT".toList
            ≠ some "$attr{bInterfaceNumber}".toList :=
  ⟨by decide, by decide, _, rfl, by decide, by decide⟩

/-- C3, amended: for every name `n` not in the bag and all strings `d`, `v`, the rule
    engine run over the one-rule table `DRIVERS==d` / SetProperty (`n`, `v`) ends after
    one step; if the resolved driver is present and equal to `d` then `get_property (n)`
    is the value the specification stores for `v` (`v` itself unless `v` is one of the
    four `$attr{bInterface...}` references, for which it is the two-digit rendering of
    the field), and if the driver is absent or another string `n` stays unset. -/
theorem drivers_rule_end_to_end (self : MMKernelDeviceGeneric) (n d v : CStr) (fuel : Nat)
    (hrules : self.rules
        = some [⟨some [⟨.EQUAL, "DRIVERS".toList, d⟩], .PROPERTY n v⟩])
    (hunset : kernel_device_get_property self n = none) :
    (∃ self1, preload_rule_properties (fuel + 1) self = .ok (some self1)
      ∧ (self.driver = some d →
          kernel_device_get_property self1 n = some (property_value_spec self v))
      ∧ (self.driver ≠ some d → kernel_device_get_property self1 n = none))
    ∧ (v ≠ "$attr{bInterfaceClass}".toList → v ≠ "$attr{bInterfaceSubClass}".toList →
        v ≠ "$attr{bInterfaceProtocol}".toList → v ≠ "$attr{bInterfaceNumber}".toList →
        property_value_spec self v = v) := by
  constructor
  · by_cases hd : self.driver = some d
    · have hall : ∀ c ∈ (MMUdevRule.mk (some [⟨.EQUAL, "DRIVERS".toList, d⟩])
          (.PROPERTY n v)).conditions.getD [], check_condition self c = .ok true := by
        intro c hc
        simp only [Option.getD_some, List.mem_singleton] at hc
        subst hc
        rw [(check_condition_driver self .EQUAL d).2]
        simp [hd]
      have h1 := check_rule_property_step self _ 0 _ n v hrules rfl rfl hall
      refine ⟨_, ?_, fun _ => get_data_set_data_same self n _, fun h => absurd hd h⟩
      simp only [preload_rule_properties, hrules, List.length_singleton, Nat.lt_one_iff,
        if_true]
      rw [preload_rule_properties_loop_step fuel self _ 0 _ _ hrules (by simp) h1]
      exact preload_rule_properties_loop_done fuel _ _ 1 hrules (by simp)
    · have hc : check_condition self ⟨.EQUAL, "DRIVERS".toList, d⟩ = .ok false := by
        rw [(check_condition_driver self .EQUAL d).2]
        have : ¬ (some d = self.driver) := fun h => hd h.symm
        simp [this]
      have h1 := check_rule_failing_step self _ 0 _ [] _ [] hrules rfl rfl (by simp) hc
      refine ⟨self, ?_, fun h => absurd h hd, fun _ => hunset⟩
      simp only [preload_rule_properties, hrules, List.length_singleton, Nat.lt_one_iff,
        if_true]
      rw [preload_rule_properties_loop_step fuel self _ 0 _ _ hrules (by simp) h1]
      exact preload_rule_properties_loop_done fuel _ _ 1 hrules (by simp)
  · intro h1 h2 h3 h4
    unfold property_value_spec
    rw [if_neg h1, if_neg h2, if_neg h3, if_neg h4]

/-- C3 amended, on the scenario: the port bound to `option` gets
    `ID_MM_PORT_TYPE_AT = 1`, its sibling bound to `qmi_wwan` does not. -/
theorem drivers_rule_end_to_end_witness :
    (∃ self1, preload_rule_properties 1 { port_ttyUSB0 with rules := some [rule_port_type_at] }
        = .ok (some self1)
      ∧ kernel_device_get_property self1 "ID_MM_PORT_TYPE_AT".toList = some "1".toList)
    ∧ (∃ self1, preload_rule_properties 1 { port_cdc_wdm0 with rules := some [rule_port_type_at] }
        = .ok (some self1)
      ∧ kernel_device_get_property self1 "ID_MM_PORT_TYPE_AT".toList = none) := by
  obtain ⟨⟨a, ha, ha1, _⟩, _⟩ := drivers_rule_end_to_end
    { port_ttyUSB0 with rules := some [rule_port_type_at] }
    "ID_MM_PORT_TYPE_AT".toList "option".toList "1".toList 0 rfl rfl
  obtain ⟨⟨b, hb, _, hb2⟩, _⟩ := drivers_rule_end_to_end
    { port_cdc_wdm0 with rules := some [rule_port_type_at] }
    "ID_MM_PORT_TYPE_AT".toList "option".toList "1".toList 0 rfl rfl
  exact ⟨⟨a, ha, ha1 rfl⟩, ⟨b, hb, hb2 (by decide)⟩⟩

/-- C4: for every string `str` and every non-empty `pattern`, `string_match` returns a
    result, and the result is true exactly when `str` matches the glob of the
    specification (`glob_match_spec`: core after removing one leading and then one
    trailing `*`; prefix, suffix, substring or equality according to which were present;
    any other `*` literal). The pattern `ttyUSB*` matches `ttyUSB0` and `ttyUSB12` but
    not `wwan0`, and `*wwan*` matches `cdc-wwan0`. -/
theorem string_match_glob (str pattern : CStr) (hne : pattern ≠ []) :
    (∃ b, string_match (some str) pattern = .ok b ∧ (b = true ↔ glob_match_spec str pattern))
    ∧ string_match (some "ttyUSB0".toList) "ttyUSB*".toList = .ok true
    ∧ string_match (some "ttyUSB12".toList) "ttyUSB*".toList = .ok true
    ∧ string_match (some "wwan0".toList) "ttyUSB*".toList = .ok false
    ∧ string_match (some "cdc-wwan0".toList) "*wwan*".toList = .ok true := by
  refine ⟨?_, by decide, by decide, by decide, by decide⟩
  cases pattern with
  | nil => exact absurd rfl hne
  | cons c rest =>
    by_cases hc : c = '*'
    · subst hc
      rw [string_match_star]
      refine ⟨_, rfl, ?_⟩
      by_cases hl : rest.getLast? = some '*'
      · simp [glob_match_spec, hl, strstr_iff_contains]
      · cases rest with
        | nil => simp [glob_match_spec]
        | cons d ds =>
          have hlb : ((d :: ds).getLast? == some '*') = false := by simpa using hl
          simp [glob_match_spec, hl, hlb, List.isSuffixOf_iff_suffix]
    · rw [string_match_plain _ _ _ hc]
      refine ⟨_, rfl, ?_⟩
      have hcb : (c == '*') = false := by simpa using hc
      by_cases hl : (c :: rest).getLast? = some '*'
      · simp [glob_match_spec, hcb, hl, List.isPrefixOf_iff_prefix]
      · have hlb : ((c :: rest).getLast? == some '*') = false := by simpa using hl
        simp [glob_match_spec, hcb, hl, hlb]

/-- C4, at the pattern `*x*y` and the string `a*x*y`: the inner `*` is literal. -/
theorem string_match_glob_witness :
    "*x*y".toList ≠ [] ∧
    ((∃ b, string_match (some "a*x*y".toList) "*x*y".toList = .ok b ∧
        (b = true ↔ glob_match_spec "a*x*y".toList "*x*y".toList))
    ∧ string_match (some "ttyUSB0".toList) "ttyUSB*".toList = .ok true
    ∧ string_match (some "ttyUSB12".toList) "ttyUSB*".toList = .ok true
    ∧ string_match (some "wwan0".toList) "ttyUSB*".toList = .ok false
    ∧ string_match (some "cdc-wwan0".toList) "*wwan*".toList = .ok true) :=
  ⟨by decide, string_match_glob "a*x*y".toList "*x*y".toList (by decide)⟩

/-- C5: for every record and every rule value that parses as hexadecimal to `v`, an
    EQUAL condition on `ATTRS{idVendor}` or `ATTRS{vendor}` holds iff the resolved
    physical-device vendor is `v`, on `ATTRS{idProduct}` or `ATTRS{device}` iff the
    resolved product is `v`, and on `ATTRS{bInterfaceClass}`, `{bInterfaceSubClass}`,
    `{bInterfaceProtocol}`, `{bInterfaceNumber}` iff that interface field is `v`. -/
theorem attrs_numeric_equal (self : MMKernelDeviceGeneric) (value : CStr) (v : Nat)
    (hparse : mm_get_uint_from_hex_str value = some v) :
    check_condition self ⟨.EQUAL, "ATTRS{idVendor}".toList, value⟩
      = .ok (decide (self.physdev_vid.val = v))
    ∧ check_condition self ⟨.EQUAL, "ATTRS{vendor}".toList, value⟩
      = .ok (decide (self.physdev_vid.val = v))
    ∧ check_condition self ⟨.EQUAL, "ATTRS{idProduct}".toList, value⟩
      = .ok (decide (self.physdev_pid.val = v))
    ∧ check_condition self ⟨.EQUAL, "ATTRS{device}".toList, value⟩
      = .ok (decide (self.physdev_pid.val = v))
    ∧ check_condition self ⟨.EQUAL, "ATTRS{bInterfaceClass}".toList, value⟩
      = .ok (decide (self.interface_class.val = v))
    ∧ check_condition self ⟨.EQUAL, "ATTRS{bInterfaceSubClass}".toList, value⟩
      = .ok (decide (self.interface_subclass.val = v))
    ∧ check_condition self ⟨.EQUAL, "ATTRS{bInterfaceProtocol}".toList, value⟩
      = .ok (decide (self.interface_protocol.val = v))
    ∧ check_condition self ⟨.EQUAL, "ATTRS{bInterfaceNumber}".toList, value⟩
      = .ok (decide (self.interface_number.val = v)) := by
  have hw : g_str_equal value "?*".toList = false := by
    unfold g_str_equal
    rw [decide_eq_false_iff_not]
    intro h
    rw [h, hex_str_wildcard] at hparse
    cases hparse
  obtain ⟨a1, a2⟩ := check_condition_attrs_vendor self .EQUAL value
  obtain ⟨b1, b2⟩ := check_condition_attrs_product self .EQUAL value
  obtain ⟨c1, c2, c3, c4⟩ := check_condition_attrs_interface self .EQUAL value
  rw [a1, a2, b1, b2, c1, c2, c3, c4, hparse, hw]
  simp

/-- C5, at the value `ff` on the port whose resolved interface class is `0xff`. -/
theorem attrs_numeric_equal_witness :
    mm_get_uint_from_hex_str "ff".toList = some 255
    ∧ check_condition port_cdc_wdm0 ⟨.EQUAL, "ATTRS{bInterfaceClass}".toList, "ff".toList⟩
        = .ok true
    ∧ check_condition port_cdc_wdm0 ⟨.EQUAL, "ATTRS{idVendor}".toList, "ff".toList⟩
        = .ok false :=
  ⟨by decide,
   (attrs_numeric_equal port_cdc_wdm0 "ff".toList 255 (by decide)).2.2.2.2.1,
   (attrs_numeric_equal port_cdc_wdm0 "ff".toList 255 (by decide)).1⟩

/-- C6: on each of `ATTRS{bInterfaceClass}`, `ATTRS{bInterfaceSubClass}`,
    `ATTRS{bInterfaceProtocol}` and `ATTRS{bInterfaceNumber}` a condition whose value is
    exactly `?*` holds on every record, whatever the interface fields are and whether or
    not an interface was resolved, for the comparison type EQUAL and for NOT_EQUAL. -/
theorem attrs_interface_wildcard (self : MMKernelDeviceGeneric) (t : MMUdevRuleMatchType) :
    check_condition self ⟨t, "ATTRS{bInterfaceClass}".toList, "?*".toList⟩ = .ok true
    ∧ check_condition self ⟨t, "ATTRS{bInterfaceSubClass}".toList, "?*".toList⟩ = .ok true
    ∧ check_condition self ⟨t, "ATTRS{bInterfaceProtocol}".toList, "?*".toList⟩ = .ok true
    ∧ check_condition self ⟨t, "ATTRS{bInterfaceNumber}".toList, "?*".toList⟩ = .ok true :=
  ⟨rfl, rfl, rfl, rfl⟩

/-- C7: an ENV condition reads the live property bag. For every parameter that begins
    with `ENV`, the condition with EQUAL returns a result, which is true iff the bag
    stores, under the name the parameter denotes (braces blanked, blanks stripped), a
    string equal to the rule's value; `ENV{name}` denotes `name` for every name without
    braces that neither begins nor ends with whitespace; and right after a rule
    SetProperty{name, v} with a literal `v` has been applied, `ENV{...}==v` for that
    name holds on the record the rule leaves. -/
theorem env_condition_live_bag (self : MMKernelDeviceGeneric) (rest value : CStr) :
    (∃ b, check_condition self ⟨.EQUAL, "ENV".toList ++ rest, value⟩ = .ok b
      ∧ (b = true ↔
          kernel_device_get_property self (g_strstrip (g_strdelimit rest "{}".toList ' '))
            = some value))
    ∧ (∀ name : CStr, '{' ∉ name → '}' ∉ name →
        (∀ c, name.head? = some c → g_ascii_isspace c = false) →
        (∀ c, name.getLast? = some c → g_ascii_isspace c = false) →
        g_strstrip (g_strdelimit ("\x7b".toList ++ name ++ "\x7d".toList) "{}".toList ' ') = name)
    ∧ (∀ (rules : List MMUdevRule) (i : Nat) (rule : MMUdevRule),
        self.rules = some rules → rules[i]? = some rule →
        rule.result
          = .PROPERTY (g_strstrip (g_strdelimit rest "{}".toList ' ')) value →
        value ≠ "$attr{bInterfaceClass}".toList →
        value ≠ "$attr{bInterfaceSubClass}".toList →
        value ≠ "$attr{bInterfaceProtocol}".toList →
        value ≠ "$attr{bInterfaceNumber}".toList →
        (∀ c ∈ rule.conditions.getD [], check_condition self c = .ok true) →
        ∃ self1, check_rule self i = .ok (i + 1, self1)
          ∧ check_condition self1 ⟨.EQUAL, "ENV".toList ++ rest, value⟩ = .ok true) := by
  refine ⟨⟨_, check_condition_env self .EQUAL rest value, ?_⟩, braced_name_extracted, ?_⟩
  · simp [g_strcmp0_eq, kernel_device_get_property]
  · intro rules i rule hrules hrule hres h1 h2 h3 h4 hall
    refine ⟨_, check_rule_property_step self rules i rule _ value hrules hrule hres hall, ?_⟩
    have hlit : property_value_spec self value = value := by
      unfold property_value_spec
      rw [if_neg h1, if_neg h2, if_neg h3, if_neg h4]
    have henv := check_condition_env
      (g_object_set_data self (g_strstrip (g_strdelimit rest "{}".toList ' '))
        (property_value_spec self value)) .EQUAL rest value
    rw [show "ENV".toList ++ rest = 'E' :: 'N' :: 'V' :: rest from rfl, henv,
      get_data_set_data_same, hlit]
    simp [g_strcmp0_eq]

/-- C7, on the scenario port: after the rule of the scenario has been applied,
    `ENV{ID_MM_PORT_TYPE_AT}=="1"` holds on the record it leaves, while it did not hold
    before. -/
theorem env_condition_live_bag_witness :
    check_condition { port_ttyUSB0 with rules := some [rule_port_type_at] }
        ⟨.EQUAL, "ENV{ID_MM_PORT_TYPE_AT}".toList, "1".toList⟩ = .ok false
    ∧ ∃ self1, check_rule { port_ttyUSB0 with rules := some [rule_port_type_at] } 0
          = .ok (1, self1)
        ∧ check_condition self1
            ⟨.EQUAL, "ENV{ID_MM_PORT_TYPE_AT}".toList, "1".toList⟩ = .ok true :=
  ⟨by decide,
    (env_condition_live_bag { port_ttyUSB0 with rules := some [rule_port_type_at] }
        "{ID_MM_PORT_TYPE_AT}".toList "1".toList).2.2
      [rule_port_type_at] 0 rule_port_type_at rfl rfl (by decide)
      (by decide) (by decide) (by decide) (by decide) (by decide)⟩

/-- C8: a SUBSYSTEM or SUBSYSTEMS condition with EQUAL returns a result, which is true
    iff the record's own sysfs path is present and contains the rule's value as a
    contiguous run of characters; any record with the same sysfs path gives the same
    result, whatever its bus, driver, interface and physical-device members are. -/
theorem subsystem_condition_equal (self : MMKernelDeviceGeneric) (value : CStr) :
    (∃ b, check_condition self ⟨.EQUAL, "SUBSYSTEM".toList, value⟩ = .ok b
      ∧ (b = true ↔
          ∃ p before after, self.sysfs_path = some p ∧ p = before ++ value ++ after))
    ∧ (∃ b, check_condition self ⟨.EQUAL, "SUBSYSTEMS".toList, value⟩ = .ok b
      ∧ (b = true ↔
          ∃ p before after, self.sysfs_path = some p ∧ p = before ++ value ++ after))
    ∧ (∀ other : MMKernelDeviceGeneric, other.sysfs_path = self.sysfs_path →
        check_condition other ⟨.EQUAL, "SUBSYSTEM".toList, value⟩
          = check_condition self ⟨.EQUAL, "SUBSYSTEM".toList, value⟩
        ∧ check_condition other ⟨.EQUAL, "SUBSYSTEMS".toList, value⟩
          = check_condition self ⟨.EQUAL, "SUBSYSTEMS".toList, value⟩) := by
  have key : ((match self.sysfs_path with
               | none => false
               | some p => strstr p value) == decide (MMUdevRuleMatchType.EQUAL = .EQUAL))
        = true ↔
      ∃ p before after, self.sysfs_path = some p ∧ p = before ++ value ++ after := by
    cases hp : self.sysfs_path with
    | none => simp
    | some p =>
      simp only [decide_True, beq_true, strstr_iff_contains, List.IsInfix, Option.some.injEq]
      constructor
      · rintro ⟨s, u, h⟩
        exact ⟨p, s, u, rfl, h.symm⟩
      · rintro ⟨q, s, u, hq, h⟩
        exact ⟨s, u, by rw [hq, h]⟩
  refine ⟨⟨_, (check_condition_subsystem self .EQUAL value).1, key⟩,
    ⟨_, (check_condition_subsystem self .EQUAL value).2, key⟩, ?_⟩
  intro other ho
  rw [(check_condition_subsystem self .EQUAL value).1,
    (check_condition_subsystem self .EQUAL value).2,
    (check_condition_subsystem other .EQUAL value).1,
    (check_condition_subsystem other .EQUAL value).2, ho]
  exact ⟨rfl, rfl⟩

/-- C9: on a record whose sysfs path `p` is present, a DEVPATH condition with EQUAL and a
    non-empty value `v` returns a result, which is true iff one of these `string_match`
    calls succeeds: `p` against `v`; `p` against `v/*` (tried only when `v` does not end
    in `*`); and, when `p` starts with `/sys`, the same two against `p` without its first
    four characters. For a `v` without any `*` the condition holds exactly for the paths
    that, with or without the leading `/sys`, equal `v` or start with `v/`. -/
theorem devpath_condition_equal (self : MMKernelDeviceGeneric) (p v : CStr)
    (hp : self.sysfs_path = some p) (hv : v ≠ []) :
    (∃ b, check_condition self ⟨.EQUAL, "DEVPATH".toList, v⟩ = .ok b
      ∧ (b = true ↔
          string_match (some p) v = .ok true
          ∨ (v.getLast? ≠ some '*'
              ∧ string_match (some p) (v ++ "/*".toList) = .ok true)
          ∨ ("/sys".toList <+: p
              ∧ (string_match (some (p.drop 4)) v = .ok true
                  ∨ (v.getLast? ≠ some '*'
                      ∧ string_match (some (p.drop 4)) (v ++ "/*".toList) = .ok true)))))
    ∧ ('*' ∉ v →
        (check_condition self ⟨.EQUAL, "DEVPATH".toList, v⟩ = .ok true ↔
          p = v ∨ v ++ "/".toList <+: p
          ∨ ∃ q, p = "/sys".toList ++ q ∧ (q = v ∨ v ++ "/".toList <+: q))) := by
  have hv2 : v ++ "/*".toList ≠ [] := by simp
  constructor
  · obtain ⟨b1, h1⟩ := string_match_total p v hv
    obtain ⟨b2, h2⟩ := string_match_total p (v ++ "/*".toList) hv2
    obtain ⟨b3, h3⟩ := string_match_total (p.drop 4) v hv
    obtain ⟨b4, h4⟩ := string_match_total (p.drop 4) (v ++ "/*".toList) hv2
    refine ⟨_, check_condition_devpath self .EQUAL p v b1 b2 b3 b4 hp hv h1 h2 h3 h4, ?_⟩
    rw [h1, h2, h3, h4]
    simp only [decide_True, beq_true, Bool.or_eq_true, Bool.and_eq_true,
      decide_eq_true_eq, List.isPrefixOf_iff_prefix, Except.ok.injEq, or_assoc]
  · intro hstar
    have h1 := string_match_literal p v hv hstar
    have h2 := string_match_implicit_prefix p v hv hstar
    have h3 := string_match_literal (p.drop 4) v hv hstar
    have h4 := string_match_implicit_prefix (p.drop 4) v hv hstar
    have hl : v.getLast? ≠ some '*' := fun h => hstar (List.mem_of_getLast?_eq_some h)
    rw [check_condition_devpath self .EQUAL p v _ _ _ _ hp hv h1 h2 h3 h4]
    simp only [decide_True, beq_true, Bool.or_eq_true, Bool.and_eq_true,
      decide_eq_true_eq, List.isPrefixOf_iff_prefix, Except.ok.injEq, or_assoc, hl,
      not_false_eq_true, true_and]
    constructor
    · rintro (h | h | ⟨hs, h | h⟩)
      · exact Or.inl h
      · exact Or.inr (Or.inl h.2)
      · exact Or.inr (Or.inr ⟨p.drop 4, (List.prefix_iff_eq_append.mp hs).symm, Or.inl h⟩)
      · exact Or.inr (Or.inr ⟨p.drop 4, (List.prefix_iff_eq_append.mp hs).symm, Or.inr h.2⟩)
    · rintro (h | h | ⟨q, hq, h | h⟩)
      · exact Or.inl h
      · exact Or.inr (Or.inl ⟨hl, h⟩)
      · have hdrop : List.drop 4 p = q := by rw [hq]; rfl
        exact Or.inr (Or.inr ⟨⟨q, hq.symm⟩, Or.inl (hdrop.trans h)⟩)
      · have hdrop : List.drop 4 p = q := by rw [hq]; rfl
        exact Or.inr (Or.inr ⟨⟨q, hq.symm⟩, Or.inr ⟨hl, hdrop ▸ h⟩⟩)

/-- C9, on the scenario port and the path of its USB device written without `/sys`:
    the port lies below the device, so the condition holds. -/
theorem devpath_condition_equal_witness :
    port_ttyUSB0.sysfs_path
        = some "/sys/devices/pci0000:00/usb1/1-1/1-1:1.3/ttyUSB0/tty/ttyUSB0".toList
    ∧ "/devices/pci0000:00/usb1/1-1".toList ≠ []
    ∧ '*' ∉ "/devices/pci0000:00/usb1/1-1".toList
    ∧ check_condition port_ttyUSB0
        ⟨.EQUAL, "DEVPATH".toList, "/devices/pci0000:00/usb1/1-1".toList⟩ = .ok true :=
  ⟨rfl, by decide, by decide,
    ((devpath_condition_equal port_ttyUSB0
        "/sys/devices/pci0000:00/usb1/1-1/1-1:1.3/ttyUSB0/tty/ttyUSB0".toList
        "/devices/pci0000:00/usb1/1-1".toList rfl (by decide)).2 (by decide)).mpr
      (Or.inr (Or.inr ⟨"/devices/pci0000:00/usb1/1-1/1-1:1.3/ttyUSB0/tty/ttyUSB0".toList,
        by decide, Or.inr (by decide)⟩))⟩

/-- C10, the code at a failing input: on the scenario port the path of the port's USB
    device matches through the implicit `/*` variant, so `DEVPATH==` holds, and yet
    `DEVPATH!=` with the same value holds too, because the first variant alone (the
    path against the value itself) does not match. -/
theorem devpath_not_equal_failing_input :
    string_match port_ttyUSB0.sysfs_path "/sys/devices/pci0000:00/usb1/1-1".toList
      = .ok false
    ∧ string_match port_ttyUSB0.sysfs_path "/sys/devices/pci0000:00/usb1/1-1/*".toList
      = .ok true
    ∧ check_condition port_ttyUSB0
        ⟨.EQUAL, "DEVPATH".toList, "/sys/devices/pci0000:00/usb1/1-1".toList⟩ = .ok true
    ∧ check_condition port_ttyUSB0
        ⟨.NOT_EQUAL, "DEVPATH".toList, "/sys/devices/pci0000:00/usb1/1-1".toList⟩
        = .ok true := by
  decide

/-- C11, as stated, fails: the values `a`, `ad` and `dd` are substrings of `add` and the
    ACTION condition with EQUAL does not hold for them, while `add|change`, which is not
    a substring of `add`, makes it hold. -/
theorem action_condition_counterexample :
    ("a".toList <:+: "add".toList
      ∧ check_condition port_ttyUSB0 ⟨.EQUAL, "ACTION".toList, "a".toList⟩ = .ok false)
    ∧ ("ad".toList <:+: "add".toList
      ∧ check_condition port_ttyUSB0 ⟨.EQUAL, "ACTION".toList, "ad".toList⟩ = .ok false)
    ∧ ("dd".toList <:+: "add".toList
      ∧ check_condition port_ttyUSB0 ⟨.EQUAL, "ACTION".toList, "dd".toList⟩ = .ok false)
    ∧ (¬ "add|change".toList <:+: "add".toList
      ∧ check_condition port_ttyUSB0 ⟨.EQUAL, "ACTION".toList, "add|change".toList⟩
          = .ok true) := by
  refine ⟨⟨⟨[], "dd".toList, rfl⟩, by decide⟩, ⟨⟨[], "d".toList, rfl⟩, by decide⟩,
    ⟨⟨"a".toList, [], rfl⟩, by decide⟩, ⟨?_, by decide⟩⟩
  intro h
  have := h.length_le
  simp at this

/-- C11, amended: an ACTION condition with EQUAL returns a result on every record, which
    is true iff the literal string `add` is a substring of the rule's value; so the
    values `add` and `add|change` hold and `a`, `ad`, `dd` and `remove` do not. -/
theorem action_condition_equal (self : MMKernelDeviceGeneric) (value : CStr) :
    (∃ b, check_condition self ⟨.EQUAL, "ACTION".toList, value⟩ = .ok b
      ∧ (b = true ↔ ∃ before after, value = before ++ "add".toList ++ after))
    ∧ check_condition self ⟨.EQUAL, "ACTION".toList, "add".toList⟩ = .ok true
    ∧ check_condition self ⟨.EQUAL, "ACTION".toList, "add|change".toList⟩ = .ok true
    ∧ check_condition self ⟨.EQUAL, "ACTION".toList, "a".toList⟩ = .ok false
    ∧ check_condition self ⟨.EQUAL, "ACTION".toList, "ad".toList⟩ = .ok false
    ∧ check_condition self ⟨.EQUAL, "ACTION".toList, "dd".toList⟩ = .ok false
    ∧ check_condition self ⟨.EQUAL, "ACTION".toList, "remove".toList⟩ = .ok false := by
  refine ⟨⟨_, check_condition_action self .EQUAL value, ?_⟩, rfl, rfl, rfl, rfl, rfl, rfl⟩
  simp only [decide_True, beq_true, strstr_iff_contains, List.IsInfix]
  constructor
  · rintro ⟨s, u, h⟩
    exact ⟨s, u, h.symm⟩
  · rintro ⟨s, u, h⟩
    exact ⟨s, u, h.symm⟩

/-- C12, as stated, fails: on the scenario port delivered by an event with action
    `change`, and on the one delivered without any action, the condition
    `ACTION=="add"` holds. -/
theorem action_event_counterexample :
    mm_kernel_event_properties_get_action port_ttyUSB0_change.properties
      = some "change".toList
    ∧ check_condition port_ttyUSB0_change ⟨.EQUAL, "ACTION".toList, "add".toList⟩ = .ok true
    ∧ mm_kernel_event_properties_get_action port_ttyUSB0_no_action.properties = none
    ∧ check_condition port_ttyUSB0_no_action ⟨.EQUAL, "ACTION".toList, "add".toList⟩
        = .ok true := by
  decide

/-- C12, amended: ACTION conditions do not look at the originating event. The condition
    `ACTION=="add"` holds on every record, whatever its event action is, hence also when
    it is `add`; two records give every ACTION condition the same result. Of the event
    action, `check_preload` tests only whether it is `remove`: a record whose event
    action is `remove` is returned as it is before any rule is checked, and on a record
    with any other event action, or none, replacing the action by another one that is
    not `remove` changes nothing in what `check_preload` does and returns but the
    action that the record carries. -/
theorem action_condition_ignores_event (self : MMKernelDeviceGeneric) :
    check_condition self ⟨.EQUAL, "ACTION".toList, "add".toList⟩ = .ok true
    ∧ (∀ (other : MMKernelDeviceGeneric) (t : MMUdevRuleMatchType) (value : CStr),
        check_condition other ⟨t, "ACTION".toList, value⟩
          = check_condition self ⟨t, "ACTION".toList, value⟩)
    ∧ (mm_kernel_event_properties_get_action self.properties = some "remove".toList →
        ∀ (fuel : Nat) (fs : Sysfs), check_preload fuel fs self = .ok (some self))
    ∧ (mm_kernel_event_properties_get_action self.properties ≠ some "remove".toList →
        ∀ (a : Option CStr), a ≠ some "remove".toList →
        ∀ (fuel : Nat) (fs : Sysfs),
          check_preload fuel fs (with_event_action a self)
            = Except.map (Option.map (with_event_action a)) (check_preload fuel fs self)) := by
  refine ⟨rfl, fun other t value => rfl, ?_, ?_⟩
  · intro hrem fuel fs
    unfold check_preload
    by_cases h : self.properties = none ∨ self.rules = none
    · rw [if_pos h]
    · rw [if_neg h, hrem, if_pos (by simp [g_strcmp0_eq])]
  · intro hself a ha fuel fs
    exact check_preload_action fuel fs a self ha hself

/-- C12 amended, on the scenario port: delivered by a `remove` event, no rule is
    checked, whatever the table is; delivered by an `add` event with the rule
    `ACTION=="add"`, the rule is applied, and it is applied all the same when the event
    is a `change` event. -/
theorem action_condition_ignores_event_witness :
    mm_kernel_event_properties_get_action port_ttyUSB0_remove.properties
      = some "remove".toList
    ∧ check_condition port_ttyUSB0_remove ⟨.EQUAL, "ACTION".toList, "add".toList⟩ = .ok true
    ∧ check_preload 0 empty_sysfs port_ttyUSB0_remove = .ok (some port_ttyUSB0_remove)
    ∧ with_event_action (some "change".toList)
          { port_ttyUSB0 with rules := some [rule_action_add] }
        = { port_ttyUSB0_change with rules := some [rule_action_add] }
    ∧ check_preload 1 empty_sysfs { port_ttyUSB0 with rules := some [rule_action_add] }
        = .ok (some (g_object_set_data { port_ttyUSB0 with rules := some [rule_action_add] }
            "ID_MM_CANDIDATE".toList "1".toList))
    ∧ check_preload 1 empty_sysfs
          (with_event_action (some "change".toList)
            { port_ttyUSB0 with rules := some [rule_action_add] })
        = Except.map (Option.map (with_event_action (some "change".toList)))
            (check_preload 1 empty_sysfs
              { port_ttyUSB0 with rules := some [rule_action_add] }) :=
  ⟨rfl, (action_condition_ignores_event port_ttyUSB0_remove).1,
   (action_condition_ignores_event port_ttyUSB0_remove).2.2.1 rfl 0 empty_sysfs,
   rfl, by rfl,
   (action_condition_ignores_event { port_ttyUSB0 with rules := some [rule_action_add] }).2.2.2
     (by decide) (some "change".toList) (by decide) 1 empty_sysfs⟩

/-- The comparison type flips the result. On every record and for every value, the
    EQUAL and the NOT_EQUAL form of an ACTION, SUBSYSTEM, SUBSYSTEMS, DRIVER, DRIVERS,
    ATTRS{manufacturer}, ATTRS{product} or ENV condition both return, with opposite
    results; so do the numeric ATTRS conditions when the value parses as hexadecimal. A
    KERNEL condition evaluates, for NOT_EQUAL, to the negated result of its EQUAL form,
    and both forms return whenever the record has a name and the value is not empty. -/
theorem comparison_type_flips (self : MMKernelDeviceGeneric) (value : CStr) :
    (∀ parameter ∈ ["ACTION".toList, "SUBSYSTEM".toList, "SUBSYSTEMS".toList,
          "DRIVER".toList, "DRIVERS".toList, "ATTRS{manufacturer}".toList,
          "ATTRS{product}".toList],
        ∃ b, check_condition self ⟨.EQUAL, parameter, value⟩ = .ok b
          ∧ check_condition self ⟨.NOT_EQUAL, parameter, value⟩ = .ok (!b))
    ∧ (∀ rest : CStr,
        ∃ b, check_condition self ⟨.EQUAL, "ENV".toList ++ rest, value⟩ = .ok b
          ∧ check_condition self ⟨.NOT_EQUAL, "ENV".toList ++ rest, value⟩ = .ok (!b))
    ∧ check_condition self ⟨.NOT_EQUAL, "KERNEL".toList, value⟩
        = Except.map (fun b => !b) (check_condition self ⟨.EQUAL, "KERNEL".toList, value⟩)
    ∧ (∀ name : CStr, kernel_device_get_name self = some name → value ≠ [] →
        ∃ b, check_condition self ⟨.EQUAL, "KERNEL".toList, value⟩ = .ok b
          ∧ check_condition self ⟨.NOT_EQUAL, "KERNEL".toList, value⟩ = .ok (!b))
    ∧ (∀ v : Nat, mm_get_uint_from_hex_str value = some v →
        ∀ parameter ∈ ["ATTRS{idVendor}".toList, "ATTRS{vendor}".toList,
          "ATTRS{idProduct}".toList, "ATTRS{device}".toList,
          "ATTRS{bInterfaceClass}".toList, "ATTRS{bInterfaceSubClass}".toList,
          "ATTRS{bInterfaceProtocol}".toList, "ATTRS{bInterfaceNumber}".toList],
        ∃ b, check_condition self ⟨.EQUAL, parameter, value⟩ = .ok b
          ∧ check_condition self ⟨.NOT_EQUAL, parameter, value⟩ = .ok (!b)) := by
  refine ⟨?_, ?_, ?_, ?_, ?_⟩
  · intro parameter hp
    simp only [List.mem_cons, List.mem_singleton, List.not_mem_nil, or_false] at hp
    rcases hp with h | h | h | h | h | h | h <;> subst h
    · exact flips_of_compare (fun t => check_condition self ⟨t, _, value⟩) _
        (fun t => check_condition_action self t value)
    · exact flips_of_compare (fun t => check_condition self ⟨t, _, value⟩) _
        (fun t => (check_condition_subsystem self t value).1)
    · exact flips_of_compare (fun t => check_condition self ⟨t, _, value⟩) _
        (fun t => (check_condition_subsystem self t value).2)
    · exact flips_of_compare (fun t => check_condition self ⟨t, _, value⟩) _
        (fun t => (check_condition_driver self t value).1)
    · exact flips_of_compare (fun t => check_condition self ⟨t, _, value⟩) _
        (fun t => (check_condition_driver self t value).2)
    · exact flips_of_compare (fun t => check_condition self ⟨t, _, value⟩) _
        (fun t => (check_condition_attrs_strings self t value).1)
    · exact flips_of_compare (fun t => check_condition self ⟨t, _, value⟩) _
        (fun t => (check_condition_attrs_strings self t value).2)
  · intro rest
    exact flips_of_compare (fun t => check_condition self ⟨t, "ENV".toList ++ rest, value⟩) _
      (fun t => check_condition_env self t rest value)
  · rw [check_condition_kernel, check_condition_kernel]
    cases string_match (kernel_device_get_name self) value with
    | error f => rfl
    | ok r => cases r <;> rfl
  · intro name hname hv
    obtain ⟨r, hr⟩ := string_match_total name value hv
    rw [check_condition_kernel, check_condition_kernel, hname, hr]
    exact ⟨_, rfl, by cases r <;> rfl⟩
  · intro v hparse parameter hp
    have hw : g_str_equal value "?*".toList = false := by
      unfold g_str_equal
      rw [decide_eq_false_iff_not]
      intro h
      rw [h, hex_str_wildcard] at hparse
      cases hparse
    simp only [List.mem_cons, List.mem_singleton, List.not_mem_nil, or_false] at hp
    rcases hp with h | h | h | h | h | h | h | h <;> subst h
    · refine flips_of_compare (fun t => check_condition self ⟨t, _, value⟩)
        (decide (self.physdev_vid.val = v)) (fun t => ?_)
      dsimp only
      rw [(check_condition_attrs_vendor self t value).1, hparse]
    · refine flips_of_compare (fun t => check_condition self ⟨t, _, value⟩)
        (decide (self.physdev_vid.val = v)) (fun t => ?_)
      dsimp only
      rw [(check_condition_attrs_vendor self t value).2, hparse]
    · refine flips_of_compare (fun t => check_condition self ⟨t, _, value⟩)
        (decide (self.physdev_pid.val = v)) (fun t => ?_)
      dsimp only
      rw [(check_condition_attrs_product self t value).1, hparse]
    · refine flips_of_compare (fun t => check_condition self ⟨t, _, value⟩)
        (decide (self.physdev_pid.val = v)) (fun t => ?_)
      dsimp only
      rw [(check_condition_attrs_product self t value).2, hparse]
    · refine flips_of_compare (fun t => check_condition self ⟨t, _, value⟩)
        (decide (self.interface_class.val = v)) (fun t => ?_)
      dsimp only
      rw [(check_condition_attrs_interface self t value).1, hparse, hw, Bool.false_or]
    · refine flips_of_compare (fun t => check_condition self ⟨t, _, value⟩)
        (decide (self.interface_subclass.val = v)) (fun t => ?_)
      dsimp only
      rw [(check_condition_attrs_interface self t value).2.1, hparse, hw, Bool.false_or]
    · refine flips_of_compare (fun t => check_condition self ⟨t, _, value⟩)
        (decide (self.interface_protocol.val = v)) (fun t => ?_)
      dsimp only
      rw [(check_condition_attrs_interface self t value).2.2.1, hparse, hw, Bool.false_or]
    · refine flips_of_compare (fun t => check_condition self ⟨t, _, value⟩)
        (decide (self.interface_number.val = v)) (fun t => ?_)
      dsimp only
      rw [(check_condition_attrs_interface self t value).2.2.2, hparse, hw, Bool.false_or]

/-- On the scenario port and the value `1199`, `KERNEL` and `ATTRS{idVendor}` give
    opposite results for the two comparison types. -/
theorem comparison_type_flips_witness :
    (∃ b, check_condition port_ttyUSB0 ⟨.EQUAL, "KERNEL".toList, "1199".toList⟩ = .ok b
      ∧ check_condition port_ttyUSB0 ⟨.NOT_EQUAL, "KERNEL".toList, "1199".toList⟩ = .ok (!b))
    ∧ (∃ b, check_condition port_ttyUSB0 ⟨.EQUAL, "ATTRS{idVendor}".toList, "1199".toList⟩
          = .ok b
      ∧ check_condition port_ttyUSB0 ⟨.NOT_EQUAL, "ATTRS{idVendor}".toList, "1199".toList⟩
          = .ok (!b)) :=
  ⟨(comparison_type_flips port_ttyUSB0 "1199".toList).2.2.2.1 "ttyUSB0".toList rfl
      (by decide),
   (comparison_type_flips port_ttyUSB0 "1199".toList).2.2.2.2 0x1199 (by decide)
      "ATTRS{idVendor}".toList (by decide)⟩

/-- C13, the code at a failing input: on the record that construction makes for the
    `add` event of the subsystem `tty` without a name, which reaches the rule engine
    because the name is checked after the preload, `KERNEL=="ttyUSB0"` and
    `KERNEL!="ttyUSB0"` both hand the `NULL` name to `strcmp`: neither form returns a
    result, so the one does not hold exactly when the other does not. On every record
    and for every value the two forms of an ACTION, SUBSYSTEM, SUBSYSTEMS, DRIVER,
    DRIVERS, ATTRS{manufacturer}, ATTRS{product} or ENV condition return opposite
    results, as do those of the numeric ATTRS conditions when the value parses as
    hexadecimal, and those of a KERNEL condition when the record has a name and the
    value is not empty. -/
theorem comparison_type_flips_failing_input :
    kernel_device_get_name
        (mm_kernel_device_generic_init (some event_without_name) (some [rule_kernel_ttyUSB0]))
      = none
    ∧ check_condition
        (mm_kernel_device_generic_init (some event_without_name) (some [rule_kernel_ttyUSB0]))
        ⟨.EQUAL, "KERNEL".toList, "ttyUSB0".toList⟩ = .error .null_string
    ∧ check_condition
        (mm_kernel_device_generic_init (some event_without_name) (some [rule_kernel_ttyUSB0]))
        ⟨.NOT_EQUAL, "KERNEL".toList, "ttyUSB0".toList⟩ = .error .null_string
    ∧ (∀ fuel, preload_rule_properties (fuel + 1)
        (mm_kernel_device_generic_init (some event_without_name)
          (some [⟨some [⟨.NOT_EQUAL, "KERNEL".toList, "ttyUSB0".toList⟩],
                  .PROPERTY "ID_MM_PORT_TYPE_AT".toList "1".toList⟩]))
        = .error .null_string)
    ∧ (∀ (self : MMKernelDeviceGeneric) (value : CStr),
        (∀ parameter ∈ ["ACTION".toList, "SUBSYSTEM".toList, "SUBSYSTEMS".toList,
              "DRIVER".toList, "DRIVERS".toList, "ATTRS{manufacturer}".toList,
              "ATTRS{product}".toList],
            ∃ b, check_condition self ⟨.EQUAL, parameter, value⟩ = .ok b
              ∧ check_condition self ⟨.NOT_EQUAL, parameter, value⟩ = .ok (!b))
        ∧ (∀ rest : CStr,
            ∃ b, check_condition self ⟨.EQUAL, "ENV".toList ++ rest, value⟩ = .ok b
              ∧ check_condition self ⟨.NOT_EQUAL, "ENV".toList ++ rest, value⟩ = .ok (!b))
        ∧ (∀ name : CStr, kernel_device_get_name self = some name → value ≠ [] →
            ∃ b, check_condition self ⟨.EQUAL, "KERNEL".toList, value⟩ = .ok b
              ∧ check_condition self ⟨.NOT_EQUAL, "KERNEL".toList, value⟩ = .ok (!b))
        ∧ (∀ v : Nat, mm_get_uint_from_hex_str value = some v →
            ∀ parameter ∈ ["ATTRS{idVendor}".toList, "ATTRS{vendor}".toList,
              "ATTRS{idProduct}".toList, "ATTRS{device}".toList,
              "ATTRS{bInterfaceClass}".toList, "ATTRS{bInterfaceSubClass}".toList,
              "ATTRS{bInterfaceProtocol}".toList, "ATTRS{bInterfaceNumber}".toList],
            ∃ b, check_condition self ⟨.EQUAL, parameter, value⟩ = .ok b
              ∧ check_condition self ⟨.NOT_EQUAL, parameter, value⟩ = .ok (!b))) :=
  ⟨rfl, rfl, rfl, fun _ => rfl, fun self value =>
    ⟨(comparison_type_flips self value).1, (comparison_type_flips self value).2.1,
     (comparison_type_flips self value).2.2.2.1, (comparison_type_flips self value).2.2.2.2⟩⟩

/-- Unrecognised conditions: such a condition (a parameter that is none of ACTION, SUBSYSTEM(S),
    DRIVER(S), KERNEL, DEVPATH and starts neither with `ATTRS` nor with `ENV`, or an
    `ATTRS` condition whose attribute name is none of the ten recognised ones) evaluates
    to non-matching whatever its comparison type is; `ATTRS{name}` is such a condition
    for every name outside the ten that has no brace and no whitespace at its ends; and
    a rule that contains an unrecognised condition, the conditions before it returning a
    result, is not applied: `check_rule` returns `i + 1` and leaves the record as it
    is. -/
theorem unrecognised_conditions_degrade (self : MMKernelDeviceGeneric) :
    (∀ c : MMUdevRuleMatch, unrecognised_condition c → check_condition self c = .ok false)
    ∧ (∀ parameter value : CStr, unrecognised_condition ⟨.EQUAL, parameter, value⟩ →
        check_condition self ⟨.EQUAL, parameter, value⟩ = .ok false
        ∧ check_condition self ⟨.NOT_EQUAL, parameter, value⟩ = .ok false)
    ∧ (∀ (t : MMUdevRuleMatchType) (name value : CStr),
        '{' ∉ name → '}' ∉ name →
        (∀ c, name.head? = some c → g_ascii_isspace c = false) →
        (∀ c, name.getLast? = some c → g_ascii_isspace c = false) →
        name ∉ recognised_attributes →
        unrecognised_condition ⟨t, "ATTRS\x7b".toList ++ name ++ "\x7d".toList, value⟩)
    ∧ (∀ (rules : List MMUdevRule) (i : Nat) (rule : MMUdevRule)
        (pre : List MMUdevRuleMatch) (c : MMUdevRuleMatch) (post : List MMUdevRuleMatch),
        self.rules = some rules → rules[i]? = some rule →
        rule.conditions = some (pre ++ c :: post) →
        unrecognised_condition c →
        (∀ c1 ∈ pre, ∃ b, check_condition self c1 = .ok b) →
        check_rule self i = .ok (i + 1, self)) := by
  have key : ∀ c : MMUdevRuleMatch, unrecognised_condition c →
      check_condition self c = .ok false := by
    intro c hc
    rcases hc with ⟨h1, h2, h3⟩ | ⟨rest, hp, hname⟩
    · exact check_condition_unknown_parameter self c h1 h2 h3
    · have := check_condition_unknown_attribute self c.type rest c.value hname
      rw [← hp] at this
      exact this
  refine ⟨key, ?_, ?_, ?_⟩
  · intro parameter value hc
    refine ⟨key _ hc, key _ ?_⟩
    exact hc
  · intro t name value h1 h2 h3 h4 h5
    refine Or.inr ⟨"\x7b".toList ++ name ++ "\x7d".toList, by simp, ?_⟩
    rw [braced_name_extracted name h1 h2 h3 h4]
    exact h5
  · intro rules i rule pre c post hrules hrule hcs hc hpre
    simp only [check_rule, hrules, hrule, hcs,
      check_conditions_defined_then_fails self pre c post hpre (key c hc)]

/-- On the scenario port the rule `DRIVERS=="option"`, `ATTRS{serial}=="1"` is not
    applied, and neither is a rule with the parameter `TAG`. -/
theorem unrecognised_conditions_degrade_witness :
    check_rule { port_ttyUSB0 with
        rules := some [⟨some [cond_drivers_option,
                              ⟨.NOT_EQUAL, "ATTRS{serial}".toList, "1".toList⟩],
                        .PROPERTY "ID_MM_PORT_TYPE_AT".toList "1".toList⟩] } 0
      = .ok (1, { port_ttyUSB0 with
          rules := some [⟨some [cond_drivers_option,
                                ⟨.NOT_EQUAL, "ATTRS{serial}".toList, "1".toList⟩],
                          .PROPERTY "ID_MM_PORT_TYPE_AT".toList "1".toList⟩] })
    ∧ check_condition port_ttyUSB0 ⟨.EQUAL, "TAG".toList, "x".toList⟩ = .ok false :=
  ⟨(unrecognised_conditions_degrade _).2.2.2 _ 0 _ [cond_drivers_option]
      ⟨.NOT_EQUAL, "ATTRS{serial}".toList, "1".toList⟩ [] rfl rfl rfl
      (Or.inr ⟨"{serial}".toList, rfl, by decide⟩)
      (fun c1 h1 => by
        simp only [List.mem_singleton] at h1
        subst h1
        exact ⟨true, by decide⟩),
   (unrecognised_conditions_degrade port_ttyUSB0).1 _
      (Or.inl ⟨by decide, by decide, by decide⟩)⟩

/-- C14, the code at a failing input: on the record that construction makes for the
    `add` event of the subsystem `tty` without a name, which reaches the rule engine
    because the name is checked after the preload, the rule `KERNEL=="ttyUSB0"`,
    `TAG=="x"` contains the unrecognised condition `TAG=="x"`, and `check_rule` hands
    the `NULL` name to `strcmp` at the condition before it: the engine fails instead of
    going on with index 1. Everywhere else the claim holds: an unrecognised condition
    evaluates to non-matching on every record and for both comparison types,
    `ATTRS{name}` is unrecognised for every name outside the ten, and on a record on
    which the conditions before the unrecognised one can be evaluated (a `KERNEL`
    condition needs a name and a non-empty pattern, a `DEVPATH` condition a non-empty
    pattern) the rule is not applied, the record stays as it is and `check_rule`
    returns `i + 1`. -/
theorem unrecognised_conditions_degrade_failing_input :
    kernel_device_get_name
        (mm_kernel_device_generic_init (some event_without_name)
          (some [⟨some [⟨.EQUAL, "KERNEL".toList, "ttyUSB0".toList⟩,
                        ⟨.EQUAL, "TAG".toList, "x".toList⟩],
                  .PROPERTY "ID_MM_PORT_TYPE_AT".toList "1".toList⟩]))
      = none
    ∧ unrecognised_condition ⟨.EQUAL, "TAG".toList, "x".toList⟩
    ∧ check_rule
        (mm_kernel_device_generic_init (some event_without_name)
          (some [⟨some [⟨.EQUAL, "KERNEL".toList, "ttyUSB0".toList⟩,
                        ⟨.EQUAL, "TAG".toList, "x".toList⟩],
                  .PROPERTY "ID_MM_PORT_TYPE_AT".toList "1".toList⟩]))
        0 = .error .null_string
    ∧ (∀ fuel, mm_kernel_device_generic_new_with_rules (fuel + 1) empty_sysfs
        (some event_without_name)
        (some [⟨some [⟨.EQUAL, "KERNEL".toList, "ttyUSB0".toList⟩,
                      ⟨.EQUAL, "TAG".toList, "x".toList⟩],
                .PROPERTY "ID_MM_PORT_TYPE_AT".toList "1".toList⟩])
        = .error .null_string)
    ∧ (∀ self : MMKernelDeviceGeneric,
        (∀ c : MMUdevRuleMatch, unrecognised_condition c →
          check_condition self c = .ok false)
        ∧ (∀ parameter value : CStr, unrecognised_condition ⟨.EQUAL, parameter, value⟩ →
            check_condition self ⟨.EQUAL, parameter, value⟩ = .ok false
            ∧ check_condition self ⟨.NOT_EQUAL, parameter, value⟩ = .ok false)
        ∧ (∀ (t : MMUdevRuleMatchType) (name value : CStr),
            '{' ∉ name → '}' ∉ name →
            (∀ c, name.head? = some c → g_ascii_isspace c = false) →
            (∀ c, name.getLast? = some c → g_ascii_isspace c = false) →
            name ∉ recognised_attributes →
            unrecognised_condition ⟨t, "ATTRS\x7b".toList ++ name ++ "\x7d".toList, value⟩)
        ∧ (∀ (rules : List MMUdevRule) (i : Nat) (rule : MMUdevRule)
            (pre : List MMUdevRuleMatch) (c : MMUdevRuleMatch) (post : List MMUdevRuleMatch),
            self.rules = some rules → rules[i]? = some rule →
            rule.conditions = some (pre ++ c :: post) →
            unrecognised_condition c →
            (∀ c1 ∈ pre, condition_well_formed (kernel_device_get_name self) c1) →
            check_rule self i = .ok (i + 1, self))) := by
  refine ⟨rfl, Or.inl ⟨by decide, by decide, by decide⟩, rfl, fun _ => rfl, fun self =>
    ⟨(unrecognised_conditions_degrade self).1, (unrecognised_conditions_degrade self).2.1,
     (unrecognised_conditions_degrade self).2.2.1, ?_⟩⟩
  intro rules i rule pre c post hrules hrule hcs hc hwf
  exact (unrecognised_conditions_degrade self).2.2.2 rules i rule pre c post hrules hrule hcs
    hc (fun c1 h1 => check_condition_of_well_formed self c1 (hwf c1 h1))

/-- C15: for an event whose action is `remove` or whose subsystem is `virtual`, with a
    subsystem and a name, construction of the sysfs-backed record returns `TRUE` for
    every file system and every rule table (an absent one included), `check_preload`
    returns the record as it got it without a single loop iteration, and the record that
    results has no sysfs path, no driver, no interface, no physical device and an empty
    property bag. -/
theorem construct_remove_or_virtual (fs : Sysfs) (props : MMKernelEventProperties)
    (rules : Option (List MMUdevRule)) (subsystem name : CStr)
    (hs : props.subsystem = some subsystem) (hn : props.name = some name)
    (h : props.action = some "remove".toList ∨ subsystem = "virtual".toList) :
    (∀ fuel, mm_kernel_device_generic_new_with_rules fuel fs (some props) rules
        = .ok (some (.ok (mm_kernel_device_generic_init (some props) rules))))
    ∧ check_preload 0 fs (mm_kernel_device_generic_init (some props) rules)
        = .ok (some (mm_kernel_device_generic_init (some props) rules))
    ∧ (mm_kernel_device_generic_init (some props) rules).sysfs_path = none
    ∧ (mm_kernel_device_generic_init (some props) rules).driver = none
    ∧ (mm_kernel_device_generic_init (some props) rules).interface_sysfs_path = none
    ∧ (mm_kernel_device_generic_init (some props) rules).physdev_sysfs_path = none
    ∧ (mm_kernel_device_generic_init (some props) rules).object_data = [] := by
  have hpre : ∀ fuel, check_preload fuel fs (mm_kernel_device_generic_init (some props) rules)
      = .ok (some (mm_kernel_device_generic_init (some props) rules)) := by
    intro fuel
    unfold check_preload
    by_cases h0 : (mm_kernel_device_generic_init (some props) rules).properties = none
        ∨ (mm_kernel_device_generic_init (some props) rules).rules = none
    · rw [if_pos h0]
    · rw [if_neg h0]
      rcases h with h | h
      · rw [if_pos]
        simp [mm_kernel_device_generic_init, mm_kernel_event_properties_get_action, h,
          g_strcmp0_eq]
      · by_cases h1 : g_strcmp0_eq (mm_kernel_event_properties_get_action
            (mm_kernel_device_generic_init (some props) rules).properties)
            (some "remove".toList) = true
        · rw [if_pos h1]
        · rw [if_neg h1, if_pos]
          simp [mm_kernel_device_generic_init, mm_kernel_event_properties_get_subsystem, hs, h,
            g_strcmp0_eq]
  refine ⟨fun fuel => ?_, hpre 0, rfl, rfl, rfl, rfl, rfl⟩
  unfold mm_kernel_device_generic_new_with_rules initable_init
  rw [hpre fuel]
  have h1 : kernel_device_get_subsystem (mm_kernel_device_generic_init (some props) rules)
      = some subsystem := by
    simp [kernel_device_get_subsystem, mm_kernel_device_generic_init, hs]
  have h2 : kernel_device_get_name (mm_kernel_device_generic_init (some props) rules)
      = some name := by
    simp [kernel_device_get_name, mm_kernel_device_generic_init, hn]
  simp only [h1, h2]
  rw [if_neg]
  rintro ⟨_, ha, hv, _⟩
  rcases h with h | h
  · simp [mm_kernel_device_generic_init, mm_kernel_event_properties_get_action, h,
      g_strcmp0_eq] at ha
  · simp [mm_kernel_device_generic_init, mm_kernel_event_properties_get_subsystem, hs, h,
      g_strcmp0_eq] at hv

/-- C15, on the `remove` event of `ttyUSB0` with a rule table, without fuel and on the
    empty file system. -/
theorem construct_remove_or_virtual_witness :
    event_remove_ttyUSB0.subsystem = some "tty".toList
    ∧ event_remove_ttyUSB0.name = some "ttyUSB0".toList
    ∧ event_remove_ttyUSB0.action = some "remove".toList
    ∧ mm_kernel_device_generic_new_with_rules 0 empty_sysfs (some event_remove_ttyUSB0)
        (some [rule_kernel_ttyUSB0])
      = .ok (some (.ok (mm_kernel_device_generic_init (some event_remove_ttyUSB0)
          (some [rule_kernel_ttyUSB0])))) :=
  ⟨rfl, rfl, rfl,
   (construct_remove_or_virtual empty_sysfs event_remove_ttyUSB0 (some [rule_kernel_ttyUSB0])
      "tty".toList "ttyUSB0".toList rfl rfl (Or.inl rfl)).1 0⟩

/-- C16, as stated, fails: for the `add` event of `tty/ttyUSB9` on a file system without
    that device, construction fails with the kind `MM_CORE_ERROR_INVALID_ARGS`, which is
    the very kind of the failure for a missing name, and not with a kind of its own. -/
theorem construct_not_found_kind_counterexample :
    event_ttyUSB9.action ≠ some "remove".toList
    ∧ event_ttyUSB9.subsystem ≠ some "virtual".toList
    ∧ mm_kernel_device_generic_new_with_rules 2 empty_sysfs (some event_ttyUSB9)
        (some [rule_port_type_at])
      = .ok (some (.error ⟨.MM_CORE_ERROR_INVALID_ARGS, "device tty/ttyUSB9 not found".toList⟩))
    ∧ mm_kernel_device_generic_new_with_rules 2 empty_sysfs (some event_without_name)
        (some [rule_port_type_at])
      = .ok (some (.error ⟨.MM_CORE_ERROR_INVALID_ARGS,
          "name is mandatory in kernel device".toList⟩))
    ∧ MMCoreError.MM_CORE_ERROR_INVALID_ARGS ≠ MMCoreError.MM_CORE_ERROR_NOT_FOUND := by
  refine ⟨by decide, by decide, rfl, rfl, by decide⟩

/-- C16, amended: for every event with an action other than `remove` and a subsystem
    other than `virtual`, on a file system whose `realpath` returns absolute paths:
    whenever the preload returns, construction either succeeds with a present, non-empty
    sysfs path or fails with the kind `MM_CORE_ERROR_INVALID_ARGS`, the kind also used
    for a missing subsystem or name, and with a subsystem and a name and no sysfs path
    the message is `device <subsystem>/<name> not found`. The preload does return
    without a rule table, at once; and with one, the walks of the sysfs tree return
    after finitely many iterations and leave the result to the rule engine. -/
theorem construct_sysfs_path_or_invalid_args (fs : Sysfs)
    (props : MMKernelEventProperties) (rules : Option (List MMUdevRule))
    (hact : props.action ≠ some "remove".toList)
    (hsub : props.subsystem ≠ some "virtual".toList)
    (habs : ∀ q p, fs.realpath q = some p → p.head? = some '/') :
    (∀ (fuel : Nat) (self1 : MMKernelDeviceGeneric),
        check_preload fuel fs (mm_kernel_device_generic_init (some props) rules)
          = .ok (some self1) →
        ((∃ p, self1.sysfs_path = some p ∧ p ≠ []
              ∧ mm_kernel_device_generic_new_with_rules fuel fs (some props) rules
                  = .ok (some (.ok self1)))
          ∨ ∃ message, mm_kernel_device_generic_new_with_rules fuel fs (some props) rules
              = .ok (some (.error ⟨.MM_CORE_ERROR_INVALID_ARGS, message⟩)))
        ∧ (∀ subsystem name, props.subsystem = some subsystem → props.name = some name →
            self1.sysfs_path = none →
            mm_kernel_device_generic_new_with_rules fuel fs (some props) rules
              = .ok (some (.error ⟨.MM_CORE_ERROR_INVALID_ARGS,
                  "device ".toList ++ subsystem ++ "/".toList ++ name
                    ++ " not found".toList⟩))))
    ∧ (rules = none → ∀ fuel,
        check_preload fuel fs (mm_kernel_device_generic_init (some props) rules)
          = .ok (some (mm_kernel_device_generic_init (some props) rules)))
    ∧ (∃ fuel0, ∀ fuel, fuel0 ≤ fuel →
        ∃ self0, preload_contents fuel fs (mm_kernel_device_generic_init (some props) rules)
            = some self0
          ∧ (rules ≠ none →
              check_preload fuel fs (mm_kernel_device_generic_init (some props) rules)
                = preload_rule_properties fuel self0)) := by
  have hreal : ∀ q p, fs.realpath q = some p → p ≠ [] := by
    intro q p h h0
    have := habs q p h
    rw [h0] at this
    cases this
  refine ⟨fun fuel self1 hpre =>
    initable_init_after_preload fuel fs props rules self1 hact hsub hreal hpre, ?_, ?_⟩
  · intro hr fuel
    unfold check_preload
    rw [if_pos (Or.inr (by rw [hr]; rfl))]
  · obtain ⟨fuel0, h0⟩ := preload_contents_returns fs habs
      (mm_kernel_device_generic_init (some props) rules) rfl
    refine ⟨fuel0, fun fuel hf => ?_⟩
    obtain ⟨self0, hself0⟩ := h0 fuel hf
    refine ⟨self0, hself0, fun hr => ?_⟩
    have ha : g_strcmp0_eq (mm_kernel_event_properties_get_action
        (mm_kernel_device_generic_init (some props) rules).properties)
        (some "remove".toList) = false := decide_eq_false hact
    have hv : g_strcmp0_eq (mm_kernel_event_properties_get_subsystem
        (mm_kernel_device_generic_init (some props) rules).properties)
        (some "virtual".toList) = false := decide_eq_false hsub
    unfold check_preload
    rw [if_neg, ha, hv, hself0]
    · rfl
    · rintro (h | h)
      · cases h
      · exact hr h

/-- C16 amended, on the `add` event of `tty/ttyUSB9` with the scenario rule: on a file
    system that holds the device the preload returns within 8 iterations and
    construction succeeds with the path of the device. -/
theorem construct_sysfs_path_or_invalid_args_witness :
    ∃ self1,
      check_preload 8 sysfs_ttyUSB9
          (mm_kernel_device_generic_init (some event_ttyUSB9) (some [rule_port_type_at]))
        = .ok (some self1)
      ∧ self1.sysfs_path = some "/sys/devices/virtual/tty/ttyUSB9".toList
      ∧ ((∃ p, self1.sysfs_path = some p ∧ p ≠ []
            ∧ mm_kernel_device_generic_new_with_rules 8 sysfs_ttyUSB9 (some event_ttyUSB9)
                (some [rule_port_type_at]) = .ok (some (.ok self1)))
        ∨ ∃ message, mm_kernel_device_generic_new_with_rules 8 sysfs_ttyUSB9
              (some event_ttyUSB9) (some [rule_port_type_at])
            = .ok (some (.error ⟨.MM_CORE_ERROR_INVALID_ARGS, message⟩))) :=
  ⟨_, rfl, rfl,
   ((construct_sysfs_path_or_invalid_args sysfs_ttyUSB9 event_ttyUSB9
      (some [rule_port_type_at]) (by decide) (by decide)
      (fun q p h => by
        simp only [sysfs_ttyUSB9] at h
        split_ifs at h
        cases h
        rfl)).1 8 _ rfl).1⟩

/-- C17, the code at a failing input: for an `add` event of the subsystem `tty` that
    carries no name, and a rule table whose first rule has the condition
    `KERNEL=="ttyUSB0"`, construction of the sysfs-backed record hands the `NULL` name to
    `strcmp` in the rule engine, which runs before the name is checked, instead of
    failing with `MM_CORE_ERROR_INVALID_ARGS`. The udev backend checks first: whenever
    the event's subsystem or name is missing and no device handle was supplied it fails
    with that kind, whatever its preload and its database are. The sysfs backend fails
    with that kind as well whenever the preload that it runs first returns. -/
theorem construct_without_name_failing_input :
    event_without_name.name = none
    ∧ (∀ fuel, mm_kernel_device_generic_new_with_rules (fuel + 1) empty_sysfs
        (some event_without_name) (some [rule_kernel_ttyUSB0]) = .error .null_string)
    ∧ (∀ (preload_contents : Udev.MMKernelDeviceUdev → Udev.MMKernelDeviceUdev)
        (client : Udev.GUdevClient) (props : MMKernelEventProperties),
        props.subsystem = none ∨ props.name = none →
        ∃ message, Udev.initable_init preload_contents client
            (Udev.mm_kernel_device_udev_init none (some props))
          = .ok (.error ⟨.MM_CORE_ERROR_INVALID_ARGS, message⟩))
    ∧ (∀ (fuel : Nat) (fs : Sysfs) (props : MMKernelEventProperties)
        (rules : Option (List MMUdevRule)) (self1 : MMKernelDeviceGeneric),
        props.subsystem = none ∨ props.name = none →
        check_preload fuel fs (mm_kernel_device_generic_init (some props) rules)
          = .ok (some self1) →
        ∃ message, mm_kernel_device_generic_new_with_rules fuel fs (some props) rules
          = .ok (some (.error ⟨.MM_CORE_ERROR_INVALID_ARGS, message⟩))) := by
  refine ⟨rfl, fun fuel => rfl, ?_, ?_⟩
  rotate_left
  · intro fuel fs props rules self1 h hpre
    obtain ⟨hprops, _, _⟩ := check_preload_result fuel fs _ _ hpre
    have hprops1 : self1.properties = some props := hprops
    unfold mm_kernel_device_generic_new_with_rules initable_init
    rw [hpre]
    dsimp only
    cases hs : props.subsystem with
    | none =>
      have h1 : kernel_device_get_subsystem self1 = none := by
        simp [kernel_device_get_subsystem, hprops1, hs]
      rw [h1]
      exact ⟨_, rfl⟩
    | some s =>
      have hn : props.name = none := by
        rcases h with h | h
        · rw [hs] at h; cases h
        · exact h
      have h1 : kernel_device_get_subsystem self1 = some s := by
        simp [kernel_device_get_subsystem, hprops1, hs]
      have h2 : kernel_device_get_name self1 = none := by
        simp [kernel_device_get_name, hprops1, hn]
      rw [h1]
      dsimp only
      rw [h2]
      exact ⟨_, rfl⟩
  intro pc client props h
  unfold Udev.initable_init Udev.mm_kernel_device_udev_init
  dsimp only
  cases hs : props.subsystem with
  | none =>
    simp only [mm_kernel_event_properties_get_subsystem, Option.bind, hs]
    exact ⟨_, rfl⟩
  | some s =>
    have hn : props.name = none := by
      rcases h with h | h
      · rw [hs] at h; cases h
      · exact h
    simp only [mm_kernel_event_properties_get_subsystem, Option.bind, hs,
      Udev.kernel_device_get_name, hn]
    exact ⟨_, rfl⟩

/-- C19: global-property inheritance in the udev backend. If a physical device was
    resolved and has the key set, `get_global_property` returns the physical device's
    value and `has_global_property` is true, whatever the port itself stores; if no
    physical device was resolved, or the resolved one does not have the key, both are
    the port's own `get_property` and `has_property`. -/
theorem global_property_inheritance (u : Udev.MMKernelDeviceUdev) (key : CStr) :
    (∀ physdev value, u.physdev = some physdev →
        Udev.g_udev_device_get_property physdev key = some value →
        Udev.kernel_device_get_global_property u key = some value
        ∧ Udev.kernel_device_has_global_property u key = true)
    ∧ (u.physdev = none
        ∨ (∃ physdev, u.physdev = some physdev
            ∧ Udev.g_udev_device_get_property physdev key = none) →
        Udev.kernel_device_get_global_property u key = Udev.kernel_device_get_property u key
        ∧ Udev.kernel_device_has_global_property u key
            = Udev.kernel_device_has_property u key) := by
  constructor
  · intro physdev value hp hv
    have hh : Udev.g_udev_device_has_property physdev key = true := by
      unfold Udev.g_udev_device_has_property
      unfold Udev.g_udev_device_get_property at hv
      rw [hv]; rfl
    simp only [Udev.kernel_device_get_global_property, Udev.kernel_device_has_global_property,
      hp, hh, hv, if_true, and_self]
  · rintro (hp | ⟨physdev, hp, hv⟩)
    · simp only [Udev.kernel_device_get_global_property,
        Udev.kernel_device_has_global_property, hp, and_self]
    · have hh : Udev.g_udev_device_has_property physdev key = false := by
        unfold Udev.g_udev_device_has_property
        unfold Udev.g_udev_device_get_property at hv
        rw [hv]; rfl
      simp [Udev.kernel_device_get_global_property, Udev.kernel_device_has_global_property,
        hp, hh]

/-- C19, on the scenario record: the key `ID_MM_DEVICE_IGNORE` is read from the USB
    device, and a key that it does not have from the port. -/
theorem global_property_inheritance_witness :
    Udev.kernel_device_get_global_property Udev.port_ttyUSB0 "ID_MM_DEVICE_IGNORE".toList
      = some "phys".toList
    ∧ Udev.kernel_device_has_global_property Udev.port_ttyUSB0 "ID_MM_DEVICE_IGNORE".toList
      = true
    ∧ Udev.kernel_device_get_global_property Udev.port_ttyUSB0 "ID_MM_CANDIDATE".toList
      = Udev.kernel_device_get_property Udev.port_ttyUSB0 "ID_MM_CANDIDATE".toList :=
  ⟨((global_property_inheritance Udev.port_ttyUSB0 "ID_MM_DEVICE_IGNORE".toList).1
      Udev.usb_device_1_1 "phys".toList rfl rfl).1,
   ((global_property_inheritance Udev.port_ttyUSB0 "ID_MM_DEVICE_IGNORE".toList).1
      Udev.usb_device_1_1 "phys".toList rfl rfl).2,
   ((global_property_inheritance Udev.port_ttyUSB0 "ID_MM_CANDIDATE".toList).2
      (Or.inr ⟨Udev.usb_device_1_1, rfl, rfl⟩)).1⟩

/-- C20, as stated, fails: the scenario port stores `port` under `ID_MM_DEVICE_IGNORE`,
    its resolved physical device stores `phys`, and `get_global_property` of the udev
    backend returns `phys`, not the port's own value. -/
theorem global_property_both_set_counterexample :
    Udev.kernel_device_get_property Udev.port_ttyUSB0 "ID_MM_DEVICE_IGNORE".toList
      = some "port".toList
    ∧ Udev.port_ttyUSB0.physdev = some Udev.usb_device_1_1
    ∧ Udev.g_udev_device_get_property Udev.usb_device_1_1 "ID_MM_DEVICE_IGNORE".toList
      = some "phys".toList
    ∧ Udev.kernel_device_get_global_property Udev.port_ttyUSB0 "ID_MM_DEVICE_IGNORE".toList
      = some "phys".toList
    ∧ Udev.kernel_device_get_global_property Udev.port_ttyUSB0 "ID_MM_DEVICE_IGNORE".toList
      ≠ Udev.kernel_device_get_property Udev.port_ttyUSB0 "ID_MM_DEVICE_IGNORE".toList := by
  decide

/-- C20, amended: for every port of the udev backend that has a local value for a key
    and whose resolved physical device also has a value for that key,
    `get_global_property` returns the physical device's value, which is not the port's
    own value when the two differ; and in the sysfs backend,
    which keeps device-wide properties in the port's own bag, `get_global_property` is
    the port's own `get_property`. -/
theorem global_property_both_set (u : Udev.MMKernelDeviceUdev) (key : CStr)
    (physdev : Udev.GUdevDevice) (local_value physdev_value : CStr)
    (hlocal : Udev.kernel_device_get_property u key = some local_value)
    (hphysdev : u.physdev = some physdev)
    (hvalue : Udev.g_udev_device_get_property physdev key = some physdev_value) :
    Udev.kernel_device_get_global_property u key = some physdev_value
    ∧ (physdev_value ≠ local_value →
        Udev.kernel_device_get_global_property u key ≠ Udev.kernel_device_get_property u key)
    ∧ (∀ (self : MMKernelDeviceGeneric),
        kernel_device_get_global_property self key = kernel_device_get_property self key) := by
  have hh : Udev.g_udev_device_has_property physdev key = true := by
    unfold Udev.g_udev_device_has_property
    unfold Udev.g_udev_device_get_property at hvalue
    rw [hvalue]; rfl
  have hg : Udev.kernel_device_get_global_property u key = some physdev_value := by
    simp only [Udev.kernel_device_get_global_property, hphysdev, hh, hvalue, if_true]
  refine ⟨hg, ?_, fun self => rfl⟩
  intro hne h
  rw [hg, hlocal] at h
  exact hne (Option.some.inj h)

/-- C20 amended, on the scenario record. -/
theorem global_property_both_set_witness :
    Udev.kernel_device_get_property Udev.port_ttyUSB0 "ID_MM_DEVICE_IGNORE".toList
      = some "port".toList
    ∧ Udev.kernel_device_get_global_property Udev.port_ttyUSB0 "ID_MM_DEVICE_IGNORE".toList
      = some "phys".toList :=
  ⟨rfl,
   (global_property_both_set Udev.port_ttyUSB0 "ID_MM_DEVICE_IGNORE".toList
      Udev.usb_device_1_1 "port".toList "phys".toList rfl rfl rfl).1⟩

/-- C21: `compare` is reflexive and symmetric in both backends. In the sysfs backend
    `kernel_device_cmp (a, a)` is true, `kernel_device_cmp (a, b)` equals
    `kernel_device_cmp (b, a)`, and it is true iff the two records have equal subsystem
    and equal name. In the udev backend `kernel_device_cmp (a, a)` is true for every
    record that has a device handle or event properties (one of the two is what
    construction requires), and `kernel_device_cmp (a, b)` equals
    `kernel_device_cmp (b, a)` for all records, with a `DEVPATH_OLD` marker or without,
    with a device handle on both, on one or on neither. -/
theorem compare_reflexive_symmetric (a b : MMKernelDeviceGeneric)
    (ua ub : Udev.MMKernelDeviceUdev) :
    kernel_device_cmp a a = true
    ∧ kernel_device_cmp a b = kernel_device_cmp b a
    ∧ (kernel_device_cmp a b = true
        ↔ kernel_device_get_subsystem a = kernel_device_get_subsystem b
          ∧ kernel_device_get_name a = kernel_device_get_name b)
    ∧ (ua.device ≠ none ∨ ua.properties ≠ none → Udev.kernel_device_cmp ua ua = .ok true)
    ∧ Udev.kernel_device_cmp ua ub = Udev.kernel_device_cmp ub ua := by
  refine ⟨?_, ?_, ?_, ?_, ?_⟩
  · simp [kernel_device_cmp, g_strcmp0_eq]
  · simp only [kernel_device_cmp]
    rw [g_strcmp0_eq_comm (kernel_device_get_subsystem a),
      g_strcmp0_eq_comm (kernel_device_get_name a)]
  · simp [kernel_device_cmp, g_strcmp0_eq]
  · intro h
    unfold Udev.kernel_device_cmp
    cases hd : ua.device with
    | some d =>
      dsimp only
      split_ifs
      · rfl
      · simp [g_strcmp0_eq]
    | none =>
      cases hp : ua.properties with
      | none =>
        rcases h with h | h
        · exact absurd hd h
        · exact absurd hp h
      | some p =>
        simp [Udev.kernel_device_get_subsystem, Udev.kernel_device_get_name, hd, hp,
          g_strcmp0_eq]
  · unfold Udev.kernel_device_cmp
    cases hda : ua.device with
    | some da =>
      cases hdb : ub.device with
      | some db =>
        dsimp only
        rw [g_strcmp0_eq_comm (some (Udev.g_udev_device_get_sysfs_path da))]
        split_ifs <;> rfl
      | none =>
        cases hpb : ub.properties with
        | none =>
          simp [Udev.kernel_device_get_subsystem, Udev.kernel_device_get_name, hda, hdb, hpb]
        | some pb =>
          simp only [Udev.kernel_device_get_subsystem, Udev.kernel_device_get_name, hda, hdb,
            hpb]
          rw [g_strcmp0_eq_comm (Udev.g_udev_device_get_subsystem da),
            g_strcmp0_eq_comm (some (Udev.g_udev_device_get_name da))]
    | none =>
      cases hpa : ua.properties with
      | none =>
        cases hdb : ub.device with
        | some db =>
          simp [Udev.kernel_device_get_subsystem, Udev.kernel_device_get_name, hda, hdb, hpa]
        | none =>
          cases hpb : ub.properties with
          | none =>
            simp [Udev.kernel_device_get_subsystem, Udev.kernel_device_get_name, hda, hdb,
              hpa, hpb]
          | some pb =>
            simp [Udev.kernel_device_get_subsystem, Udev.kernel_device_get_name, hda, hdb,
              hpa, hpb]
      | some pa =>
        cases hdb : ub.device with
        | some db =>
          simp only [Udev.kernel_device_get_subsystem, Udev.kernel_device_get_name, hda, hdb,
            hpa]
          rw [g_strcmp0_eq_comm pa.subsystem, g_strcmp0_eq_comm pa.name]
        | none =>
          cases hpb : ub.properties with
          | none =>
            simp [Udev.kernel_device_get_subsystem, Udev.kernel_device_get_name, hda, hdb,
              hpa, hpb]
          | some pb =>
            simp only [Udev.kernel_device_get_subsystem, Udev.kernel_device_get_name, hda,
              hdb, hpa, hpb]
            rw [g_strcmp0_eq_comm pa.subsystem, g_strcmp0_eq_comm pa.name]

/-- C21, on records of the udev backend: the renamed tty, which carries `DEVPATH_OLD`,
    compares equal to itself and to the record of its old path, in both orders; and the
    record with a device handle compares with the one made from the event alone in the
    same way in both orders. -/
theorem compare_reflexive_symmetric_witness :
    Udev.kernel_device_cmp Udev.port_ttyUSB0_renamed Udev.port_ttyUSB0_renamed = .ok true
    ∧ Udev.kernel_device_cmp Udev.port_ttyUSB0_renamed Udev.port_ttyUSB3 = .ok true
    ∧ Udev.kernel_device_cmp Udev.port_ttyUSB3 Udev.port_ttyUSB0_renamed = .ok true
    ∧ Udev.kernel_device_cmp Udev.port_ttyUSB0 Udev.port_ttyUSB0_event_only = .ok true
    ∧ Udev.kernel_device_cmp Udev.port_ttyUSB0 Udev.port_ttyUSB0_event_only
        = Udev.kernel_device_cmp Udev.port_ttyUSB0_event_only Udev.port_ttyUSB0
    ∧ kernel_device_cmp port_ttyUSB0 port_cdc_wdm0 = false :=
  ⟨(compare_reflexive_symmetric port_ttyUSB0 port_ttyUSB0 Udev.port_ttyUSB0_renamed
      Udev.port_ttyUSB3).2.2.2.1 (Or.inl (by decide)),
   by decide,
   by decide,
   by decide,
   (compare_reflexive_symmetric port_ttyUSB0 port_ttyUSB0 Udev.port_ttyUSB0
      Udev.port_ttyUSB0_event_only).2.2.2.2,
   by decide⟩

/-- C22: the bus classifier. For a record whose sysfs path is absolute, and with fuel
    for the whole walk, `find_device_bus_subsystem` returns, and its result is the
    subsystem of the nearest node whose subsystem is one of usb, pcmcia, pci, platform,
    pnp, sdio, among the starting node and the directories above it, the root excluded;
    the result is none iff no node of the walk has such a subsystem, and a result is
    always one of the six names. The udev backend does the same along the chain of
    parents of its device. -/
theorem bus_classifier_nearest (fs : Sysfs) (self : MMKernelDeviceGeneric) (path : CStr)
    (fuel : Nat) (hpath : self.sysfs_path = some path) (habs : path.head? = some '/')
    (hfuel : path.length ≤ fuel) :
    find_device_bus_subsystem fuel fs self = some (bus_classifier_spec fs path)
    ∧ (∀ pre node post bus, nodes_upward path = pre ++ node :: post →
        (∀ m ∈ pre, on_bus (node_subsystem fs m) = false) →
        node_subsystem fs node = some bus → bus ∈ bus_vocabulary →
        find_device_bus_subsystem fuel fs self = some (some bus))
    ∧ (find_device_bus_subsystem fuel fs self = some none
        ↔ ∀ node ∈ nodes_upward path, on_bus (node_subsystem fs node) = false)
    ∧ (∀ bus, find_device_bus_subsystem fuel fs self = some (some bus) → bus ∈ bus_vocabulary)
    ∧ "/".toList ∉ nodes_upward path
    ∧ (path ≠ "/".toList → (nodes_upward path).head? = some path)
    ∧ (∀ (u : Udev.MMKernelDeviceUdev) (device : Udev.GUdevDevice), u.device = some device →
        Udev.find_device_bus_subsystem u = Udev.bus_classifier_spec device
        ∧ (∀ bus, Udev.find_device_bus_subsystem u = some bus → bus ∈ bus_vocabulary)) := by
  have hres : find_device_bus_subsystem fuel fs self = some (bus_classifier_spec fs path) := by
    unfold find_device_bus_subsystem bus_classifier_spec
    rw [hpath]
    dsimp only
    rw [find_device_bus_subsystem_loop_eq fs fuel path habs (by omega),
      walk_upward_eq_nodes fuel path habs (by omega)]
  have hnone : bus_classifier_spec fs path = none
      ↔ ∀ node ∈ nodes_upward path, on_bus (node_subsystem fs node) = false := by
    unfold bus_classifier_spec
    constructor
    · intro h node hnode
      cases hf : (nodes_upward path).find? (fun node => on_bus (node_subsystem fs node)) with
      | none =>
        have := List.find?_eq_none.mp hf node hnode
        simpa using this
      | some found =>
        rw [hf] at h
        have hb := List.find?_some hf
        simp only [Option.some_bind] at h
        simp only [h, on_bus] at hb
        cases hb
    · intro h
      have : (nodes_upward path).find? (fun node => on_bus (node_subsystem fs node)) = none := by
        rw [List.find?_eq_none]
        intro x hx
        simp [h x hx]
      rw [this]
      rfl
  have hsome : ∀ bus, bus_classifier_spec fs path = some bus → bus ∈ bus_vocabulary := by
    intro bus h
    unfold bus_classifier_spec at h
    cases hf : (nodes_upward path).find? (fun node => on_bus (node_subsystem fs node)) with
    | none => rw [hf] at h; cases h
    | some found =>
      rw [hf] at h
      have hb := List.find?_some hf
      simp only [Option.some_bind] at h
      simp only [h, on_bus, decide_eq_true_eq] at hb
      exact hb
  refine ⟨hres, ?_, ?_, ?_, ?_, ?_, ?_⟩
  · intro pre node post bus hwalk hpre hnode hbus
    rw [hres]
    unfold bus_classifier_spec
    have hfind : (nodes_upward path).find? (fun node => on_bus (node_subsystem fs node))
        = some node := by
      rw [hwalk, List.find?_append]
      have h1 : pre.find? (fun node => on_bus (node_subsystem fs node)) = none := by
        rw [List.find?_eq_none]
        intro x hx
        simp [hpre x hx]
      have h2 : on_bus (node_subsystem fs node) = true := by
        simp [on_bus, hnode, hbus]
      rw [h1, List.find?_cons, h2]
      rfl
    rw [hfind]
    simp [hnode]
  · rw [hres]
    constructor
    · intro h
      exact hnone.mp (Option.some.inj h)
    · intro h
      rw [hnone.mpr h]
  · intro bus h
    rw [hres] at h
    exact hsome bus (Option.some.inj h)
  · have hgen : ∀ (n : Nat) (p : CStr), "/".toList ∉ walk_upward n p := by
      intro n
      induction n with
      | zero => intro p; simp [walk_upward]
      | succ k ih =>
        intro p
        unfold walk_upward
        split_ifs with hroot
        · simp
        · intro hmem
          rcases List.mem_cons.mp hmem with h | h
          · exact hroot h.symm
          · exact ih _ h
    exact hgen _ _
  · intro hroot
    have hlen : path.length = (path.length - 1) + 1 := by
      cases path with
      | nil => simp at habs
      | cons c rest => simp
    unfold nodes_upward
    rw [hlen, walk_upward, if_neg hroot]
    rfl
  · intro u device hdev
    have hres2 : Udev.find_device_bus_subsystem u = Udev.bus_classifier_spec device := by
      unfold Udev.find_device_bus_subsystem Udev.bus_classifier_spec
      rw [hdev]
      exact Udev.udev_find_device_bus_subsystem_loop_eq _ _
    refine ⟨hres2, ?_⟩
    intro bus h
    rw [hres2] at h
    unfold Udev.bus_classifier_spec at h
    cases hf : (device.node :: device.ancestors).find? (fun node => on_bus node.subsystem) with
    | none => rw [hf] at h; cases h
    | some found =>
      rw [hf] at h
      have hb := List.find?_some hf
      simp only [Option.some_bind] at h
      simp only [h, on_bus, decide_eq_true_eq] at hb
      exact hb

/-- C22, on the tty of the USB modem: the two nodes below the interface are on none of
    the buses, and the classifier gives the subsystem `usb` of the interface node. -/
theorem bus_classifier_nearest_witness :
    nodes_upward "/sys/devices/pci0000:00/usb1/1-1/1-1:1.3/ttyUSB0/tty/ttyUSB0".toList
      = ["/sys/devices/pci0000:00/usb1/1-1/1-1:1.3/ttyUSB0/tty/ttyUSB0".toList,
         "/sys/devices/pci0000:00/usb1/1-1/1-1:1.3/ttyUSB0/tty".toList,
         "/sys/devices/pci0000:00/usb1/1-1/1-1:1.3/ttyUSB0".toList,
         "/sys/devices/pci0000:00/usb1/1-1/1-1:1.3".toList,
         "/sys/devices/pci0000:00/usb1/1-1".toList,
         "/sys/devices/pci0000:00/usb1".toList,
         "/sys/devices/pci0000:00".toList,
         "/sys/devices".toList,
         "/sys".toList]
    ∧ find_device_bus_subsystem 64 sysfs_usb_modem port_ttyUSB0 = some (some "usb".toList) :=
  ⟨by decide,
   (bus_classifier_nearest sysfs_usb_modem port_ttyUSB0
      "/sys/devices/pci0000:00/usb1/1-1/1-1:1.3/ttyUSB0/tty/ttyUSB0".toList 64 rfl rfl
      (by decide)).2.1
      ["/sys/devices/pci0000:00/usb1/1-1/1-1:1.3/ttyUSB0/tty/ttyUSB0".toList,
       "/sys/devices/pci0000:00/usb1/1-1/1-1:1.3/ttyUSB0/tty".toList,
       "/sys/devices/pci0000:00/usb1/1-1/1-1:1.3/ttyUSB0".toList]
      "/sys/devices/pci0000:00/usb1/1-1/1-1:1.3".toList
      ["/sys/devices/pci0000:00/usb1/1-1".toList,
       "/sys/devices/pci0000:00/usb1".toList,
       "/sys/devices/pci0000:00".toList,
       "/sys/devices".toList,
       "/sys".toList]
      "usb".toList (by decide) (by decide) (by decide) (by decide)⟩

/-- C23, as stated, fails: on the tree whose interface node exposes `idVendor` as well,
    the first node of the walk from the tty `ttyUSB0` that exposes `idVendor` is the
    node `.../1-1:1.0`; the resolver takes that node as the interface, because it tests
    for `bInterfaceClass` first and for `idVendor` only otherwise, and records the next
    node that exposes `idVendor`, `.../1-1` with the vendor `2c7c`, as the physical
    device. -/
theorem usb_first_vendor_node_counterexample :
    nodes_upward "/sys/devices/usb1/1-1/1-1:1.0/ttyUSB0".toList
      = ["/sys/devices/usb1/1-1/1-1:1.0/ttyUSB0".toList,
         "/sys/devices/usb1/1-1/1-1:1.0".toList,
         "/sys/devices/usb1/1-1".toList,
         "/sys/devices/usb1".toList,
         "/sys/devices".toList,
         "/sys".toList]
    ∧ has_sysfs_attribute sysfs_usb_both (some "/sys/devices/usb1/1-1/1-1:1.0/ttyUSB0".toList)
        "idVendor".toList = false
    ∧ has_sysfs_attribute sysfs_usb_both (some "/sys/devices/usb1/1-1/1-1:1.0".toList)
        "idVendor".toList = true
    ∧ read_sysfs_attribute_as_hex sysfs_usb_both (some "/sys/devices/usb1/1-1/1-1:1.0".toList)
        "idVendor".toList = 0x1199
    ∧ (preload_sysfs_path sysfs_usb_both
        (mm_kernel_device_generic_init (some event_ttyUSB0) none)).sysfs_path
      = some "/sys/devices/usb1/1-1/1-1:1.0/ttyUSB0".toList
    ∧ (preload_contents_usb 6 sysfs_usb_both
        (preload_sysfs_path sysfs_usb_both
          (mm_kernel_device_generic_init (some event_ttyUSB0) none))).map
        (fun r => (r.physdev_sysfs_path, r.physdev_vid.val, r.interface_sysfs_path))
      = some (some "/sys/devices/usb1/1-1".toList, 0x2c7c,
          some "/sys/devices/usb1/1-1/1-1:1.0".toList) := by
  refine ⟨by decide, by decide, by decide, by decide, by rfl, by rfl⟩

/-- C23, amended: the USB resolver of the sysfs backend, on a record without interface
    and physical device yet. The loop tests each node for `bInterfaceClass` first, as
    long as no interface is recorded, and for `idVendor` only otherwise. So when a node
    `i` exposes `bInterfaceClass` and no node before it exposes that or `idVendor`, `i`
    is the interface, with class, subclass, protocol and number read as hexadecimal
    (stored in 8 bits) and the description read from `interface`, whether or not `i`
    exposes `idVendor` itself; the physical device is then the first node `n` after `i`
    that exposes `idVendor`, with vendor, product and revision read as hexadecimal from
    `idVendor`, `idProduct` and `bcdDevice` (stored in 16 bits) and manufacturer and
    product read as strings, and the loop returns after the iteration at `n`, whatever
    lies above; when no node after `i` exposes `idVendor`, the loop returns at the root
    with the interface and without a physical device. When the first node `n` that
    exposes `idVendor` has no node before it that exposes `bInterfaceClass` and does
    not expose it either, `n` is the physical device and no interface is recorded. -/
theorem usb_resolver (fs : Sysfs) (self : MMKernelDeviceGeneric) (path : CStr)
    (hpath : self.sysfs_path = some path)
    (hif : self.interface_sysfs_path = none) (hphys : self.physdev_sysfs_path = none) :
    (∀ (pre1 : List CStr) (i : CStr) (pre2 : List CStr) (n : CStr) (post : List CStr),
        nodes_upward path = pre1 ++ i :: (pre2 ++ n :: post) →
        (∀ m ∈ pre1, has_sysfs_attribute fs (some m) "bInterfaceClass".toList = false
          ∧ has_sysfs_attribute fs (some m) "idVendor".toList = false) →
        has_sysfs_attribute fs (some i) "bInterfaceClass".toList = true →
        (∀ m ∈ pre2, has_sysfs_attribute fs (some m) "idVendor".toList = false) →
        has_sysfs_attribute fs (some n) "idVendor".toList = true →
        ∀ fuel, pre1.length + pre2.length + 1 < fuel →
        ∃ r, preload_contents_usb fuel fs self = some r
          ∧ r.physdev_sysfs_path = some n
          ∧ r.physdev_vid
              = to_guint16 (read_sysfs_attribute_as_hex fs (some n) "idVendor".toList)
          ∧ r.physdev_pid
              = to_guint16 (read_sysfs_attribute_as_hex fs (some n) "idProduct".toList)
          ∧ r.physdev_revision
              = to_guint16 (read_sysfs_attribute_as_hex fs (some n) "bcdDevice".toList)
          ∧ r.physdev_manufacturer
              = read_sysfs_attribute_as_string fs (some n) "manufacturer".toList
          ∧ r.physdev_product = read_sysfs_attribute_as_string fs (some n) "product".toList
          ∧ r.interface_sysfs_path = some i
          ∧ r.interface_class
              = to_guint8 (read_sysfs_attribute_as_hex fs (some i) "bInterfaceClass".toList)
          ∧ r.interface_subclass
              = to_guint8 (read_sysfs_attribute_as_hex fs (some i) "bInterfaceSubClass".toList)
          ∧ r.interface_protocol
              = to_guint8 (read_sysfs_attribute_as_hex fs (some i) "bInterfaceProtocol".toList)
          ∧ r.interface_number
              = to_guint8 (read_sysfs_attribute_as_hex fs (some i) "bInterfaceNumber".toList)
          ∧ r.interface_description
              = read_sysfs_attribute_as_string fs (some i) "interface".toList
          ∧ r.sysfs_path = self.sysfs_path ∧ r.object_data = self.object_data)
    ∧ (∀ (pre1 : List CStr) (i : CStr) (pre2 : List CStr),
        nodes_upward path = pre1 ++ i :: pre2 →
        (∀ m ∈ pre1, has_sysfs_attribute fs (some m) "bInterfaceClass".toList = false
          ∧ has_sysfs_attribute fs (some m) "idVendor".toList = false) →
        has_sysfs_attribute fs (some i) "bInterfaceClass".toList = true →
        (∀ m ∈ pre2, has_sysfs_attribute fs (some m) "idVendor".toList = false) →
        path.head? = some '/' →
        ∀ fuel, path.length ≤ fuel + 1 →
        ∃ r, preload_contents_usb fuel fs self = some r
          ∧ r.physdev_sysfs_path = none
          ∧ r.physdev_vid = self.physdev_vid
          ∧ r.interface_sysfs_path = some i
          ∧ r.interface_class
              = to_guint8 (read_sysfs_attribute_as_hex fs (some i) "bInterfaceClass".toList)
          ∧ r.interface_subclass
              = to_guint8 (read_sysfs_attribute_as_hex fs (some i) "bInterfaceSubClass".toList)
          ∧ r.interface_protocol
              = to_guint8 (read_sysfs_attribute_as_hex fs (some i) "bInterfaceProtocol".toList)
          ∧ r.interface_number
              = to_guint8 (read_sysfs_attribute_as_hex fs (some i) "bInterfaceNumber".toList)
          ∧ r.interface_description
              = read_sysfs_attribute_as_string fs (some i) "interface".toList
          ∧ r.sysfs_path = self.sysfs_path ∧ r.object_data = self.object_data)
    ∧ (∀ (pre : List CStr) (n : CStr) (post : List CStr),
        nodes_upward path = pre ++ n :: post →
        (∀ m ∈ pre, has_sysfs_attribute fs (some m) "bInterfaceClass".toList = false
          ∧ has_sysfs_attribute fs (some m) "idVendor".toList = false) →
        has_sysfs_attribute fs (some n) "idVendor".toList = true →
        has_sysfs_attribute fs (some n) "bInterfaceClass".toList = false →
        ∀ fuel, pre.length < fuel →
        ∃ r, preload_contents_usb fuel fs self = some r
          ∧ r.physdev_sysfs_path = some n
          ∧ r.physdev_vid
              = to_guint16 (read_sysfs_attribute_as_hex fs (some n) "idVendor".toList)
          ∧ r.physdev_pid
              = to_guint16 (read_sysfs_attribute_as_hex fs (some n) "idProduct".toList)
          ∧ r.physdev_revision
              = to_guint16 (read_sysfs_attribute_as_hex fs (some n) "bcdDevice".toList)
          ∧ r.physdev_manufacturer
              = read_sysfs_attribute_as_string fs (some n) "manufacturer".toList
          ∧ r.physdev_product = read_sysfs_attribute_as_string fs (some n) "product".toList
          ∧ r.interface_sysfs_path = none
          ∧ r.interface_class = self.interface_class
          ∧ r.sysfs_path = self.sysfs_path ∧ r.object_data = self.object_data) := by
  have hres : ∀ fuel, preload_contents_usb fuel fs self
      = preload_contents_usb_loop fs fuel self path := by
    intro fuel
    unfold preload_contents_usb
    rw [hpath]
  refine ⟨?_, ?_, ?_⟩
  · intro pre1 i pre2 n post hwalk hpre1 hi hpre2 hn fuel hfuel
    have hwalk2 : nodes_upward path = (pre1 ++ i :: pre2) ++ n :: post := by
      rw [hwalk]; simp
    obtain ⟨post1, hw⟩ := walk_upward_of_nodes fuel path (pre1 ++ i :: pre2) n post hwalk2
      (by simp only [List.length_append, List.length_cons]; omega)
    rw [List.append_assoc, List.cons_append] at hw
    have hloop := preload_contents_usb_loop_found fs i n pre2 post1 hi hn hpre2
      pre1 fuel self path hw hif hphys (fun m hm => (hpre1 m hm).2) (fun m hm => (hpre1 m hm).1)
    rw [hres, hloop]
    exact ⟨_, rfl, rfl, rfl, rfl, rfl, rfl, rfl, rfl, rfl, rfl, rfl, rfl, rfl, rfl, rfl⟩
  · intro pre1 i pre2 hwalk hpre1 hi hpre2 habs fuel hfuel
    have hw : walk_upward fuel path = pre1 ++ i :: pre2 :=
      (walk_upward_eq_nodes fuel path habs hfuel).trans hwalk
    obtain ⟨r, hr⟩ := preload_contents_usb_loop_returns fs fuel self path habs hfuel
    have hrec := preload_contents_usb_loop_interface_only fs i pre2 hi hpre2 pre1 fuel self
      path r hw hif (fun m hm => (hpre1 m hm).2) (fun m hm => (hpre1 m hm).1) hr
    rw [hres, hr]
    refine ⟨r, rfl, ?_⟩
    rw [hrec]
    exact ⟨hphys, rfl, rfl, rfl, rfl, rfl, rfl, rfl, rfl, rfl⟩
  · intro pre n post hwalk hpre hn hni fuel hfuel
    obtain ⟨post1, hw⟩ := walk_upward_of_nodes fuel path pre n post hwalk hfuel
    have hloop := preload_contents_usb_loop_no_interface fs n post1 hn hni pre fuel self path
      hw hphys (fun m hm => (hpre m hm).2) (fun m hm => (hpre m hm).1)
    rw [hres, hloop]
    exact ⟨_, rfl, rfl, rfl, rfl, rfl, rfl, rfl, hif, rfl, rfl, rfl⟩

/-- C23 amended, on the sysfs tree of the USB modem: the loop returns after five
    iterations with the values of the scenario; and on the tree whose interface node
    exposes `idVendor` as well, it returns after three iterations with that node as the
    interface and the node above it as the physical device. -/
theorem usb_resolver_witness :
    (∃ r, preload_contents_usb 5 sysfs_usb_modem
          (preload_sysfs_path sysfs_usb_modem
            (mm_kernel_device_generic_init (some event_ttyUSB0) none)) = some r
      ∧ r.physdev_sysfs_path = some "/sys/devices/pci0000:00/usb1/1-1".toList
      ∧ r.physdev_vid = 0x1199 ∧ r.physdev_pid = 0x68a3 ∧ r.physdev_revision = 0x0006
      ∧ r.physdev_manufacturer = some "Sierra Wireless, Incorporated".toList
      ∧ r.physdev_product = some "MC8705".toList
      ∧ r.interface_sysfs_path = some "/sys/devices/pci0000:00/usb1/1-1/1-1:1.3".toList
      ∧ r.interface_class = 0x0a ∧ r.interface_subclass = 0 ∧ r.interface_protocol = 0
      ∧ r.interface_number = 3 ∧ r.interface_description = none)
    ∧ (∃ r, preload_contents_usb 3 sysfs_usb_both
          (preload_sysfs_path sysfs_usb_both
            (mm_kernel_device_generic_init (some event_ttyUSB0) none)) = some r
      ∧ r.physdev_sysfs_path = some "/sys/devices/usb1/1-1".toList
      ∧ r.physdev_vid = 0x2c7c
      ∧ r.interface_sysfs_path = some "/sys/devices/usb1/1-1/1-1:1.0".toList
      ∧ r.interface_class = 0xff) := by
  constructor
  · obtain ⟨r, h, h1, h2, h3, h4, h5, h6, h7, h8, h9, h10, h11, h12, _⟩ :=
      (usb_resolver sysfs_usb_modem
        (preload_sysfs_path sysfs_usb_modem
          (mm_kernel_device_generic_init (some event_ttyUSB0) none))
        "/sys/devices/pci0000:00/usb1/1-1/1-1:1.3/ttyUSB0/tty/ttyUSB0".toList
        (by decide) rfl rfl).1
        ["/sys/devices/pci0000:00/usb1/1-1/1-1:1.3/ttyUSB0/tty/ttyUSB0".toList,
         "/sys/devices/pci0000:00/usb1/1-1/1-1:1.3/ttyUSB0/tty".toList,
         "/sys/devices/pci0000:00/usb1/1-1/1-1:1.3/ttyUSB0".toList]
        "/sys/devices/pci0000:00/usb1/1-1/1-1:1.3".toList []
        "/sys/devices/pci0000:00/usb1/1-1".toList
        ["/sys/devices/pci0000:00/usb1".toList,
         "/sys/devices/pci0000:00".toList,
         "/sys/devices".toList,
         "/sys".toList]
        (by decide) (by decide) (by decide) (by decide) (by decide)
        5 (by decide)
    exact ⟨r, h, h1, by rw [h2]; decide, by rw [h3]; decide, by rw [h4]; decide,
      by rw [h5]; decide, by rw [h6]; decide, h7, by rw [h8]; decide, by rw [h9]; decide,
      by rw [h10]; decide, by rw [h11]; decide, by rw [h12]; decide⟩
  · obtain ⟨r, h, h1, h2, _, _, _, _, h7, h8, _⟩ :=
      (usb_resolver sysfs_usb_both
        (preload_sysfs_path sysfs_usb_both
          (mm_kernel_device_generic_init (some event_ttyUSB0) none))
        "/sys/devices/usb1/1-1/1-1:1.0/ttyUSB0".toList
        (by decide) rfl rfl).1
        ["/sys/devices/usb1/1-1/1-1:1.0/ttyUSB0".toList]
        "/sys/devices/usb1/1-1/1-1:1.0".toList []
        "/sys/devices/usb1/1-1".toList
        ["/sys/devices/usb1".toList, "/sys/devices".toList, "/sys".toList]
        (by decide) (by decide) (by decide) (by decide) (by decide)
        3 (by decide)
    exact ⟨r, h, h1, by rw [h2]; decide, h7, by rw [h8]; decide⟩

/-- C24, as stated, fails for the USB resolver: on the sysfs tree of the USB modem the
    first node of the walk that has a driver link is the usb-serial port
    `.../1-1:1.3/ttyUSB0`, bound to `option1`, and the driver that the resolver records
    is `option`, the driver of the interface node above it. -/
theorem first_driver_usb_counterexample :
    first_driver_spec sysfs_usb_modem
        (nodes_upward "/sys/devices/pci0000:00/usb1/1-1/1-1:1.3/ttyUSB0/tty/ttyUSB0".toList)
      = some "option1".toList
    ∧ node_driver sysfs_usb_modem "/sys/devices/pci0000:00/usb1/1-1/1-1:1.3/ttyUSB0".toList
      = some "option1".toList
    ∧ (preload_sysfs_path sysfs_usb_modem
        (mm_kernel_device_generic_init (some event_ttyUSB0) none)).sysfs_path
      = some "/sys/devices/pci0000:00/usb1/1-1/1-1:1.3/ttyUSB0/tty/ttyUSB0".toList
    ∧ (preload_contents_usb 64 sysfs_usb_modem
        (preload_sysfs_path sysfs_usb_modem
          (mm_kernel_device_generic_init (some event_ttyUSB0) none))).map (fun r => r.driver)
      = some (some "option".toList) := by
  refine ⟨by decide, by decide, by decide, by decide⟩

/-- C24, amended: on a record with an absolute sysfs path and without physical device
    and interface yet, and with fuel for the whole walk, every resolver returns. After
    the PCI, the PCMCIA and the platform-like resolver the driver is the one the record
    had already or else the first driver link among the nodes walked, which are the
    nodes up to and including the physical device, and all the nodes when no physical
    device was found. The fallback resolver records the driver link of the starting
    node. The USB resolver records the driver link of the interface node, the first
    node walked that exposes `bInterfaceClass`, and leaves the driver as it was when
    there is no such node. -/
theorem first_driver_rule (fs : Sysfs) (self : MMKernelDeviceGeneric) (path : CStr)
    (fuel : Nat) (hpath : self.sysfs_path = some path) (habs : path.head? = some '/')
    (hfuel : path.length ≤ fuel)
    (hif : self.interface_sysfs_path = none) (hphys : self.physdev_sysfs_path = none) :
    (∀ (platform : CStr),
      ∀ resolved ∈ [preload_contents_pci fuel fs self, preload_contents_pcmcia fuel fs self,
          preload_contents_platform fuel fs self platform],
        ∃ r, resolved = some r
          ∧ ((r.physdev_sysfs_path = none
              ∧ r.driver = self.driver.or (first_driver_spec fs (nodes_upward path)))
            ∨ ∃ pre n post, nodes_upward path = pre ++ n :: post
                ∧ r.physdev_sysfs_path = some n
                ∧ r.driver = self.driver.or (first_driver_spec fs (pre ++ [n]))))
    ∧ (preload_contents_other fs self).driver = node_driver fs path
    ∧ (∃ r, preload_contents_usb fuel fs self = some r
        ∧ ((r.interface_sysfs_path = none ∧ r.driver = self.driver)
          ∨ ∃ pre i post, nodes_upward path = pre ++ i :: post
              ∧ (∀ m ∈ pre, has_sysfs_attribute fs (some m) "bInterfaceClass".toList = false)
              ∧ has_sysfs_attribute fs (some i) "bInterfaceClass".toList = true
              ∧ r.interface_sysfs_path = some i
              ∧ r.driver = node_driver fs i)) := by
  have hw := walk_upward_eq_nodes fuel path habs (by omega)
  refine ⟨?_, ?_, ?_⟩
  · intro platform resolved hmem
    simp only [List.mem_cons, List.mem_singleton, List.not_mem_nil, or_false] at hmem
    rcases hmem with h | h | h
    · obtain ⟨r, hr⟩ := preload_contents_pci_loop_returns fs fuel self path habs (by omega)
      have hres : resolved = some r := by
        rw [h]; unfold preload_contents_pci; rw [hpath]; exact hr
      have := preload_contents_pci_loop_driver fs fuel self path r hr hphys
      rw [hw] at this
      exact ⟨r, hres, this⟩
    · obtain ⟨r, hr⟩ := preload_contents_pcmcia_loop_returns fs fuel self false path habs
        (by omega)
      have hres : resolved = some r := by
        rw [h]; unfold preload_contents_pcmcia; rw [hpath]; exact hr
      have := preload_contents_pcmcia_loop_driver fs fuel self false path r hr hphys
      rw [hw] at this
      exact ⟨r, hres, this⟩
    · obtain ⟨r, hr⟩ := preload_contents_platform_loop_returns fs platform fuel self path habs
        (by omega)
      have hres : resolved = some r := by
        rw [h]; unfold preload_contents_platform; rw [hpath]; exact hr
      have := preload_contents_platform_loop_driver fs platform fuel self path r hr hphys
      rw [hw] at this
      exact ⟨r, hres, this⟩
  · unfold preload_contents_other node_driver
    rw [hpath]
  · obtain ⟨r, hr⟩ := preload_contents_usb_loop_returns fs fuel self path habs (by omega)
    have hres : preload_contents_usb fuel fs self = some r := by
      unfold preload_contents_usb; rw [hpath]; exact hr
    have := preload_contents_usb_loop_driver fs fuel self path r hr hif
    rw [hw] at this
    exact ⟨r, hres, this⟩

/-- C24 amended, on the sysfs tree of the PCMCIA card: the resolver returns, and the
    amended rule holds of its result. -/
theorem first_driver_rule_witness :
    (∃ r, preload_contents_pcmcia 64 sysfs_pcmcia_modem
          (preload_sysfs_path sysfs_pcmcia_modem
            (mm_kernel_device_generic_init (some event_ttyS1) none)) = some r
      ∧ ((r.physdev_sysfs_path = none
          ∧ r.driver = (none : Option CStr).or (first_driver_spec sysfs_pcmcia_modem
              (nodes_upward "/sys/devices/pci0000:00/0000:02:00.0/0.0/tty/ttyS1".toList)))
        ∨ ∃ pre n post,
            nodes_upward "/sys/devices/pci0000:00/0000:02:00.0/0.0/tty/ttyS1".toList
              = pre ++ n :: post
            ∧ r.physdev_sysfs_path = some n
            ∧ r.driver = (none : Option CStr).or (first_driver_spec sysfs_pcmcia_modem
                (pre ++ [n]))))
    ∧ (preload_contents_pcmcia 64 sysfs_pcmcia_modem
        (preload_sysfs_path sysfs_pcmcia_modem
          (mm_kernel_device_generic_init (some event_ttyS1) none))).map (fun r => r.driver)
      = some (some "serial_cs".toList) :=
  ⟨(first_driver_rule sysfs_pcmcia_modem
      (preload_sysfs_path sysfs_pcmcia_modem
        (mm_kernel_device_generic_init (some event_ttyS1) none))
      "/sys/devices/pci0000:00/0000:02:00.0/0.0/tty/ttyS1".toList 64 (by decide) rfl
      (by decide) rfl rfl).1 [] _ (List.mem_cons_of_mem _ (List.mem_cons_self _ _)),
   by decide⟩

/-- C26, as stated, fails: on the sysfs tree of the PCMCIA card the walk meets the
    `pcmcia` node `.../0.0` and then the CardBus bridge `.../0000:02:00.0`, the first
    later node whose own subsystem is no longer `pcmcia` (it is `pci`); the resolver
    takes the node `.../0.0` itself as the physical device, whose own subsystem is
    `pcmcia`, and reads `manf_id` and `card_id` there. -/
theorem pcmcia_physdev_counterexample :
    nodes_upward "/sys/devices/pci0000:00/0000:02:00.0/0.0/tty/ttyS1".toList
      = ["/sys/devices/pci0000:00/0000:02:00.0/0.0/tty/ttyS1".toList,
         "/sys/devices/pci0000:00/0000:02:00.0/0.0/tty".toList,
         "/sys/devices/pci0000:00/0000:02:00.0/0.0".toList,
         "/sys/devices/pci0000:00/0000:02:00.0".toList,
         "/sys/devices/pci0000:00".toList,
         "/sys/devices".toList,
         "/sys".toList]
    ∧ node_subsystem sysfs_pcmcia_modem "/sys/devices/pci0000:00/0000:02:00.0/0.0".toList
      = some "pcmcia".toList
    ∧ node_subsystem sysfs_pcmcia_modem "/sys/devices/pci0000:00/0000:02:00.0".toList
      = some "pci".toList
    ∧ (preload_contents_pcmcia 64 sysfs_pcmcia_modem
        (preload_sysfs_path sysfs_pcmcia_modem
          (mm_kernel_device_generic_init (some event_ttyS1) none))).map
        (fun r => (r.physdev_sysfs_path, r.physdev_vid.val, r.physdev_pid.val))
      = some (some "/sys/devices/pci0000:00/0000:02:00.0/0.0".toList, 0x0137, 0x000e) := by
  refine ⟨by decide, by decide, by decide, by rfl⟩

/-- C26, amended: the PCMCIA resolver of the sysfs backend on a walk whose first node
    with the resolved subsystem `pcmcia` is `c`. The physical device is the first node
    `n`, from `c` on (`c` itself included), whose parent directory has a resolved
    subsystem that is not `pcmcia`, so the last node before the walk leaves the PCMCIA
    subsystem; its vendor and product are the hexadecimal values of the attributes
    `manf_id` and `card_id` of `n` (stored in 16 bits), and the resolver returns after
    the iteration at `n`. -/
theorem pcmcia_resolver (fs : Sysfs) (self : MMKernelDeviceGeneric) (path : CStr)
    (pre : List CStr) (c : CStr) (rest mid : List CStr) (n : CStr) (post : List CStr)
    (s : CStr)
    (hpath : self.sysfs_path = some path)
    (hwalk : nodes_upward path = pre ++ c :: rest)
    (hpre : ∀ m ∈ pre, node_subsystem fs m ≠ some "pcmcia".toList)
    (hc : node_subsystem fs c = some "pcmcia".toList)
    (hsplit : c :: rest = mid ++ n :: post)
    (hmid : ∀ m ∈ mid, node_subsystem fs (g_path_get_dirname m) = none
        ∨ node_subsystem fs (g_path_get_dirname m) = some "pcmcia".toList)
    (hn : node_subsystem fs (g_path_get_dirname n) = some s) (hs : s ≠ "pcmcia".toList) :
    ∀ fuel, pre.length + mid.length < fuel →
      preload_contents_pcmcia fuel fs self
        = some { self with
                 driver := self.driver.or (first_driver_spec fs (pre ++ (mid ++ [n]))),
                 physdev_sysfs_path := some n,
                 physdev_vid :=
                   to_guint16 (read_sysfs_attribute_as_hex fs (some n) "manf_id".toList),
                 physdev_pid :=
                   to_guint16 (read_sysfs_attribute_as_hex fs (some n) "card_id".toList) } := by
  intro fuel hfuel
  have hwalk2 : nodes_upward path = (pre ++ mid) ++ n :: post := by
    rw [hwalk, hsplit, List.append_assoc]
  obtain ⟨post1, hw⟩ := walk_upward_of_nodes fuel path (pre ++ mid) n post hwalk2
    (by rw [List.length_append]; exact hfuel)
  have hres : preload_contents_pcmcia fuel fs self
      = preload_contents_pcmcia_loop fs fuel self false path := by
    unfold preload_contents_pcmcia
    rw [hpath]
  rw [hres]
  -- the part of the walk from `c` on, as far as the fuel reaches
  obtain ⟨rest1, hrest1⟩ : ∃ rest1, c :: rest1 = mid ++ n :: post1 := by
    cases mid with
    | nil =>
      simp only [List.nil_append, List.cons.injEq] at hsplit
      exact ⟨post1, by rw [hsplit.1]; rfl⟩
    | cons m mid1 =>
      simp only [List.cons_append, List.cons.injEq] at hsplit
      exact ⟨mid1 ++ n :: post1, by rw [hsplit.1]; rfl⟩
  exact preload_contents_pcmcia_loop_found fs c n rest1 mid post1 s hc hrest1 hmid hn hs pre
    fuel self path (by rw [hw, List.append_assoc, hrest1]) hpre

/-- C26 amended, on the sysfs tree of the PCMCIA card: the resolver stops at the node
    `.../0.0` after three iterations. -/
theorem pcmcia_resolver_witness :
    (preload_contents_pcmcia 3 sysfs_pcmcia_modem
        (preload_sysfs_path sysfs_pcmcia_modem
          (mm_kernel_device_generic_init (some event_ttyS1) none))).map
        (fun r => (r.physdev_sysfs_path, r.physdev_vid.val, r.physdev_pid.val, r.driver))
      = some (some "/sys/devices/pci0000:00/0000:02:00.0/0.0".toList, 0x0137, 0x000e,
          some "serial_cs".toList) := by
  rw [pcmcia_resolver sysfs_pcmcia_modem
    (preload_sysfs_path sysfs_pcmcia_modem
      (mm_kernel_device_generic_init (some event_ttyS1) none))
    "/sys/devices/pci0000:00/0000:02:00.0/0.0/tty/ttyS1".toList
    ["/sys/devices/pci0000:00/0000:02:00.0/0.0/tty/ttyS1".toList,
     "/sys/devices/pci0000:00/0000:02:00.0/0.0/tty".toList]
    "/sys/devices/pci0000:00/0000:02:00.0/0.0".toList
    ["/sys/devices/pci0000:00/0000:02:00.0".toList, "/sys/devices/pci0000:00".toList,
     "/sys/devices".toList, "/sys".toList]
    []
    "/sys/devices/pci0000:00/0000:02:00.0/0.0".toList
    ["/sys/devices/pci0000:00/0000:02:00.0".toList, "/sys/devices/pci0000:00".toList,
     "/sys/devices".toList, "/sys".toList]
    "pci".toList
    (by decide) (by decide) (by decide) (by decide) rfl (by decide) (by decide) (by decide)
    3 (by decide)]
  rfl

/-- C27: the platform-like resolver and the fallback resolver of the sysfs backend. On
    a record without a physical device yet whose walk has `n` as its first node with
    the resolved subsystem equal to the bus name handed in, `preload_contents_platform`
    returns after the iteration at `n` with `n` as the physical device, and changes
    nothing else but the driver: vendor, product and revision keep their value (0 on a
    new record), manufacturer and product string stay as they are (absent on a new
    record). `preload_contents_other` sets the driver to the driver link of the record's
    own path and changes nothing else, so no physical device is resolved. -/
theorem platform_resolver (fs : Sysfs) (self : MMKernelDeviceGeneric) (path : CStr)
    (platform : CStr) (pre : List CStr) (n : CStr) (post : List CStr)
    (hpath : self.sysfs_path = some path) (hphys : self.physdev_sysfs_path = none)
    (hwalk : nodes_upward path = pre ++ n :: post)
    (hpre : ∀ m ∈ pre, node_subsystem fs m ≠ some platform)
    (hn : node_subsystem fs n = some platform) :
    (∀ fuel, pre.length < fuel →
      ∃ r, preload_contents_platform fuel fs self platform = some r
        ∧ r = { self with
                driver := self.driver.or (first_driver_spec fs (pre ++ [n])),
                physdev_sysfs_path := some n }
        ∧ r.physdev_sysfs_path = some n
        ∧ r.physdev_vid = self.physdev_vid ∧ r.physdev_pid = self.physdev_pid
        ∧ r.physdev_revision = self.physdev_revision
        ∧ r.physdev_manufacturer = self.physdev_manufacturer
        ∧ r.physdev_product = self.physdev_product)
    ∧ preload_contents_other fs self = { self with driver := node_driver fs path }
    ∧ (preload_contents_other fs self).physdev_sysfs_path = none := by
  refine ⟨?_, ?_, ?_⟩
  · intro fuel hfuel
    obtain ⟨post1, hw⟩ := walk_upward_of_nodes fuel path pre n post hwalk hfuel
    have hres : preload_contents_platform fuel fs self platform
        = preload_contents_platform_loop fs platform fuel self path := by
      unfold preload_contents_platform
      rw [hpath]
    rw [hres, preload_contents_platform_loop_found fs platform n post1 hn pre fuel self path hw
      hphys hpre]
    exact ⟨_, rfl, rfl, rfl, rfl, rfl, rfl, rfl, rfl⟩
  · have h : preload_contents_other fs self
        = { self with
            driver := read_sysfs_attribute_link_basename fs self.sysfs_path "driver".toList } :=
      rfl
    rw [h, hpath]
    rfl
  · exact hphys

/-- C27, on the platform UART, constructed from its event: the resolver stops at
    `2100000.serial` after three iterations; vendor, product and revision are 0 and the
    strings absent. On the tty of the tree without any bus the fallback resolver finds
    no driver and no physical device. -/
theorem platform_resolver_witness :
    (preload_contents_platform 3 sysfs_platform_modem
        (preload_sysfs_path sysfs_platform_modem
          (mm_kernel_device_generic_init (some event_ttymxc0) none)) "platform".toList).map
        (fun r => (r.physdev_sysfs_path, r.driver, r.physdev_vid.val, r.physdev_pid.val,
          r.physdev_revision.val, r.physdev_manufacturer, r.physdev_product))
      = some (some "/sys/devices/platform/soc/2100000.serial".toList,
          some "imx-uart".toList, 0, 0, 0, none, none)
    ∧ ((preload_contents_other sysfs_ttyUSB9
          (preload_sysfs_path sysfs_ttyUSB9
            (mm_kernel_device_generic_init (some event_ttyUSB9) none))).driver = none
      ∧ (preload_contents_other sysfs_ttyUSB9
          (preload_sysfs_path sysfs_ttyUSB9
            (mm_kernel_device_generic_init (some event_ttyUSB9) none))).physdev_sysfs_path
        = none) := by
  have h := platform_resolver sysfs_platform_modem
    (preload_sysfs_path sysfs_platform_modem
      (mm_kernel_device_generic_init (some event_ttymxc0) none))
    "/sys/devices/platform/soc/2100000.serial/tty/ttymxc0".toList "platform".toList
    ["/sys/devices/platform/soc/2100000.serial/tty/ttymxc0".toList,
     "/sys/devices/platform/soc/2100000.serial/tty".toList]
    "/sys/devices/platform/soc/2100000.serial".toList
    ["/sys/devices/platform/soc".toList, "/sys/devices/platform".toList,
     "/sys/devices".toList, "/sys".toList]
    (by decide) rfl (by decide) (by decide) (by decide)
  obtain ⟨r, hr, hr2, _⟩ := h.1 3 (by decide)
  refine ⟨?_, by decide, by decide⟩
  rw [hr, hr2]
  rfl

/-- C28, as stated, fails: with the table that tests `ID_MM_CANDIDATE` before a later
    rule sets it, the first preload of the tty `ttyUSB9` leaves `ID_MM_PORT_TYPE_AT`
    unset, and a second preload of the record that the first one left, over the same
    file system and table, sets it: the bag after two invocations differs from the bag
    after one. -/
theorem preload_twice_counterexample :
    ∃ r1 r2,
      check_preload 8 sysfs_ttyUSB9
          (mm_kernel_device_generic_init (some event_ttyUSB9) (some rules_test_before_set))
        = .ok (some r1)
      ∧ check_preload 8 sysfs_ttyUSB9 r1 = .ok (some r2)
      ∧ kernel_device_get_property r1 "ID_MM_PORT_TYPE_AT".toList = none
      ∧ kernel_device_get_property r2 "ID_MM_PORT_TYPE_AT".toList = some "1".toList
      ∧ r2.object_data ≠ r1.object_data :=
  ⟨_, _, rfl, rfl, by decide, by decide, by decide⟩

/-- C28, amended: let `r1` be the record that a preload has left. A second preload over
    the same file system resolves no topology again: it either returns `r1` as it is
    or is a run of the rule engine alone on `r1`; whenever it returns, every field
    other than the bag has the value the first preload gave it. If no condition of the
    rule table reads the bag (no `ENV` condition), the second preload returns with the
    fuel of the first, and every property has the value the first preload gave it. -/
theorem preload_twice (fuel : Nat) (fs : Sysfs) (self r1 : MMKernelDeviceGeneric)
    (h1 : check_preload fuel fs self = .ok (some r1)) :
    (∀ fuel2, check_preload fuel2 fs r1 = .ok (some r1)
        ∨ check_preload fuel2 fs r1 = preload_rule_properties fuel2 r1)
    ∧ (∀ fuel2 r2, check_preload fuel2 fs r1 = .ok (some r2) →
        { r2 with object_data := r1.object_data } = r1)
    ∧ ((∀ rules, self.rules = some rules → reads_no_property rules) →
        ∃ r2, check_preload fuel fs r1 = .ok (some r2)
          ∧ { r2 with object_data := r1.object_data } = r1
          ∧ ∀ key, kernel_device_get_property r2 key = kernel_device_get_property r1 key) := by
  obtain ⟨hprops, hrules, _⟩ := check_preload_result fuel fs self r1 h1
  -- the first preload: an early return, or the contents and then the rules
  have hfirst : r1 = self
      ∨ ∃ s1, preload_contents fuel fs self = some s1
          ∧ preload_rule_properties fuel s1 = .ok (some r1)
          ∧ ∀ fuel2, check_preload fuel2 fs r1 = preload_rule_properties fuel2 r1 := by
    unfold check_preload at h1
    split_ifs at h1 with he1 he2 he3
    · cases h1; exact Or.inl rfl
    · cases h1; exact Or.inl rfl
    · cases h1; exact Or.inl rfl
    · cases hc : preload_contents fuel fs self with
      | none => rw [hc] at h1; cases h1
      | some s1 =>
        rw [hc] at h1
        dsimp only at h1
        refine Or.inr ⟨s1, rfl, h1, fun fuel2 => ?_⟩
        have hbag := preload_rule_properties_same_but_bag fuel s1 r1 h1
        unfold check_preload
        rw [hprops, hrules, if_neg he1, if_neg he2, if_neg he3,
          preload_contents_again fuel fuel2 fs self s1 r1 hc hbag]
  have hearly : r1 = self → ∀ fuel2, check_preload fuel2 fs r1 = .ok (some r1)
      ∨ check_preload fuel2 fs r1 = preload_rule_properties fuel2 r1 := by
    intro he fuel2
    subst he
    unfold check_preload at h1 ⊢
    split_ifs at h1 ⊢ with he1 he2 he3
    · exact Or.inl rfl
    · exact Or.inl rfl
    · exact Or.inl rfl
    · cases hc : preload_contents fuel fs r1 with
      | none => rw [hc] at h1; cases h1
      | some s1 =>
        rw [hc] at h1
        dsimp only at h1
        have hbag := preload_rule_properties_same_but_bag fuel s1 r1 h1
        rw [preload_contents_again fuel fuel2 fs r1 s1 r1 hc hbag]
        exact Or.inr rfl
  have hsecond : ∀ fuel2, check_preload fuel2 fs r1 = .ok (some r1)
      ∨ check_preload fuel2 fs r1 = preload_rule_properties fuel2 r1 := by
    intro fuel2
    rcases hfirst with he | ⟨s1, _, _, h2⟩
    · exact hearly he fuel2
    · exact Or.inr (h2 fuel2)
  have hframe : ∀ fuel2 r2, check_preload fuel2 fs r1 = .ok (some r2) →
      { r2 with object_data := r1.object_data } = r1 := by
    intro fuel2 r2 h2
    rcases hsecond fuel2 with h | h
    · rw [h] at h2
      simp only [Except.ok.injEq, Option.some.injEq] at h2
      rw [← h2]
    · rw [h] at h2
      exact preload_rule_properties_same_but_bag fuel2 r1 r2 h2
  refine ⟨hsecond, hframe, ?_⟩
  intro henv
  have hkeys : ∃ r2, check_preload fuel fs r1 = .ok (some r2)
      ∧ ∀ key, kernel_device_get_property r2 key = kernel_device_get_property r1 key := by
    by_cases hret : check_preload fuel fs r1 = .ok (some r1)
    · exact ⟨r1, hret, fun key => rfl⟩
    · rcases hfirst with he | ⟨s1, hc, hr, h2⟩
      · subst he
        exact absurd h1 hret
      · have hbag := preload_rule_properties_same_but_bag fuel s1 r1 hr
        have hs1rules : s1.rules = self.rules := (preload_contents_result fuel fs self s1 hc).2.1
        rw [h2 fuel]
        unfold preload_rule_properties at hr ⊢
        rw [← hbag.to_classification.1]
        cases hsr : s1.rules with
        | none => rw [hsr] at hr; cases hr
        | some rules =>
          rw [hsr] at hr
          dsimp only at hr ⊢
          split_ifs at hr ⊢
          obtain ⟨rb, hrb, hk⟩ := preload_rule_properties_loop_replay fuel s1 r1 0 r1
            hbag.to_classification (fun rs hrs => henv rs (by rw [← hs1rules, hrs])) hr
          refine ⟨rb, hrb, fun key => ?_⟩
          rcases hk key with h3 | ⟨h3, _⟩
          · exact h3
          · exact h3
  obtain ⟨r2, hr2, hk⟩ := hkeys
  exact ⟨r2, hr2, hframe fuel r2 hr2, hk⟩

/-- C28 amended, on the tty `ttyUSB9` with the rule of the end-to-end scenario, which
    has no `ENV` condition: the second preload returns and changes no field and no
    property. -/
theorem preload_twice_witness :
    ∃ r1, check_preload 8 sysfs_ttyUSB9
          (mm_kernel_device_generic_init (some event_ttyUSB9) (some [rule_port_type_at]))
        = .ok (some r1)
      ∧ ∃ r2, check_preload 8 sysfs_ttyUSB9 r1 = .ok (some r2)
          ∧ { r2 with object_data := r1.object_data } = r1
          ∧ ∀ key, kernel_device_get_property r2 key = kernel_device_get_property r1 key :=
  ⟨_, rfl,
   (preload_twice 8 sysfs_ttyUSB9
      (mm_kernel_device_generic_init (some event_ttyUSB9) (some [rule_port_type_at])) _
      rfl).2.2
      (fun rules hr rule hrule conditions hc m hm => by
        simp only [mm_kernel_device_generic_init, Option.some.injEq] at hr
        subst hr
        simp only [List.mem_singleton] at hrule
        subst hrule
        simp only [rule_port_type_at, Option.some.injEq] at hc
        subst hc
        simp only [List.mem_singleton] at hm
        subst hm
        decide)⟩

/-- C29: rule-engine determinism. Two runs of `preload_rule_properties` on records
    with the same device state (the same rule table, name, classification fields and
    property bag), whatever the rest of their event properties is and whatever fuel each
    run is given, leave the same property bag and the same device state whenever both
    come to an end. -/
theorem rule_engine_deterministic (a b : MMKernelDeviceGeneric) (fuel_a fuel_b : Nat)
    (ra rb : MMKernelDeviceGeneric) (hstate : same_device_state a b)
    (ha : preload_rule_properties fuel_a a = .ok (some ra))
    (hb : preload_rule_properties fuel_b b = .ok (some rb)) :
    ra.object_data = rb.object_data ∧ same_device_state ra rb := by
  have hres : same_device_state ra rb := by
    unfold preload_rule_properties at ha hb
    rw [← hstate.1.1] at hb
    cases hr : a.rules with
    | none => rw [hr] at ha; cases ha
    | some rules =>
      rw [hr] at ha hb
      dsimp only at ha hb
      split_ifs at ha hb
      exact preload_rule_properties_loop_deterministic fuel_a fuel_b a b 0 ra rb hstate ha hb
  exact ⟨hres.2, hres⟩

/-- C29, on the scenario port delivered by an `add` event and by a `change` event with
    a unique id: the two runs, with fuel 1 and fuel 7, leave the same bag. -/
theorem rule_engine_deterministic_witness :
    port_ttyUSB0_with_rule.properties ≠ port_ttyUSB0_change_with_rule.properties
    ∧ ∃ ra rb, preload_rule_properties 1 port_ttyUSB0_with_rule = .ok (some ra)
        ∧ preload_rule_properties 7 port_ttyUSB0_change_with_rule = .ok (some rb)
        ∧ ra.object_data = [("ID_MM_PORT_TYPE_AT".toList, "1".toList)]
        ∧ ra.object_data = rb.object_data :=
  ⟨by decide, _, _, rfl, rfl, rfl,
   (rule_engine_deterministic port_ttyUSB0_with_rule port_ttyUSB0_change_with_rule 1 7 _ _
      ⟨⟨rfl, rfl, rfl, rfl, rfl, rfl, rfl, rfl, rfl, rfl, rfl, rfl, rfl, rfl, rfl, rfl, rfl⟩,
        rfl⟩ rfl rfl).1⟩

/-- C30: the frame of a rule step. Whatever rule `check_rule` processes, the record it
    returns differs from the one it got in the property bag at most. A Label rule, a
    GotoIndex rule and a rule one of whose conditions fails leave the whole record as
    it is. A SetProperty rule leaves every key other than its name as it is, and
    either leaves the record as it is or stores under its name the value of the rule.
    The step returns whenever every condition of the rule returns a result and the
    result of the rule is one of the three kinds. -/
theorem check_rule_frame_effect (self : MMKernelDeviceGeneric) (rules : List MMUdevRule)
    (i : Nat) (rule : MMUdevRule)
    (hrules : self.rules = some rules) (hrule : rules[i]? = some rule) :
    (∀ next self1, check_rule self i = .ok (next, self1) →
        { self1 with object_data := self.object_data } = self)
    ∧ (∀ next self1, check_rule self i = .ok (next, self1) →
        (rule.result = .LABEL ∨ (∃ index, rule.result = .GOTO_INDEX index)
          ∨ ∃ conds c, rule.conditions = some conds ∧ c ∈ conds
              ∧ check_condition self c = .ok false) →
        self1 = self)
    ∧ (∀ name value next self1, rule.result = .PROPERTY name value →
        check_rule self i = .ok (next, self1) →
        (∀ key, key ≠ name →
          kernel_device_get_property self1 key = kernel_device_get_property self key)
        ∧ (self1 = self
          ∨ self1 = g_object_set_data self name (property_value_spec self value)))
    ∧ ((∀ c ∈ rule.conditions.getD [], ∃ b, check_condition self c = .ok b) →
        (rule.result = .LABEL ∨ (∃ index, rule.result = .GOTO_INDEX index)
          ∨ ∃ name value, rule.result = .PROPERTY name value) →
        ∃ next self1, check_rule self i = .ok (next, self1)) := by
  -- the result of the condition loop
  have hcond : ∀ next self1, check_rule self i = .ok (next, self1) →
      ∃ b, (match rule.conditions with
            | none => Except.ok true
            | some conditions => check_conditions self conditions) = .ok b
        ∧ (b = false → self1 = self)
        ∧ (b = true → ∀ name value, rule.result = .PROPERTY name value →
            self1 = g_object_set_data self name (property_value_spec self value))
        ∧ (b = true → rule.result = .LABEL ∨ (∃ index, rule.result = .GOTO_INDEX index) →
            self1 = self) := by
    intro next self1 h
    simp only [check_rule, hrules, hrule] at h
    generalize (match rule.conditions with
        | none => Except.ok true
        | some conditions => check_conditions self conditions) = cres at h ⊢
    rcases cres with f | (_ | _)
    · cases h
    · simp only [Except.ok.injEq, Prod.mk.injEq] at h
      exact ⟨false, rfl, fun _ => h.2.symm, fun hb => (by cases hb), fun hb => (by cases hb)⟩
    · refine ⟨true, rfl, fun hb => (by cases hb), ?_, ?_⟩
      · intro _ name value hres
        rw [hres] at h
        dsimp only at h
        unfold property_value_spec
        split_ifs at h ⊢ <;>
          simp only [Except.ok.injEq, Prod.mk.injEq, printf_02x_eq_two_digits] at h <;>
          exact h.2.symm
      · intro _ hres
        rcases hres with hres | ⟨index, hres⟩
        · rw [hres] at h
          simp only [Except.ok.injEq, Prod.mk.injEq] at h
          exact h.2.symm
        · rw [hres] at h
          simp only [Except.ok.injEq, Prod.mk.injEq] at h
          exact h.2.symm
  refine ⟨?_, ?_, ?_, ?_⟩
  · intro next self1 h
    exact check_rule_same_but_bag self i next self1 h
  · intro next self1 h hkind
    obtain ⟨b, hb, hfalse, _, hother⟩ := hcond next self1 h
    cases b with
    | false => exact hfalse rfl
    | true =>
      rcases hkind with hk | hk | ⟨conds, c, hcs, hmem, hc⟩
      · exact hother rfl (Or.inl hk)
      · exact hother rfl (Or.inr hk)
      · rw [hcs] at hb
        have := check_conditions_false_of_mem self c hc conds true hmem hb
        cases this
  · intro name value next self1 hres h
    obtain ⟨b, _, hfalse, htrue, _⟩ := hcond next self1 h
    cases b with
    | false =>
      rw [hfalse rfl]
      exact ⟨fun key _ => rfl, Or.inl rfl⟩
    | true =>
      rw [htrue rfl name value hres]
      exact ⟨fun key hkey => get_data_set_data_other self name _ key hkey, Or.inr rfl⟩
  · intro hall hkind
    have hret : ∃ b, (match rule.conditions with
          | none => Except.ok true
          | some conditions => check_conditions self conditions) = .ok b := by
      cases hcs : rule.conditions with
      | none => exact ⟨true, rfl⟩
      | some conds =>
        rw [hcs] at hall
        exact check_conditions_returns self conds hall
    obtain ⟨b, hb⟩ := hret
    simp only [check_rule, hrules, hrule, hb]
    cases b with
    | false => exact ⟨_, _, rfl⟩
    | true =>
      rcases hkind with hk | ⟨index, hk⟩ | ⟨name, value, hk⟩
      · rw [hk]; exact ⟨_, _, rfl⟩
      · rw [hk]; exact ⟨_, _, rfl⟩
      · rw [hk]
        dsimp only
        split_ifs <;> exact ⟨_, _, rfl⟩

/-- C30, on the scenario port: the rule of the end-to-end scenario sets
    `ID_MM_PORT_TYPE_AT` and leaves another key and every field as they are; a rule whose
    condition fails leaves the record as it is. -/
theorem check_rule_frame_effect_witness :
    (∃ next self1, check_rule port_ttyUSB0_with_rule 0 = .ok (next, self1)
      ∧ { self1 with object_data := port_ttyUSB0_with_rule.object_data }
          = port_ttyUSB0_with_rule
      ∧ kernel_device_get_property self1 "ID_MM_PORT_TYPE_AT".toList = some "1".toList
      ∧ kernel_device_get_property self1 "ID_MM_CANDIDATE".toList
          = kernel_device_get_property port_ttyUSB0_with_rule "ID_MM_CANDIDATE".toList)
    ∧ check_rule { port_cdc_wdm0 with rules := some [rule_port_type_at] } 0
        = .ok (1, { port_cdc_wdm0 with rules := some [rule_port_type_at] }) :=
  ⟨⟨_, _, rfl,
    (check_rule_frame_effect port_ttyUSB0_with_rule [rule_port_type_at] 0 rule_port_type_at
      rfl rfl).1 _ _ rfl,
    by decide,
    ((check_rule_frame_effect port_ttyUSB0_with_rule [rule_port_type_at] 0 rule_port_type_at
      rfl rfl).2.2.1 "ID_MM_PORT_TYPE_AT".toList "1".toList _ _ rfl rfl).1
      "ID_MM_CANDIDATE".toList (by decide)⟩,
   by decide⟩

/-- C31: the rule engine has no guard against jump cycles. With the table whose only
    rule is an unconditional GotoIndex 0, `preload_rule_properties` is still running
    after every number of iterations, its index 0 and the record as it was. More
    generally, a run whose index is the same index below the table length after `k1`
    and after `k2 > k1` iterations, over a table without `ENV` conditions or with the
    same bag both times, is still running after every number of iterations, its index
    below the table length. This is the case when a GotoIndex rule is applied whose
    target is an index that the run has been at before. -/
theorem jump_cycle_never_halts (self : MMKernelDeviceGeneric) (rules : List MMUdevRule)
    (hrules : self.rules = some rules) :
    ((rules = [⟨none, .GOTO_INDEX 0⟩] ∨ rules = [⟨some [], .GOTO_INDEX 0⟩]) →
        (∀ fuel, preload_rule_properties fuel self = .ok none)
        ∧ ∀ k, preload_rule_properties_steps k self 0 = .ok (0, self))
    ∧ (∀ (k1 k2 i : Nat) (s1 s2 : MMKernelDeviceGeneric), k1 < k2 → i < rules.length →
        preload_rule_properties_steps k1 self 0 = .ok (i, s1) →
        preload_rule_properties_steps k2 self 0 = .ok (i, s2) →
        reads_no_property rules ∨ s1.object_data = s2.object_data →
        (∀ fuel, preload_rule_properties fuel self = .ok none)
        ∧ ∀ k, ∃ pc s, preload_rule_properties_steps k self 0 = .ok (pc, s)
            ∧ pc < rules.length)
    ∧ (∀ (k1 k i index : Nat) (s1 s : MMKernelDeviceGeneric) (rule : MMUdevRule),
        k1 ≤ k → index < rules.length →
        preload_rule_properties_steps k1 self 0 = .ok (index, s1) →
        preload_rule_properties_steps k self 0 = .ok (i, s) →
        rules[i]? = some rule → rule.result = .GOTO_INDEX index →
        (∀ c ∈ rule.conditions.getD [], check_condition s c = .ok true) →
        reads_no_property rules ∨ s1.object_data = s.object_data →
        ∀ fuel, preload_rule_properties fuel self = .ok none) := by
  -- a run that is running after every number of iterations never returns
  have hrun : (∀ k, ∃ pc s, preload_rule_properties_steps k self 0 = .ok (pc, s)
      ∧ pc < rules.length) → ∀ fuel, preload_rule_properties fuel self = .ok none := by
    intro hall fuel
    obtain ⟨pc, s, hs, hpc⟩ := hall fuel
    have hne : rules ≠ [] := fun h => by rw [h] at hpc; cases hpc
    rw [preload_rule_properties_of_steps fuel self rules pc s hrules hne hs, if_pos hpc]
  have hrevisit : ∀ (k1 k2 i : Nat) (s1 s2 : MMKernelDeviceGeneric), k1 < k2 →
      i < rules.length →
      preload_rule_properties_steps k1 self 0 = .ok (i, s1) →
      preload_rule_properties_steps k2 self 0 = .ok (i, s2) →
      reads_no_property rules ∨ s1.object_data = s2.object_data →
      (∀ fuel, preload_rule_properties fuel self = .ok none)
      ∧ ∀ k, ∃ pc s, preload_rule_properties_steps k self 0 = .ok (pc, s)
          ∧ pc < rules.length := by
    intro k1 k2 i s1 s2 hk hi h1 h2 hbag
    have hall := preload_rule_properties_steps_revisit self rules hrules 0 k1 k2 i s1 s2 hk hi
      h1 h2 hbag
    exact ⟨hrun hall, hall⟩
  refine ⟨?_, hrevisit, ?_⟩
  · intro htable
    have hstep : check_rule self 0 = .ok (0, self) := by
      rcases htable with h | h <;> subst h <;> simp [check_rule, hrules, check_conditions]
    have hlen : 0 < rules.length := by
      rcases htable with h | h <;> subst h <;> decide
    have h1 : preload_rule_properties_steps 1 self 0 = .ok (0, self) := by
      rw [preload_rule_properties_steps_succ 0 self rules 0 hrules hlen, hstep]
      rfl
    have hall := hrevisit 0 1 0 self self (by decide) hlen rfl h1 (Or.inr rfl)
    refine ⟨hall.1, fun k => ?_⟩
    induction k with
    | zero => rfl
    | succ n ih =>
      rw [preload_rule_properties_steps_succ n self rules 0 hrules hlen, hstep]
      exact ih
  · intro k1 k i index s1 s rule hk hindex h1 h hrule hres hconds hbag
    have hs : s.rules = some rules := by
      rw [preload_rule_properties_steps_keeps_rules k self 0 i s h, hrules]
    have hi : i < rules.length := by
      by_contra hc
      rw [List.getElem?_eq_none (Nat.not_lt.mp hc)] at hrule
      cases hrule
    have hstep := check_rule_goto_step s rules i rule index hs hrule hres hconds
    have h2 : preload_rule_properties_steps (k + 1) self 0 = .ok (index, s) := by
      rw [preload_rule_properties_steps_add, h]
      dsimp only
      rw [preload_rule_properties_steps_succ 0 s rules i hs hi, hstep]
      rfl
    exact (hrevisit k1 (k + 1) index s1 s (by omega) hindex h1 h2 hbag).1

/-- C31, on the scenario port: with the table of the single self jump, and with the
    table whose second rule jumps back to the first, which sets a property, the rule
    engine is still running after every number of iterations. -/
theorem jump_cycle_never_halts_witness :
    (∀ fuel, preload_rule_properties fuel { port_ttyUSB0 with rules := some rules_self_jump }
        = .ok none)
    ∧ (∀ fuel,
        preload_rule_properties fuel { port_ttyUSB0 with rules := some rules_backward_jump }
          = .ok none) :=
  ⟨((jump_cycle_never_halts { port_ttyUSB0 with rules := some rules_self_jump }
      rules_self_jump rfl).1 (Or.inl rfl)).1,
   ((jump_cycle_never_halts { port_ttyUSB0 with rules := some rules_backward_jump }
      rules_backward_jump rfl).2.1 0 2 0 _ _ (by decide) (by decide) rfl rfl
      (Or.inl (fun rule hrule conds hc m hm => by
        simp only [rules_backward_jump, List.mem_cons, List.mem_singleton,
          List.not_mem_nil, or_false] at hrule
        rcases hrule with h | h <;> subst h <;>
          simp only [Option.some.injEq] at hc <;> subst hc <;> cases hm))).1⟩

/-- C32: forward-jump termination. On a non-empty table each of whose GotoIndex rules
    targets an index greater than its own, on every record: the run has ended, by a
    return or a fault, within as many iterations as the table has rules; while it is
    running the index after `k` iterations is at least `k`, and the indices at which
    rules are evaluated increase strictly, so that no position is evaluated twice. When
    the results are of the three kinds and the conditions are well formed the run
    returns. A GotoIndex rule that is applied with a target at or beyond the table
    length ends the run with the record as it is. -/
theorem forward_jumps_terminate (self : MMKernelDeviceGeneric) (rules : List MMUdevRule)
    (hrules : self.rules = some rules) (hne : rules ≠ [])
    (hfwd : ∀ (j : Nat) (rule : MMUdevRule) (index : Nat), rules[j]? = some rule →
      rule.result = .GOTO_INDEX index → j < index) :
    (∀ fuel, rules.length ≤ fuel → preload_rule_properties fuel self ≠ .ok none)
    ∧ (∀ (k pc : Nat) (s : MMKernelDeviceGeneric),
        preload_rule_properties_steps k self 0 = .ok (pc, s) → pc < rules.length → k ≤ pc)
    ∧ (∀ (k1 k2 pc1 pc2 : Nat) (s1 s2 : MMKernelDeviceGeneric), k1 < k2 →
        preload_rule_properties_steps k1 self 0 = .ok (pc1, s1) → pc1 < rules.length →
        preload_rule_properties_steps k2 self 0 = .ok (pc2, s2) → pc1 < pc2)
    ∧ (results_of_three_kinds rules →
        (∀ rule ∈ rules, ∀ c ∈ rule.conditions.getD [],
          condition_well_formed (kernel_device_get_name self) c) →
        ∀ fuel, rules.length ≤ fuel → ∃ r, preload_rule_properties fuel self = .ok (some r))
    ∧ (∀ (s : MMKernelDeviceGeneric) (i : Nat) (rule : MMUdevRule) (index fuel : Nat),
        s.rules = some rules → rules[i]? = some rule → rule.result = .GOTO_INDEX index →
        rules.length ≤ index →
        (∀ c ∈ rule.conditions.getD [], check_condition s c = .ok true) →
        preload_rule_properties_loop (fuel + 1) s i = .ok (some s)) := by
  have hcount : ∀ (k pc : Nat) (s : MMKernelDeviceGeneric),
      preload_rule_properties_steps k self 0 = .ok (pc, s) → pc < rules.length → k ≤ pc := by
    intro k pc s h hpc
    have := (preload_rule_properties_steps_forward rules hfwd k self 0 pc s hrules h).2 hpc
    omega
  refine ⟨?_, hcount, ?_, ?_, ?_⟩
  · intro fuel hfuel h
    cases hs : preload_rule_properties_steps fuel self 0 with
    | error f =>
      rw [preload_rule_properties_of_steps_fault fuel self rules f hrules hne hs] at h
      cases h
    | ok res =>
      obtain ⟨pc, s⟩ := res
      rw [preload_rule_properties_of_steps fuel self rules pc s hrules hne hs] at h
      by_cases hpc : pc < rules.length
      · have := hcount fuel pc s hs hpc
        omega
      · rw [if_neg hpc] at h
        cases h
  · intro k1 k2 pc1 pc2 s1 s2 hk h1 hpc1 h2
    obtain ⟨m, hm⟩ : ∃ m, k2 = k1 + (m + 1) := ⟨k2 - k1 - 1, by omega⟩
    rw [hm, preload_rule_properties_steps_add, h1] at h2
    dsimp only at h2
    have hs1 : s1.rules = some rules := by
      rw [preload_rule_properties_steps_keeps_rules k1 self 0 pc1 s1 h1, hrules]
    obtain ⟨h3, h4⟩ := preload_rule_properties_steps_forward rules hfwd (m + 1) s1 pc1 pc2 s2
      hs1 h2
    by_cases hpc2 : pc2 < rules.length
    · have := h4 hpc2
      omega
    · omega
  · intro hres hwf fuel hfuel
    obtain ⟨pc, s, hs⟩ := preload_rule_properties_steps_of_well_formed rules hres
      (kernel_device_get_name self) hwf fuel self 0 hrules rfl
    rw [preload_rule_properties_of_steps fuel self rules pc s hrules hne hs]
    by_cases hpc : pc < rules.length
    · have := hcount fuel pc s hs hpc
      omega
    · rw [if_neg hpc]
      exact ⟨s, rfl⟩
  · intro s i rule index fuel hs hrule hres hindex hconds
    have hi : i < rules.length := by
      by_contra hc
      rw [List.getElem?_eq_none (Nat.not_lt.mp hc)] at hrule
      cases hrule
    rw [preload_rule_properties_loop_step fuel s rules i index s hs hi
        (check_rule_goto_step s rules i rule index hs hrule hres hconds),
      preload_rule_properties_loop_done fuel s rules index hs hindex]

/-- C32, on the scenario port with a table of five rules whose jumps go forward: the
    run has ended within five iterations; it returns with `ID_MM_PORT_TYPE_AT` set and
    `ID_MM_CANDIDATE`, which the first jump skips, unset. -/
theorem forward_jumps_terminate_witness :
    preload_rule_properties 5 { port_ttyUSB0 with rules := some rules_forward_jumps }
      ≠ .ok none
    ∧ ∃ r, preload_rule_properties 5 { port_ttyUSB0 with rules := some rules_forward_jumps }
          = .ok (some r)
        ∧ kernel_device_get_property r "ID_MM_PORT_TYPE_AT".toList = some "1".toList
        ∧ kernel_device_get_property r "ID_MM_CANDIDATE".toList = none :=
  ⟨(forward_jumps_terminate { port_ttyUSB0 with rules := some rules_forward_jumps }
      rules_forward_jumps rfl (by decide)
      (fun j rule index hj hr => by
        rcases j with _ | _ | _ | _ | _ | j <;>
          simp [rules_forward_jumps, rule_port_type_at] at hj <;>
          subst hj <;> simp at hr <;> omega)).1 5 (by decide),
   _, rfl, by decide, by decide⟩

/-- C33: assertion safety of the rule engine. On a non-empty table whose results are of
    the three kinds, on every record with that table: a fault of
    `preload_rule_properties` is one of `string_match` (the index outside the pattern,
    the `NULL` string), never a failed assertion, the branch that is not to be reached
    or a `NULL` table; at every state of the run whose index is below the table length
    `check_rule` fails neither its assertion nor reaches that branch; and when the
    conditions are well formed the run does not fault at all. On the empty table the
    entry assertion fails. -/
theorem rule_engine_assertion_safe (self : MMKernelDeviceGeneric) (rules : List MMUdevRule)
    (hrules : self.rules = some rules) (hne : rules ≠ [])
    (hres : results_of_three_kinds rules) :
    (∀ fuel f, preload_rule_properties fuel self = .error f →
        f = .index_out_of_range ∨ f = .null_string)
    ∧ (∀ fuel, preload_rule_properties fuel self ≠ .error .assertion_failed
        ∧ preload_rule_properties fuel self ≠ .error .not_reached
        ∧ preload_rule_properties fuel self ≠ .error .null_rules)
    ∧ (∀ (k i : Nat) (s : MMKernelDeviceGeneric),
        preload_rule_properties_steps k self 0 = .ok (i, s) → i < rules.length →
        check_rule s i ≠ .error .assertion_failed ∧ check_rule s i ≠ .error .not_reached)
    ∧ ((∀ rule ∈ rules, ∀ c ∈ rule.conditions.getD [],
          condition_well_formed (kernel_device_get_name self) c) →
        ∀ fuel, ∃ o, preload_rule_properties fuel self = .ok o)
    ∧ (∀ fuel, preload_rule_properties fuel { self with rules := some [] }
        = .error .assertion_failed) := by
  have hfault : ∀ fuel f, preload_rule_properties fuel self = .error f →
      f = .index_out_of_range ∨ f = .null_string := by
    intro fuel f h
    cases hs : preload_rule_properties_steps fuel self 0 with
    | error f1 =>
      rw [preload_rule_properties_of_steps_fault fuel self rules f1 hrules hne hs] at h
      cases h
      exact preload_rule_properties_steps_fault rules hres _ fuel self 0 hrules hs
    | ok res =>
      obtain ⟨pc, s⟩ := res
      rw [preload_rule_properties_of_steps fuel self rules pc s hrules hne hs] at h
      split_ifs at h
  refine ⟨hfault, ?_, ?_, ?_, ?_⟩
  · intro fuel
    refine ⟨fun h => ?_, fun h => ?_, fun h => ?_⟩ <;>
      rcases hfault fuel _ h with h1 | h1 <;> cases h1
  · intro k i s h hi
    have hs : s.rules = some rules := by
      rw [preload_rule_properties_steps_keeps_rules k self 0 i s h, hrules]
    refine ⟨fun hc => ?_, fun hc => ?_⟩ <;>
      rcases check_rule_fault s rules i _ hs hi hres hc with h1 | h1 <;> cases h1
  · intro hwf fuel
    obtain ⟨pc, s, hs⟩ := preload_rule_properties_steps_of_well_formed rules hres
      (kernel_device_get_name self) hwf fuel self 0 hrules rfl
    rw [preload_rule_properties_of_steps fuel self rules pc s hrules hne hs]
    split_ifs
    · exact ⟨_, rfl⟩
    · exact ⟨_, rfl⟩
  · intro fuel
    rfl

/-- C33, on the scenario port with the rule of the end-to-end scenario: the run fails
    no assertion, and it returns; with the empty table the entry assertion fails. -/
theorem rule_engine_assertion_safe_witness :
    (∀ fuel, preload_rule_properties fuel port_ttyUSB0_with_rule ≠ .error .assertion_failed
      ∧ preload_rule_properties fuel port_ttyUSB0_with_rule ≠ .error .not_reached
      ∧ preload_rule_properties fuel port_ttyUSB0_with_rule ≠ .error .null_rules)
    ∧ preload_rule_properties 1 port_ttyUSB0 = .error .assertion_failed :=
  ⟨(rule_engine_assertion_safe port_ttyUSB0_with_rule [rule_port_type_at] rfl (by decide)
      (fun rule hrule => by
        simp only [List.mem_singleton] at hrule
        subst hrule
        exact Or.inr (Or.inr ⟨_, _, rfl⟩))).2.1,
   rfl⟩

/-- C34: re-running the rule engine when no condition reads the bag. Let the table have
    no `ENV` condition and let a run of `preload_rule_properties` on a record return
    the record `r1`. A second run, on `r1`, returns with the fuel of the first, and
    whatever fuel it is given the record it returns is `r1` itself: the property bag
    after the second run is the bag after the first, and no other field changes. -/
theorem rule_engine_rerun (fuel : Nat) (self r1 : MMKernelDeviceGeneric)
    (henv : ∀ rules, self.rules = some rules → reads_no_property rules)
    (h1 : preload_rule_properties fuel self = .ok (some r1)) :
    preload_rule_properties fuel r1 = .ok (some r1)
    ∧ (∀ fuel2 r2, preload_rule_properties fuel2 r1 = .ok (some r2) →
        r2.object_data = r1.object_data ∧ r2 = r1
        ∧ ∀ key, kernel_device_get_property r2 key = kernel_device_get_property r1 key) := by
  have hbag := preload_rule_properties_same_but_bag fuel self r1 h1
  have hrules : r1.rules = self.rules := hbag.to_classification.1.symm
  have hfirst : preload_rule_properties fuel r1 = .ok (some r1) := by
    unfold preload_rule_properties at h1 ⊢
    rw [hrules]
    cases hsr : self.rules with
    | none => rw [hsr] at h1; cases h1
    | some rules =>
      rw [hsr] at h1
      dsimp only at h1 ⊢
      split_ifs at h1 ⊢
      obtain ⟨writes, rb, hrb, hwa, hwb⟩ := preload_rule_properties_loop_writes fuel self r1 0
        r1 hbag.to_classification henv h1
      have hsame : rb.object_data = r1.object_data := by
        rw [hwb, hwa, datalist_set_all_twice]
      have hrb1 := preload_rule_properties_loop_same_but_bag fuel r1 0 rb hrb
      rw [hrb, SameButBag.eq_of_bag hrb1 hsame]
  refine ⟨hfirst, fun fuel2 r2 h2 => ?_⟩
  have hstate := (show same_device_state r1 r2 from by
    unfold preload_rule_properties at hfirst h2
    cases hsr : r1.rules with
    | none => rw [hsr] at h2; cases h2
    | some rules =>
      rw [hsr] at hfirst h2
      dsimp only at hfirst h2
      split_ifs at hfirst h2
      exact preload_rule_properties_loop_deterministic fuel fuel2 r1 r1 0 r1 r2
        ⟨(SameButBag.same_refl r1).to_classification, rfl⟩ hfirst h2)
  have heq : r2 = r1 :=
    SameButBag.eq_of_bag (preload_rule_properties_same_but_bag fuel2 r1 r2 h2) hstate.2.symm
  exact ⟨hstate.2.symm, heq, fun key => by rw [heq]⟩

/-- C34, on the scenario port with the rule of the end-to-end scenario, which has no
    `ENV` condition: the first run sets `ID_MM_PORT_TYPE_AT`, and a second run on its
    result returns that result. -/
theorem rule_engine_rerun_witness :
    ∃ r1, preload_rule_properties 1 port_ttyUSB0_with_rule = .ok (some r1)
      ∧ r1.object_data = [("ID_MM_PORT_TYPE_AT".toList, "1".toList)]
      ∧ preload_rule_properties 1 r1 = .ok (some r1) :=
  ⟨_, rfl, rfl,
   (rule_engine_rerun 1 port_ttyUSB0_with_rule _
      (fun rules hr rule hrule conditions hc m hm => by
        simp only [port_ttyUSB0_with_rule, Option.some.injEq] at hr
        subst hr
        simp only [List.mem_singleton] at hrule
        subst hrule
        simp only [rule_port_type_at, Option.some.injEq] at hc
        subst hc
        simp only [List.mem_singleton] at hm
        subst hm
        decide) rfl).1⟩

/-- C35: the classifier and the resolver agree. On a new record whose sysfs path has
    been found, let `find_device_bus_subsystem` return `pci`, `platform`, `pnp` or
    `sdio`. The classifier has stopped at the nearest node of the walk, the starting
    node included, whose subsystem is in the bus vocabulary; `preload_contents` returns
    with the same fuel, and the physical device of the record it returns is that
    node. -/
theorem classifier_resolver_agree (fuel : Nat) (fs : Sysfs) (self : MMKernelDeviceGeneric)
    (path bus : CStr)
    (hs : self.sysfs_path = none) (hphys : self.physdev_sysfs_path = none)
    (hpath : (preload_sysfs_path fs self).sysfs_path = some path)
    (habs : path.head? = some '/')
    (hfind : find_device_bus_subsystem fuel fs (preload_sysfs_path fs self)
      = some (some bus))
    (hbus : bus = "pci".toList ∨ bus = "platform".toList ∨ bus = "pnp".toList
      ∨ bus = "sdio".toList) :
    ∃ pre n post r,
      nodes_upward path = pre ++ n :: post
      ∧ (∀ m ∈ pre, on_bus (node_subsystem fs m) = false)
      ∧ node_subsystem fs n = some bus
      ∧ preload_contents fuel fs self = some r
      ∧ r.physdev_sysfs_path = some n
      ∧ r.sysfs_path = some path := by
  obtain ⟨hk1, _, _⟩ := preload_sysfs_path_keeps fs self
  have hphys1 : (preload_sysfs_path fs self).physdev_sysfs_path = none := hk1.trans hphys
  have hloop : find_device_bus_subsystem_loop fs fuel path = some (some bus) := by
    unfold find_device_bus_subsystem at hfind
    rw [hpath] at hfind
    exact hfind
  obtain ⟨pre, n, post1, hwalk, hpre, hn⟩ :=
    find_device_bus_subsystem_loop_found fs fuel path bus hloop
  obtain ⟨post, hnodes⟩ := nodes_upward_of_walk fuel path habs pre n post1 hwalk
  have hvoc : bus ∈ bus_vocabulary := by
    rcases hbus with h | h | h | h <;> rw [h] <;> decide
  have hpre1 : ∀ m ∈ pre, node_subsystem fs m ≠ some bus := by
    intro m hm hc
    have h1 := hpre m hm
    rw [hc] at h1
    simp only [on_bus, decide_eq_false_iff_not] at h1
    exact h1 hvoc
  rcases hbus with hb | hb
  · subst hb
    have hload := preload_contents_pci_loop_found fs n post1 hn pre fuel
      (preload_sysfs_path fs self) path hwalk hphys1 hpre1
    have hres := preload_contents_of_pci fuel fs self _ hs hfind
      (by unfold preload_contents_pci; rw [hpath]; exact hload)
    obtain ⟨k1, _, k3⟩ := preload_common_properties_keeps
      { preload_sysfs_path fs self with
        driver := (preload_sysfs_path fs self).driver.or (first_driver_spec fs (pre ++ [n])),
        physdev_sysfs_path := some n,
        physdev_vid := to_guint16 (read_sysfs_attribute_as_hex fs (some n) "vendor".toList),
        physdev_pid := to_guint16 (read_sysfs_attribute_as_hex fs (some n) "device".toList),
        physdev_revision :=
          to_guint16 (read_sysfs_attribute_as_hex fs (some n) "revision".toList),
        physdev_subsystem := some "pci".toList }
    exact ⟨pre, n, post, _, hnodes, hpre, hn, hres, k3, k1.trans hpath⟩
  · have hload := preload_contents_platform_loop_found fs bus n post1 hn pre fuel
      (preload_sysfs_path fs self) path hwalk hphys1 hpre1
    have hres := preload_contents_of_platform fuel fs self _ bus hs hb hfind
      (by unfold preload_contents_platform; rw [hpath]; exact hload)
    obtain ⟨k1, _, k3⟩ := preload_common_properties_keeps
      { preload_sysfs_path fs self with
        driver := (preload_sysfs_path fs self).driver.or (first_driver_spec fs (pre ++ [n])),
        physdev_sysfs_path := some n }
    exact ⟨pre, n, post, _, hnodes, hpre, hn, hres, k3, k1.trans hpath⟩

/-- C35, on the PCI modem: the classifier returns `pci`, having stopped at the PCI
    device `0000:02:00.0`, two nodes above the port, and that node is the physical
    device that `preload_contents` resolves. -/
theorem classifier_resolver_agree_witness :
    find_device_bus_subsystem 64 sysfs_pci_modem
        (preload_sysfs_path sysfs_pci_modem
          (mm_kernel_device_generic_init (some event_wwan0at0) none))
      = some (some "pci".toList)
    ∧ (preload_contents 64 sysfs_pci_modem
        (mm_kernel_device_generic_init (some event_wwan0at0) none)).map
          (fun r => r.physdev_sysfs_path)
      = some (some "/sys/devices/pci0000:00/0000:02:00.0".toList)
    ∧ ∃ pre n post r,
        nodes_upward "/sys/devices/pci0000:00/0000:02:00.0/wwan/wwan0/wwan0at0".toList
          = pre ++ n :: post
        ∧ (∀ m ∈ pre, on_bus (node_subsystem sysfs_pci_modem m) = false)
        ∧ node_subsystem sysfs_pci_modem n = some "pci".toList
        ∧ preload_contents 64 sysfs_pci_modem
            (mm_kernel_device_generic_init (some event_wwan0at0) none) = some r
        ∧ r.physdev_sysfs_path = some n
        ∧ r.sysfs_path
          = some "/sys/devices/pci0000:00/0000:02:00.0/wwan/wwan0/wwan0at0".toList :=
  ⟨rfl, rfl,
   classifier_resolver_agree 64 sysfs_pci_modem
     (mm_kernel_device_generic_init (some event_wwan0at0) none)
     "/sys/devices/pci0000:00/0000:02:00.0/wwan/wwan0/wwan0at0".toList "pci".toList
     rfl rfl rfl rfl rfl (Or.inl rfl)⟩

/-- C36: the topology invariant after `preload_contents` (sysfs backend). Let
    `preload_contents` return the record `r` for a new record. A physical device of `r`
    and an interface of `r` are the sysfs path of `r` or what taking the parent
    directory of it some number of times gives. When `r` has both, the physical device
    is what taking the parent directory of the interface one or more times gives; on a
    file system whose `realpath` returns absolute paths it is then shorter than the
    interface, and so another path. On such a file system `preload_contents` returns,
    for every fuel from some fuel on. -/
theorem topology_invariant (fuel : Nat) (fs : Sysfs) (self r : MMKernelDeviceGeneric)
    (hs : self.sysfs_path = none) (hphys : self.physdev_sysfs_path = none)
    (hif : self.interface_sysfs_path = none)
    (h : preload_contents fuel fs self = some r) :
    (∀ p, r.physdev_sysfs_path = some p →
        ∃ path k, r.sysfs_path = some path ∧ p = ancestor path k)
    ∧ (∀ i, r.interface_sysfs_path = some i →
        ∃ path k, r.sysfs_path = some path ∧ i = ancestor path k)
    ∧ (∀ p i, r.physdev_sysfs_path = some p → r.interface_sysfs_path = some i →
        ∃ k, 0 < k ∧ p = ancestor i k)
    ∧ ((∀ q p, fs.realpath q = some p → p.head? = some '/') →
        (∀ p i, r.physdev_sysfs_path = some p → r.interface_sysfs_path = some i →
          p.length < i.length ∧ p ≠ i)
        ∧ ∃ fuel0, ∀ fuel1, fuel0 ≤ fuel1 → ∃ r1, preload_contents fuel1 fs self = some r1) := by
  obtain ⟨hk1, hk2, _⟩ := preload_sysfs_path_keeps fs self
  have hphys1 : (preload_sysfs_path fs self).physdev_sysfs_path = none := hk1.trans hphys
  have hif1 : (preload_sysfs_path fs self).interface_sysfs_path = none := hk2.trans hif
  -- the record is on the walk from its own sysfs path
  have hwalk : ResolvedOnWalk fuel r r := by
    rcases preload_contents_cases fuel fs self r hs h with
      ⟨_, hr⟩ | ⟨bus, loaded, _, hr, hload⟩
    · refine ⟨rfl, fun p hp => ?_, fun i hi => ?_⟩
      · rw [hr] at hp
        exact absurd (hphys1.symm.trans hp) (by simp)
      · rw [hr] at hi
        exact absurd (hif1.symm.trans hi) (by simp)
    · have hon : ResolvedOnWalk fuel (preload_sysfs_path fs self) loaded := by
        rcases hload with ⟨_, hl⟩ | ⟨_, hl⟩ | ⟨_, hl⟩ | ⟨_, hl⟩
        · exact preload_contents_usb_on_walk fuel fs _ loaded hphys1 hif1 hl
        · exact preload_contents_pcmcia_on_walk fuel fs _ loaded hphys1 hif1 hl
        · exact preload_contents_pci_on_walk fuel fs _ loaded hphys1 hif1 hl
        · exact preload_contents_platform_on_walk fuel fs bus _ loaded hphys1 hif1 hl
      obtain ⟨k1, k2, k3⟩ := preload_common_properties_keeps loaded
      rw [← hr] at k1 k2 k3
      obtain ⟨h1, h2, h3⟩ := hon
      refine ⟨rfl, fun p hp => ?_, fun i hi => ?_⟩
      · obtain ⟨path, pre, post, h4, h5, h6⟩ := h2 p (k3 ▸ hp)
        exact ⟨path, pre, post, by rw [k1, h1, h4], h5, fun i hi => h6 i (k2 ▸ hi)⟩
      · obtain ⟨path, pre, post, h4, h5⟩ := h3 i (k2 ▸ hi)
        exact ⟨path, pre, post, by rw [k1, h1, h4], h5⟩
  obtain ⟨_, hp1, hi1⟩ := hwalk
  have hboth : ∀ p i, r.physdev_sysfs_path = some p → r.interface_sysfs_path = some i →
      ∃ path j k, r.sysfs_path = some path ∧ i = ancestor path j ∧ 0 < k
        ∧ p = ancestor i k ∧ i ∈ walk_upward fuel path := by
    intro p i hp hi
    obtain ⟨path, pre, post, h4, h5, h6⟩ := hp1 p hp
    obtain ⟨a, b, hab⟩ := List.append_of_mem (h6 i hi)
    have hw : walk_upward fuel path = a ++ i :: (b ++ p :: post) := by
      rw [h5, hab]
      simp
    have hi2 := walk_upward_nth a fuel path i _ hw
    have hp2 := walk_upward_nth pre fuel path p post h5
    refine ⟨path, a.length, b.length + 1, h4, hi2, by omega, ?_, ?_⟩
    · rw [hp2, hi2, hab]
      unfold ancestor
      rw [← Function.iterate_add_apply]
      congr 1
      simp only [List.length_append, List.length_cons]
      omega
    · rw [hw]
      simp
  refine ⟨?_, ?_, ?_, ?_⟩
  · intro p hp
    obtain ⟨path, pre, post, h4, h5, _⟩ := hp1 p hp
    exact ⟨path, pre.length, h4, walk_upward_nth pre fuel path p post h5⟩
  · intro i hi
    obtain ⟨path, pre, post, h4, h5⟩ := hi1 i hi
    exact ⟨path, pre.length, h4, walk_upward_nth pre fuel path i post h5⟩
  · intro p i hp hi
    obtain ⟨_, _, k, _, _, hk, hpk, _⟩ := hboth p i hp hi
    exact ⟨k, hk, hpk⟩
  · intro habs
    refine ⟨?_, preload_contents_returns fs habs self hs⟩
    intro p i hp hi
    obtain ⟨path, j, k, hpath, hij, hk, hpk, hmem⟩ := hboth p i hp hi
    obtain ⟨q, hq⟩ := (preload_contents_result fuel fs self r h).2.2 hs path hpath
    have hpabs : path.head? = some '/' := habs q path hq
    have hiabs : i.head? = some '/' := by
      rw [hij]
      exact (ancestor_absolute j path hpabs).1
    have hiroot : i ≠ "/".toList := fun hc => walk_upward_no_root fuel path (hc ▸ hmem)
    have hlt : p.length < i.length := by
      rw [hpk]
      exact ancestor_shorter k i hiabs hiroot hk
    exact ⟨hlt, fun hc => by rw [hc] at hlt; exact Nat.lt_irrefl _ hlt⟩

/-- C36, on the tty `ttyUSB0` of the scenario: the interface is the third ancestor of
    the sysfs path of the tty, the physical device the fourth, and the physical device
    is the parent directory of the interface. -/
theorem topology_invariant_witness :
    ∃ r, preload_contents 64 sysfs_usb_modem
          (mm_kernel_device_generic_init (some event_ttyUSB0) none) = some r
      ∧ r.interface_sysfs_path
        = some (ancestor "/sys/devices/pci0000:00/usb1/1-1/1-1:1.3/ttyUSB0/tty/ttyUSB0".toList 3)
      ∧ r.physdev_sysfs_path
        = some (ancestor "/sys/devices/pci0000:00/usb1/1-1/1-1:1.3/ttyUSB0/tty/ttyUSB0".toList 4)
      ∧ ∃ k, 0 < k
          ∧ "/sys/devices/pci0000:00/usb1/1-1".toList
            = ancestor "/sys/devices/pci0000:00/usb1/1-1/1-1:1.3".toList k :=
  ⟨_, rfl, by decide, by decide,
   (topology_invariant 64 sysfs_usb_modem
      (mm_kernel_device_generic_init (some event_ttyUSB0) none) _ rfl rfl rfl rfl).2.2.1
      "/sys/devices/pci0000:00/usb1/1-1".toList
      "/sys/devices/pci0000:00/usb1/1-1/1-1:1.3".toList rfl rfl⟩

/-- C37, as stated, fails for the PCMCIA resolver: the two trees of the top-level PCMCIA
    device show the same attributes at each of the six nodes of the walk from the tty
    `ttyS1`, the root not being one of them, and differ in the `subsystem` link of the
    root only; on the record that `preload_sysfs_path` makes for the tty, the same on
    both, the resolver returns without a physical device on the one and with the
    physical device `/sys` on the other, so at the node `/sys` it has read the
    `subsystem` link of the root. -/
theorem pcmcia_walk_reads_root_counterexample :
    nodes_upward "/sys/devices/pcmcia_socket0/0.0/tty/ttyS1".toList
      = ["/sys/devices/pcmcia_socket0/0.0/tty/ttyS1".toList,
         "/sys/devices/pcmcia_socket0/0.0/tty".toList,
         "/sys/devices/pcmcia_socket0/0.0".toList,
         "/sys/devices/pcmcia_socket0".toList,
         "/sys/devices".toList,
         "/sys".toList]
    ∧ (∀ node ∈ nodes_upward "/sys/devices/pcmcia_socket0/0.0/tty/ttyS1".toList,
        same_attributes sysfs_pcmcia_top sysfs_pcmcia_top_root_link node)
    ∧ node_subsystem sysfs_pcmcia_top "/".toList = none
    ∧ node_subsystem sysfs_pcmcia_top_root_link "/".toList = some "platform".toList
    ∧ preload_sysfs_path sysfs_pcmcia_top_root_link
          (mm_kernel_device_generic_init (some event_ttyS1) none)
        = preload_sysfs_path sysfs_pcmcia_top
          (mm_kernel_device_generic_init (some event_ttyS1) none)
    ∧ (preload_sysfs_path sysfs_pcmcia_top
          (mm_kernel_device_generic_init (some event_ttyS1) none)).sysfs_path
        = some "/sys/devices/pcmcia_socket0/0.0/tty/ttyS1".toList
    ∧ (∃ r, preload_contents_pcmcia 6 sysfs_pcmcia_top
          (preload_sysfs_path sysfs_pcmcia_top
            (mm_kernel_device_generic_init (some event_ttyS1) none)) = some r
        ∧ r.physdev_sysfs_path = none)
    ∧ (∃ r, preload_contents_pcmcia 6 sysfs_pcmcia_top_root_link
          (preload_sysfs_path sysfs_pcmcia_top
            (mm_kernel_device_generic_init (some event_ttyS1) none)) = some r
        ∧ r.physdev_sysfs_path = some "/sys".toList) := by
  have hnodes : nodes_upward "/sys/devices/pcmcia_socket0/0.0/tty/ttyS1".toList
      = ["/sys/devices/pcmcia_socket0/0.0/tty/ttyS1".toList,
         "/sys/devices/pcmcia_socket0/0.0/tty".toList,
         "/sys/devices/pcmcia_socket0/0.0".toList,
         "/sys/devices/pcmcia_socket0".toList,
         "/sys/devices".toList,
         "/sys".toList] := by decide
  have hpath : (preload_sysfs_path sysfs_pcmcia_top
      (mm_kernel_device_generic_init (some event_ttyS1) none)).sysfs_path
      = some "/sys/devices/pcmcia_socket0/0.0/tty/ttyS1".toList := by rfl
  refine ⟨hnodes, ?_, by decide, by decide, by rfl, hpath, ?_, ?_⟩
  · intro node hnode
    rw [hnodes] at hnode
    simp only [List.mem_cons, List.mem_singleton, List.not_mem_nil, or_false] at hnode
    rcases hnode with h | h | h | h | h | h <;> subst h <;> exact sysfs_pcmcia_top_same _
  · have hloop : preload_contents_pcmcia 6 sysfs_pcmcia_top
          (preload_sysfs_path sysfs_pcmcia_top
            (mm_kernel_device_generic_init (some event_ttyS1) none))
        = preload_contents_pcmcia_loop sysfs_pcmcia_top 6
          (preload_sysfs_path sysfs_pcmcia_top
            (mm_kernel_device_generic_init (some event_ttyS1) none)) false
          "/sys/devices/pcmcia_socket0/0.0/tty/ttyS1".toList := by
      unfold preload_contents_pcmcia
      rw [hpath]
    obtain ⟨r, hr⟩ := preload_contents_pcmcia_loop_reaches_root sysfs_pcmcia_top 6
      (preload_sysfs_path sysfs_pcmcia_top
        (mm_kernel_device_generic_init (some event_ttyS1) none)) false
      "/sys/devices/pcmcia_socket0/0.0/tty/ttyS1".toList ⟨6, Nat.le_refl _, by decide⟩
    refine ⟨r, hloop.trans hr, ?_⟩
    rw [preload_contents_pcmcia_loop_no_physdev sysfs_pcmcia_top 6 _ false _ r ?_ hr]
    · rfl
    · intro m hm
      rw [show walk_upward 6 "/sys/devices/pcmcia_socket0/0.0/tty/ttyS1".toList
        = ["/sys/devices/pcmcia_socket0/0.0/tty/ttyS1".toList,
           "/sys/devices/pcmcia_socket0/0.0/tty".toList,
           "/sys/devices/pcmcia_socket0/0.0".toList,
           "/sys/devices/pcmcia_socket0".toList,
           "/sys/devices".toList,
           "/sys".toList] from by decide] at hm
      simp only [List.mem_cons, List.mem_singleton, List.not_mem_nil, or_false] at hm
      rcases hm with h | h | h | h | h | h <;> subst h <;> decide
  · exact ⟨_, by rfl, by decide⟩

/-- C37, amended: the ancestor walks terminate. Let the sysfs path of a record be the
    absolute canonical path with the `d` given components. The nodes of the walk upward
    from it are its ancestors 0 to `d - 1`, which are the canonical paths of the initial
    segments of the components: there are `d` of them, each the parent directory of the
    one before and shorter than it, and the root is none of them but the ancestor that
    follows the last. With `d` iterations at hand, and with any more, each of
    `find_device_bus_subsystem` and the four walking resolvers returns. What the
    classifier and the USB, PCI and platform resolvers return is settled by the
    attributes of these `d` nodes: on a second file system that shows the same
    attributes at each of them, whatever it holds at the root and elsewhere, they return
    the same. The PCMCIA resolver reads the `subsystem` link of the parent directory of
    each node too, so that of the root at a top-level node: it returns the same when in
    addition the root has the same `subsystem` link on both file systems. -/
theorem ancestor_walks_terminate (fs : Sysfs) (self : MMKernelDeviceGeneric)
    (components : List CStr) (path platform : CStr)
    (hcomp : ∀ c ∈ components, is_path_component c)
    (hcanon : path = path_of_components components)
    (hpath : self.sysfs_path = some path) :
    nodes_upward path = (List.range components.length).map (ancestor path)
    ∧ (nodes_upward path).length = components.length
    ∧ (∀ k, k ≤ components.length →
        ancestor path k = path_of_components (components.take (components.length - k)))
    ∧ (∀ k, k < components.length →
        ancestor path (k + 1) = g_path_get_dirname (ancestor path k)
        ∧ (ancestor path (k + 1)).length < (ancestor path k).length)
    ∧ "/".toList ∉ nodes_upward path
    ∧ ancestor path components.length = "/".toList
    ∧ (∀ fuel, components.length ≤ fuel →
        (∃ r, find_device_bus_subsystem fuel fs self = some r)
        ∧ (∃ r, preload_contents_usb fuel fs self = some r)
        ∧ (∃ r, preload_contents_pcmcia fuel fs self = some r)
        ∧ (∃ r, preload_contents_pci fuel fs self = some r)
        ∧ (∃ r, preload_contents_platform fuel fs self platform = some r))
    ∧ (∀ fs2 : Sysfs,
        (∀ k, k < components.length → same_attributes fs fs2 (ancestor path k)) →
        ∀ fuel,
          find_device_bus_subsystem fuel fs self = find_device_bus_subsystem fuel fs2 self
          ∧ preload_contents_usb fuel fs self = preload_contents_usb fuel fs2 self
          ∧ preload_contents_pci fuel fs self = preload_contents_pci fuel fs2 self
          ∧ preload_contents_platform fuel fs self platform
            = preload_contents_platform fuel fs2 self platform
          ∧ (node_subsystem fs "/".toList = node_subsystem fs2 "/".toList →
              preload_contents_pcmcia fuel fs self = preload_contents_pcmcia fuel fs2 self)) := by
  subst hcanon
  have hanc := fun k hk => ancestor_components k components hcomp hk
  have hroot : ancestor (path_of_components components) components.length = "/".toList := by
    rw [hanc _ (Nat.le_refl _)]
    simp [path_of_components]
  have hbelow : ∀ k, k < components.length →
      ancestor (path_of_components components) k ≠ "/".toList := by
    intro k hk
    rw [hanc k (by omega)]
    refine path_of_components_ne_root _ ?_ (fun c hc => hcomp c (List.mem_of_mem_take hc))
    intro hc
    have := congrArg List.length hc
    simp only [List.length_take, List.length_nil] at this
    omega
  have hnodes : nodes_upward (path_of_components components)
      = (List.range components.length).map (ancestor (path_of_components components)) :=
    walk_upward_eq_ancestors components.length _ _ (path_of_components_length components)
      hbelow hroot
  refine ⟨hnodes, by rw [hnodes]; simp, hanc, ?_, walk_upward_no_root _ _, hroot, ?_, ?_⟩
  · intro k hk
    have hstep : ancestor (path_of_components components) (k + 1)
        = g_path_get_dirname (ancestor (path_of_components components) k) := by
      unfold ancestor
      rw [Function.iterate_succ_apply']
    refine ⟨hstep, ?_⟩
    rw [hstep]
    exact ancestor_shorter 1 _
      (ancestor_absolute k _ (path_of_components_absolute components)).1 (hbelow k hk)
      (by decide)
  · intro fuel hfuel
    have hreach : ∃ k, k ≤ fuel ∧ ancestor (path_of_components components) k = "/".toList :=
      ⟨components.length, hfuel, hroot⟩
    refine ⟨?_, ?_, ?_, ?_, ?_⟩
    · unfold find_device_bus_subsystem
      rw [hpath]
      exact find_device_bus_subsystem_loop_reaches_root fs fuel _ hreach
    · unfold preload_contents_usb
      rw [hpath]
      exact preload_contents_usb_loop_reaches_root fs fuel self _ hreach
    · unfold preload_contents_pcmcia
      rw [hpath]
      exact preload_contents_pcmcia_loop_reaches_root fs fuel self false _ hreach
    · unfold preload_contents_pci
      rw [hpath]
      exact preload_contents_pci_loop_reaches_root fs fuel self _ hreach
    · unfold preload_contents_platform
      rw [hpath]
      exact preload_contents_platform_loop_reaches_root fs platform fuel self _ hreach
  · intro fs2 hsame fuel
    have hmem : ∀ m ∈ walk_upward fuel (path_of_components components),
        ∃ k, k < components.length ∧ m = ancestor (path_of_components components) k := by
      intro m hm
      have hn := walk_upward_subset_nodes fuel _ (path_of_components_absolute components) m hm
      rw [hnodes, List.mem_map] at hn
      obtain ⟨k, hk, hkm⟩ := hn
      exact ⟨k, List.mem_range.mp hk, hkm.symm⟩
    have hall : ∀ m ∈ walk_upward fuel (path_of_components components),
        same_attributes fs fs2 m := by
      intro m hm
      obtain ⟨k, hk, hkm⟩ := hmem m hm
      rw [hkm]
      exact hsame k hk
    refine ⟨?_, ?_, ?_, ?_, ?_⟩
    · unfold find_device_bus_subsystem
      rw [hpath]
      exact find_device_bus_subsystem_loop_congr fs fs2 fuel _ hall
    · unfold preload_contents_usb
      rw [hpath]
      exact preload_contents_usb_loop_congr fs fs2 fuel self _ hall
    · unfold preload_contents_pci
      rw [hpath]
      exact preload_contents_pci_loop_congr fs fs2 fuel self _ hall
    · unfold preload_contents_platform
      rw [hpath]
      exact preload_contents_platform_loop_congr fs fs2 platform fuel self _ hall
    · intro hrootsub
      unfold preload_contents_pcmcia
      rw [hpath]
      refine preload_contents_pcmcia_loop_congr fs fs2 fuel self false _ hall ?_
      intro m hm
      obtain ⟨k, hk, hkm⟩ := hmem m hm
      have hstep : g_path_get_dirname m = ancestor (path_of_components components) (k + 1) := by
        rw [hkm]
        unfold ancestor
        rw [Function.iterate_succ_apply']
      rw [hstep]
      by_cases hlast : k + 1 < components.length
      · exact read_sysfs_attribute_link_basename_congr fs fs2 _ (hsame (k + 1) hlast) _
          ⟨by decide, by decide⟩
      · have hk1 : k + 1 = components.length := by omega
        rw [hk1, hroot]
        exact hrootsub

/-- C37 amended, on the scenario port, whose sysfs path has nine components: the walk has nine
    nodes, and with nine iterations at hand the classifier and the four resolvers
    return, whatever the file system holds; and a `subsystem` link of the root, which is
    none of the nine nodes, leaves the results of the classifier and of the USB, PCI and
    platform resolvers as they are. -/
theorem ancestor_walks_terminate_witness :
    (nodes_upward "/sys/devices/pci0000:00/usb1/1-1/1-1:1.3/ttyUSB0/tty/ttyUSB0".toList).length
      = 9
    ∧ ((∃ r, find_device_bus_subsystem 9 empty_sysfs port_ttyUSB0 = some r)
      ∧ (∃ r, preload_contents_usb 9 empty_sysfs port_ttyUSB0 = some r)
      ∧ (∃ r, preload_contents_pcmcia 9 empty_sysfs port_ttyUSB0 = some r)
      ∧ (∃ r, preload_contents_pci 9 empty_sysfs port_ttyUSB0 = some r)
      ∧ (∃ r, preload_contents_platform 9 empty_sysfs port_ttyUSB0 "platform".toList = some r))
    ∧ find_device_bus_subsystem 9 empty_sysfs port_ttyUSB0
        = find_device_bus_subsystem 9 sysfs_root_link port_ttyUSB0
    ∧ preload_contents_usb 9 empty_sysfs port_ttyUSB0
        = preload_contents_usb 9 sysfs_root_link port_ttyUSB0
    ∧ preload_contents_pci 9 empty_sysfs port_ttyUSB0
        = preload_contents_pci 9 sysfs_root_link port_ttyUSB0
    ∧ preload_contents_platform 9 empty_sysfs port_ttyUSB0 "platform".toList
        = preload_contents_platform 9 sysfs_root_link port_ttyUSB0 "platform".toList :=
  have h := ancestor_walks_terminate empty_sysfs port_ttyUSB0
    ["sys".toList, "devices".toList, "pci0000:00".toList, "usb1".toList, "1-1".toList,
     "1-1:1.3".toList, "ttyUSB0".toList, "tty".toList, "ttyUSB0".toList]
    "/sys/devices/pci0000:00/usb1/1-1/1-1:1.3/ttyUSB0/tty/ttyUSB0".toList "platform".toList
    (fun c hc => by
      simp only [List.mem_cons, List.mem_singleton, List.not_mem_nil, or_false] at hc
      rcases hc with h | h | h | h | h | h | h | h | h <;> subst h <;>
        exact ⟨by decide, by decide⟩)
    (by decide) rfl
  have h2 := h.2.2.2.2.2.2.2 sysfs_root_link
    (fun k hk => by
      have hk9 : k < 9 := hk
      interval_cases k <;> exact sysfs_root_link_same _) 9
  ⟨h.2.1, h.2.2.2.2.2.2.1 9 (by decide), h2.1, h2.2.1, h2.2.2.1, h2.2.2.2.1⟩

/-- C38: index safety of `string_match`. For a non-empty pattern the position
    `strlen (start) - 1` of `start`, which is the position `offset + strlen (start) - 1`
    of the copied pattern, is a position of the pattern: the embedding never takes its
    out-of-range branch, whatever `str` is, and on a string it returns a result. The
    patterns `*` and `**` match every string. The empty pattern takes the out-of-range
    branch: the position would be -1. -/
theorem string_match_index_safe (str : Option CStr) (pattern : CStr) (hne : pattern ≠ []) :
    string_match str pattern ≠ .error .index_out_of_range
    ∧ (∃ c, pattern[(if (pattern.head? == some '*') = true then 1 else 0)
          + (pattern.length - (if (pattern.head? == some '*') = true then 1 else 0)) - 1]?
        = some c)
    ∧ (∀ s : CStr, ∃ b, string_match (some s) pattern = .ok b)
    ∧ (∀ s : CStr, string_match (some s) "*".toList = .ok true)
    ∧ (∀ s : CStr, string_match (some s) "**".toList = .ok true)
    ∧ (∀ str1 : Option CStr, string_match str1 [] = .error .index_out_of_range) := by
  refine ⟨?_, ?_, fun s => string_match_total s pattern hne, ?_, ?_, fun str1 => rfl⟩
  · cases str with
    | some s =>
      obtain ⟨b, hb⟩ := string_match_total s pattern hne
      rw [hb]
      exact fun h => by cases h
    | none =>
      cases pattern with
      | nil => exact absurd rfl hne
      | cons c rest =>
        unfold string_match
        have hlen : (if ((c :: rest).head? == some '*') = true then 1 else 0)
            + ((c :: rest).length - (if ((c :: rest).head? == some '*') = true then 1 else 0))
            ≠ 0 := by
          simp only [List.length_cons]
          split_ifs <;> omega
        simp only [hlen, if_false]
        split_ifs <;> exact fun h => by cases h
  · cases pattern with
    | nil => exact absurd rfl hne
    | cons c rest =>
      have hlt : (if ((c :: rest).head? == some '*') = true then 1 else 0)
          + ((c :: rest).length - (if ((c :: rest).head? == some '*') = true then 1 else 0)) - 1
          < (c :: rest).length := by
        simp only [List.length_cons]
        split_ifs <;> omega
      exact ⟨_, List.getElem?_eq_getElem hlt⟩
  · intro s
    exact (string_match_star s []).trans rfl
  · intro s
    refine (string_match_star s ['*']).trans ?_
    simp [strstr_nil]

/-- C38, on the patterns `ttyUSB*` and `*`: no out-of-range access, and `*` matches the
    name `ttyUSB0`. -/
theorem string_match_index_safe_witness :
    string_match (some "ttyUSB0".toList) "ttyUSB*".toList ≠ .error .index_out_of_range
    ∧ string_match (some "ttyUSB0".toList) "*".toList = .ok true
    ∧ string_match none "*".toList ≠ .error .index_out_of_range :=
  ⟨(string_match_index_safe (some "ttyUSB0".toList) "ttyUSB*".toList (by decide)).1,
   by decide,
   (string_match_index_safe none "*".toList (by decide)).1⟩

/-- C39: the synthesised identity properties are in the bag before any rule runs. Let
    `preload_contents` return the record `r` for a new record. When `r` has a physical
    device, `ID_VENDOR_ID`, `ID_MODEL_ID` and `ID_REVISION` hold the vendor, the product
    and the revision of `r` as exactly four lowercase hexadecimal digits; when `r` has
    an interface, `ID_USB_INTERFACE_NUM` holds the interface number as exactly two.
    Hence, with a physical device, the condition `ENV{ID_VENDOR_ID}=="1199"` holds on
    `r` exactly when the vendor is `0x1199`, and a first rule with that condition alone
    sets its property in that case and leaves the record as it is otherwise. -/
theorem identity_properties_preloaded (fuel : Nat) (fs : Sysfs)
    (self r : MMKernelDeviceGeneric) (hs : self.sysfs_path = none)
    (hphys : self.physdev_sysfs_path = none) (hif : self.interface_sysfs_path = none)
    (h : preload_contents fuel fs self = some r) :
    (∀ p, r.physdev_sysfs_path = some p →
        kernel_device_get_property r "ID_VENDOR_ID".toList
          = some (four_lower_hex_digits r.physdev_vid.val)
        ∧ kernel_device_get_property r "ID_MODEL_ID".toList
          = some (four_lower_hex_digits r.physdev_pid.val)
        ∧ kernel_device_get_property r "ID_REVISION".toList
          = some (four_lower_hex_digits r.physdev_revision.val)
        ∧ check_condition r ⟨.EQUAL, "ENV{ID_VENDOR_ID}".toList, "1199".toList⟩
          = .ok (decide (r.physdev_vid.val = 0x1199))
        ∧ (∀ (name value : CStr) (rest : List MMUdevRule),
            r.rules = some (⟨some [⟨.EQUAL, "ENV{ID_VENDOR_ID}".toList, "1199".toList⟩],
              .PROPERTY name value⟩ :: rest) →
            (r.physdev_vid.val = 0x1199 →
              check_rule r 0
                = .ok (1, g_object_set_data r name (property_value_spec r value)))
            ∧ (r.physdev_vid.val ≠ 0x1199 → check_rule r 0 = .ok (1, r))))
    ∧ (∀ i, r.interface_sysfs_path = some i →
        kernel_device_get_property r "ID_USB_INTERFACE_NUM".toList
          = some (two_lower_hex_digits r.interface_number.val)) := by
  obtain ⟨hk1, hk2, _⟩ := preload_sysfs_path_keeps fs self
  -- with a physical device or an interface a bus was found
  have hloaded : r.physdev_sysfs_path ≠ none ∨ r.interface_sysfs_path ≠ none →
      ∃ loaded, r = preload_common_properties loaded := by
    intro hsome
    rcases preload_contents_cases fuel fs self r hs h with ⟨_, hr⟩ | ⟨bus, loaded, _, hr, _⟩
    · exfalso
      rw [hr] at hsome
      rcases hsome with h1 | h1
      · exact h1 (hk1.trans hphys)
      · exact h1 (hk2.trans hif)
    · exact ⟨loaded, hr⟩
  constructor
  · intro p hp
    obtain ⟨loaded, hr⟩ := hloaded (Or.inl (by rw [hp]; exact fun hc => by cases hc))
    have hsame := (preload_common_properties_same_but_bag loaded).to_classification
    rw [← hr] at hsame
    have hlp : loaded.physdev_sysfs_path = some p := by
      rw [hsame.2.2.2.2.2.2.2.2.2.2.1, hp]
    obtain ⟨h1, h2, h3⟩ := preload_common_properties_ids loaded p hlp
    rw [← hr, hsame.2.2.2.2.2.2.2.2.2.2.2.1, printf_04x_eq_four_digits] at h1
    rw [← hr, hsame.2.2.2.2.2.2.2.2.2.2.2.2.1, printf_04x_eq_four_digits] at h2
    rw [← hr, hsame.2.2.2.2.2.2.2.2.2.2.2.2.2.1, printf_04x_eq_four_digits] at h3
    have hcond : check_condition r ⟨.EQUAL, "ENV{ID_VENDOR_ID}".toList, "1199".toList⟩
        = .ok (decide (r.physdev_vid.val = 0x1199)) := by
      have hname : g_strstrip (g_strdelimit "{ID_VENDOR_ID}".toList "{}".toList ' ')
          = "ID_VENDOR_ID".toList := by decide
      have henv := check_condition_env r .EQUAL "{ID_VENDOR_ID}".toList "1199".toList
      rw [hname, h1] at henv
      refine henv.trans ?_
      congr 1
      by_cases hv : r.physdev_vid.val = 0x1199
      · have hfin : r.physdev_vid = 0x1199 := Fin.ext hv
        rw [hfin]
        decide
      · have hne : four_lower_hex_digits r.physdev_vid.val ≠ "1199".toList := by
          intro hc
          have hval := hex_digits_value_four_digits r.physdev_vid
          rw [hc] at hval
          exact hv (Option.some.inj hval).symm
        simp only [g_strcmp0_eq, Option.some.injEq, decide_eq_false hne, decide_eq_false hv,
          decide_True, beq_self_eq_true]
        rfl
    refine ⟨h1, h2, h3, hcond, ?_⟩
    intro name value rest hrules
    constructor
    · intro hv
      refine check_rule_property_step r _ 0
        ⟨some [⟨.EQUAL, "ENV{ID_VENDOR_ID}".toList, "1199".toList⟩], .PROPERTY name value⟩
        name value hrules (by simp) rfl ?_
      intro c hc
      simp only [Option.getD_some, List.mem_singleton] at hc
      rw [hc, hcond, decide_eq_true hv]
    · intro hv
      refine check_rule_failing_step r _ 0
        ⟨some [⟨.EQUAL, "ENV{ID_VENDOR_ID}".toList, "1199".toList⟩], .PROPERTY name value⟩
        [] ⟨.EQUAL, "ENV{ID_VENDOR_ID}".toList, "1199".toList⟩ [] hrules (by simp) rfl ?_ ?_
      · intro c1 hc1
        cases hc1
      · rw [hcond, decide_eq_false hv]
  · intro i hi
    obtain ⟨loaded, hr⟩ := hloaded (Or.inr (by rw [hi]; exact fun hc => by cases hc))
    have hsame := (preload_common_properties_same_but_bag loaded).to_classification
    rw [← hr] at hsame
    have hli : loaded.interface_sysfs_path = some i := by
      rw [hsame.2.2.2.2.1, hi]
    have h1 := preload_common_properties_interface_num loaded i hli
    rw [← hr, hsame.2.2.2.2.2.2.2.2.1, printf_02x_eq_two_digits] at h1
    exact h1

/-- C39, on the tty `ttyUSB0` of the scenario: after `preload_contents` the bag holds
    `ID_VENDOR_ID` = `1199`, `ID_MODEL_ID` = `68a3`, `ID_REVISION` = `0006` and
    `ID_USB_INTERFACE_NUM` = `03`, and the condition `ENV{ID_VENDOR_ID}=="1199"` holds. -/
theorem identity_properties_preloaded_witness :
    ∃ r, preload_contents 64 sysfs_usb_modem
          (mm_kernel_device_generic_init (some event_ttyUSB0) (some [rule_port_type_at]))
        = some r
      ∧ kernel_device_get_property r "ID_VENDOR_ID".toList = some "1199".toList
      ∧ kernel_device_get_property r "ID_MODEL_ID".toList = some "68a3".toList
      ∧ kernel_device_get_property r "ID_REVISION".toList = some "0006".toList
      ∧ kernel_device_get_property r "ID_USB_INTERFACE_NUM".toList = some "03".toList
      ∧ check_condition r ⟨.EQUAL, "ENV{ID_VENDOR_ID}".toList, "1199".toList⟩
          = .ok (decide (r.physdev_vid.val = 0x1199))
      ∧ r.physdev_vid.val = 0x1199 :=
  ⟨_, rfl, rfl, rfl, rfl, rfl,
   ((identity_properties_preloaded 64 sysfs_usb_modem
      (mm_kernel_device_generic_init (some event_ttyUSB0) (some [rule_port_type_at])) _
      rfl rfl rfl rfl).1 "/sys/devices/pci0000:00/usb1/1-1".toList rfl).2.2.2.1,
   rfl⟩

/-- C40: an absent rule table makes every real device unconstructible. For an event
    with a subsystem other than `virtual`, a name and an action other than `remove`,
    created without a rule table: `check_preload` returns at once, whatever the file
    system holds and without a single iteration of a walk, and leaves the record as it
    was made, without a sysfs path; construction then fails with the not-found error
    of `initable_init`, which has the code `MM_CORE_ERROR_INVALID_ARGS` and the message
    `device <subsystem>/<name> not found`. -/
theorem construct_without_rules_fails (fs : Sysfs) (props : MMKernelEventProperties)
    (subsystem name : CStr)
    (hs : props.subsystem = some subsystem) (hn : props.name = some name)
    (hact : props.action ≠ some "remove".toList) (hsub : subsystem ≠ "virtual".toList) :
    (∀ fuel, check_preload fuel fs (mm_kernel_device_generic_init (some props) none)
        = .ok (some (mm_kernel_device_generic_init (some props) none)))
    ∧ (mm_kernel_device_generic_init (some props) none).sysfs_path = none
    ∧ (∀ fuel, mm_kernel_device_generic_new_with_rules fuel fs (some props) none
        = .ok (some (.error ⟨.MM_CORE_ERROR_INVALID_ARGS,
            "device ".toList ++ subsystem ++ "/".toList ++ name
              ++ " not found".toList⟩))) := by
  have hpre : ∀ fuel, check_preload fuel fs (mm_kernel_device_generic_init (some props) none)
      = .ok (some (mm_kernel_device_generic_init (some props) none)) := by
    intro fuel
    unfold check_preload
    exact if_pos (Or.inr rfl)
  refine ⟨hpre, rfl, fun fuel => ?_⟩
  have hact1 : g_strcmp0_eq props.action (some "remove".toList) = false :=
    decide_eq_false hact
  have hsub1 : g_strcmp0_eq (some subsystem) (some "virtual".toList) = false :=
    decide_eq_false (fun h => hsub (Option.some.inj h))
  unfold mm_kernel_device_generic_new_with_rules initable_init
  rw [hpre fuel]
  simp only [mm_kernel_device_generic_init, kernel_device_get_subsystem,
    kernel_device_get_name, mm_kernel_event_properties_get_action,
    mm_kernel_event_properties_get_subsystem, mm_kernel_event_properties_get_name,
    Option.bind, hs, hn, hact1, hsub1, printf_s, Option.getD]
  simp

/-- C40, on the tty `ttyUSB0` of the scenario, which exists in the file system: without
    a rule table construction fails with `device tty/ttyUSB0 not found`, while with the
    table of the scenario it succeeds with the sysfs path of the tty. -/
theorem construct_without_rules_fails_witness :
    mm_kernel_device_generic_new_with_rules 64 sysfs_usb_modem (some event_ttyUSB0) none
      = .ok (some (.error ⟨.MM_CORE_ERROR_INVALID_ARGS,
          "device tty/ttyUSB0 not found".toList⟩))
    ∧ ∃ r, mm_kernel_device_generic_new_with_rules 64 sysfs_usb_modem (some event_ttyUSB0)
          (some [rule_port_type_at]) = .ok (some (.ok r))
        ∧ r.sysfs_path
          = some "/sys/devices/pci0000:00/usb1/1-1/1-1:1.3/ttyUSB0/tty/ttyUSB0".toList :=
  ⟨(construct_without_rules_fails sysfs_usb_modem event_ttyUSB0 "tty".toList
      "ttyUSB0".toList rfl rfl (by decide) (by decide)).2.2 64,
   _, rfl, rfl⟩

end MMKernelDevice
